import Mathlib

/-!
A verification development for the Cranelift lowering backend
(`src/compiler/gen/src/crane/build.rs`).

The expression IR (`roc_mono::expr::Expr`), the layout description
(`roc_mono::layout::Layout`) and the type conversion helpers
(`crane::convert`) are consumed by the lowering engine but are not part of
the sources; they are modelled from the specification (sections 2 and 3:
the Layout Oracle is an external pure function from shapes to byte sizes
and machine types).

The lowering engine itself is translated arm by arm from `build_expr`,
`build_branch2`, `build_switch`, `call_by_name`, `call_malloc` and
`list_set_in_place`.  The Cranelift `FunctionBuilder` is embedded as an
explicit state (`BState`): an instruction log tagged with the emitting
block, a fresh-SSA-value counter, stack slots, frontend variables and a
heap for the allocation primitive.  Emitting an instruction always
records it; its run-time effect is applied only when the `live` flag is
set.  `live` threads run-time reachability through the embedding: the
source lowers both arms of a conditional (compile time), while at run
time only the arm selected by the branch instruction executes, so the
non-selected arm is lowered with `live := false`.

Recursion over expressions is fuel-indexed; running out of fuel is a
distinguished error that appears in no claim.
-/

namespace RocCrane

/-- Cranelift machine types used by this lowering
(`types::I64`, `types::F64`, `types::B1`, `types::I8` and the target's
pointer type). -/
inductive CTy where
  | I8 : CTy
  | I64 : CTy
  | B1 : CTy
  | F64 : CTy
  | Ptr : CTy
deriving DecidableEq, Repr

/-- Modelled from the spec: `roc_mono::layout::Layout` describes a value's
runtime shape, one of scalar builtin (boolean, 64-bit integer, 64-bit
float, byte), list-of-element-layout, or record/struct.  The source wraps
the scalar and list cases in `Layout::Builtin(Builtin::…)`; that wrapper
is flattened here.  `Bool` carries two tag identifiers, mirroring the
two ignored payloads of `Builtin::Bool(_, _)`. -/
inductive Layout where
  | Int64 : Layout
  | Float64 : Layout
  | Bool (t f : Nat) : Layout
  | Byte : Layout
  | List (elem : Layout) : Layout
  | Struct (fields : List Layout) : Layout
deriving Repr

mutual

/-- Modelled from the spec: the Layout Oracle's byte size of a value on a
given pointer width (`Layout::stack_size(pointer_bytes)`): scalars have
their machine width, a list is a pointer, a record is the sum of its
fields. -/
def Layout.stack_size (pointer_bytes : Nat) : Layout → Nat
  | .Int64 => 8
  | .Float64 => 8
  | .Bool _ _ => 1
  | .Byte => 1
  | .List _ => pointer_bytes
  | .Struct fields => stack_size_list pointer_bytes fields

/-- Byte size of a record: the sum of the field sizes. -/
def stack_size_list (pointer_bytes : Nat) : List Layout → Nat
  | [] => 0
  | l :: ls => Layout.stack_size pointer_bytes l + stack_size_list pointer_bytes ls

end

/-- Modelled from the spec: the Layout Oracle's corresponding backend
machine type (`crane::convert::type_from_layout`); a record is
represented by the address of its frame slot, hence a pointer. -/
def type_from_layout : Layout → CTy
  | .Int64 => .I64
  | .Float64 => .F64
  | .Bool _ _ => .B1
  | .Byte => .I8
  | .List _ => .Ptr
  | .Struct _ => .Ptr

/-- Symbols are opaque interned identifiers (spec section 3); they are
modelled as natural numbers. -/
abbrev Symbol := Nat

namespace Symbol

def INT_ADD : Nat := 0
def NUM_ADD : Nat := 1
def FLOAT_ADD : Nat := 2
def INT_SUB : Nat := 3
def NUM_SUB : Nat := 4
def FLOAT_SUB : Nat := 5
def NUM_MUL : Nat := 6
def NUM_NEG : Nat := 7
def INT_EQ_I64 : Nat := 8
def INT_EQ_I8 : Nat := 9
def INT_EQ_I1 : Nat := 10
def FLOAT_EQ : Nat := 11
def LIST_GET_UNSAFE : Nat := 12
def LIST_SET : Nat := 13
def LIST_SET_IN_PLACE : Nat := 14

end Symbol

/-- The well-known operation symbols special-cased by the builtin
dispatch table in `call_by_name`. -/
def builtin_symbols : List Nat :=
  [Symbol.INT_ADD, Symbol.NUM_ADD, Symbol.FLOAT_ADD, Symbol.INT_SUB,
   Symbol.NUM_SUB, Symbol.FLOAT_SUB, Symbol.NUM_MUL, Symbol.NUM_NEG,
   Symbol.INT_EQ_I64, Symbol.INT_EQ_I8, Symbol.INT_EQ_I1, Symbol.FLOAT_EQ,
   Symbol.LIST_GET_UNSAFE, Symbol.LIST_SET, Symbol.LIST_SET_IN_PLACE]

/-- Modelled from the spec: `roc_mono::expr::Expr`, the input IR tree.
Constructor names follow the source variants; the literal variants carry
a `Lit` suffix to avoid clashing with the Lean types of their payloads.
`Float` literals carry an opaque bit pattern.  `Unhandled` stands for any
further source variant, all of which hit the wildcard panic arm of
`build_expr`. -/
inductive Expr where
  | IntLit (num : Int) : Expr
  | FloatLit (num : Nat) : Expr
  | BoolLit (val : Bool) : Expr
  | ByteLit (val : Nat) : Expr
  | Cond (cond : Expr) (pass fail : Expr) (cond_layout ret_layout : Layout) : Expr
  | Switch (cond : Expr) (branches : List (Nat × Expr)) (default_branch : Expr)
      (cond_layout ret_layout : Layout) : Expr
  | Store (stores : List (Symbol × Layout × Expr)) (ret : Expr) : Expr
  | CallByName (symbol : Symbol) (args : List (Expr × Layout)) : Expr
  | FunctionPointer (name : Symbol) : Expr
  | CallByPointer (sub_expr : Expr) (args : List Expr) (layout : Layout) : Expr
  | Load (name : Symbol) : Expr
  | Struct (layout : Layout) (fields : List (Nat × Expr)) : Expr
  | Str (str_literal : List Nat) : Expr
  | Array (elem_layout : Layout) (elems : List Expr) : Expr
  | Unhandled : Expr
deriving Repr

/-- A Cranelift function signature (return type first, then parameter
types), as assembled by `declare_proc` and `sig_from_layout`. -/
structure Sig where
  ret : CTy
  params : List CTy
deriving DecidableEq, Repr

/-- Modelled from the spec: `crane::convert::sig_from_layout` derives an
ad hoc call signature from the call's declared Layout. -/
def sig_from_layout (layout : Layout) : Sig :=
  ⟨type_from_layout layout, []⟩

/-- `ScopeEntry` (the storage descriptors): a frame slot, a heap address,
an incoming parameter value, or a declared function. -/
inductive ScopeEntry where
  | Stack (expr_type : CTy) (slot : Nat) : ScopeEntry
  | Heap (expr_type : CTy) (ptr : Nat) : ScopeEntry
  | Arg (expr_type : CTy) (param : Nat) : ScopeEntry
  | Func (sig : Sig) (func_id : Nat) : ScopeEntry
deriving Repr

/-- `Scope`: the persistent map from symbols to storage descriptors
(`ImMap<Symbol, ScopeEntry>` in the source).  It is embedded as an
association list with most-recent-binding-first lookup, which realises
the immutable map's clone-then-insert semantics: inserting produces a
new value and the previous list value is untouched. -/
abbrev Scope := List (Symbol × ScopeEntry)

/-- `lookup(scope, symbol)`: resolve a symbol to its storage
descriptor. -/
def Scope.get (scope : Scope) (s : Symbol) : Option ScopeEntry :=
  match scope with
  | [] => none
  | (k, e) :: rest => if k = s then some e else Scope.get rest s

/-- `extend(scope, symbol, descriptor)`: the copy-on-extend insertion
(`im` map `insert` on a clone). -/
def Scope.insert (scope : Scope) (s : Symbol) (e : ScopeEntry) : Scope :=
  (s, e) :: scope

/-- Run-time values flowing through the emitted instructions.  Pointers
carry an address; results of calls to user functions and of float
instructions are tracked symbolically (no claim depends on their
arithmetic).  `Unknown` is the value of a lookup that missed. -/
inductive RVal where
  | IntV (n : Int) : RVal
  | FloatV (bits : Nat) : RVal
  | BoolV (b : Bool) : RVal
  | PtrV (a : Int) : RVal
  | FnAddr (f : Nat) : RVal
  | CallRes (f : Nat) (args : List RVal) : RVal
  | IndirectRes (callee : RVal) (args : List RVal) : RVal
  | FloatOp (tag : Nat) (a b : RVal) : RVal
  | Unknown (tag : Nat) : RVal
deriving Repr

/-- The instructions emitted through the `FunctionBuilder`.  Operands are
SSA value ids. -/
inductive Instr where
  | IConst (t : CTy) (n : Int) : Instr
  | F64Const (bits : Nat) : Instr
  | BConst (b : Bool) : Instr
  | IAdd (a b : Nat) : Instr
  | ISub (a b : Nat) : Instr
  | IMul (a b : Nat) : Instr
  | INeg (a : Nat) : Instr
  | ICmpEq (a b : Nat) : Instr
  | FAdd (a b : Nat) : Instr
  | FSub (a b : Nat) : Instr
  | FCmpEq (a b : Nat) : Instr
  | StackStore (v : Nat) (slot : Nat) (off : Int) : Instr
  | StackLoad (t : CTy) (slot : Nat) (off : Int) : Instr
  | StackAddr (t : CTy) (slot : Nat) (off : Int) : Instr
  | LoadMem (t : CTy) (p : Nat) (off : Int) : Instr
  | LoadComplex (t : CTy) (p : Nat) (o : Nat) (off : Int) : Instr
  | StoreMem (v : Nat) (p : Nat) (off : Int) : Instr
  | StoreComplex (v : Nat) (p : Nat) (o : Nat) (off : Int) : Instr
  | CallDirect (f : Nat) (args : List Nat) : Instr
  | CallInd (sig : Sig) (callee : Nat) (args : List Nat) : Instr
  | FuncAddrI (t : CTy) (f : Nat) : Instr
  | Jump (b : Nat) : Instr
  | Brnz (v : Nat) (b : Nat) : Instr
  | SwitchEmit (table : List (Nat × Nat)) (default_block : Nat) (v : Nat) : Instr
  | ReturnI (v : Nat) : Instr
deriving Repr

/-- Association-list lookup keyed on the first component. -/
def alist_get {α β : Type} [DecidableEq α] (l : List (α × β)) (k : α) : Option β :=
  match l with
  | [] => none
  | (k', v) :: rest => if k' = k then some v else alist_get rest k

/-- The embedded `FunctionBuilder` (plus module-level run-time state).
Compile-time components: the fresh-value counter, the per-block
instruction log (each entry tagged with the block it was emitted into),
the current block, the block counter, the stack slot counter and sizes,
and declared variable types.  Run-time components: the SSA environment,
stack slot contents, variable values, the allocation counter and the
heap. -/
structure BState where
  val_ctr : Nat
  env : List (Nat × RVal)
  log : List (Nat × Instr)
  cur_block : Nat
  next_block : Nat
  slot_ctr : Nat
  slot_sizes : List (Nat × Nat)
  slots : List ((Nat × Int) × RVal)
  var_types : List (Nat × CTy)
  var_vals : List (Nat × RVal)
  alloc_ctr : Nat
  mem : List (Int × RVal)
deriving Repr

/-- The initial builder state: one entry block, nothing emitted. -/
def BState.init : BState :=
  ⟨0, [], [], 0, 1, 0, [], [], [], [], 0, []⟩

/-- Mint a fresh SSA value id. -/
def BState.mkVal (st : BState) : Nat × BState :=
  (st.val_ctr, { st with val_ctr := st.val_ctr + 1 })

/-- Extend an association list on the executed path only. -/
def write_if {α β : Type} (live : Bool) (k : α) (v : β) (l : List (α × β)) :
    List (α × β) :=
  if live then (k, v) :: l else l

/-- Record the run-time value of an SSA id (executed path only). -/
def BState.setVal (st : BState) (live : Bool) (v : Nat) (rv : RVal) : BState :=
  { st with env := write_if live v rv st.env }

/-- The run-time value of an SSA id. -/
def BState.getVal (st : BState) (v : Nat) : RVal :=
  (alist_get st.env v).getD (.Unknown 0)

/-- Append an instruction to the current block. -/
def BState.emit (st : BState) (i : Instr) : BState :=
  { st with log := st.log ++ [(st.cur_block, i)] }

/-- `builder.create_block()`. -/
def create_block (st : BState) : Nat × BState :=
  (st.next_block, { st with next_block := st.next_block + 1 })

/-- `builder.switch_to_block(b)`. -/
def switch_to_block (b : Nat) (st : BState) : BState :=
  { st with cur_block := b }

/-- `builder.declare_var(var, ty)`. -/
def declare_var (i : Nat) (t : CTy) (st : BState) : BState :=
  { st with var_types := (i, t) :: st.var_types }

/-- `builder.def_var(var, val)`: mutate the frontend variable on the
executed path. -/
def def_var (live : Bool) (i : Nat) (v : Nat) (st : BState) : BState :=
  { st with var_vals := write_if live i (st.getVal v) st.var_vals }

/-- `builder.use_var(var)`: read the frontend variable into a fresh SSA
value. -/
def use_var (live : Bool) (i : Nat) (st : BState) : Nat × BState :=
  let (r, st) := st.mkVal
  (r, st.setVal live r ((alist_get st.var_vals i).getD (.Unknown 1)))

/-- `builder.create_stack_slot(StackSlotData::new(ExplicitSlot, size))`. -/
def create_stack_slot (size : Nat) (st : BState) : Nat × BState :=
  (st.slot_ctr,
   { st with slot_ctr := st.slot_ctr + 1,
             slot_sizes := (st.slot_ctr, size) :: st.slot_sizes })

/-- The run-time address of a stack slot (negative, so it never collides
with heap addresses, which are positive). -/
def slot_addr (s : Nat) : Int :=
  -(((s : Int) + 1) * 1048576)

/-- The run-time address handed out by the k-th allocation. -/
def heap_addr (k : Nat) : Int :=
  ((k : Int) + 1) * 1048576

/-- Two's-complement wrap to 32 bits (Rust's `as i32` cast). -/
def i32_wrap (n : Int) : Int :=
  (n + 2 ^ 31) % 2 ^ 32 - 2 ^ 31

/-- `iconst`: an integer constant of the given machine type. -/
def ins_iconst (t : CTy) (n : Int) (live : Bool) (st : BState) : Nat × BState :=
  let (v, st) := st.mkVal
  let st := st.emit (.IConst t n)
  (v, st.setVal live v (.IntV n))

/-- `f64const`. -/
def ins_f64const (bits : Nat) (live : Bool) (st : BState) : Nat × BState :=
  let (v, st) := st.mkVal
  let st := st.emit (.F64Const bits)
  (v, st.setVal live v (.FloatV bits))

/-- `bconst`. -/
def ins_bconst (b : Bool) (live : Bool) (st : BState) : Nat × BState :=
  let (v, st) := st.mkVal
  let st := st.emit (.BConst b)
  (v, st.setVal live v (.BoolV b))

/-- Integer binary operation on run-time values. -/
def int_bin (f : Int → Int → Int) (va vb : RVal) : RVal :=
  match va, vb with
  | .IntV x, .IntV y => .IntV (f x y)
  | _, _ => .Unknown 2

/-- `iadd`. -/
def ins_iadd (a b : Nat) (live : Bool) (st : BState) : Nat × BState :=
  let (v, st) := st.mkVal
  let st := st.emit (.IAdd a b)
  (v, st.setVal live v (int_bin (· + ·) (st.getVal a) (st.getVal b)))

/-- `isub`. -/
def ins_isub (a b : Nat) (live : Bool) (st : BState) : Nat × BState :=
  let (v, st) := st.mkVal
  let st := st.emit (.ISub a b)
  (v, st.setVal live v (int_bin (· - ·) (st.getVal a) (st.getVal b)))

/-- `imul`. -/
def ins_imul (a b : Nat) (live : Bool) (st : BState) : Nat × BState :=
  let (v, st) := st.mkVal
  let st := st.emit (.IMul a b)
  (v, st.setVal live v (int_bin (· * ·) (st.getVal a) (st.getVal b)))

/-- `ineg`. -/
def ins_ineg (a : Nat) (live : Bool) (st : BState) : Nat × BState :=
  let (v, st) := st.mkVal
  let st := st.emit (.INeg a)
  (v, st.setVal live v (match st.getVal a with
     | .IntV x => .IntV (-x)
     | _ => .Unknown 2))

/-- `icmp IntCC::Equal`. -/
def ins_icmp_eq (a b : Nat) (live : Bool) (st : BState) : Nat × BState :=
  let (v, st) := st.mkVal
  let st := st.emit (.ICmpEq a b)
  (v, st.setVal live v (match st.getVal a, st.getVal b with
     | .IntV x, .IntV y => .BoolV (decide (x = y))
     | _, _ => .Unknown 3))

/-- `fadd`. -/
def ins_fadd (a b : Nat) (live : Bool) (st : BState) : Nat × BState :=
  let (v, st) := st.mkVal
  let st := st.emit (.FAdd a b)
  (v, st.setVal live v (.FloatOp 0 (st.getVal a) (st.getVal b)))

/-- `fsub`. -/
def ins_fsub (a b : Nat) (live : Bool) (st : BState) : Nat × BState :=
  let (v, st) := st.mkVal
  let st := st.emit (.FSub a b)
  (v, st.setVal live v (.FloatOp 1 (st.getVal a) (st.getVal b)))

/-- `fcmp FloatCC::Equal`. -/
def ins_fcmp_eq (a b : Nat) (live : Bool) (st : BState) : Nat × BState :=
  let (v, st) := st.mkVal
  let st := st.emit (.FCmpEq a b)
  (v, st.setVal live v (.FloatOp 2 (st.getVal a) (st.getVal b)))

/-- `stack_store`. -/
def ins_stack_store (v slot : Nat) (off : Int) (live : Bool) (st : BState) : BState :=
  let vv := st.getVal v
  let st := st.emit (.StackStore v slot off)
  { st with slots := write_if live (slot, off) vv st.slots }

/-- `stack_load`. -/
def ins_stack_load (t : CTy) (slot : Nat) (off : Int) (live : Bool) (st : BState) :
    Nat × BState :=
  let (r, st) := st.mkVal
  let st := st.emit (.StackLoad t slot off)
  (r, st.setVal live r ((alist_get st.slots (slot, off)).getD (.Unknown 4)))

/-- `stack_addr`. -/
def ins_stack_addr (t : CTy) (slot : Nat) (off : Int) (live : Bool) (st : BState) :
    Nat × BState :=
  let (r, st) := st.mkVal
  let st := st.emit (.StackAddr t slot off)
  (r, st.setVal live r (.PtrV (slot_addr slot + off)))

/-- The heap after a raw store: written on the executed path when the
base value is a concrete pointer. -/
def mem_write (live : Bool) (pv vv : RVal) (off : Int) (mem : List (Int × RVal)) :
    List (Int × RVal) :=
  if live then
    match pv with
    | .PtrV a => (a + off, vv) :: mem
    | _ => mem
  else mem

/-- `store` (raw memory store at pointer plus offset). -/
def ins_store (v p : Nat) (off : Int) (live : Bool) (st : BState) : BState :=
  let pv := st.getVal p
  let vv := st.getVal v
  let st := st.emit (.StoreMem v p off)
  { st with mem := mem_write live pv vv off st.mem }

/-- `load` (raw memory load at pointer plus offset). -/
def ins_load (t : CTy) (p : Nat) (off : Int) (live : Bool) (st : BState) : Nat × BState :=
  let (r, st) := st.mkVal
  let st := st.emit (.LoadMem t p off)
  (r, st.setVal live r (match st.getVal p with
     | .PtrV a => (alist_get st.mem (a + off)).getD (.Unknown 5)
     | _ => .Unknown 5))

/-- `load_complex` with operands `[base, offset]`. -/
def ins_load_complex (t : CTy) (p o : Nat) (off : Int) (live : Bool) (st : BState) :
    Nat × BState :=
  let (r, st) := st.mkVal
  let st := st.emit (.LoadComplex t p o off)
  (r, st.setVal live r (match st.getVal p, st.getVal o with
     | .PtrV a, .IntV k => (alist_get st.mem (a + k + off)).getD (.Unknown 6)
     | _, _ => .Unknown 6))

/-- The heap after a complex store (base plus offset operand). -/
def mem_write2 (live : Bool) (pv ov vv : RVal) (off : Int)
    (mem : List (Int × RVal)) : List (Int × RVal) :=
  if live then
    match pv, ov with
    | .PtrV a, .IntV k => (a + k + off, vv) :: mem
    | _, _ => mem
  else mem

/-- `store_complex` with operands `[base, offset]`. -/
def ins_store_complex (v p o : Nat) (off : Int) (live : Bool) (st : BState) : BState :=
  let pv := st.getVal p
  let ov := st.getVal o
  let vv := st.getVal v
  let st := st.emit (.StoreComplex v p o off)
  { st with mem := mem_write2 live pv ov vv off st.mem }

/-- A direct call to a declared user function; the result is tracked
symbolically. -/
def ins_call (f : Nat) (args : List Nat) (live : Bool) (st : BState) : Nat × BState :=
  let rvs := args.map st.getVal
  let (r, st) := st.mkVal
  let st := st.emit (.CallDirect f args)
  (r, st.setVal live r (.CallRes f rvs))

/-- `call_indirect`. -/
def ins_call_indirect (sig : Sig) (callee : Nat) (args : List Nat) (live : Bool)
    (st : BState) : Nat × BState :=
  let rvs := args.map st.getVal
  let cv := st.getVal callee
  let (r, st) := st.mkVal
  let st := st.emit (.CallInd sig callee args)
  (r, st.setVal live r (.IndirectRes cv rvs))

/-- `func_addr`. -/
def ins_func_addr (t : CTy) (f : Nat) (live : Bool) (st : BState) : Nat × BState :=
  let (r, st) := st.mkVal
  let st := st.emit (.FuncAddrI t f)
  (r, st.setVal live r (.FnAddr f))

/-- `jump`. -/
def emit_jump (b : Nat) (st : BState) : BState :=
  st.emit (.Jump b)

/-- `brnz`. -/
def emit_brnz (v b : Nat) (st : BState) : BState :=
  st.emit (.Brnz v b)

/-- The truth value `brnz` tests: branch when non-zero.  `none` when the
condition value is not concrete in this model. -/
def as_branch_bool : RVal → Option Bool
  | .BoolV b => some b
  | .IntV n => some (decide (n ≠ 0))
  | _ => none

/-- The lowering errors; each constructor corresponds to one fatal panic
or assertion site of the source (spec section 7), except `OutOfFuel`,
which is an artifact of the fuel-indexed recursion, and
`BranchCondUnknown` and `SwitchCondUnknown`, which flag a discriminant
whose run-time value this model tracks only symbolically. -/
inductive LowerErr where
  | OutOfFuel : LowerErr
  | DebugAssertFailed : LowerErr
  | ArgIndexOutOfBounds : LowerErr
  | UnresolvedSymbol (s : Symbol) : LowerErr
  | UnknownCallable (s : Symbol) : LowerErr
  | FunctionPointerUnresolved (s : Symbol) : LowerErr
  | LoadOfFunction (s : Symbol) : LowerErr
  | CondLayoutUnsupported : LowerErr
  | BranchCondUnknown : LowerErr
  | SwitchCondUnknown : LowerErr
  | DuplicateSwitchEntry (k : Nat) : LowerErr
  | StructFieldOffsetUnknown : LowerErr
  | FieldOffsetTooBig : LowerErr
  | EmptyStr : LowerErr
  | EmptyArray : LowerErr
  | InvalidListLayout : LowerErr
  | UnsupportedExpr : LowerErr
deriving DecidableEq, Repr

/-- `debug_assert!`: fatal on violation (debug-build semantics, which the
spec's error taxonomy adopts). -/
def debug_assert (b : Bool) : Except LowerErr Unit :=
  if b then .ok () else .error .DebugAssertFailed

/-- Rust slice indexing `args[i]`: panics when out of bounds. -/
def arg_at {α : Type} (args : List α) (i : Nat) : Except LowerErr α :=
  match args.get? i with
  | some a => .ok a
  | none => .error .ArgIndexOutOfBounds

/-- `Env`: the compilation-unit context that the lowering reads — the
pointer width of the target and the identity of the external allocation
primitive.  (The arena and the interner of the source play no role in
the semantics.) -/
structure Env where
  ptr_bytes : Nat
  malloc : Nat
deriving Repr

/-- `call_malloc`: emit a call to the external allocation primitive with
the byte count as an immediate; at run time it returns the address of a
fresh region. -/
def call_malloc (env : Env) (live : Bool) (st : BState) (size : Nat) : Nat × BState :=
  let (size_arg, st) := ins_iconst .Ptr (size : Int) live st
  let rv : RVal := .PtrV (heap_addr st.alloc_ctr)
  let ac := st.alloc_ctr
  let (r, st) := st.mkVal
  let st := st.emit (.CallDirect env.malloc [size_arg])
  let st := { st with env := write_if live r rv st.env, alloc_ctr := ac + (if live then 1 else 0) }
  (r, st)

/-- `list_set_in_place`: compute `offset = index * elem_size` (element
size from the element Layout) and store the element at
`base + offset`. -/
def list_set_in_place (env : Env) (list_ptr elem_index elem : Nat)
    (elem_layout : Layout) (live : Bool) (st : BState) : Nat × BState :=
  let elem_bytes := elem_layout.stack_size env.ptr_bytes
  let (elem_size, st) := ins_iconst .I64 (elem_bytes : Int) live st
  let (offset, st) := ins_imul elem_index elem_size live st
  let st := ins_store_complex elem list_ptr offset 0 live st
  (list_ptr, st)

/-- The type of the recursive lowering closure threaded through the
helper functions (the fuel has already been applied). -/
abbrev BuildFn := Scope → Bool → BState → Expr → Except LowerErr (Nat × BState)

/-- `build_arg`: lower one `(expr, layout)` argument pair. -/
def build_arg (build : BuildFn) (scope : Scope) (live : Bool) (st : BState)
    (p : Expr × Layout) : Except LowerErr (Nat × BState) :=
  build scope live st p.1

/-- The loop of the `Store` arm of `build_expr`: for each
`(name, layout, expr)` triple in order, lower the initializer under the
current scope, allocate a frame slot sized per the layout, store the
value, and only then extend the scope with a Stack descriptor for the
name. -/
def build_stores (build : BuildFn) (env : Env) (scope : Scope) (live : Bool)
    (st : BState) : List (Symbol × Layout × Expr) → Except LowerErr (Scope × BState)
  | [] => .ok (scope, st)
  | (name, layout, expr) :: rest => do
      let (val, st) ← build scope live st expr
      let expr_type := type_from_layout layout
      let (slot, st) := create_stack_slot (layout.stack_size env.ptr_bytes) st
      let st := ins_stack_store val slot 0 live st
      -- Extend the scope only after compiling the bound expr: recursive
      -- bindings were already extracted into procedures upstream.
      let scope := scope.insert name (.Stack expr_type slot)
      build_stores build env scope live st rest

/-- The argument loop of the generic `CallByName` arm. -/
def lower_call_args (build : BuildFn) (scope : Scope) (live : Bool) (st : BState) :
    List (Expr × Layout) → Except LowerErr (List Nat × BState)
  | [] => .ok ([], st)
  | (arg, _layout) :: rest => do
      let (v, st) ← build scope live st arg
      let (vs, st) ← lower_call_args build scope live st rest
      .ok (v :: vs, st)

/-- The argument loop of the `CallByPointer` arm. -/
def lower_exprs (build : BuildFn) (scope : Scope) (live : Bool) (st : BState) :
    List Expr → Except LowerErr (List Nat × BState)
  | [] => .ok ([], st)
  | arg :: rest => do
      let (v, st) ← build scope live st arg
      let (vs, st) ← lower_exprs build scope live st rest
      .ok (v :: vs, st)

/-- The field loop of the `Struct` arm: lower each (already sorted)
field, determine its byte size from the shape of the initializer
expression (integer literals only — anything else panics in the source),
and store it at `index * field_size`. -/
def store_struct_fields (build : BuildFn) (scope : Scope) (live : Bool) (slot : Nat) :
    Nat → BState → List (Nat × Expr) → Except LowerErr BState
  | _, st, [] => .ok st
  | index, st, (_, inner_expr) :: rest => do
      let (val, st) ← build scope live st inner_expr
      let field_size ←
        match inner_expr with
        | .IntLit _ => Except.ok (8 : Nat)
        | _ => Except.error LowerErr.StructFieldOffsetUnknown
      let off := index * field_size
      -- i32::try_from(index * field_size).expect(…)
      if off ≤ 2147483647 then
        let st := ins_stack_store val slot (off : Int) live st
        store_struct_fields build scope live slot (index + 1) st rest
      else
        .error .FieldOffsetTooBig

/-- `sorted_fields.sort_by_key(|k| &k.0)`: stabilize record fields into a
deterministic order by field name. -/
def sort_fields (fields : List (Nat × Expr)) : List (Nat × Expr) :=
  fields.insertionSort (fun a b => a.1 ≤ b.1)

/-- The byte loop of the `Str` arm: one `iconst` and one `store` per
byte, at offset `index as i32`. -/
def store_str_bytes (live : Bool) (ptr : Nat) :
    Nat → BState → List Nat → BState
  | _, st, [] => st
  | index, st, byte :: rest =>
      let (val, st) := ins_iconst .I8 (byte : Int) live st
      let off := i32_wrap (index : Int)
      let st := ins_store val ptr off live st
      store_str_bytes live ptr (index + 1) st rest

/-- The element loop of the `Array` arm: each element is stored at offset
`elem_bytes as i32 * index as i32`. -/
def store_array_elems (build : BuildFn) (scope : Scope) (live : Bool) (ptr : Nat)
    (elem_bytes : Nat) : Nat → BState → List Expr → Except LowerErr BState
  | _, st, [] => .ok st
  | index, st, elem :: rest => do
      let off := i32_wrap (i32_wrap (elem_bytes : Int) * i32_wrap (index : Int))
      let (val, st) ← build scope live st elem
      let st := ins_store val ptr off live st
      store_array_elems build scope live ptr elem_bytes (index + 1) st rest

/-- The registration loop of `build_switch`: create one block per
explicit branch and register it against the dispatch table keyed by the
branch's discriminant constant (`switch.set_entry`), before the dispatch
instruction is emitted.  Registering the same constant twice trips the
jump-table builder's assertion. -/
def register_switch_blocks (st : BState) (switch : List (Nat × Nat))
    (blocks : List Nat) :
    List (Nat × Expr) → Except LowerErr (List (Nat × Nat) × List Nat × BState)
  | [] => .ok (switch, blocks, st)
  | (int, _) :: rest =>
      let (block, st) := create_block st
      if (alist_get switch int).isSome then
        .error (.DuplicateSwitchEntry int)
      else
        register_switch_blocks st (switch ++ [(int, block)]) (blocks ++ [block]) rest

/-- The branch-body loop shared by `build_switch`'s explicit branches and
its default branch (the `build_branch` closure in the source): switch to
the branch's block, lower the body (live only when the dispatch selected
this block), write the result into the shared `ret` variable, and jump
to the join block. -/
def build_switch_branches (build : BuildFn) (scope : Scope) (live : Bool)
    (ret ret_block : Nat) (selected : Option Nat) :
    BState → List ((Nat × Expr) × Nat) → Except LowerErr BState
  | st, [] => .ok st
  | st, ((_, expr), block) :: rest => do
      let st := switch_to_block block st
      let this_live := live && (selected == some block)
      let (value, st) ← build scope this_live st expr
      let st := def_var this_live ret value st
      let st := emit_jump ret_block st
      build_switch_branches build scope live ret ret_block selected st rest

/-- `Branch2`: the bundled arguments of `build_branch2`. -/
structure Branch2 where
  cond : Expr
  cond_layout : Layout
  pass : Expr
  fail : Expr
  ret_layout : Layout

/-- `SwitchArgs`: the bundled arguments of `build_switch`. -/
structure SwitchArgs where
  cond_expr : Expr
  cond_layout : Layout
  branches : List (Nat × Expr)
  default_branch : Expr
  ret_type : CTy

/-- `build_branch2`: two-way conditional lowering.  Creates the join
block, declares the shared result variable, lowers the condition, emits
`brnz` to the pass block (the condition's Layout must be the boolean
builtin) with an unconditional fall-through jump to the fail block,
lowers both arms under the same scope into their blocks (each defining
the result variable and jumping to the join block), and reads the result
variable in the join block. -/
def build_branch2 (build : BuildFn) (scope : Scope) (live : Bool) (st : BState)
    (branch : Branch2) : Except LowerErr (Nat × BState) := do
  let ret_layout := branch.ret_layout
  let ret_type := type_from_layout ret_layout
  -- Declare a variable which each branch will mutate to the value of
  -- that branch; the whole expression evaluates to it.
  let ret : Nat := 0
  let (ret_block, st) := create_block st
  let st := declare_var ret ret_type st
  let (cond, st) ← build scope live st branch.cond
  let (pass_block, st) := create_block st
  let (fail_block, st) := create_block st
  let _ ←
    match branch.cond_layout with
    | .Bool _ _ => Except.ok ()
    | _ => Except.error LowerErr.CondLayoutUnsupported
  let st := emit_brnz cond pass_block st
  -- Unconditionally jump to fail_block (if we did not just branch).
  let st := emit_jump fail_block st
  let taken ←
    if live then
      match as_branch_bool (st.getVal cond) with
      | some b => Except.ok b
      | none => Except.error LowerErr.BranchCondUnknown
    else Except.ok false
  -- build_branch(pass, pass_block)
  let st := switch_to_block pass_block st
  let (value, st) ← build scope (live && taken) st branch.pass
  let st := def_var (live && taken) ret value st
  let st := emit_jump ret_block st
  -- build_branch(fail, fail_block)
  let st := switch_to_block fail_block st
  let (value, st) ← build scope (live && !taken) st branch.fail
  let st := def_var (live && !taken) ret value st
  let st := emit_jump ret_block st
  -- Finally, ret_block: evaluate to the shared variable.
  let st := switch_to_block ret_block st
  .ok (use_var live ret st)

/-- `build_switch`: multi-way discriminant lowering.  Declares the shared
result variable, creates the default and join blocks, creates and
registers one block per branch in the dispatch table (all before the
dispatch instruction), lowers the discriminant once, emits the dispatch,
then lowers every branch body (and the default) in declaration order,
each writing the shared variable and jumping to the join block. -/
def build_switch (build : BuildFn) (scope : Scope) (live : Bool) (st : BState)
    (switch_args : SwitchArgs) : Except LowerErr (Nat × BState) := do
  let ret : Nat := 0
  let st := declare_var ret switch_args.ret_type st
  let (default_block, st) := create_block st
  let (ret_block, st) := create_block st
  -- Build the blocks for each branch and register them in the switch,
  -- before emitting it: the jump-table builder needs all entries up
  -- front.
  let (switch, blocks, st) ← register_switch_blocks st [] [] switch_args.branches
  let (cond, st) ← build scope live st switch_args.cond_expr
  let st := st.emit (.SwitchEmit switch default_block cond)
  let selected ←
    if live then
      match st.getVal cond with
      | .IntV n =>
          Except.ok (some (((switch.find? (fun e => ((e.1 : Int) = n))).map
            (fun e => e.2)).getD default_block))
      | _ => Except.error LowerErr.SwitchCondUnknown
    else Except.ok (none : Option Nat)
  let st ← build_switch_branches build scope live ret ret_block selected st
    (switch_args.branches.zip blocks)
  -- build_branch(default_block, default_branch)
  let st ← build_switch_branches build scope live ret ret_block selected st
    [((0, switch_args.default_branch), default_block)]
  let st := switch_to_block ret_block st
  .ok (use_var live ret st)

/-- `call_by_name`: the builtin dispatch table, falling back to a direct
call of a Func descriptor resolved from scope. -/
def call_by_name (build : BuildFn) (env : Env) (symbol : Symbol)
    (args : List (Expr × Layout)) (scope : Scope) (live : Bool) (st : BState) :
    Except LowerErr (Nat × BState) :=
  if symbol = Symbol.INT_ADD ∨ symbol = Symbol.NUM_ADD then do
    let _ ← debug_assert (args.length == 2)
    let (a, st) ← build_arg build scope live st (← arg_at args 0)
    let (b, st) ← build_arg build scope live st (← arg_at args 1)
    .ok (ins_iadd a b live st)
  else if symbol = Symbol.FLOAT_ADD then do
    let _ ← debug_assert (args.length == 2)
    let (a, st) ← build_arg build scope live st (← arg_at args 0)
    let (b, st) ← build_arg build scope live st (← arg_at args 1)
    .ok (ins_fadd a b live st)
  else if symbol = Symbol.INT_SUB ∨ symbol = Symbol.NUM_SUB then do
    let _ ← debug_assert (args.length == 2)
    let (a, st) ← build_arg build scope live st (← arg_at args 0)
    let (b, st) ← build_arg build scope live st (← arg_at args 1)
    .ok (ins_isub a b live st)
  else if symbol = Symbol.FLOAT_SUB then do
    let _ ← debug_assert (args.length == 2)
    let (a, st) ← build_arg build scope live st (← arg_at args 0)
    let (b, st) ← build_arg build scope live st (← arg_at args 1)
    .ok (ins_fsub a b live st)
  else if symbol = Symbol.NUM_MUL then do
    let _ ← debug_assert (args.length == 2)
    let (a, st) ← build_arg build scope live st (← arg_at args 0)
    let (b, st) ← build_arg build scope live st (← arg_at args 1)
    .ok (ins_imul a b live st)
  else if symbol = Symbol.NUM_NEG then do
    let _ ← debug_assert (args.length == 1)
    let (num, st) ← build_arg build scope live st (← arg_at args 0)
    .ok (ins_ineg num live st)
  else if symbol = Symbol.INT_EQ_I64 ∨ symbol = Symbol.INT_EQ_I8 ∨
      symbol = Symbol.INT_EQ_I1 then do
    let _ ← debug_assert (args.length == 2)
    let (a, st) ← build_arg build scope live st (← arg_at args 0)
    let (b, st) ← build_arg build scope live st (← arg_at args 1)
    .ok (ins_icmp_eq a b live st)
  else if symbol = Symbol.FLOAT_EQ then do
    let _ ← debug_assert (args.length == 2)
    let (a, st) ← build_arg build scope live st (← arg_at args 0)
    let (b, st) ← build_arg build scope live st (← arg_at args 1)
    .ok (ins_fcmp_eq a b live st)
  else if symbol = Symbol.LIST_GET_UNSAFE then do
    let _ ← debug_assert (args.length == 2)
    let (list_ptr, st) ← build_arg build scope live st (← arg_at args 0)
    let (elem_index, st) ← build_arg build scope live st (← arg_at args 1)
    -- TODO in the source: both are hardcoded instead of looked up from
    -- the element Layout.
    let elem_type := CTy.I64
    let elem_bytes : Nat := 8
    let (elem_size, st) := ins_iconst .I64 (elem_bytes : Int) live st
    -- Multiply the requested index by the size of each element.
    let (offset, st) := ins_imul elem_index elem_size live st
    .ok (ins_load_complex elem_type list_ptr offset 0 live st)
  else if symbol = Symbol.LIST_SET then do
    let (_list_expr, list_layout) ← arg_at args 0
    match list_layout with
    | .List elem_layout => do
        let num_elems : Nat := 10   -- TODO FIXME in the source: read from List.len
        let elem_bytes := elem_layout.stack_size env.ptr_bytes
        let bytes_len := elem_bytes * num_elems + 1
        let (ptr, st) := call_malloc env live st bytes_len
        let (idx, st) ← build_arg build scope live st (← arg_at args 1)
        let (elem, st) ← build_arg build scope live st (← arg_at args 2)
        let (_r, st) := list_set_in_place env ptr idx elem elem_layout live st
        .ok (ptr, st)
    | _ => .error .InvalidListLayout
  else if symbol = Symbol.LIST_SET_IN_PLACE then do
    -- set : List elem, Int, elem -> List elem
    let _ ← debug_assert (args.length == 3)
    let (list_expr, list_layout) ← arg_at args 0
    let (list_val, st) ← build scope live st list_expr
    match list_layout with
    | .List elem_layout => do
        let (idx, st) ← build_arg build scope live st (← arg_at args 1)
        let (elem, st) ← build_arg build scope live st (← arg_at args 2)
        .ok (list_set_in_place env list_val idx elem elem_layout live st)
    | _ => .error .InvalidListLayout
  else
    match scope.get symbol with
    | some (.Func _sig func_id) => do
        let (arg_vals, st) ← lower_call_args build scope live st args
        .ok (ins_call func_id arg_vals live st)
    | _ => .error (.UnknownCallable symbol)

/-- `build_expr`: the recursive expression lowering engine, translated
arm by arm from the source; the first argument is fuel for the
recursion. -/
def build_expr : Nat → Env → Scope → Bool → BState → Expr →
    Except LowerErr (Nat × BState)
  | 0, _, _, _, _, _ => .error .OutOfFuel
  | fuel + 1, env, scope, live, st, e =>
    let build : BuildFn := fun scope live st e => build_expr fuel env scope live st e
    match e with
    | .IntLit num => .ok (ins_iconst .I64 num live st)
    | .FloatLit num => .ok (ins_f64const num live st)
    | .BoolLit val => .ok (ins_bconst val live st)
    | .ByteLit val => .ok (ins_iconst .I8 (val : Int) live st)
    | .Cond cond pass fail cond_layout ret_layout =>
        build_branch2 build scope live st ⟨cond, cond_layout, pass, fail, ret_layout⟩
    | .Switch cond branches default_branch cond_layout ret_layout =>
        let ret_type := type_from_layout ret_layout
        build_switch build scope live st
          ⟨cond, cond_layout, branches, default_branch, ret_type⟩
    | .Store stores ret => do
        -- The source clones the persistent scope before the loop; a
        -- clone of a persistent value is the value itself here.
        let (scope, st) ← build_stores build env scope live st stores
        build scope live st ret
    | .CallByName symbol args => call_by_name build env symbol args scope live st
    | .FunctionPointer name =>
        match scope.get name with
        | some (.Func _ func_id) => .ok (ins_func_addr .Ptr func_id live st)
        | _ => .error (.FunctionPointerUnresolved name)
    | .CallByPointer sub_expr args layout => do
        let (arg_vals, st) ← lower_exprs build scope live st args
        let sig := sig_from_layout layout
        let (callee, st) ← build scope live st sub_expr
        .ok (ins_call_indirect sig callee arg_vals live st)
    | .Load name =>
        match scope.get name with
        | some (.Stack expr_type slot) => .ok (ins_stack_load expr_type slot 0 live st)
        | some (.Arg _ param) => .ok (param, st)
        | some (.Heap expr_type ptr) => .ok (ins_load expr_type ptr 0 live st)
        | some (.Func _ _) => .error (.LoadOfFunction name)
        | none => .error (.UnresolvedSymbol name)
    | .Struct layout fields => do
        -- Sort the fields.
        let sorted_fields := sort_fields fields
        -- Create a slot.
        let (slot, st) := create_stack_slot (layout.stack_size env.ptr_bytes) st
        -- Store each field's expression at its computed offset.
        let st ← store_struct_fields build scope live slot 0 st sorted_fields
        let ir_type := type_from_layout layout
        .ok (ins_stack_addr ir_type slot 0 live st)
    | .Str str_literal =>
        if str_literal.isEmpty then .error .EmptyStr
        else
          -- +1 for the NUL terminator (placeholder representation).
          let bytes_len := str_literal.length + 1
          let (ptr, st) := call_malloc env live st bytes_len
          let st := store_str_bytes live ptr 0 st str_literal
          -- Add a NUL terminator at the end.
          let (nul_terminator, st) := ins_iconst .I8 0 live st
          let off := i32_wrap (i32_wrap (bytes_len : Int) - 1)
          let st := ins_store nul_terminator ptr off live st
          .ok (ptr, st)
    | .Array elem_layout elems => do
        if elems.isEmpty then .error .EmptyArray
        else
          let elem_bytes := elem_layout.stack_size env.ptr_bytes
          let bytes_len := elem_bytes * elems.length + 1
          let (ptr, st) := call_malloc env live st bytes_len
          let st ← store_array_elems build scope live ptr elem_bytes 0 st elems
          -- Add a NUL terminator at the end.
          let (nul_terminator, st) := ins_iconst .I8 0 live st
          let off := i32_wrap (i32_wrap (bytes_len : Int) - 1)
          let st := ins_store nul_terminator ptr off live st
          .ok (ptr, st)
    | .Unhandled => .error .UnsupportedExpr

/-- The expected-argument-count assertions of the builtin dispatch table,
one entry per `debug_assert!(args.len() == …)` in `call_by_name`.  The
`LIST_SET` arm of the source contains no such assertion, so it has no
entry here. -/
def asserted_arities : List (Nat × Nat) :=
  [(Symbol.INT_ADD, 2), (Symbol.NUM_ADD, 2), (Symbol.FLOAT_ADD, 2),
   (Symbol.INT_SUB, 2), (Symbol.NUM_SUB, 2), (Symbol.FLOAT_SUB, 2),
   (Symbol.NUM_MUL, 2), (Symbol.NUM_NEG, 1),
   (Symbol.INT_EQ_I64, 2), (Symbol.INT_EQ_I8, 2), (Symbol.INT_EQ_I1, 2),
   (Symbol.FLOAT_EQ, 2), (Symbol.LIST_GET_UNSAFE, 2),
   (Symbol.LIST_SET_IN_PLACE, 3)]

/-- The single constant instruction emitted for a scalar literal (used
to describe heap-literal traces whose elements are scalar literals). -/
def scalar_lit_instr : Expr → Option Instr
  | .IntLit n => some (.IConst .I64 n)
  | .FloatLit b => some (.F64Const b)
  | .BoolLit v => some (.BConst v)
  | .ByteLit v => some (.IConst .I8 (v : Int))
  | _ => none

/-- The run-time value of a scalar literal (the value its constant
instruction produces). -/
def scalar_lit_val : Expr → RVal
  | .IntLit n => .IntV n
  | .FloatLit b => .FloatV b
  | .BoolLit v => .BoolV v
  | .ByteLit v => .IntV (v : Int)
  | _ => .Unknown 0

/-- Follows the spec's description of string lowering: the per-byte
trace — one byte constant and one store per byte, at consecutive offsets
starting at 0.  `c` is the SSA id of the byte constant and `i` the byte
index. -/
def expected_byte_stores (blk ptr : Nat) : Nat → Nat → List Nat → List (Nat × Instr)
  | _, _, [] => []
  | c, i, b :: rest =>
      (blk, .IConst .I8 (b : Int)) :: (blk, .StoreMem c ptr (i : Int)) ::
        expected_byte_stores blk ptr (c + 1) (i + 1) rest

/-- Follows the spec's description of string lowering: one allocation of
the payload length plus one sentinel byte, one store per byte at
strictly increasing offsets from the returned address starting at 0, and
a trailing zero byte immediately after the payload. -/
def expected_str_trace (blk malloc_id c : Nat) (bytes : List Nat) :
    List (Nat × Instr) :=
  (blk, .IConst .Ptr ((bytes.length + 1 : Nat) : Int)) ::
  (blk, .CallDirect malloc_id [c]) ::
  (expected_byte_stores blk (c + 1) (c + 2) 0 bytes ++
    [(blk, .IConst .I8 0),
     (blk, .StoreMem (c + 2 + bytes.length) (c + 1) (bytes.length : Int))])

/-- Follows the spec's description of array lowering (for scalar-literal
elements, which emit a single constant instruction each): one constant
and one store per element, at offsets `elem_bytes * index`. -/
def expected_array_stores (blk ptr eb : Nat) : Nat → Nat → List Expr → List (Nat × Instr)
  | _, _, [] => []
  | c, i, e :: rest =>
      (blk, (scalar_lit_instr e).getD (.IConst .I64 0)) ::
      (blk, .StoreMem c ptr ((eb * i : Nat) : Int)) ::
        expected_array_stores blk ptr eb (c + 1) (i + 1) rest

/-- Follows the spec's description of array lowering: one allocation of
`elem_bytes * count` plus one sentinel byte, one store per element at
offsets `elem_bytes * index`, and a trailing zero byte after the
payload. -/
def expected_array_trace (blk malloc_id c eb : Nat) (elems : List Expr) :
    List (Nat × Instr) :=
  (blk, .IConst .Ptr ((eb * elems.length + 1 : Nat) : Int)) ::
  (blk, .CallDirect malloc_id [c]) ::
  (expected_array_stores blk (c + 1) eb (c + 2) 0 elems ++
    [(blk, .IConst .I8 0),
     (blk, .StoreMem (c + 2 + elems.length) (c + 1) ((eb * elems.length : Nat) : Int))])

/-- The offsets of the raw memory stores of a trace, in emission
order. -/
def storemem_offsets (l : List (Nat × Instr)) : List Int :=
  l.filterMap fun pi =>
    match pi.2 with
    | .StoreMem _ _ off => some off
    | _ => none

/-- The number of direct calls in a trace (the allocation primitive is
the only direct call a heap literal emits). -/
def call_count (l : List (Nat × Instr)) : Nat :=
  l.countP fun pi =>
    match pi.2 with
    | .CallDirect _ _ => true
    | _ => false

/-- Validity of the value ids a scope refers to. -/
def val_entry_ok (c : Nat) : ScopeEntry → Prop
  | .Arg _ p => p < c
  | .Heap _ p => p < c
  | _ => True

def scope_val_ok (c : Nat) (scope : Scope) : Prop :=
  ∀ p ∈ scope, val_entry_ok c p.2

def FrameStep (st st' : BState) : Prop :=
  st.val_ctr ≤ st'.val_ctr ∧
  ∀ k, k < st.val_ctr → alist_get st'.env k = alist_get st.env k

/-- The frame property of a lowering closure: on success the value
counter only grows, SSA values established before are unchanged, and the
result id is in range. -/
def FrameOK (build : BuildFn) : Prop :=
  ∀ scope live st e v st', build scope live st e = .ok (v, st') →
    scope_val_ok st.val_ctr scope →
    FrameStep st st' ∧ v < st'.val_ctr

def DeadPre (s s' : BState) : Prop :=
  s'.env = s.env ∧ s'.slots = s.slots ∧ s'.var_vals = s.var_vals ∧
  s'.alloc_ctr = s.alloc_ctr ∧ s'.mem = s.mem

def DeadOK (build : BuildFn) : Prop :=
  ∀ scope st e v st', build scope false st e = .ok (v, st') → DeadPre st st'

def vmap (n σ k : Nat) : Nat := if k < n then k else k + σ

/-- The two-run correspondence: `s2` is a state whose SSA counter runs `σ`
ahead and whose block counter runs `β` ahead of `s1`, with identical
run-time components (slots, variables, allocations, memory) and with the
values below the shared boundary `n` agreeing verbatim while the values
above it agree under the `+ σ` shift. -/
structure SimRel (n σ β : Nat) (s1 s2 : BState) : Prop where
  hn : n ≤ s1.val_ctr
  hv : s2.val_ctr = s1.val_ctr + σ
  hnb : s2.next_block = s1.next_block + β
  hslc : s2.slot_ctr = s1.slot_ctr
  hsl : s2.slots = s1.slots
  hvv : s2.var_vals = s1.var_vals
  hac : s2.alloc_ctr = s1.alloc_ctr
  hm : s2.mem = s1.mem
  he1 : ∀ k, s1.val_ctr ≤ k → alist_get s1.env k = none
  he2 : ∀ k, s2.val_ctr ≤ k → alist_get s2.env k = none
  hgv : ∀ k, k < s1.val_ctr → s2.getVal (vmap n σ k) = s1.getVal k

def SimOK (n σ β : Nat) (build : BuildFn) : Prop :=
  ∀ scope live s1 s2 e v2 t2,
    build scope live s2 e = .ok (v2, t2) →
    SimRel n σ β s1 s2 → scope_val_ok n scope →
    ∃ v1 t1, build scope live s1 e = .ok (v1, t1) ∧
      SimRel n σ β t1 t2 ∧ v2 = vmap n σ v1 ∧ v1 < t1.val_ctr

def bshift (β : Nat) (sw : List (Nat × Nat)) : List (Nat × Nat) :=
  sw.map (fun e => (e.1, e.2 + β))

def NbMono (build : BuildFn) : Prop :=
  ∀ scope live st e v st', build scope live st e = .ok (v, st') →
    st.next_block ≤ st'.next_block

/-!  Theorems.  -/

@[simp]
theorem except_error_bind {α β : Type} (e : LowerErr) (k : α → Except LowerErr β) :
    (Except.error e : Except LowerErr α) >>= k = .error e := rfl

@[simp]
theorem except_ok_bind {α β : Type} (a : α) (k : α → Except LowerErr β) :
    (Except.ok a : Except LowerErr α) >>= k = k a := rfl

/-!  One-step unfolding equations for `build_expr`, one per arm. -/

theorem build_expr_zero (env : Env) (scope : Scope) (live : Bool) (st : BState)
    (e : Expr) : build_expr 0 env scope live st e = .error .OutOfFuel := rfl

theorem build_expr_int (fuel : Nat) (env : Env) (scope : Scope) (live : Bool)
    (st : BState) (num : Int) :
    build_expr (fuel + 1) env scope live st (.IntLit num) =
      .ok (ins_iconst .I64 num live st) := rfl

theorem build_expr_float (fuel : Nat) (env : Env) (scope : Scope) (live : Bool)
    (st : BState) (num : Nat) :
    build_expr (fuel + 1) env scope live st (.FloatLit num) =
      .ok (ins_f64const num live st) := rfl

theorem build_expr_bool (fuel : Nat) (env : Env) (scope : Scope) (live : Bool)
    (st : BState) (val : Bool) :
    build_expr (fuel + 1) env scope live st (.BoolLit val) =
      .ok (ins_bconst val live st) := rfl

theorem build_expr_byte (fuel : Nat) (env : Env) (scope : Scope) (live : Bool)
    (st : BState) (val : Nat) :
    build_expr (fuel + 1) env scope live st (.ByteLit val) =
      .ok (ins_iconst .I8 (val : Int) live st) := rfl

theorem build_expr_cond (fuel : Nat) (env : Env) (scope : Scope) (live : Bool)
    (st : BState) (cond pass fail : Expr) (cond_layout ret_layout : Layout) :
    build_expr (fuel + 1) env scope live st (.Cond cond pass fail cond_layout ret_layout) =
      build_branch2 (fun sc lv s e => build_expr fuel env sc lv s e) scope live st
        ⟨cond, cond_layout, pass, fail, ret_layout⟩ := rfl

theorem build_expr_switch (fuel : Nat) (env : Env) (scope : Scope) (live : Bool)
    (st : BState) (cond : Expr) (branches : List (Nat × Expr)) (default_branch : Expr)
    (cond_layout ret_layout : Layout) :
    build_expr (fuel + 1) env scope live st
        (.Switch cond branches default_branch cond_layout ret_layout) =
      build_switch (fun sc lv s e => build_expr fuel env sc lv s e) scope live st
        ⟨cond, cond_layout, branches, default_branch, type_from_layout ret_layout⟩ := rfl

theorem build_expr_store (fuel : Nat) (env : Env) (scope : Scope) (live : Bool)
    (st : BState) (stores : List (Symbol × Layout × Expr)) (ret : Expr) :
    build_expr (fuel + 1) env scope live st (.Store stores ret) =
      (build_stores (fun sc lv s e => build_expr fuel env sc lv s e) env scope live st
          stores).bind
        (fun p => build_expr fuel env p.1 live p.2 ret) := by
  show Except.bind _ _ = _
  rfl

theorem build_expr_call_by_name (fuel : Nat) (env : Env) (scope : Scope) (live : Bool)
    (st : BState) (symbol : Symbol) (args : List (Expr × Layout)) :
    build_expr (fuel + 1) env scope live st (.CallByName symbol args) =
      call_by_name (fun sc lv s e => build_expr fuel env sc lv s e) env symbol args
        scope live st := rfl

theorem build_expr_fnptr (fuel : Nat) (env : Env) (scope : Scope) (live : Bool)
    (st : BState) (name : Symbol) :
    build_expr (fuel + 1) env scope live st (.FunctionPointer name) =
      (match Scope.get scope name with
       | some (.Func _ func_id) => .ok (ins_func_addr .Ptr func_id live st)
       | _ => .error (.FunctionPointerUnresolved name)) := rfl

theorem build_expr_load (fuel : Nat) (env : Env) (scope : Scope) (live : Bool)
    (st : BState) (name : Symbol) :
    build_expr (fuel + 1) env scope live st (.Load name) =
      (match Scope.get scope name with
       | some (.Stack expr_type slot) => .ok (ins_stack_load expr_type slot 0 live st)
       | some (.Arg _ param) => .ok (param, st)
       | some (.Heap expr_type ptr) => .ok (ins_load expr_type ptr 0 live st)
       | some (.Func _ _) => .error (.LoadOfFunction name)
       | none => .error (.UnresolvedSymbol name)) := rfl

theorem build_expr_struct (fuel : Nat) (env : Env) (scope : Scope) (live : Bool)
    (st : BState) (layout : Layout) (fields : List (Nat × Expr)) :
    build_expr (fuel + 1) env scope live st (.Struct layout fields) =
      (let sorted_fields := sort_fields fields
       let p := create_stack_slot (layout.stack_size env.ptr_bytes) st
       (store_struct_fields (fun sc lv s e => build_expr fuel env sc lv s e) scope live
           p.1 0 p.2 sorted_fields).bind
         (fun st => .ok (ins_stack_addr (type_from_layout layout) p.1 0 live st))) := by
  show Except.bind _ _ = _
  rfl

theorem scope_get_insert_same (s : Scope) (x : Symbol) (d : ScopeEntry) :
    Scope.get (Scope.insert s x d) x = some d := by
  simp [Scope.insert, Scope.get]

theorem scope_get_insert_other (s : Scope) (x : Symbol) (d : ScopeEntry) (y : Symbol)
    (hy : y ≠ x) : Scope.get (Scope.insert s x d) y = Scope.get s y := by
  simp only [Scope.insert, Scope.get]
  exact if_neg fun h => hy h.symm

/-- Claim C6: scope extension is persistent and non-destructive — after
`extend(s, x, d)` the symbol `x` resolves to `d` and every other symbol
resolves exactly as in `s`; the original scope value is a persistent
value that extension never mutates (the embedding realises the source's
clone-then-insert on an immutable map, so `s` itself is untouched by
construction). -/
theorem scope_extend_spec (s : Scope) (x : Symbol) (d : ScopeEntry) (y : Symbol)
    (hy : y ≠ x) :
    Scope.get (Scope.insert s x d) x = some d ∧
    Scope.get (Scope.insert s x d) y = Scope.get s y := by
  exact ⟨scope_get_insert_same s x d, scope_get_insert_other s x d y hy⟩

theorem scope_extend_spec_witness :
    (1 : Nat) ≠ 0 ∧
      (Scope.get (Scope.insert [] 0 (.Stack .I64 0)) 0 = some (.Stack .I64 0) ∧
       Scope.get (Scope.insert [] 0 (.Stack .I64 0)) 1 = Scope.get [] 1) := by
  exact ⟨by decide, scope_extend_spec [] 0 (.Stack .I64 0) 1 (by decide)⟩

/-- Claim C2 (divergence witness): lowering the unchecked list-element
read with element Layout `Byte` emits the hardcoded element size
constant `8` and loads at type `I64`, while the element's Layout derives
byte size `1` and machine type `I8`. -/
theorem list_get_unsafe_hardcoded :
    (build_expr 2 ⟨8, 99⟩ [] true BState.init
        (.CallByName Symbol.LIST_GET_UNSAFE
          [(.IntLit 0, .List .Byte), (.IntLit 1, .Int64)])).map
      (fun p => p.2.log.map Prod.snd) =
      .ok [.IConst .I64 0, .IConst .I64 1, .IConst .I64 8, .IMul 1 2,
           .LoadComplex .I64 0 3 0] ∧
    Layout.stack_size 8 .Byte = 1 ∧ type_from_layout .Byte = .I8 ∧
    (8 : Nat) ≠ 1 ∧ CTy.I64 ≠ CTy.I8 := by
  exact ⟨rfl, rfl, rfl, by decide, by decide⟩

theorem sort_fields_eq_of_perm (f1 f2 : List (Nat × Expr)) (hperm : f1.Perm f2)
    (hnd : (f1.map Prod.fst).Nodup) : sort_fields f1 = sort_fields f2 := by
  classical
  haveI : IsTotal (Nat × Expr) (fun a b => a.1 ≤ b.1) :=
    ⟨fun a b => Nat.le_total a.1 b.1⟩
  haveI : IsTrans (Nat × Expr) (fun a b => a.1 ≤ b.1) :=
    ⟨fun _ _ _ h1 h2 => Nat.le_trans h1 h2⟩
  haveI : IsAntisymm (Nat × Expr) (fun a b => a.1 < b.1) :=
    ⟨fun _ _ h1 h2 => absurd h2 (Nat.lt_asymm h1)⟩
  have p1 : (sort_fields f1).Perm f1 := List.perm_insertionSort _ f1
  have p2 : (sort_fields f2).Perm f2 := List.perm_insertionSort _ f2
  have s1 : (sort_fields f1).Sorted (fun a b => a.1 ≤ b.1) :=
    List.sorted_insertionSort _ f1
  have s2 : (sort_fields f2).Sorted (fun a b => a.1 ≤ b.1) :=
    List.sorted_insertionSort _ f2
  have p12 : (sort_fields f1).Perm (sort_fields f2) :=
    p1.trans (hperm.trans p2.symm)
  have nd1 : List.Pairwise (fun a b : Nat × Expr => a.1 ≠ b.1) (sort_fields f1) := by
    have hmap : (f1.map Prod.fst).Perm ((sort_fields f1).map Prod.fst) :=
      (p1.map Prod.fst).symm
    exact List.pairwise_map.mp (hmap.nodup hnd)
  have nd2 : List.Pairwise (fun a b : Nat × Expr => a.1 ≠ b.1) (sort_fields f2) := by
    have hmap : (f1.map Prod.fst).Perm ((sort_fields f2).map Prod.fst) :=
      (hperm.map Prod.fst).trans (p2.map Prod.fst).symm
    exact List.pairwise_map.mp (hmap.nodup hnd)
  have t1 : (sort_fields f1).Sorted (fun a b => a.1 < b.1) :=
    (s1.and nd1).imp fun h => Nat.lt_of_le_of_ne h.1 h.2
  have t2 : (sort_fields f2).Sorted (fun a b => a.1 < b.1) :=
    (s2.and nd2).imp fun h => Nat.lt_of_le_of_ne h.1 h.2
  exact List.eq_of_perm_of_sorted p12 t1 t2

/-- Claim C5: record field storage is independent of the declaration
order of the fields — for every record layout and every two field lists
that are permutations of each other (field names unique), construction
produces identical results (the same stores at the same byte offsets,
and the same resulting state and value), because fields are first sorted
into a deterministic order by field name. -/
theorem struct_order_independent (fuel : Nat) (env : Env) (scope : Scope)
    (live : Bool) (st : BState) (layout : Layout) (f1 f2 : List (Nat × Expr))
    (hperm : f1.Perm f2) (hnd : (f1.map Prod.fst).Nodup) :
    build_expr (fuel + 1) env scope live st (.Struct layout f1) =
    build_expr (fuel + 1) env scope live st (.Struct layout f2) := by
  have hs : sort_fields f1 = sort_fields f2 := sort_fields_eq_of_perm f1 f2 hperm hnd
  simp only [build_expr]
  rw [hs]

theorem struct_order_independent_witness :
    ([((1 : Nat), Expr.IntLit 10), (2, Expr.IntLit 20)].Perm
       [(2, Expr.IntLit 20), (1, Expr.IntLit 10)] ∧
     ([((1 : Nat), Expr.IntLit 10), (2, Expr.IntLit 20)].map Prod.fst).Nodup) ∧
    build_expr 2 ⟨8, 99⟩ [] true BState.init
        (.Struct (.Struct [.Int64, .Int64]) [(1, .IntLit 10), (2, .IntLit 20)]) =
      build_expr 2 ⟨8, 99⟩ [] true BState.init
        (.Struct (.Struct [.Int64, .Int64]) [(2, .IntLit 20), (1, .IntLit 10)]) := by
  refine ⟨⟨List.Perm.swap _ _ _, by simp⟩, ?_⟩
  exact struct_order_independent 1 ⟨8, 99⟩ [] true BState.init
    (.Struct [.Int64, .Int64]) _ _ (List.Perm.swap _ _ _) (by simp)

theorem build_expr_str (fuel : Nat) (env : Env) (scope : Scope) (live : Bool)
    (st : BState) (str_literal : List Nat) :
    build_expr (fuel + 1) env scope live st (.Str str_literal) =
      if str_literal.isEmpty then .error .EmptyStr
      else
        let bytes_len := str_literal.length + 1
        let (ptr, st) := call_malloc env live st bytes_len
        let st := store_str_bytes live ptr 0 st str_literal
        let (nul_terminator, st) := ins_iconst .I8 0 live st
        let off := i32_wrap (i32_wrap (bytes_len : Int) - 1)
        let st := ins_store nul_terminator ptr off live st
        .ok (ptr, st) := rfl

theorem i32_wrap_small (n : Int) (h0 : 0 ≤ n) (h : n < 2 ^ 31) : i32_wrap n = n := by
  unfold i32_wrap
  omega

theorem ins_iconst_eq (t : CTy) (n : Int) (live : Bool) (st : BState) :
    ins_iconst t n live st =
      (st.val_ctr,
       { st with
          val_ctr := st.val_ctr + 1,
          log := st.log ++ [(st.cur_block, .IConst t n)],
          env := write_if live st.val_ctr (.IntV n) st.env }) := rfl

theorem ins_store_eq (v p : Nat) (off : Int) (live : Bool) (st : BState) :
    ins_store v p off live st =
      { st with
         log := st.log ++ [(st.cur_block, .StoreMem v p off)],
         mem := mem_write live (st.getVal p) (st.getVal v) off st.mem } := rfl

theorem alist_get_write_if_ne {β : Type} (live : Bool) (k0 k : Nat) (v : β)
    (l : List (Nat × β)) (h : k ≠ k0) :
    alist_get (write_if live k0 v l) k = alist_get l k := by
  cases live with
  | false => rfl
  | true =>
      show alist_get ((k0, v) :: l) k = alist_get l k
      simp only [alist_get]
      exact if_neg fun hc => h hc.symm

theorem sss_cur_block (live : Bool) (ptr : Nat) :
    ∀ (bytes : List Nat) (i : Nat) (st : BState),
    (store_str_bytes live ptr i st bytes).cur_block = st.cur_block := by
  intro bytes
  induction bytes with
  | nil => intro i st; rfl
  | cons b rest ih =>
      intro i st
      simp only [store_str_bytes, ins_iconst_eq, ins_store_eq]
      rw [ih]

theorem sss_val_ctr (live : Bool) (ptr : Nat) :
    ∀ (bytes : List Nat) (i : Nat) (st : BState),
    (store_str_bytes live ptr i st bytes).val_ctr = st.val_ctr + bytes.length := by
  intro bytes
  induction bytes with
  | nil => intro i st; rfl
  | cons b rest ih =>
      intro i st
      simp only [store_str_bytes, ins_iconst_eq, ins_store_eq]
      rw [ih]
      simp
      omega

theorem sss_alloc_ctr (live : Bool) (ptr : Nat) :
    ∀ (bytes : List Nat) (i : Nat) (st : BState),
    (store_str_bytes live ptr i st bytes).alloc_ctr = st.alloc_ctr := by
  intro bytes
  induction bytes with
  | nil => intro i st; rfl
  | cons b rest ih =>
      intro i st
      simp only [store_str_bytes, ins_iconst_eq, ins_store_eq]
      rw [ih]

theorem sss_env_lt (live : Bool) (ptr : Nat) :
    ∀ (bytes : List Nat) (i : Nat) (st : BState) (k : Nat), k < st.val_ctr →
    alist_get (store_str_bytes live ptr i st bytes).env k = alist_get st.env k := by
  intro bytes
  induction bytes with
  | nil => intro i st k _; rfl
  | cons b rest ih =>
      intro i st k hk
      simp only [store_str_bytes, ins_iconst_eq, ins_store_eq]
      refine (ih _ _ k ?_).trans ?_
      · simp
        omega
      · exact alist_get_write_if_ne _ _ _ _ _ (Nat.ne_of_lt hk)

theorem sss_log (live : Bool) (ptr : Nat) :
    ∀ (bytes : List Nat) (i : Nat) (st : BState),
    i + bytes.length < 2 ^ 31 →
    (store_str_bytes live ptr i st bytes).log =
      st.log ++ expected_byte_stores st.cur_block ptr st.val_ctr i bytes := by
  intro bytes
  induction bytes with
  | nil => intro i st _; simp [store_str_bytes, expected_byte_stores]
  | cons b rest ih =>
      intro i st hlt
      simp only [List.length_cons] at hlt
      have hi0 : i < 2 ^ 31 := by omega
      have hi : (i : Int) < 2 ^ 31 := by exact_mod_cast hi0
      have hwrap : i32_wrap (i : Int) = (i : Int) :=
        i32_wrap_small _ (Int.ofNat_nonneg i) hi
      simp only [store_str_bytes, ins_iconst_eq, ins_store_eq, hwrap]
      rw [ih _ _ (by omega)]
      simp [expected_byte_stores]

theorem ins_f64const_eq (bits : Nat) (live : Bool) (st : BState) :
    ins_f64const bits live st =
      (st.val_ctr,
       { st with
          val_ctr := st.val_ctr + 1,
          log := st.log ++ [(st.cur_block, .F64Const bits)],
          env := write_if live st.val_ctr (.FloatV bits) st.env }) := rfl

theorem ins_bconst_eq (b : Bool) (live : Bool) (st : BState) :
    ins_bconst b live st =
      (st.val_ctr,
       { st with
          val_ctr := st.val_ctr + 1,
          log := st.log ++ [(st.cur_block, .BConst b)],
          env := write_if live st.val_ctr (.BoolV b) st.env }) := rfl

theorem ins_iadd_eq (a b : Nat) (live : Bool) (st : BState) :
    ins_iadd a b live st =
      (st.val_ctr,
       { st with
          val_ctr := st.val_ctr + 1,
          log := st.log ++ [(st.cur_block, .IAdd a b)],
          env := write_if live st.val_ctr
            (int_bin (· + ·) (st.getVal a) (st.getVal b)) st.env }) := rfl

theorem ins_isub_eq (a b : Nat) (live : Bool) (st : BState) :
    ins_isub a b live st =
      (st.val_ctr,
       { st with
          val_ctr := st.val_ctr + 1,
          log := st.log ++ [(st.cur_block, .ISub a b)],
          env := write_if live st.val_ctr
            (int_bin (· - ·) (st.getVal a) (st.getVal b)) st.env }) := rfl

theorem ins_imul_eq (a b : Nat) (live : Bool) (st : BState) :
    ins_imul a b live st =
      (st.val_ctr,
       { st with
          val_ctr := st.val_ctr + 1,
          log := st.log ++ [(st.cur_block, .IMul a b)],
          env := write_if live st.val_ctr
            (int_bin (· * ·) (st.getVal a) (st.getVal b)) st.env }) := rfl

theorem ins_ineg_eq (a : Nat) (live : Bool) (st : BState) :
    ins_ineg a live st =
      (st.val_ctr,
       { st with
          val_ctr := st.val_ctr + 1,
          log := st.log ++ [(st.cur_block, .INeg a)],
          env := write_if live st.val_ctr
            (match st.getVal a with
             | .IntV x => .IntV (-x)
             | _ => .Unknown 2) st.env }) := rfl

theorem ins_icmp_eq_eq (a b : Nat) (live : Bool) (st : BState) :
    ins_icmp_eq a b live st =
      (st.val_ctr,
       { st with
          val_ctr := st.val_ctr + 1,
          log := st.log ++ [(st.cur_block, .ICmpEq a b)],
          env := write_if live st.val_ctr
            (match st.getVal a, st.getVal b with
             | .IntV x, .IntV y => .BoolV (decide (x = y))
             | _, _ => .Unknown 3) st.env }) := rfl

theorem ins_fadd_eq (a b : Nat) (live : Bool) (st : BState) :
    ins_fadd a b live st =
      (st.val_ctr,
       { st with
          val_ctr := st.val_ctr + 1,
          log := st.log ++ [(st.cur_block, .FAdd a b)],
          env := write_if live st.val_ctr
            (.FloatOp 0 (st.getVal a) (st.getVal b)) st.env }) := rfl

theorem ins_fsub_eq (a b : Nat) (live : Bool) (st : BState) :
    ins_fsub a b live st =
      (st.val_ctr,
       { st with
          val_ctr := st.val_ctr + 1,
          log := st.log ++ [(st.cur_block, .FSub a b)],
          env := write_if live st.val_ctr
            (.FloatOp 1 (st.getVal a) (st.getVal b)) st.env }) := rfl

theorem ins_fcmp_eq_eq (a b : Nat) (live : Bool) (st : BState) :
    ins_fcmp_eq a b live st =
      (st.val_ctr,
       { st with
          val_ctr := st.val_ctr + 1,
          log := st.log ++ [(st.cur_block, .FCmpEq a b)],
          env := write_if live st.val_ctr
            (.FloatOp 2 (st.getVal a) (st.getVal b)) st.env }) := rfl

theorem ins_stack_store_eq (v slot : Nat) (off : Int) (live : Bool) (st : BState) :
    ins_stack_store v slot off live st =
      { st with
         log := st.log ++ [(st.cur_block, .StackStore v slot off)],
         slots := write_if live (slot, off) (st.getVal v) st.slots } := rfl

theorem ins_stack_load_eq (t : CTy) (slot : Nat) (off : Int) (live : Bool)
    (st : BState) :
    ins_stack_load t slot off live st =
      (st.val_ctr,
       { st with
          val_ctr := st.val_ctr + 1,
          log := st.log ++ [(st.cur_block, .StackLoad t slot off)],
          env := write_if live st.val_ctr
            ((alist_get st.slots (slot, off)).getD (.Unknown 4)) st.env }) := rfl

theorem ins_stack_addr_eq (t : CTy) (slot : Nat) (off : Int) (live : Bool)
    (st : BState) :
    ins_stack_addr t slot off live st =
      (st.val_ctr,
       { st with
          val_ctr := st.val_ctr + 1,
          log := st.log ++ [(st.cur_block, .StackAddr t slot off)],
          env := write_if live st.val_ctr (.PtrV (slot_addr slot + off)) st.env }) := rfl

theorem ins_load_eq (t : CTy) (p : Nat) (off : Int) (live : Bool) (st : BState) :
    ins_load t p off live st =
      (st.val_ctr,
       { st with
          val_ctr := st.val_ctr + 1,
          log := st.log ++ [(st.cur_block, .LoadMem t p off)],
          env := write_if live st.val_ctr
            (match st.getVal p with
             | .PtrV a => (alist_get st.mem (a + off)).getD (.Unknown 5)
             | _ => .Unknown 5) st.env }) := rfl

theorem ins_load_complex_eq (t : CTy) (p o : Nat) (off : Int) (live : Bool)
    (st : BState) :
    ins_load_complex t p o off live st =
      (st.val_ctr,
       { st with
          val_ctr := st.val_ctr + 1,
          log := st.log ++ [(st.cur_block, .LoadComplex t p o off)],
          env := write_if live st.val_ctr
            (match st.getVal p, st.getVal o with
             | .PtrV a, .IntV k => (alist_get st.mem (a + k + off)).getD (.Unknown 6)
             | _, _ => .Unknown 6) st.env }) := rfl

theorem ins_store_complex_eq (v p o : Nat) (off : Int) (live : Bool) (st : BState) :
    ins_store_complex v p o off live st =
      { st with
         log := st.log ++ [(st.cur_block, .StoreComplex v p o off)],
         mem := mem_write2 live (st.getVal p) (st.getVal o) (st.getVal v) off st.mem } := rfl

theorem ins_call_eq (f : Nat) (args : List Nat) (live : Bool) (st : BState) :
    ins_call f args live st =
      (st.val_ctr,
       { st with
          val_ctr := st.val_ctr + 1,
          log := st.log ++ [(st.cur_block, .CallDirect f args)],
          env := write_if live st.val_ctr (.CallRes f (args.map st.getVal)) st.env }) := rfl

theorem ins_call_indirect_eq (sig : Sig) (callee : Nat) (args : List Nat)
    (live : Bool) (st : BState) :
    ins_call_indirect sig callee args live st =
      (st.val_ctr,
       { st with
          val_ctr := st.val_ctr + 1,
          log := st.log ++ [(st.cur_block, .CallInd sig callee args)],
          env := write_if live st.val_ctr
            (.IndirectRes (st.getVal callee) (args.map st.getVal)) st.env }) := rfl

theorem ins_func_addr_eq (t : CTy) (f : Nat) (live : Bool) (st : BState) :
    ins_func_addr t f live st =
      (st.val_ctr,
       { st with
          val_ctr := st.val_ctr + 1,
          log := st.log ++ [(st.cur_block, .FuncAddrI t f)],
          env := write_if live st.val_ctr (.FnAddr f) st.env }) := rfl

theorem emit_jump_eq (b : Nat) (st : BState) :
    emit_jump b st = { st with log := st.log ++ [(st.cur_block, .Jump b)] } := rfl

theorem emit_brnz_eq (v b : Nat) (st : BState) :
    emit_brnz v b st = { st with log := st.log ++ [(st.cur_block, .Brnz v b)] } := rfl

theorem create_block_eq (st : BState) :
    create_block st = (st.next_block, { st with next_block := st.next_block + 1 }) := rfl

theorem switch_to_block_eq (b : Nat) (st : BState) :
    switch_to_block b st = { st with cur_block := b } := rfl

theorem declare_var_eq (i : Nat) (t : CTy) (st : BState) :
    declare_var i t st = { st with var_types := (i, t) :: st.var_types } := rfl

theorem def_var_eq (live : Bool) (i v : Nat) (st : BState) :
    def_var live i v st =
      { st with var_vals := write_if live i (st.getVal v) st.var_vals } := rfl

theorem use_var_eq (live : Bool) (i : Nat) (st : BState) :
    use_var live i st =
      (st.val_ctr,
       { st with
          val_ctr := st.val_ctr + 1,
          env := write_if live st.val_ctr
            ((alist_get st.var_vals i).getD (.Unknown 1)) st.env }) := rfl

theorem create_stack_slot_eq (size : Nat) (st : BState) :
    create_stack_slot size st =
      (st.slot_ctr,
       { st with
          slot_ctr := st.slot_ctr + 1,
          slot_sizes := (st.slot_ctr, size) :: st.slot_sizes }) := rfl

theorem call_malloc_eq (env : Env) (live : Bool) (st : BState) (size : Nat) :
    call_malloc env live st size =
      (st.val_ctr + 1,
       { st with
          val_ctr := st.val_ctr + 2,
          log := st.log ++ [(st.cur_block, .IConst .Ptr (size : Int)),
                            (st.cur_block, .CallDirect env.malloc [st.val_ctr])],
          env := write_if live (st.val_ctr + 1) (.PtrV (heap_addr st.alloc_ctr))
            (write_if live st.val_ctr (.IntV (size : Int)) st.env),
          alloc_ctr := st.alloc_ctr + (if live then 1 else 0) }) := by
  simp [call_malloc, ins_iconst_eq, BState.mkVal, BState.emit]

theorem ebs_offsets (blk ptr : Nat) :
    ∀ (bytes : List Nat) (c i : Nat),
    storemem_offsets (expected_byte_stores blk ptr c i bytes) =
      (List.range bytes.length).map (fun j => Int.ofNat (i + j)) := by
  intro bytes
  induction bytes with
  | nil => intro c i; rfl
  | cons b rest ih =>
      intro c i
      simp only [expected_byte_stores, storemem_offsets, List.filterMap_cons,
        List.length_cons]
      have h2 := ih (c + 1) (i + 1)
      simp only [storemem_offsets] at h2
      rw [h2, List.range_succ_eq_map, List.map_cons, List.map_map]
      refine List.cons_eq_cons.mpr ⟨by simp, ?_⟩
      refine List.map_congr_left fun a _ => ?_
      simp only [Function.comp_apply, Int.ofNat_eq_natCast]
      omega

theorem ebs_call_count (blk ptr : Nat) :
    ∀ (bytes : List Nat) (c i : Nat),
    call_count (expected_byte_stores blk ptr c i bytes) = 0 := by
  intro bytes
  induction bytes with
  | nil => intro c i; rfl
  | cons b rest ih =>
      intro c i
      simp only [expected_byte_stores, call_count, List.countP_cons]
      have h2 := ih (c + 1) (i + 1)
      simp only [call_count] at h2
      rw [h2]
      simp

theorem str_trace_offsets (blk m c : Nat) (bytes : List Nat) :
    storemem_offsets (expected_str_trace blk m c bytes) =
      (List.range bytes.length).map Int.ofNat ++ [Int.ofNat bytes.length] := by
  simp only [expected_str_trace, storemem_offsets, List.filterMap_cons,
    List.filterMap_append, List.filterMap_nil]
  have h2 := ebs_offsets blk (c + 1) bytes (c + 2) 0
  simp only [storemem_offsets] at h2
  rw [h2]
  simp only [Nat.zero_add]
  rfl

theorem str_trace_call_count (blk m c : Nat) (bytes : List Nat) :
    call_count (expected_str_trace blk m c bytes) = 1 := by
  simp only [expected_str_trace, call_count, List.countP_cons, List.countP_append]
  have h2 := ebs_call_count blk (c + 1) bytes (c + 2) 0
  simp only [call_count] at h2
  rw [h2]
  simp

theorem str_trace_offsets_increasing (blk m c : Nat) (bytes : List Nat) :
    List.Pairwise (· < ·) (storemem_offsets (expected_str_trace blk m c bytes)) := by
  rw [str_trace_offsets]
  apply List.pairwise_append.mpr
  refine ⟨?_, by simp, ?_⟩
  · apply List.pairwise_map.mpr
    apply List.Pairwise.imp ?_ (List.pairwise_lt_range _)
    intro a b hab
    simp only [Int.ofNat_eq_natCast]
    exact_mod_cast hab
  · intro a ha b hb
    simp only [List.mem_map, List.mem_range] at ha
    simp only [List.mem_singleton] at hb
    obtain ⟨j, hj, rfl⟩ := ha
    subst hb
    simp only [Int.ofNat_eq_natCast]
    exact_mod_cast hj

theorem str_lowering (fuel : Nat) (env : Env) (scope : Scope) (live : Bool)
    (st : BState) (bytes : List Nat) (hne : bytes ≠ [])
    (hlen : bytes.length + 1 < 2 ^ 31) :
    ∃ st',
      build_expr (fuel + 1) env scope live st (.Str bytes) =
        .ok (st.val_ctr + 1, st') ∧
      st'.log = st.log ++ expected_str_trace st.cur_block env.malloc st.val_ctr bytes ∧
      (live = true →
        BState.getVal st' (st.val_ctr + 1) = .PtrV (heap_addr st.alloc_ctr)) := by
  have hemp : bytes.isEmpty = false := by
    cases bytes with
    | nil => exact absurd rfl hne
    | cons b rest => rfl
  have hoff : i32_wrap (i32_wrap ((bytes.length + 1 : Nat) : Int) - 1) =
      (bytes.length : Int) := by
    rw [i32_wrap_small ((bytes.length + 1 : Nat) : Int) (by positivity)
      (by exact_mod_cast hlen)]
    have : ((bytes.length + 1 : Nat) : Int) - 1 = (bytes.length : Int) := by push_cast; ring
    rw [this, i32_wrap_small _ (by positivity) (by exact_mod_cast by omega)]
  rw [build_expr_str]
  simp only [hemp, Bool.false_eq_true, if_false]
  refine ⟨_, rfl, ?_, ?_⟩
  · simp only [call_malloc_eq, ins_iconst_eq, ins_store_eq, hoff]
    rw [sss_log live _ bytes 0 _ (by omega)]
    rw [sss_cur_block, sss_val_ctr]
    simp [expected_str_trace, List.append_assoc]
  · intro hlive
    subst hlive
    simp only [call_malloc_eq, ins_iconst_eq, ins_store_eq, BState.getVal]
    rw [alist_get_write_if_ne _ _ _ _ _ (by rw [sss_val_ctr]; simp; omega)]
    rw [sss_env_lt true _ bytes 0 _ _ (by simp)]
    simp [write_if, alist_get]

theorem build_expr_array (fuel : Nat) (env : Env) (scope : Scope) (live : Bool)
    (st : BState) (elem_layout : Layout) (elems : List Expr) :
    build_expr (fuel + 1) env scope live st (.Array elem_layout elems) =
      if elems.isEmpty then .error .EmptyArray
      else
        let elem_bytes := elem_layout.stack_size env.ptr_bytes
        let bytes_len := elem_bytes * elems.length + 1
        let (ptr, st) := call_malloc env live st bytes_len
        (store_array_elems (fun sc lv s e => build_expr fuel env sc lv s e) scope live
            ptr elem_bytes 0 st elems).bind
          (fun stA =>
            let (nul_terminator, st) := ins_iconst .I8 0 live stA
            let off := i32_wrap (i32_wrap (bytes_len : Int) - 1)
            let st := ins_store nul_terminator ptr off live st
            .ok (ptr, st)) := by
  cases elems with
  | nil => rfl
  | cons e rest =>
      show Except.bind _ _ = _
      rfl

theorem build_scalar_lit (fuel : Nat) (env : Env) (scope : Scope) (live : Bool)
    (st : BState) (e : Expr) (h : (scalar_lit_instr e).isSome) :
    build_expr (fuel + 1) env scope live st e =
      .ok (st.val_ctr,
        { st with
           val_ctr := st.val_ctr + 1,
           log := st.log ++ [(st.cur_block, (scalar_lit_instr e).getD (.IConst .I64 0))],
           env := write_if live st.val_ctr (scalar_lit_val e) st.env }) := by
  cases e <;> simp_all [scalar_lit_instr, scalar_lit_val, build_expr_int,
    build_expr_float, build_expr_bool, build_expr_byte, ins_iconst_eq,
    ins_f64const_eq, ins_bconst_eq]

theorem sae_spec (fuel : Nat) (env : Env) (scope : Scope) (live : Bool)
    (ptr eb : Nat) :
    ∀ (elems : List Expr) (i : Nat) (st : BState),
    (∀ e ∈ elems, (scalar_lit_instr e).isSome) →
    eb * (i + elems.length) < 2 ^ 31 →
    i + elems.length < 2 ^ 31 →
    ∃ st',
      store_array_elems (fun sc lv s e => build_expr (fuel + 1) env sc lv s e)
          scope live ptr eb i st elems = .ok st' ∧
      st'.log = st.log ++ expected_array_stores st.cur_block ptr eb st.val_ctr i elems ∧
      st'.cur_block = st.cur_block ∧
      st'.val_ctr = st.val_ctr + elems.length ∧
      st'.alloc_ctr = st.alloc_ctr ∧
      (∀ k, k < st.val_ctr → alist_get st'.env k = alist_get st.env k) := by
  intro elems
  induction elems with
  | nil =>
      intro i st _ _ _
      exact ⟨st, rfl, by simp [expected_array_stores], rfl, rfl, rfl, fun k _ => rfl⟩
  | cons e rest ih =>
      intro i st hs hb1 hb2
      have heb : (eb : Int) < 2 ^ 31 := by
        have : eb ≤ eb * (i + (e :: rest).length) := by
          simp only [List.length_cons]
          calc eb = eb * 1 := by ring
            _ ≤ eb * (i + (rest.length + 1)) := Nat.mul_le_mul_left eb (by omega)
        exact_mod_cast Nat.lt_of_le_of_lt this hb1
      have hi : (i : Int) < 2 ^ 31 := by
        have : i < 2 ^ 31 := by simp only [List.length_cons] at hb2; omega
        exact_mod_cast this
      have hebi : eb * i < 2 ^ 31 := by
        have : eb * i ≤ eb * (i + (e :: rest).length) := Nat.mul_le_mul_left eb (by omega)
        omega
      have hoff : i32_wrap (i32_wrap (eb : Int) * i32_wrap (i : Int)) =
          ((eb * i : Nat) : Int) := by
        rw [i32_wrap_small (eb : Int) (by positivity) heb,
            i32_wrap_small (i : Int) (by positivity) hi]
        have hprod : (eb : Int) * (i : Int) = ((eb * i : Nat) : Int) := by push_cast; ring
        rw [hprod, i32_wrap_small _ (by positivity) (by exact_mod_cast hebi)]
      simp only [store_array_elems, hoff]
      rw [build_scalar_lit fuel env scope live st e (hs e (by simp))]
      simp only [except_ok_bind]
      simp only [ins_store_eq]
      obtain ⟨st', h1, h2, h3, h4, h5, h6⟩ := ih (i + 1)
        ({ st with
             val_ctr := st.val_ctr + 1,
             log := (st.log ++ [(st.cur_block, (scalar_lit_instr e).getD (.IConst .I64 0))]) ++
               [(st.cur_block, .StoreMem st.val_ctr ptr ((eb * i : Nat) : Int))],
             env := write_if live st.val_ctr (scalar_lit_val e) st.env,
             mem := mem_write live
               (BState.getVal { st with
                   val_ctr := st.val_ctr + 1,
                   log := st.log ++ [(st.cur_block, (scalar_lit_instr e).getD (.IConst .I64 0))],
                   env := write_if live st.val_ctr (scalar_lit_val e) st.env } ptr)
               (BState.getVal { st with
                   val_ctr := st.val_ctr + 1,
                   log := st.log ++ [(st.cur_block, (scalar_lit_instr e).getD (.IConst .I64 0))],
                   env := write_if live st.val_ctr (scalar_lit_val e) st.env } st.val_ctr)
               ((eb * i : Nat) : Int) st.mem })
        (fun x hx => hs x (by simp [hx]))
        (by
          simp only [List.length_cons] at hb1
          have heq : i + 1 + rest.length = i + (rest.length + 1) := by omega
          rw [heq]
          exact hb1)
        (by simp only [List.length_cons] at hb2; omega)
      refine ⟨st', ?_, ?_, ?_, ?_, ?_, ?_⟩
      · rw [← h1]
      · rw [h2]
        simp [expected_array_stores, List.append_assoc]
      · rw [h3]
      · rw [h4]
        simp only [List.length_cons]
        omega
      · rw [h5]
      · intro k hk
        rw [h6 k (by simp; omega)]
        exact alist_get_write_if_ne _ _ _ _ _ (Nat.ne_of_lt hk)

theorem eas_offsets (blk ptr eb : Nat) :
    ∀ (elems : List Expr) (c i : Nat),
    storemem_offsets (expected_array_stores blk ptr eb c i elems) =
      (List.range elems.length).map (fun j => Int.ofNat (eb * (i + j))) := by
  intro elems
  induction elems with
  | nil => intro c i; rfl
  | cons e rest ih =>
      intro c i
      simp only [expected_array_stores, storemem_offsets, List.filterMap_cons,
        List.length_cons]
      have hmatch : (match (scalar_lit_instr e).getD (.IConst .I64 0) with
          | Instr.StoreMem _ _ off => some off
          | _ => (none : Option Int)) = none := by
        cases e <;> rfl
      rw [hmatch]
      have h2 := ih (c + 1) (i + 1)
      simp only [storemem_offsets] at h2
      rw [h2, List.range_succ_eq_map, List.map_cons, List.map_map]
      refine List.cons_eq_cons.mpr ⟨by simp, ?_⟩
      refine List.map_congr_left fun a _ => ?_
      simp only [Function.comp_apply, Int.ofNat_eq_natCast]
      push_cast
      ring

theorem eas_call_count (blk ptr eb : Nat) :
    ∀ (elems : List Expr) (c i : Nat),
    (∀ e ∈ elems, (scalar_lit_instr e).isSome) →
    call_count (expected_array_stores blk ptr eb c i elems) = 0 := by
  intro elems
  induction elems with
  | nil => intro c i _; rfl
  | cons e rest ih =>
      intro c i hs
      simp only [expected_array_stores, call_count, List.countP_cons]
      have hmatch : (match (scalar_lit_instr e).getD (.IConst .I64 0) with
          | Instr.CallDirect _ _ => true
          | _ => false) = false := by
        cases e <;> rfl
      have h2 := ih (c + 1) (i + 1) (fun x hx => hs x (by simp [hx]))
      simp only [call_count] at h2
      rw [h2, hmatch]
      simp

theorem array_trace_offsets (blk m c eb : Nat) (elems : List Expr) :
    storemem_offsets (expected_array_trace blk m c eb elems) =
      (List.range elems.length).map (fun j => Int.ofNat (eb * j)) ++
        [Int.ofNat (eb * elems.length)] := by
  simp only [expected_array_trace, storemem_offsets, List.filterMap_cons,
    List.filterMap_append, List.filterMap_nil]
  have h2 := eas_offsets blk (c + 1) eb elems (c + 2) 0
  simp only [storemem_offsets] at h2
  rw [h2]
  simp only [Nat.zero_add]
  rfl

theorem array_trace_call_count (blk m c eb : Nat) (elems : List Expr)
    (hs : ∀ e ∈ elems, (scalar_lit_instr e).isSome) :
    call_count (expected_array_trace blk m c eb elems) = 1 := by
  simp only [expected_array_trace, call_count, List.countP_cons, List.countP_append]
  have h2 := eas_call_count blk (c + 1) eb elems (c + 2) 0 hs
  simp only [call_count] at h2
  rw [h2]
  simp

theorem array_trace_offsets_increasing (blk m c eb : Nat) (elems : List Expr)
    (hpos : 0 < eb) :
    List.Pairwise (· < ·) (storemem_offsets (expected_array_trace blk m c eb elems)) := by
  rw [array_trace_offsets]
  apply List.pairwise_append.mpr
  refine ⟨?_, by simp, ?_⟩
  · apply List.pairwise_map.mpr
    apply List.Pairwise.imp ?_ (List.pairwise_lt_range _)
    intro a b hab
    simp only [Int.ofNat_eq_natCast]
    have : eb * a < eb * b := (Nat.mul_lt_mul_left hpos).mpr hab
    exact_mod_cast this
  · intro a ha b hb
    simp only [List.mem_map, List.mem_range] at ha
    simp only [List.mem_singleton] at hb
    obtain ⟨j, hj, rfl⟩ := ha
    subst hb
    simp only [Int.ofNat_eq_natCast]
    have : eb * j < eb * elems.length := (Nat.mul_lt_mul_left hpos).mpr hj
    exact_mod_cast this

theorem array_lowering (fuel : Nat) (env : Env) (scope : Scope) (live : Bool)
    (st : BState) (elemL : Layout) (elems : List Expr) (hne : elems ≠ [])
    (hs : ∀ e ∈ elems, (scalar_lit_instr e).isSome)
    (hlen : elemL.stack_size env.ptr_bytes * elems.length + 1 < 2 ^ 31)
    (hcnt : elems.length < 2 ^ 31) :
    ∃ st',
      build_expr (fuel + 2) env scope live st (.Array elemL elems) =
        .ok (st.val_ctr + 1, st') ∧
      st'.log = st.log ++ expected_array_trace st.cur_block env.malloc st.val_ctr
        (elemL.stack_size env.ptr_bytes) elems ∧
      (live = true →
        BState.getVal st' (st.val_ctr + 1) = .PtrV (heap_addr st.alloc_ctr)) := by
  set eb := elemL.stack_size env.ptr_bytes with heb
  have hemp : elems.isEmpty = false := by
    cases elems with
    | nil => exact absurd rfl hne
    | cons b rest => rfl
  have hoff : i32_wrap (i32_wrap ((eb * elems.length + 1 : Nat) : Int) - 1) =
      ((eb * elems.length : Nat) : Int) := by
    rw [i32_wrap_small ((eb * elems.length + 1 : Nat) : Int) (by positivity)
      (by exact_mod_cast hlen)]
    have h1 : ((eb * elems.length + 1 : Nat) : Int) - 1 =
        ((eb * elems.length : Nat) : Int) := by push_cast; ring
    rw [h1, i32_wrap_small _ (by positivity) (by exact_mod_cast by omega)]
  have key := build_expr_array (fuel + 1) env scope live st elemL elems
  rw [show fuel + 1 + 1 = fuel + 2 from rfl] at key
  rw [key]
  simp only [hemp, Bool.false_eq_true, if_false]
  simp only [call_malloc_eq, ← heb]
  obtain ⟨stA, hok, hlog, hcur, hval, halloc, henv⟩ :=
    sae_spec fuel env scope live (st.val_ctr + 1) eb elems 0
      { st with
          val_ctr := st.val_ctr + 2,
          log := st.log ++ [(st.cur_block, .IConst .Ptr ((eb * elems.length + 1 : Nat) : Int)),
                            (st.cur_block, .CallDirect env.malloc [st.val_ctr])],
          env := write_if live (st.val_ctr + 1) (.PtrV (heap_addr st.alloc_ctr))
            (write_if live st.val_ctr (.IntV ((eb * elems.length + 1 : Nat) : Int)) st.env),
          alloc_ctr := st.alloc_ctr + (if live then 1 else 0) }
      hs (by simpa using hlen |> fun h => by omega) (by omega)
  rw [hok]
  simp only [except_ok_bind, ins_iconst_eq, ins_store_eq, hoff]
  refine ⟨_, rfl, ?_, ?_⟩
  · rw [hlog, hcur, hval]
    simp [expected_array_trace, List.append_assoc]
  · intro hlive
    subst hlive
    simp only [BState.getVal]
    rw [alist_get_write_if_ne _ _ _ _ _ (by rw [hval]; simp; omega)]
    rw [henv _ (by simp)]
    simp [write_if, alist_get]

theorem arg_at_zero {α : Type} (a : α) (l : List α) : arg_at (a :: l) 0 = .ok a := rfl

theorem arg_at_succ {α : Type} (a : α) (l : List α) (i : Nat) :
    arg_at (a :: l) (i + 1) = arg_at l i := rfl

theorem call_by_name_list_set (build : BuildFn) (env : Env)
    (args : List (Expr × Layout)) (scope : Scope) (live : Bool) (st : BState) :
    call_by_name build env Symbol.LIST_SET args scope live st = (do
      let (_list_expr, list_layout) ← arg_at args 0
      match list_layout with
      | .List elem_layout => do
          let num_elems : Nat := 10
          let elem_bytes := elem_layout.stack_size env.ptr_bytes
          let bytes_len := elem_bytes * num_elems + 1
          let (ptr, st) := call_malloc env live st bytes_len
          let (idx, st) ← build_arg build scope live st (← arg_at args 1)
          let (elem, st) ← build_arg build scope live st (← arg_at args 2)
          let (_r, st) := list_set_in_place env ptr idx elem elem_layout live st
          .ok (ptr, st)
      | _ => .error .InvalidListLayout) := rfl

/-- Claim C10: lowering the non-in-place list-element write (`LIST_SET`)
never reads or copies the input list - the lowering result does not
depend on the list argument expression at all (only on its Layout); it
allocates a fresh buffer via the allocation primitive sized for a fixed
count of 10 elements plus one sentinel byte regardless of the input
list, lowers only the index and the new element, stores just that
element into the fresh buffer through `list_set_in_place`, and returns
the fresh buffer's address (the `call_malloc` result value); every other
element position of the new buffer is left unwritten. -/
theorem list_set_fresh_buffer (fuel : Nat) (env : Env) (scope : Scope) (live : Bool)
    (st : BState) (le ie ee : Expr) (elemL l1 l2 : Layout) :
    (∀ le2 : Expr,
      build_expr (fuel + 1) env scope live st
          (.CallByName Symbol.LIST_SET [(le, .List elemL), (ie, l1), (ee, l2)]) =
        build_expr (fuel + 1) env scope live st
          (.CallByName Symbol.LIST_SET [(le2, .List elemL), (ie, l1), (ee, l2)])) ∧
    (∀ v st',
      build_expr (fuel + 1) env scope live st
          (.CallByName Symbol.LIST_SET [(le, .List elemL), (ie, l1), (ee, l2)]) =
        .ok (v, st') →
      ∃ iv sti ev ste,
        build_expr fuel env scope live
            (call_malloc env live st (elemL.stack_size env.ptr_bytes * 10 + 1)).2 ie =
          .ok (iv, sti) ∧
        build_expr fuel env scope live sti ee = .ok (ev, ste) ∧
        v = st.val_ctr + 1 ∧
        st' = (list_set_in_place env (st.val_ctr + 1) iv ev elemL live ste).2) := by
  constructor
  · intro le2
    rfl
  · intro v st' h
    rw [build_expr_call_by_name, call_by_name_list_set] at h
    simp only [arg_at_zero, except_ok_bind] at h
    cases hie : build_expr fuel env scope live
        (call_malloc env live st (elemL.stack_size env.ptr_bytes * 10 + 1)).2 ie with
    | error er =>
        rw [show (arg_at [(le, Layout.List elemL), (ie, l1), (ee, l2)] 1) =
          .ok (ie, l1) from rfl] at h
        simp only [except_ok_bind] at h
        rw [show build_arg (fun sc lv s e => build_expr fuel env sc lv s e) scope live
            (call_malloc env live st (elemL.stack_size env.ptr_bytes * 10 + 1)).2
            (ie, l1) = build_expr fuel env scope live
            (call_malloc env live st (elemL.stack_size env.ptr_bytes * 10 + 1)).2 ie
          from rfl] at h
        rw [hie] at h
        simp at h
    | ok p =>
        obtain ⟨iv, sti⟩ := p
        rw [show (arg_at [(le, Layout.List elemL), (ie, l1), (ee, l2)] 1) =
          .ok (ie, l1) from rfl] at h
        simp only [except_ok_bind] at h
        rw [show build_arg (fun sc lv s e => build_expr fuel env sc lv s e) scope live
            (call_malloc env live st (elemL.stack_size env.ptr_bytes * 10 + 1)).2
            (ie, l1) = build_expr fuel env scope live
            (call_malloc env live st (elemL.stack_size env.ptr_bytes * 10 + 1)).2 ie
          from rfl] at h
        rw [hie] at h
        simp only [except_ok_bind] at h
        cases hee : build_expr fuel env scope live sti ee with
        | error er =>
            rw [show (arg_at [(le, Layout.List elemL), (ie, l1), (ee, l2)] 2) =
              .ok (ee, l2) from rfl] at h
            simp only [except_ok_bind] at h
            rw [show build_arg (fun sc lv s e => build_expr fuel env sc lv s e) scope
                live sti (ee, l2) = build_expr fuel env scope live sti ee from rfl] at h
            rw [hee] at h
            simp at h
        | ok q =>
            obtain ⟨ev, ste⟩ := q
            rw [show (arg_at [(le, Layout.List elemL), (ie, l1), (ee, l2)] 2) =
              .ok (ee, l2) from rfl] at h
            simp only [except_ok_bind] at h
            rw [show build_arg (fun sc lv s e => build_expr fuel env sc lv s e) scope
                live sti (ee, l2) = build_expr fuel env scope live sti ee from rfl] at h
            rw [hee] at h
            simp only [except_ok_bind] at h
            refine ⟨iv, sti, ev, ste, rfl, hee, ?_, ?_⟩
            · cases h; rfl
            · cases h; rfl

theorem frame_step_refl (st : BState) : FrameStep st st := ⟨le_refl _, fun _ _ => rfl⟩

theorem frame_step_trans {a b c : BState} (h1 : FrameStep a b) (h2 : FrameStep b c) :
    FrameStep a c :=
  ⟨le_trans h1.1 h2.1, fun k hk => (h2.2 k (lt_of_lt_of_le hk h1.1)).trans (h1.2 k hk)⟩

theorem scope_val_ok_mono {c c' : Nat} {scope : Scope} (h : scope_val_ok c scope)
    (hle : c ≤ c') : scope_val_ok c' scope := by
  intro p hp
  have := h p hp
  cases he : p.2 <;> simp_all [val_entry_ok] <;> omega

theorem scope_val_ok_insert {c : Nat} {scope : Scope} (h : scope_val_ok c scope)
    (x : Symbol) {e : ScopeEntry} (he : val_entry_ok c e) :
    scope_val_ok c (Scope.insert scope x e) := by
  intro p hp
  rcases List.mem_cons.mp hp with rfl | hp
  · exact he
  · exact h p hp

theorem scope_val_ok_get {c : Nat} {scope : Scope} (h : scope_val_ok c scope)
    {x : Symbol} {e : ScopeEntry} (he : Scope.get scope x = some e) :
    val_entry_ok c e := by
  induction scope with
  | nil => simp [Scope.get] at he
  | cons hd tl ih =>
      simp only [Scope.get] at he
      by_cases hx : hd.1 = x
      · rw [if_pos hx] at he
        cases he
        exact h hd (by simp)
      · rw [if_neg hx] at he
        exact ih (fun p hp => h p (by simp [hp])) he

theorem frame_step_write (st : BState) (live : Bool) (rv : RVal) {st' : BState}
    (hval : st'.val_ctr = st.val_ctr + 1)
    (henv : st'.env = write_if live st.val_ctr rv st.env) : FrameStep st st' := by
  refine ⟨by omega, fun k hk => ?_⟩
  rw [henv]
  exact alist_get_write_if_ne _ _ _ _ _ (Nat.ne_of_lt hk)

theorem frame_step_iconst (t : CTy) (n : Int) (live : Bool) (st : BState) :
    FrameStep st (ins_iconst t n live st).2 :=
  frame_step_write st live _ rfl rfl

theorem frame_step_f64const (bits : Nat) (live : Bool) (st : BState) :
    FrameStep st (ins_f64const bits live st).2 :=
  frame_step_write st live _ rfl rfl

theorem frame_step_bconst (b : Bool) (live : Bool) (st : BState) :
    FrameStep st (ins_bconst b live st).2 :=
  frame_step_write st live _ rfl rfl

theorem frame_step_iadd (a b : Nat) (live : Bool) (st : BState) :
    FrameStep st (ins_iadd a b live st).2 :=
  frame_step_write st live _ rfl rfl

theorem frame_step_isub (a b : Nat) (live : Bool) (st : BState) :
    FrameStep st (ins_isub a b live st).2 :=
  frame_step_write st live _ rfl rfl

theorem frame_step_imul (a b : Nat) (live : Bool) (st : BState) :
    FrameStep st (ins_imul a b live st).2 :=
  frame_step_write st live _ rfl rfl

theorem frame_step_ineg (a : Nat) (live : Bool) (st : BState) :
    FrameStep st (ins_ineg a live st).2 :=
  frame_step_write st live _ rfl rfl

theorem frame_step_icmp (a b : Nat) (live : Bool) (st : BState) :
    FrameStep st (ins_icmp_eq a b live st).2 :=
  frame_step_write st live _ rfl rfl

theorem frame_step_fadd (a b : Nat) (live : Bool) (st : BState) :
    FrameStep st (ins_fadd a b live st).2 :=
  frame_step_write st live _ rfl rfl

theorem frame_step_fsub (a b : Nat) (live : Bool) (st : BState) :
    FrameStep st (ins_fsub a b live st).2 :=
  frame_step_write st live _ rfl rfl

theorem frame_step_fcmp (a b : Nat) (live : Bool) (st : BState) :
    FrameStep st (ins_fcmp_eq a b live st).2 :=
  frame_step_write st live _ rfl rfl

theorem frame_step_stack_load (t : CTy) (slot : Nat) (off : Int) (live : Bool)
    (st : BState) : FrameStep st (ins_stack_load t slot off live st).2 :=
  frame_step_write st live _ rfl rfl

theorem frame_step_stack_addr (t : CTy) (slot : Nat) (off : Int) (live : Bool)
    (st : BState) : FrameStep st (ins_stack_addr t slot off live st).2 :=
  frame_step_write st live _ rfl rfl

theorem frame_step_load (t : CTy) (p : Nat) (off : Int) (live : Bool) (st : BState) :
    FrameStep st (ins_load t p off live st).2 :=
  frame_step_write st live _ rfl rfl

theorem frame_step_load_complex (t : CTy) (p o : Nat) (off : Int) (live : Bool)
    (st : BState) : FrameStep st (ins_load_complex t p o off live st).2 :=
  frame_step_write st live _ rfl rfl

theorem frame_step_call (f : Nat) (args : List Nat) (live : Bool) (st : BState) :
    FrameStep st (ins_call f args live st).2 :=
  frame_step_write st live _ rfl rfl

theorem frame_step_call_indirect (sig : Sig) (callee : Nat) (args : List Nat)
    (live : Bool) (st : BState) : FrameStep st (ins_call_indirect sig callee args live st).2 :=
  frame_step_write st live _ rfl rfl

theorem frame_step_func_addr (t : CTy) (f : Nat) (live : Bool) (st : BState) :
    FrameStep st (ins_func_addr t f live st).2 :=
  frame_step_write st live _ rfl rfl

theorem frame_step_use_var (live : Bool) (i : Nat) (st : BState) :
    FrameStep st (use_var live i st).2 :=
  frame_step_write st live _ rfl rfl

theorem frame_step_stack_store (v slot : Nat) (off : Int) (live : Bool) (st : BState) :
    FrameStep st (ins_stack_store v slot off live st) :=
  ⟨le_refl _, fun _ _ => rfl⟩

theorem frame_step_store (v p : Nat) (off : Int) (live : Bool) (st : BState) :
    FrameStep st (ins_store v p off live st) :=
  ⟨le_refl _, fun _ _ => rfl⟩

theorem frame_step_store_complex (v p o : Nat) (off : Int) (live : Bool) (st : BState) :
    FrameStep st (ins_store_complex v p o off live st) :=
  ⟨le_refl _, fun _ _ => rfl⟩

theorem frame_step_emit_jump (b : Nat) (st : BState) : FrameStep st (emit_jump b st) :=
  ⟨le_refl _, fun _ _ => rfl⟩

theorem frame_step_emit_brnz (v b : Nat) (st : BState) : FrameStep st (emit_brnz v b st) :=
  ⟨le_refl _, fun _ _ => rfl⟩

theorem frame_step_emit (i : Instr) (st : BState) : FrameStep st (st.emit i) :=
  ⟨le_refl _, fun _ _ => rfl⟩

theorem frame_step_create_block (st : BState) : FrameStep st (create_block st).2 :=
  ⟨le_refl _, fun _ _ => rfl⟩

theorem frame_step_switch_block (b : Nat) (st : BState) :
    FrameStep st (switch_to_block b st) :=
  ⟨le_refl _, fun _ _ => rfl⟩

theorem frame_step_declare_var (i : Nat) (t : CTy) (st : BState) :
    FrameStep st (declare_var i t st) :=
  ⟨le_refl _, fun _ _ => rfl⟩

theorem frame_step_def_var (live : Bool) (i v : Nat) (st : BState) :
    FrameStep st (def_var live i v st) :=
  ⟨le_refl _, fun _ _ => rfl⟩

theorem frame_step_create_slot (size : Nat) (st : BState) :
    FrameStep st (create_stack_slot size st).2 :=
  ⟨le_refl _, fun _ _ => rfl⟩

theorem frame_step_malloc (env : Env) (live : Bool) (st : BState) (size : Nat) :
    FrameStep st (call_malloc env live st size).2 := by
  refine ⟨Nat.le_add_right _ 2, fun k hk => ?_⟩
  show alist_get (write_if live (st.val_ctr + 1) (RVal.PtrV (heap_addr st.alloc_ctr))
    (write_if live st.val_ctr (RVal.IntV (size : Int)) st.env)) k = alist_get st.env k
  rw [alist_get_write_if_ne _ _ _ _ _ (by omega), alist_get_write_if_ne _ _ _ _ _ (by omega)]

theorem frame_step_list_set_in_place (env : Env) (lp idx el : Nat) (elemL : Layout)
    (live : Bool) (st : BState) :
    FrameStep st (list_set_in_place env lp idx el elemL live st).2 := by
  unfold list_set_in_place
  exact frame_step_trans (frame_step_iconst _ _ _ _)
    (frame_step_trans (frame_step_imul _ _ _ _) (frame_step_store_complex _ _ _ _ _ _))



theorem frame_build_stores {build : BuildFn} (hb : FrameOK build) (env : Env)
    (live : Bool) :
    ∀ (l : List (Symbol × Layout × Expr)) (scope : Scope) (st : BState)
      (scope' : Scope) (st' : BState),
    build_stores build env scope live st l = .ok (scope', st') →
    scope_val_ok st.val_ctr scope →
    FrameStep st st' ∧ scope_val_ok st'.val_ctr scope' := by
  intro l
  induction l with
  | nil =>
      intro scope st scope' st' h hsc
      cases h
      exact ⟨frame_step_refl _, hsc⟩
  | cons hd tl ih =>
      intro scope st scope' st' h hsc
      obtain ⟨name, layout, expr⟩ := hd
      simp only [build_stores] at h
      cases hb1 : build scope live st expr with
      | error e => rw [hb1] at h; simp at h
      | ok p =>
          obtain ⟨val, st1⟩ := p
          rw [hb1] at h
          simp only [except_ok_bind] at h
          obtain ⟨hf1, _⟩ := hb scope live st expr val st1 hb1 hsc
          have hst2 : FrameStep st1 (ins_stack_store val st1.slot_ctr 0 live
              (create_stack_slot (layout.stack_size env.ptr_bytes) st1).2) :=
            frame_step_trans (frame_step_create_slot _ _) (frame_step_stack_store _ _ _ _ _)
          have hsc2 : scope_val_ok st1.val_ctr
              (Scope.insert scope name (.Stack (type_from_layout layout) st1.slot_ctr)) :=
            scope_val_ok_insert (scope_val_ok_mono hsc hf1.1) name trivial
          obtain ⟨hf3, hsc3⟩ := ih _ _ _ _ h (by
            refine scope_val_ok_mono hsc2 ?_
            exact hst2.1)
          exact ⟨frame_step_trans hf1 (frame_step_trans hst2 hf3), hsc3⟩

theorem frame_lower_call_args {build : BuildFn} (hb : FrameOK build) (scope : Scope)
    (live : Bool) :
    ∀ (args : List (Expr × Layout)) (st : BState) (vs : List Nat) (st' : BState),
    lower_call_args build scope live st args = .ok (vs, st') →
    scope_val_ok st.val_ctr scope →
    FrameStep st st' ∧ ∀ v ∈ vs, v < st'.val_ctr := by
  intro args
  induction args with
  | nil =>
      intro st vs st' h _
      cases h
      exact ⟨frame_step_refl _, by simp⟩
  | cons hd tl ih =>
      intro st vs st' h hsc
      obtain ⟨arg, layout⟩ := hd
      simp only [lower_call_args] at h
      cases hb1 : build scope live st arg with
      | error e => rw [hb1] at h; simp at h
      | ok p =>
          obtain ⟨v1, st1⟩ := p
          rw [hb1] at h
          simp only [except_ok_bind] at h
          cases hb2 : lower_call_args build scope live st1 tl with
          | error e => rw [hb2] at h; simp at h
          | ok q =>
              obtain ⟨vs1, st2⟩ := q
              rw [hb2] at h
              simp only [except_ok_bind] at h
              cases h
              obtain ⟨hf1, hv1⟩ := hb scope live st arg v1 st1 hb1 hsc
              obtain ⟨hf2, hvs⟩ := ih _ _ _ hb2 (scope_val_ok_mono hsc hf1.1)
              refine ⟨frame_step_trans hf1 hf2, ?_⟩
              intro v hv
              rcases List.mem_cons.mp hv with rfl | hv
              · exact lt_of_lt_of_le hv1 hf2.1
              · exact hvs v hv

theorem frame_lower_exprs {build : BuildFn} (hb : FrameOK build) (scope : Scope)
    (live : Bool) :
    ∀ (args : List Expr) (st : BState) (vs : List Nat) (st' : BState),
    lower_exprs build scope live st args = .ok (vs, st') →
    scope_val_ok st.val_ctr scope →
    FrameStep st st' ∧ ∀ v ∈ vs, v < st'.val_ctr := by
  intro args
  induction args with
  | nil =>
      intro st vs st' h _
      cases h
      exact ⟨frame_step_refl _, by simp⟩
  | cons arg tl ih =>
      intro st vs st' h hsc
      simp only [lower_exprs] at h
      cases hb1 : build scope live st arg with
      | error e => rw [hb1] at h; simp at h
      | ok p =>
          obtain ⟨v1, st1⟩ := p
          rw [hb1] at h
          simp only [except_ok_bind] at h
          cases hb2 : lower_exprs build scope live st1 tl with
          | error e => rw [hb2] at h; simp at h
          | ok q =>
              obtain ⟨vs1, st2⟩ := q
              rw [hb2] at h
              simp only [except_ok_bind] at h
              cases h
              obtain ⟨hf1, hv1⟩ := hb scope live st arg v1 st1 hb1 hsc
              obtain ⟨hf2, hvs⟩ := ih _ _ _ hb2 (scope_val_ok_mono hsc hf1.1)
              refine ⟨frame_step_trans hf1 hf2, ?_⟩
              intro v hv
              rcases List.mem_cons.mp hv with rfl | hv
              · exact lt_of_lt_of_le hv1 hf2.1
              · exact hvs v hv

theorem frame_struct_fields {build : BuildFn} (hb : FrameOK build) (scope : Scope)
    (live : Bool) (slot : Nat) :
    ∀ (l : List (Nat × Expr)) (i : Nat) (st : BState) (st' : BState),
    store_struct_fields build scope live slot i st l = .ok st' →
    scope_val_ok st.val_ctr scope →
    FrameStep st st' := by
  intro l
  induction l with
  | nil =>
      intro i st st' h _
      cases h
      exact frame_step_refl _
  | cons hd tl ih =>
      intro i st st' h hsc
      obtain ⟨name, inner⟩ := hd
      simp only [store_struct_fields] at h
      cases hb1 : build scope live st inner with
      | error e => rw [hb1] at h; simp at h
      | ok p =>
          obtain ⟨val, st1⟩ := p
          rw [hb1] at h
          simp only [except_ok_bind] at h
          obtain ⟨hf1, _⟩ := hb scope live st inner val st1 hb1 hsc
          cases inner
          case IntLit n =>
            simp only [except_ok_bind] at h
            split at h
            · have hf2 : FrameStep st1 (ins_stack_store val slot (i * 8 : Nat) live st1) :=
                frame_step_stack_store _ _ _ _ _
              have hf3 := ih _ _ _ h (scope_val_ok_mono hsc (le_trans hf1.1 hf2.1))
              exact frame_step_trans hf1 (frame_step_trans hf2 hf3)
            · simp at h
          all_goals (simp only [except_error_bind] at h; exact Except.noConfusion h)

theorem frame_array_elems {build : BuildFn} (hb : FrameOK build) (scope : Scope)
    (live : Bool) (ptr eb : Nat) :
    ∀ (l : List Expr) (i : Nat) (st : BState) (st' : BState),
    store_array_elems build scope live ptr eb i st l = .ok st' →
    scope_val_ok st.val_ctr scope →
    FrameStep st st' := by
  intro l
  induction l with
  | nil =>
      intro i st st' h _
      cases h
      exact frame_step_refl _
  | cons elem tl ih =>
      intro i st st' h hsc
      simp only [store_array_elems] at h
      cases hb1 : build scope live st elem with
      | error e => rw [hb1] at h; simp at h
      | ok p =>
          obtain ⟨val, st1⟩ := p
          rw [hb1] at h
          simp only [except_ok_bind] at h
          obtain ⟨hf1, _⟩ := hb scope live st elem val st1 hb1 hsc
          have hf2 : FrameStep st1 (ins_store val ptr
              (i32_wrap (i32_wrap (eb : Int) * i32_wrap (i : Int))) live st1) :=
            frame_step_store _ _ _ _ _
          have hf3 := ih _ _ _ h (scope_val_ok_mono hsc (le_trans hf1.1 hf2.1))
          exact frame_step_trans hf1 (frame_step_trans hf2 hf3)

theorem frame_register_switch :
    ∀ (brs : List (Nat × Expr)) (st : BState) (sw : List (Nat × Nat))
      (bl : List Nat) (sw' : List (Nat × Nat)) (bl' : List Nat) (st' : BState),
    register_switch_blocks st sw bl brs = .ok (sw', bl', st') →
    st'.val_ctr = st.val_ctr ∧ st'.env = st.env ∧ st'.slot_ctr = st.slot_ctr ∧
    st'.slots = st.slots ∧ st'.var_vals = st.var_vals ∧
    st'.alloc_ctr = st.alloc_ctr ∧ st'.mem = st.mem ∧ st'.cur_block = st.cur_block ∧
    st'.log = st.log := by
  intro brs
  induction brs with
  | nil =>
      intro st sw bl sw' bl' st' h
      cases h
      exact ⟨rfl, rfl, rfl, rfl, rfl, rfl, rfl, rfl, rfl⟩
  | cons hd tl ih =>
      intro st sw bl sw' bl' st' h
      obtain ⟨int, expr⟩ := hd
      simp only [register_switch_blocks] at h
      split at h
      · simp at h
      · exact ih (create_block st).2 _ _ _ _ _ h

theorem build_stores_append (build : BuildFn) (env : Env) (live : Bool)
    (l1 l2 : List (Symbol × Layout × Expr)) :
    ∀ (scope : Scope) (st : BState),
    build_stores build env scope live st (l1 ++ l2) =
    (build_stores build env scope live st l1).bind
      (fun p => build_stores build env p.1 live p.2 l2) := by
  induction l1 with
  | nil => intro scope st; rfl
  | cons hd tl ih =>
      intro scope st
      obtain ⟨name, layout, expr⟩ := hd
      simp only [List.cons_append, build_stores]
      cases hb : build scope live st expr with
      | error e => simp [hb, Except.bind]
      | ok p =>
          obtain ⟨val, st1⟩ := p
          simp [hb, Except.bind, ih]

theorem build_stores_get_not_mem (build : BuildFn) (env : Env) (live : Bool)
    (l : List (Symbol × Layout × Expr)) :
    ∀ (scope : Scope) (st : BState) (scope' : Scope) (st' : BState),
    build_stores build env scope live st l = .ok (scope', st') →
    ∀ x, x ∉ l.map (fun t => t.1) → Scope.get scope' x = Scope.get scope x := by
  induction l with
  | nil =>
      intro scope st scope' st' h x _
      simp only [build_stores] at h
      cases h
      rfl
  | cons hd tl ih =>
      intro scope st scope' st' h x hx
      obtain ⟨name, layout, expr⟩ := hd
      simp only [build_stores] at h
      cases hb : build scope live st expr with
      | error e => rw [hb] at h; simp at h
      | ok p =>
          obtain ⟨val, st1⟩ := p
          rw [hb] at h
          simp only [except_ok_bind] at h
          have hx1 : x ∉ tl.map (fun t => t.1) := by
            intro hc; exact hx (by simp [hc])
          have hxname : x ≠ name := by
            intro hc; exact hx (by simp [hc])
          have := ih _ _ _ _ h x hx1
          rw [this, scope_get_insert_other _ _ _ _ hxname]

theorem build_stores_get_shape (build : BuildFn) (env : Env) (live : Bool)
    (l : List (Symbol × Layout × Expr)) :
    ∀ (scope : Scope) (st : BState) (scope' : Scope) (st' : BState),
    build_stores build env scope live st l = .ok (scope', st') →
    ∀ z e, Scope.get scope' z = some e →
      Scope.get scope z = some e ∨
        (z ∈ l.map (fun t => t.1) ∧ ∃ ty slot, e = ScopeEntry.Stack ty slot) := by
  induction l with
  | nil =>
      intro scope st scope' st' h z e hz
      simp only [build_stores] at h
      cases h
      exact Or.inl hz
  | cons hd tl ih =>
      intro scope st scope' st' h z e hz
      obtain ⟨name, layout, expr⟩ := hd
      simp only [build_stores] at h
      cases hb : build scope live st expr with
      | error er => rw [hb] at h; simp at h
      | ok p =>
          obtain ⟨val, st1⟩ := p
          rw [hb] at h
          simp only [except_ok_bind] at h
          rcases ih _ _ _ _ h z e hz with h1 | ⟨hmem, hstack⟩
          · by_cases hzname : name = z
            · subst hzname
              rw [scope_get_insert_same] at h1
              exact Or.inr ⟨by simp, by cases h1; exact ⟨_, _, rfl⟩⟩
            · rw [scope_get_insert_other _ _ _ _ (fun hc => hzname hc.symm)] at h1
              exact Or.inl h1
          · exact Or.inr ⟨by simp [hmem], hstack⟩

/-- Claim C1: in a binding sequence, each initializer is lowered under
the scope as it stands before that binding — after processing the
earlier bindings, the scope consists of the incoming bindings plus Stack
descriptors for exactly the earlier names, and a symbol not bound by the
base scope nor by an earlier binding is still unresolved; a binding
whose initializer loads such a symbol (one introduced only by this or a
later binding of the same sequence) makes the whole sequence lowering
fail fatally with the unresolved-symbol error — it never silently
resolves. -/
theorem store_forward_reference_fatal (fuel : Nat) (env : Env) (scope : Scope)
    (live : Bool) (st : BState) (pre rest : List (Symbol × Layout × Expr))
    (y x : Symbol) (lay : Layout) (ret : Expr) (scope₁ : Scope) (st₁ : BState)
    (hpre : build_stores (fun sc lv s e => build_expr (fuel + 1) env sc lv s e)
        env scope live st pre = .ok (scope₁, st₁))
    (hbase : Scope.get scope x = none)
    (hnotpre : x ∉ pre.map (fun t => t.1)) :
    Scope.get scope₁ x = none ∧
    (∀ z e, Scope.get scope₁ z = some e →
       Scope.get scope z = some e ∨
         (z ∈ pre.map (fun t => t.1) ∧ ∃ ty slot, e = ScopeEntry.Stack ty slot)) ∧
    build_expr (fuel + 2) env scope live st
        (.Store (pre ++ (y, lay, .Load x) :: rest) ret) =
      .error (.UnresolvedSymbol x) := by
  have h1 : Scope.get scope₁ x = none := by
    rw [build_stores_get_not_mem _ _ _ _ _ _ _ _ hpre x hnotpre]; exact hbase
  refine ⟨h1, fun z e hz => build_stores_get_shape _ _ _ _ _ _ _ _ hpre z e hz, ?_⟩
  show build_expr (fuel + 1 + 1) env scope live st _ = _
  rw [build_expr_store, build_stores_append, hpre]
  show (build_stores _ env scope₁ live st₁ _).bind _ = _
  simp only [build_stores, build_expr_load, h1]
  rfl

theorem store_forward_reference_fatal_witness :
    (build_stores (fun sc lv s e => build_expr 1 ⟨8, 99⟩ sc lv s e) ⟨8, 99⟩ [] true
        BState.init [] = .ok ([], BState.init) ∧
     Scope.get [] 7 = none ∧ (7 : Nat) ∉ ([] : List (Symbol × Layout × Expr)).map
        (fun t => t.1)) ∧
    build_expr 2 ⟨8, 99⟩ [] true BState.init
        (.Store ([] ++ (5, .Int64, .Load 7) :: [(7, .Int64, .IntLit 1)]) (.Load 5)) =
      .error (.UnresolvedSymbol 7) := by
  refine ⟨⟨rfl, rfl, by simp⟩, ?_⟩
  exact (store_forward_reference_fatal 0 ⟨8, 99⟩ [] true BState.init []
    [(7, .Int64, .IntLit 1)] 5 7 .Int64 (.Load 5) [] BState.init rfl rfl (by simp)).2.2

theorem list_set_fresh_buffer_witness :
    ∃ iv sti ev ste,
      build_expr 1 ⟨8, 99⟩ [] true
          (call_malloc ⟨8, 99⟩ true BState.init
            (Layout.stack_size 8 .Int64 * 10 + 1)).2 (.IntLit 1) = .ok (iv, sti) ∧
      build_expr 1 ⟨8, 99⟩ [] true sti (.IntLit 5) = .ok (ev, ste) := by
  obtain ⟨iv, sti, ev, ste, h1, h2, _, _⟩ :=
    (list_set_fresh_buffer 1 ⟨8, 99⟩ [] true BState.init (.IntLit 0) (.IntLit 1)
      (.IntLit 5) .Int64 .Int64 .Int64).2 _ _ rfl
  exact ⟨iv, sti, ev, ste, h1, h2⟩

/-- Claim C9: lowering a non-empty string literal calls the external
allocation primitive exactly once, with the payload byte length plus one
sentinel byte, then emits one store per byte at strictly increasing
offsets from the returned address starting at offset 0, stores a
trailing zero byte immediately after the payload, and evaluates to the
allocated address; lowering a non-empty array literal (of scalar-literal
elements, which emit a single constant each) behaves the same with
offsets `elem_bytes * index`; lowering an empty string or array literal
fails fatally.  The side conditions bound the literal so that the 32-bit
offset arithmetic does not wrap. -/
theorem heap_literal_lowering :
    (∀ (fuel : Nat) (env : Env) (scope : Scope) (live : Bool) (st : BState)
       (bytes : List Nat), bytes ≠ [] → bytes.length + 1 < 2 ^ 31 →
      ∃ st',
        build_expr (fuel + 1) env scope live st (.Str bytes) =
          .ok (st.val_ctr + 1, st') ∧
        st'.log = st.log ++
          expected_str_trace st.cur_block env.malloc st.val_ctr bytes ∧
        storemem_offsets (expected_str_trace st.cur_block env.malloc st.val_ctr bytes) =
          (List.range bytes.length).map Int.ofNat ++ [Int.ofNat bytes.length] ∧
        List.Pairwise (· < ·)
          (storemem_offsets (expected_str_trace st.cur_block env.malloc st.val_ctr bytes)) ∧
        call_count (expected_str_trace st.cur_block env.malloc st.val_ctr bytes) = 1 ∧
        (live = true →
          BState.getVal st' (st.val_ctr + 1) = .PtrV (heap_addr st.alloc_ctr))) ∧
    (∀ (fuel : Nat) (env : Env) (scope : Scope) (live : Bool) (st : BState)
       (elemL : Layout) (elems : List Expr), elems ≠ [] →
      (∀ e ∈ elems, (scalar_lit_instr e).isSome) →
      elemL.stack_size env.ptr_bytes * elems.length + 1 < 2 ^ 31 →
      elems.length < 2 ^ 31 → 0 < elemL.stack_size env.ptr_bytes →
      ∃ st',
        build_expr (fuel + 2) env scope live st (.Array elemL elems) =
          .ok (st.val_ctr + 1, st') ∧
        st'.log = st.log ++ expected_array_trace st.cur_block env.malloc st.val_ctr
          (elemL.stack_size env.ptr_bytes) elems ∧
        storemem_offsets (expected_array_trace st.cur_block env.malloc st.val_ctr
            (elemL.stack_size env.ptr_bytes) elems) =
          (List.range elems.length).map
            (fun j => Int.ofNat (elemL.stack_size env.ptr_bytes * j)) ++
          [Int.ofNat (elemL.stack_size env.ptr_bytes * elems.length)] ∧
        List.Pairwise (· < ·) (storemem_offsets (expected_array_trace st.cur_block
          env.malloc st.val_ctr (elemL.stack_size env.ptr_bytes) elems)) ∧
        call_count (expected_array_trace st.cur_block env.malloc st.val_ctr
          (elemL.stack_size env.ptr_bytes) elems) = 1 ∧
        (live = true →
          BState.getVal st' (st.val_ctr + 1) = .PtrV (heap_addr st.alloc_ctr))) ∧
    (∀ (fuel : Nat) (env : Env) (scope : Scope) (live : Bool) (st : BState),
      build_expr (fuel + 1) env scope live st (.Str []) = .error .EmptyStr) ∧
    (∀ (fuel : Nat) (env : Env) (scope : Scope) (live : Bool) (st : BState)
       (elemL : Layout),
      build_expr (fuel + 1) env scope live st (.Array elemL []) = .error .EmptyArray) := by
  refine ⟨?_, ?_, fun _ _ _ _ _ => rfl, fun _ _ _ _ _ _ => rfl⟩
  · intro fuel env scope live st bytes hne hlen
    obtain ⟨st', h1, h2, h3⟩ := str_lowering fuel env scope live st bytes hne hlen
    exact ⟨st', h1, h2, str_trace_offsets _ _ _ _,
      str_trace_offsets_increasing _ _ _ _, str_trace_call_count _ _ _ _, h3⟩
  · intro fuel env scope live st elemL elems hne hs hlen hcnt hpos
    obtain ⟨st', h1, h2, h3⟩ :=
      array_lowering fuel env scope live st elemL elems hne hs hlen hcnt
    exact ⟨st', h1, h2, array_trace_offsets _ _ _ _ _,
      array_trace_offsets_increasing _ _ _ _ _ hpos,
      array_trace_call_count _ _ _ _ _ hs, h3⟩

theorem heap_literal_lowering_witness :
    (([104, 105] : List Nat) ≠ [] ∧ ([104, 105] : List Nat).length + 1 < 2 ^ 31) ∧
    (∃ st',
      build_expr 1 ⟨8, 99⟩ [] true BState.init (.Str [104, 105]) =
        .ok (BState.init.val_ctr + 1, st') ∧
      st'.log = BState.init.log ++ expected_str_trace BState.init.cur_block 99
        BState.init.val_ctr [104, 105] ∧
      storemem_offsets (expected_str_trace BState.init.cur_block 99
          BState.init.val_ctr [104, 105]) =
        (List.range ([104, 105] : List Nat).length).map Int.ofNat ++
          [Int.ofNat ([104, 105] : List Nat).length] ∧
      List.Pairwise (· < ·) (storemem_offsets (expected_str_trace BState.init.cur_block
        99 BState.init.val_ctr [104, 105])) ∧
      call_count (expected_str_trace BState.init.cur_block 99 BState.init.val_ctr
        [104, 105]) = 1 ∧
      (true = true →
        BState.getVal st' (BState.init.val_ctr + 1) =
          .PtrV (heap_addr BState.init.alloc_ctr))) := by
  exact ⟨⟨by decide, by decide⟩,
    heap_literal_lowering.1 0 ⟨8, 99⟩ [] true BState.init [104, 105]
      (by decide) (by decide)⟩

/-- Claim C3 (counterexample to the claim as stated): a call to the
`LIST_SET` builtin with four arguments (its signature takes three) is
not a fatal mismatch — it lowers successfully, because the `LIST_SET`
arm of the dispatch table contains no argument-count assertion. -/
theorem list_set_no_arity_assert :
    (∃ v st', build_expr 2 ⟨8, 99⟩ [] true BState.init
        (.CallByName Symbol.LIST_SET
          [(.IntLit 0, .List .Int64), (.IntLit 1, .Int64), (.IntLit 5, .Int64),
           (.IntLit 9, .Int64)]) = .ok (v, st')) ∧
    (4 : Nat) ≠ 3 := by
  exact ⟨⟨_, _, rfl⟩, by decide⟩

/-- Claim C3 (amended): every entry of the builtin dispatch table except
`LIST_SET` asserts its expected argument count, and a call to one of
those builtins with the wrong number of arguments fails fatally with the
assertion error; the `LIST_SET` entry performs no arity assertion — a
call with extra arguments lowers without error, and a call with fewer
than three arguments fails only through an out-of-bounds argument
access, not an arity assertion. -/
theorem builtin_arity_asserts :
    (∀ (fuel : Nat) (env : Env) (symbol k : Nat) (args : List (Expr × Layout))
       (scope : Scope) (live : Bool) (st : BState),
       (symbol, k) ∈ asserted_arities → args.length ≠ k →
       build_expr (fuel + 1) env scope live st (.CallByName symbol args) =
         .error .DebugAssertFailed) ∧
    (∃ v st', build_expr 2 ⟨8, 99⟩ [] true BState.init
        (.CallByName Symbol.LIST_SET
          [(.IntLit 0, .List .Int64), (.IntLit 1, .Int64), (.IntLit 5, .Int64),
           (.IntLit 9, .Int64)]) = .ok (v, st')) ∧
    build_expr 2 ⟨8, 99⟩ [] true BState.init
        (.CallByName Symbol.LIST_SET [(.IntLit 0, .List .Int64), (.IntLit 1, .Int64)]) =
      .error .ArgIndexOutOfBounds := by
  refine ⟨?_, ⟨_, _, rfl⟩, rfl⟩
  intro fuel env symbol k args scope live st hmem hlen
  have hbeq : (args.length == k) = false := beq_eq_false_iff_ne.mpr hlen
  fin_cases hmem <;>
    simp_all [build_expr, call_by_name, debug_assert, Symbol.INT_ADD, Symbol.NUM_ADD,
      Symbol.FLOAT_ADD, Symbol.INT_SUB, Symbol.NUM_SUB, Symbol.FLOAT_SUB,
      Symbol.NUM_MUL, Symbol.NUM_NEG, Symbol.INT_EQ_I64, Symbol.INT_EQ_I8,
      Symbol.INT_EQ_I1, Symbol.FLOAT_EQ, Symbol.LIST_GET_UNSAFE,
      Symbol.LIST_SET, Symbol.LIST_SET_IN_PLACE, asserted_arities]

theorem builtin_arity_asserts_witness :
    ((Symbol.INT_ADD, 2) ∈ asserted_arities ∧ ([] : List (Expr × Layout)).length ≠ 2) ∧
    build_expr 1 ⟨8, 99⟩ [] true BState.init (.CallByName Symbol.INT_ADD []) =
      .error .DebugAssertFailed := by
  exact ⟨⟨by decide, by decide⟩,
    builtin_arity_asserts.1 0 ⟨8, 99⟩ Symbol.INT_ADD 2 [] [] true BState.init
      (by decide) (by decide)⟩

/-- Claim C4 (divergence witness): lowering a record whose single field
initializer is a float literal panics in the source (the field size is
inferred from the initializer's shape, which only handles integer
literals), although the field's Layout derives a concrete size of 8
bytes. -/
theorem struct_field_size_from_expr_shape :
    build_expr 2 ⟨8, 99⟩ [] true BState.init
        (.Struct (.Struct [.Float64]) [(1, .FloatLit 0)]) =
      .error .StructFieldOffsetUnknown ∧
    Layout.stack_size 8 .Float64 = 8 := by
  exact ⟨rfl, rfl⟩

theorem bind_eq_ok {α β : Type} {X : Except LowerErr α} {k : α → Except LowerErr β}
    {r : β} : (X >>= k) = .ok r ↔ ∃ a, X = .ok a ∧ k a = .ok r := by
  cases X with
  | error e => simp [except_error_bind]
  | ok a => simp [except_ok_bind]

theorem bindE_eq_ok {α β : Type} {X : Except LowerErr α} {k : α → Except LowerErr β}
    {r : β} : X.bind k = .ok r ↔ ∃ a, X = .ok a ∧ k a = .ok r := bind_eq_ok

set_option maxHeartbeats 1000000 in
theorem frame_branch2 {build : BuildFn} (hb : FrameOK build) (scope : Scope)
    (live : Bool) (st : BState) (br : Branch2) (v : Nat) (st' : BState)
    (h : build_branch2 build scope live st br = .ok (v, st'))
    (hsc : scope_val_ok st.val_ctr scope) :
    FrameStep st st' ∧ v < st'.val_ctr := by
  simp only [build_branch2, create_block_eq] at h
  rw [bind_eq_ok] at h
  obtain ⟨⟨cond, stc⟩, hc, h⟩ := h
  obtain ⟨hfc, -⟩ := hb _ _ _ _ _ _ hc hsc
  split at h
  rotate_left
  · exact Except.noConfusion h
  try simp only [except_ok_bind] at h
  split at h
  rotate_left
  · -- live = false: taken is ok false
    try simp only [except_ok_bind] at h
    rw [bind_eq_ok] at h
    obtain ⟨⟨v1, stp⟩, hp, h⟩ := h
    obtain ⟨hfp, -⟩ := hb _ _ _ _ _ _ hp (scope_val_ok_mono hsc hfc.1)
    rw [bind_eq_ok] at h
    obtain ⟨⟨v2, stq⟩, hq, h⟩ := h
    obtain ⟨hfq, -⟩ := hb _ _ _ _ _ _ hq
      (scope_val_ok_mono hsc (le_trans hfc.1 hfp.1))
    have hpair := Except.ok.inj h
    have hv := congrArg Prod.fst hpair
    have hst := congrArg Prod.snd hpair
    subst hv hst
    refine ⟨?_, Nat.lt_succ_self _⟩
    refine frame_step_trans ?_ (frame_step_use_var _ _ _)
    refine frame_step_trans ?_ (frame_step_switch_block _ _)
    refine frame_step_trans ?_ (frame_step_emit_jump _ _)
    refine frame_step_trans ?_ (frame_step_def_var _ _ _ _)
    exact frame_step_trans (⟨le_refl _, fun _ _ => rfl⟩ : FrameStep st _)
      (frame_step_trans hfc (frame_step_trans
        (⟨le_refl _, fun _ _ => rfl⟩ : FrameStep stc _)
        (frame_step_trans hfp (frame_step_trans
          (⟨le_refl _, fun _ _ => rfl⟩ : FrameStep stp _) hfq))))
  · -- live = true: split on the branch condition value
    split at h
    · try simp only [except_ok_bind] at h
      rw [bind_eq_ok] at h
      obtain ⟨⟨v1, stp⟩, hp, h⟩ := h
      obtain ⟨hfp, -⟩ := hb _ _ _ _ _ _ hp (scope_val_ok_mono hsc hfc.1)
      rw [bind_eq_ok] at h
      obtain ⟨⟨v2, stq⟩, hq, h⟩ := h
      obtain ⟨hfq, -⟩ := hb _ _ _ _ _ _ hq
        (scope_val_ok_mono hsc (le_trans hfc.1 hfp.1))
      have hpair := Except.ok.inj h
      have hv := congrArg Prod.fst hpair
      have hst := congrArg Prod.snd hpair
      subst hv hst
      refine ⟨?_, Nat.lt_succ_self _⟩
      refine frame_step_trans ?_ (frame_step_use_var _ _ _)
      refine frame_step_trans ?_ (frame_step_switch_block _ _)
      refine frame_step_trans ?_ (frame_step_emit_jump _ _)
      refine frame_step_trans ?_ (frame_step_def_var _ _ _ _)
      exact frame_step_trans (⟨le_refl _, fun _ _ => rfl⟩ : FrameStep st _)
        (frame_step_trans hfc (frame_step_trans
          (⟨le_refl _, fun _ _ => rfl⟩ : FrameStep stc _)
          (frame_step_trans hfp (frame_step_trans
            (⟨le_refl _, fun _ _ => rfl⟩ : FrameStep stp _) hfq))))
    · exact Except.noConfusion h

theorem frame_switch_branches {build : BuildFn} (hb : FrameOK build) (scope : Scope)
    (live : Bool) (ret ret_block : Nat) (selected : Option Nat) :
    ∀ (brs : List ((Nat × Expr) × Nat)) (st st' : BState),
    build_switch_branches build scope live ret ret_block selected st brs = .ok st' →
    scope_val_ok st.val_ctr scope → FrameStep st st' := by
  intro brs
  induction brs with
  | nil =>
      intro st st' h hsc
      cases h
      exact frame_step_refl _
  | cons hd tl ih =>
      intro st st' h hsc
      obtain ⟨⟨i, expr⟩, block⟩ := hd
      simp only [build_switch_branches] at h
      rw [bind_eq_ok] at h
      obtain ⟨⟨value, stb⟩, hbld, h⟩ := h
      obtain ⟨hfb, -⟩ := hb _ _ _ _ _ _ hbld hsc
      have htail := ih _ _ h (scope_val_ok_mono hsc hfb.1)
      exact frame_step_trans (⟨le_refl _, fun _ _ => rfl⟩ : FrameStep st _)
        (frame_step_trans hfb
          (frame_step_trans (⟨le_refl _, fun _ _ => rfl⟩ : FrameStep stb _) htail))

set_option maxHeartbeats 1000000 in
theorem frame_build_switch {build : BuildFn} (hb : FrameOK build) (scope : Scope)
    (live : Bool) (st : BState) (sa : SwitchArgs) (v : Nat) (st' : BState)
    (h : build_switch build scope live st sa = .ok (v, st'))
    (hsc : scope_val_ok st.val_ctr scope) :
    FrameStep st st' ∧ v < st'.val_ctr := by
  simp only [build_switch, create_block_eq] at h
  rw [bind_eq_ok] at h
  obtain ⟨⟨sw, bl, str⟩, hreg, h⟩ := h
  obtain ⟨hr1, hr2, -⟩ := frame_register_switch _ _ _ _ _ _ _ hreg
  rw [bind_eq_ok] at h
  obtain ⟨⟨cond, stc⟩, hc, h⟩ := h
  have hv1 : str.val_ctr = st.val_ctr := hr1
  have hv2 : str.env = st.env := hr2
  have hscr : scope_val_ok str.val_ctr scope := by
    rw [hv1]; exact hsc
  obtain ⟨hfc, -⟩ := hb _ _ _ _ _ _ hc hscr
  have hfr : FrameStep st str :=
    ⟨Nat.le_of_eq hv1.symm, fun k _ => by rw [hv2]⟩
  split at h
  rotate_left
  · -- live = false: selected is ok none
    try simp only [except_ok_bind] at h
    rw [bind_eq_ok] at h
    obtain ⟨st1, h1, h⟩ := h
    have hf1 := frame_switch_branches hb scope live 0 _ _ _ _ _ h1
      (scope_val_ok_mono hsc (le_trans (Nat.le_of_eq hv1.symm) hfc.1))
    rw [bind_eq_ok] at h
    obtain ⟨st2, h2, h⟩ := h
    have hf2 := frame_switch_branches hb scope live 0 _ _ _ _ _ h2
      (scope_val_ok_mono hsc
        (le_trans (Nat.le_of_eq hv1.symm) (le_trans hfc.1 hf1.1)))
    have hpair := Except.ok.inj h
    have hv := congrArg Prod.fst hpair
    have hst := congrArg Prod.snd hpair
    subst hv hst
    refine ⟨?_, Nat.lt_succ_self _⟩
    refine frame_step_trans ?_ (frame_step_use_var _ _ _)
    refine frame_step_trans ?_ (frame_step_switch_block _ _)
    exact frame_step_trans hfr (frame_step_trans hfc
      (frame_step_trans (⟨le_refl _, fun _ _ => rfl⟩ : FrameStep stc _)
        (frame_step_trans hf1 hf2)))
  · -- live = true: split on the discriminant value
    split at h
    · try simp only [except_ok_bind] at h
      rw [bind_eq_ok] at h
      obtain ⟨st1, h1, h⟩ := h
      have hf1 := frame_switch_branches hb scope live 0 _ _ _ _ _ h1
        (scope_val_ok_mono hsc (le_trans (Nat.le_of_eq hv1.symm) hfc.1))
      rw [bind_eq_ok] at h
      obtain ⟨st2, h2, h⟩ := h
      have hf2 := frame_switch_branches hb scope live 0 _ _ _ _ _ h2
        (scope_val_ok_mono hsc
          (le_trans (Nat.le_of_eq hv1.symm) (le_trans hfc.1 hf1.1)))
      have hpair := Except.ok.inj h
      have hv := congrArg Prod.fst hpair
      have hst := congrArg Prod.snd hpair
      subst hv hst
      refine ⟨?_, Nat.lt_succ_self _⟩
      refine frame_step_trans ?_ (frame_step_use_var _ _ _)
      refine frame_step_trans ?_ (frame_step_switch_block _ _)
      exact frame_step_trans hfr (frame_step_trans hfc
        (frame_step_trans (⟨le_refl _, fun _ _ => rfl⟩ : FrameStep stc _)
          (frame_step_trans hf1 hf2)))
    · exact Except.noConfusion h

theorem frame_binop_arm {build : BuildFn} (hb : FrameOK build)
    {scope : Scope} {live : Bool} {st : BState} {args : List (Expr × Layout)}
    {v : Nat} {st' : BState} {n : Nat}
    (f : Nat → Nat → Bool → BState → Nat × BState)
    (hf : ∀ a b lv s, FrameStep s (f a b lv s).2 ∧ (f a b lv s).1 < (f a b lv s).2.val_ctr)
    (h : (do
      let _ ← debug_assert (args.length == n)
      let (a, st) ← build_arg build scope live st (← arg_at args 0)
      let (b, st) ← build_arg build scope live st (← arg_at args 1)
      Except.ok (f a b live st) : Except LowerErr (Nat × BState)) = Except.ok (v, st'))
    (hsc : scope_val_ok st.val_ctr scope) : FrameStep st st' ∧ v < st'.val_ctr := by
  rw [bind_eq_ok] at h
  obtain ⟨u, hda, h⟩ := h
  rw [bind_eq_ok] at h
  obtain ⟨p0, h0, h⟩ := h
  rw [bind_eq_ok] at h
  obtain ⟨⟨a, st1⟩, ha, h⟩ := h
  rw [bind_eq_ok] at h
  obtain ⟨p1, h1, h⟩ := h
  rw [bind_eq_ok] at h
  obtain ⟨⟨b, st2⟩, hbv, h⟩ := h
  simp only [build_arg] at ha hbv
  obtain ⟨hf1, -⟩ := hb _ _ _ _ _ _ ha hsc
  obtain ⟨hf2, -⟩ := hb _ _ _ _ _ _ hbv (scope_val_ok_mono hsc hf1.1)
  have hpair := Except.ok.inj h
  have hv := congrArg Prod.fst hpair
  have hst := congrArg Prod.snd hpair
  subst hv hst
  exact ⟨frame_step_trans hf1 (frame_step_trans hf2 (hf a b live st2).1),
    (hf a b live st2).2⟩

theorem call_by_name_def (build : BuildFn) (env : Env) (symbol : Symbol)
    (args : List (Expr × Layout)) (scope : Scope) (live : Bool) (st : BState) :
    call_by_name build env symbol args scope live st =
  (
  if symbol = Symbol.INT_ADD ∨ symbol = Symbol.NUM_ADD then do
    let _ ← debug_assert (args.length == 2)
    let (a, st) ← build_arg build scope live st (← arg_at args 0)
    let (b, st) ← build_arg build scope live st (← arg_at args 1)
    .ok (ins_iadd a b live st)
  else if symbol = Symbol.FLOAT_ADD then do
    let _ ← debug_assert (args.length == 2)
    let (a, st) ← build_arg build scope live st (← arg_at args 0)
    let (b, st) ← build_arg build scope live st (← arg_at args 1)
    .ok (ins_fadd a b live st)
  else if symbol = Symbol.INT_SUB ∨ symbol = Symbol.NUM_SUB then do
    let _ ← debug_assert (args.length == 2)
    let (a, st) ← build_arg build scope live st (← arg_at args 0)
    let (b, st) ← build_arg build scope live st (← arg_at args 1)
    .ok (ins_isub a b live st)
  else if symbol = Symbol.FLOAT_SUB then do
    let _ ← debug_assert (args.length == 2)
    let (a, st) ← build_arg build scope live st (← arg_at args 0)
    let (b, st) ← build_arg build scope live st (← arg_at args 1)
    .ok (ins_fsub a b live st)
  else if symbol = Symbol.NUM_MUL then do
    let _ ← debug_assert (args.length == 2)
    let (a, st) ← build_arg build scope live st (← arg_at args 0)
    let (b, st) ← build_arg build scope live st (← arg_at args 1)
    .ok (ins_imul a b live st)
  else if symbol = Symbol.NUM_NEG then do
    let _ ← debug_assert (args.length == 1)
    let (num, st) ← build_arg build scope live st (← arg_at args 0)
    .ok (ins_ineg num live st)
  else if symbol = Symbol.INT_EQ_I64 ∨ symbol = Symbol.INT_EQ_I8 ∨
      symbol = Symbol.INT_EQ_I1 then do
    let _ ← debug_assert (args.length == 2)
    let (a, st) ← build_arg build scope live st (← arg_at args 0)
    let (b, st) ← build_arg build scope live st (← arg_at args 1)
    .ok (ins_icmp_eq a b live st)
  else if symbol = Symbol.FLOAT_EQ then do
    let _ ← debug_assert (args.length == 2)
    let (a, st) ← build_arg build scope live st (← arg_at args 0)
    let (b, st) ← build_arg build scope live st (← arg_at args 1)
    .ok (ins_fcmp_eq a b live st)
  else if symbol = Symbol.LIST_GET_UNSAFE then do
    let _ ← debug_assert (args.length == 2)
    let (list_ptr, st) ← build_arg build scope live st (← arg_at args 0)
    let (elem_index, st) ← build_arg build scope live st (← arg_at args 1)
    -- TODO in the source: both are hardcoded instead of looked up from
    -- the element Layout.
    let elem_type := CTy.I64
    let elem_bytes : Nat := 8
    let (elem_size, st) := ins_iconst .I64 (elem_bytes : Int) live st
    -- Multiply the requested index by the size of each element.
    let (offset, st) := ins_imul elem_index elem_size live st
    .ok (ins_load_complex elem_type list_ptr offset 0 live st)
  else if symbol = Symbol.LIST_SET then do
    let (_list_expr, list_layout) ← arg_at args 0
    match list_layout with
    | .List elem_layout => do
        let num_elems : Nat := 10   -- TODO FIXME in the source: read from List.len
        let elem_bytes := elem_layout.stack_size env.ptr_bytes
        let bytes_len := elem_bytes * num_elems + 1
        let (ptr, st) := call_malloc env live st bytes_len
        let (idx, st) ← build_arg build scope live st (← arg_at args 1)
        let (elem, st) ← build_arg build scope live st (← arg_at args 2)
        let (_r, st) := list_set_in_place env ptr idx elem elem_layout live st
        .ok (ptr, st)
    | _ => .error .InvalidListLayout
  else if symbol = Symbol.LIST_SET_IN_PLACE then do
    -- set : List elem, Int, elem -> List elem
    let _ ← debug_assert (args.length == 3)
    let (list_expr, list_layout) ← arg_at args 0
    let (list_val, st) ← build scope live st list_expr
    match list_layout with
    | .List elem_layout => do
        let (idx, st) ← build_arg build scope live st (← arg_at args 1)
        let (elem, st) ← build_arg build scope live st (← arg_at args 2)
        .ok (list_set_in_place env list_val idx elem elem_layout live st)
    | _ => .error .InvalidListLayout
  else
    match scope.get symbol with
    | some (.Func _sig func_id) => do
        let (arg_vals, st) ← lower_call_args build scope live st args
        .ok (ins_call func_id arg_vals live st)
    | _ => .error (.UnknownCallable symbol)) := rfl

set_option maxHeartbeats 2000000 in
theorem frame_call_by_name {build : BuildFn} (hb : FrameOK build) (env : Env)
    (symbol : Symbol) (args : List (Expr × Layout)) (scope : Scope) (live : Bool)
    (st : BState) (v : Nat) (st' : BState)
    (h : call_by_name build env symbol args scope live st = .ok (v, st'))
    (hsc : scope_val_ok st.val_ctr scope) :
    FrameStep st st' ∧ v < st'.val_ctr := by
  rw [call_by_name_def] at h
  by_cases hcase0 : symbol = Symbol.INT_ADD ∨ symbol = Symbol.NUM_ADD
  · rw [if_pos hcase0] at h
    exact frame_binop_arm hb ins_iadd
      (fun a b lv s => ⟨frame_step_iadd a b lv s, Nat.lt_succ_self _⟩) h hsc
  · rw [if_neg hcase0] at h
    by_cases hcase1 : symbol = Symbol.FLOAT_ADD
    · rw [if_pos hcase1] at h
      exact frame_binop_arm hb ins_fadd
        (fun a b lv s => ⟨frame_step_fadd a b lv s, Nat.lt_succ_self _⟩) h hsc
    · rw [if_neg hcase1] at h
      by_cases hcase2 : symbol = Symbol.INT_SUB ∨ symbol = Symbol.NUM_SUB
      · rw [if_pos hcase2] at h
        exact frame_binop_arm hb ins_isub
          (fun a b lv s => ⟨frame_step_isub a b lv s, Nat.lt_succ_self _⟩) h hsc
      · rw [if_neg hcase2] at h
        by_cases hcase3 : symbol = Symbol.FLOAT_SUB
        · rw [if_pos hcase3] at h
          exact frame_binop_arm hb ins_fsub
            (fun a b lv s => ⟨frame_step_fsub a b lv s, Nat.lt_succ_self _⟩) h hsc
        · rw [if_neg hcase3] at h
          by_cases hcase4 : symbol = Symbol.NUM_MUL
          · rw [if_pos hcase4] at h
            exact frame_binop_arm hb ins_imul
              (fun a b lv s => ⟨frame_step_imul a b lv s, Nat.lt_succ_self _⟩) h hsc
          · rw [if_neg hcase4] at h
            by_cases hcase5 : symbol = Symbol.NUM_NEG
            · rw [if_pos hcase5] at h
              rw [bind_eq_ok] at h
              obtain ⟨u, hda, h⟩ := h
              rw [bind_eq_ok] at h
              obtain ⟨p0, h0, h⟩ := h
              rw [bind_eq_ok] at h
              obtain ⟨⟨a, st1⟩, ha, h⟩ := h
              simp only [build_arg] at ha
              obtain ⟨hf1, -⟩ := hb _ _ _ _ _ _ ha hsc
              have hpair := Except.ok.inj h
              have hv := congrArg Prod.fst hpair
              have hst := congrArg Prod.snd hpair
              subst hv hst
              exact ⟨frame_step_trans hf1 (frame_step_ineg _ _ _), Nat.lt_succ_self _⟩
            · rw [if_neg hcase5] at h
              by_cases hcase6 : symbol = Symbol.INT_EQ_I64 ∨ symbol = Symbol.INT_EQ_I8 ∨ symbol = Symbol.INT_EQ_I1
              · rw [if_pos hcase6] at h
                exact frame_binop_arm hb ins_icmp_eq
                  (fun a b lv s => ⟨frame_step_icmp a b lv s, Nat.lt_succ_self _⟩) h hsc
              · rw [if_neg hcase6] at h
                by_cases hcase7 : symbol = Symbol.FLOAT_EQ
                · rw [if_pos hcase7] at h
                  exact frame_binop_arm hb ins_fcmp_eq
                    (fun a b lv s => ⟨frame_step_fcmp a b lv s, Nat.lt_succ_self _⟩) h hsc
                · rw [if_neg hcase7] at h
                  by_cases hcase8 : symbol = Symbol.LIST_GET_UNSAFE
                  · rw [if_pos hcase8] at h
                    rw [bind_eq_ok] at h
                    obtain ⟨u, hda, h⟩ := h
                    rw [bind_eq_ok] at h
                    obtain ⟨p0, h0, h⟩ := h
                    rw [bind_eq_ok] at h
                    obtain ⟨⟨lp, st1⟩, ha, h⟩ := h
                    rw [bind_eq_ok] at h
                    obtain ⟨p1, h1, h⟩ := h
                    rw [bind_eq_ok] at h
                    obtain ⟨⟨ei, st2⟩, hbv, h⟩ := h
                    simp only [build_arg] at ha hbv
                    obtain ⟨hf1, -⟩ := hb _ _ _ _ _ _ ha hsc
                    obtain ⟨hf2, -⟩ := hb _ _ _ _ _ _ hbv (scope_val_ok_mono hsc hf1.1)
                    replace h : Except.ok (ins_load_complex CTy.I64 lp
                        (ins_imul ei (ins_iconst CTy.I64 (((8 : Nat) : Int)) live st2).1 live
                          (ins_iconst CTy.I64 (((8 : Nat) : Int)) live st2).2).1 0 live
                        (ins_imul ei (ins_iconst CTy.I64 (((8 : Nat) : Int)) live st2).1 live
                          (ins_iconst CTy.I64 (((8 : Nat) : Int)) live st2).2).2) =
                      Except.ok (v, st') := h
                    have hpair := Except.ok.inj h
                    have hv := congrArg Prod.fst hpair
                    have hst := congrArg Prod.snd hpair
                    subst hv hst
                    exact ⟨frame_step_trans hf1 (frame_step_trans hf2 (frame_step_trans
                      (frame_step_iconst CTy.I64 (((8 : Nat) : Int)) live st2)
                      (frame_step_trans
                        (frame_step_imul ei (ins_iconst CTy.I64 (((8 : Nat) : Int)) live st2).1 live
                          (ins_iconst CTy.I64 (((8 : Nat) : Int)) live st2).2)
                        (frame_step_load_complex CTy.I64 lp
                          (ins_imul ei (ins_iconst CTy.I64 (((8 : Nat) : Int)) live st2).1 live
                            (ins_iconst CTy.I64 (((8 : Nat) : Int)) live st2).2).1 0 live
                          (ins_imul ei (ins_iconst CTy.I64 (((8 : Nat) : Int)) live st2).1 live
                            (ins_iconst CTy.I64 (((8 : Nat) : Int)) live st2).2).2)))),
                      Nat.lt_succ_self _⟩
                  · rw [if_neg hcase8] at h
                    by_cases hcase9 : symbol = Symbol.LIST_SET
                    · rw [if_pos hcase9] at h
                      rw [bind_eq_ok] at h
                      obtain ⟨⟨le, ll⟩, h0, h⟩ := h
                      cases ll
                      rotate_left 4
                      next el =>
                        replace h : (do
                            let (idx, st1) ← build_arg build scope live
                              (call_malloc env live st
                                (Layout.stack_size env.ptr_bytes el * 10 + 1)).2 (← arg_at args 1)
                            let (elem, st2) ← build_arg build scope live st1 (← arg_at args 2)
                            match list_set_in_place env
                                (call_malloc env live st
                                  (Layout.stack_size env.ptr_bytes el * 10 + 1)).1
                                idx elem el live st2 with
                            | (_r, st3) => Except.ok ((call_malloc env live st
                                (Layout.stack_size env.ptr_bytes el * 10 + 1)).1, st3)) =
                          Except.ok (v, st') := h
                        have hs0 : FrameStep st (call_malloc env live st
                            (Layout.stack_size env.ptr_bytes el * 10 + 1)).2 :=
                          frame_step_malloc env live st _
                        rw [bind_eq_ok] at h
                        obtain ⟨p1, h1, h⟩ := h
                        rw [bind_eq_ok] at h
                        obtain ⟨⟨idx, st1⟩, hidx, h⟩ := h
                        rw [bind_eq_ok] at h
                        obtain ⟨p2, h2, h⟩ := h
                        rw [bind_eq_ok] at h
                        obtain ⟨⟨el2, st2⟩, helem, h⟩ := h
                        simp only [build_arg] at hidx helem
                        obtain ⟨hfi, -⟩ := hb _ _ _ _ _ _ hidx (scope_val_ok_mono hsc hs0.1)
                        obtain ⟨hfe, -⟩ := hb _ _ _ _ _ _ helem
                          (scope_val_ok_mono hsc (le_trans hs0.1 hfi.1))
                        replace h : Except.ok ((call_malloc env live st
                            (Layout.stack_size env.ptr_bytes el * 10 + 1)).1,
                            (list_set_in_place env (call_malloc env live st
                              (Layout.stack_size env.ptr_bytes el * 10 + 1)).1
                              idx el2 el live st2).2) = Except.ok (v, st') := h
                        have hsf : FrameStep st2 (list_set_in_place env (call_malloc env live st
                            (Layout.stack_size env.ptr_bytes el * 10 + 1)).1
                            idx el2 el live st2).2 :=
                          frame_step_list_set_in_place env _ idx el2 el live st2
                        have hpair := Except.ok.inj h
                        have hv := congrArg Prod.fst hpair
                        have hst := congrArg Prod.snd hpair
                        subst hv hst
                        refine ⟨frame_step_trans hs0 (frame_step_trans hfi
                          (frame_step_trans hfe hsf)), ?_⟩
                        exact lt_of_lt_of_le (Nat.lt_succ_self _)
                          (le_trans hfi.1 (le_trans hfe.1 hsf.1))
                      all_goals exact Except.noConfusion h
                    · rw [if_neg hcase9] at h
                      by_cases hcase10 : symbol = Symbol.LIST_SET_IN_PLACE
                      · rw [if_pos hcase10] at h
                        rw [bind_eq_ok] at h
                        obtain ⟨u, hda, h⟩ := h
                        rw [bind_eq_ok] at h
                        obtain ⟨⟨lexp, llay⟩, h0, h⟩ := h
                        rw [bind_eq_ok] at h
                        obtain ⟨⟨lv, st1⟩, hlv, h⟩ := h
                        obtain ⟨hf1, hv1⟩ := hb _ _ _ _ _ _ hlv hsc
                        cases llay
                        rotate_left 4
                        next el =>
                          replace h : (do
                              let (idx, st2) ← build_arg build scope live st1 (← arg_at args 1)
                              let (elem, st3) ← build_arg build scope live st2 (← arg_at args 2)
                              Except.ok (list_set_in_place env lv idx elem el live st3)) =
                            Except.ok (v, st') := h
                          rw [bind_eq_ok] at h
                          obtain ⟨p1, h1, h⟩ := h
                          rw [bind_eq_ok] at h
                          obtain ⟨⟨idx, st2⟩, hidx, h⟩ := h
                          rw [bind_eq_ok] at h
                          obtain ⟨p2, h2, h⟩ := h
                          rw [bind_eq_ok] at h
                          obtain ⟨⟨el2, st3⟩, helem, h⟩ := h
                          simp only [build_arg] at hidx helem
                          obtain ⟨hfi, -⟩ := hb _ _ _ _ _ _ hidx (scope_val_ok_mono hsc hf1.1)
                          obtain ⟨hfe, -⟩ := hb _ _ _ _ _ _ helem
                            (scope_val_ok_mono hsc (le_trans hf1.1 hfi.1))
                          have hpair := Except.ok.inj h
                          have hv := congrArg Prod.fst hpair
                          have hst := congrArg Prod.snd hpair
                          subst hv hst
                          refine ⟨frame_step_trans hf1 (frame_step_trans hfi (frame_step_trans hfe
                            (frame_step_list_set_in_place env lv idx el2 el live st3))), ?_⟩
                          exact lt_of_lt_of_le hv1 (le_trans hfi.1 (le_trans hfe.1
                            (frame_step_list_set_in_place env lv idx el2 el live st3).1))
                        all_goals exact Except.noConfusion h
                      · rw [if_neg hcase10] at h
                        split at h
                        rotate_left
                        · exact Except.noConfusion h
                        rw [bind_eq_ok] at h
                        obtain ⟨⟨avs, st1⟩, hargs, h⟩ := h
                        obtain ⟨hf1, -⟩ := frame_lower_call_args hb scope live _ _ _ _ hargs hsc
                        have hpair := Except.ok.inj h
                        have hv := congrArg Prod.fst hpair
                        have hst := congrArg Prod.snd hpair
                        subst hv hst
                        exact ⟨frame_step_trans hf1 (frame_step_call _ _ _ _), Nat.lt_succ_self _⟩

theorem build_expr_callptr (fuel : Nat) (env : Env) (scope : Scope) (live : Bool)
    (st : BState) (sub_expr : Expr) (args : List Expr) (layout : Layout) :
    build_expr (fuel + 1) env scope live st (.CallByPointer sub_expr args layout) =
      (lower_exprs (fun sc lv s e => build_expr fuel env sc lv s e) scope live st
          args).bind
        (fun p => (build_expr fuel env scope live p.2 sub_expr).bind
          (fun q => .ok (ins_call_indirect (sig_from_layout layout) q.1 p.1 live q.2))) := by
  show Except.bind _ _ = _
  rfl

theorem frame_step_str_bytes (live : Bool) (ptr : Nat) (bytes : List Nat) (i : Nat)
    (st : BState) : FrameStep st (store_str_bytes live ptr i st bytes) :=
  ⟨by rw [sss_val_ctr]; exact Nat.le_add_right _ _,
   fun k hk => sss_env_lt live ptr bytes i st k hk⟩

set_option maxHeartbeats 2000000 in
theorem frame_build_expr (env : Env) :
    ∀ fuel, FrameOK (fun sc lv s e => build_expr fuel env sc lv s e) := by
  intro fuel
  induction fuel with
  | zero =>
      intro scope live st e v st' h hsc
      exact Except.noConfusion h
  | succ fuel ih =>
      intro scope live st e v st' h hsc
      replace h : build_expr (fuel + 1) env scope live st e = Except.ok (v, st') := h
      cases e with
      | IntLit num =>
          rw [build_expr_int] at h
          have hpair := Except.ok.inj h
          have hv := congrArg Prod.fst hpair
          have hst := congrArg Prod.snd hpair
          subst hv hst
          exact ⟨frame_step_iconst _ _ _ _, Nat.lt_succ_self _⟩
      | FloatLit num =>
          rw [build_expr_float] at h
          have hpair := Except.ok.inj h
          have hv := congrArg Prod.fst hpair
          have hst := congrArg Prod.snd hpair
          subst hv hst
          exact ⟨frame_step_f64const _ _ _, Nat.lt_succ_self _⟩
      | BoolLit val =>
          rw [build_expr_bool] at h
          have hpair := Except.ok.inj h
          have hv := congrArg Prod.fst hpair
          have hst := congrArg Prod.snd hpair
          subst hv hst
          exact ⟨frame_step_bconst _ _ _, Nat.lt_succ_self _⟩
      | ByteLit val =>
          rw [build_expr_byte] at h
          have hpair := Except.ok.inj h
          have hv := congrArg Prod.fst hpair
          have hst := congrArg Prod.snd hpair
          subst hv hst
          exact ⟨frame_step_iconst _ _ _ _, Nat.lt_succ_self _⟩
      | Cond cond pass fail cond_layout ret_layout =>
          rw [build_expr_cond] at h
          exact frame_branch2 ih scope live st _ v st' h hsc
      | Switch cond branches default_branch cond_layout ret_layout =>
          rw [build_expr_switch] at h
          exact frame_build_switch ih scope live st _ v st' h hsc
      | Store stores ret =>
          rw [build_expr_store] at h
          rw [bindE_eq_ok] at h
          obtain ⟨⟨scope2, st1⟩, hbs, h⟩ := h
          obtain ⟨hf1, hsc1⟩ := frame_build_stores ih env live stores scope st
            scope2 st1 hbs hsc
          obtain ⟨hf2, hv2⟩ := ih scope2 live st1 ret v st' h hsc1
          exact ⟨frame_step_trans hf1 hf2, hv2⟩
      | CallByName symbol args =>
          rw [build_expr_call_by_name] at h
          exact frame_call_by_name ih env symbol args scope live st v st' h hsc
      | FunctionPointer name =>
          rw [build_expr_fnptr] at h
          cases hget : Scope.get scope name with
          | none =>
              rw [hget] at h
              exact Except.noConfusion h
          | some entry =>
              rw [hget] at h
              cases entry with
              | Stack t slot => exact Except.noConfusion h
              | Arg t param => exact Except.noConfusion h
              | Heap t ptr => exact Except.noConfusion h
              | Func s fid =>
                  replace h : Except.ok (ins_func_addr .Ptr fid live st) =
                    Except.ok (v, st') := h
                  have hpair := Except.ok.inj h
                  have hv := congrArg Prod.fst hpair
                  have hst := congrArg Prod.snd hpair
                  subst hv hst
                  exact ⟨frame_step_func_addr _ _ _ _, Nat.lt_succ_self _⟩
      | CallByPointer sub_expr args layout =>
          rw [build_expr_callptr] at h
          rw [bindE_eq_ok] at h
          obtain ⟨⟨avs, st1⟩, hargs, h⟩ := h
          obtain ⟨hf1, -⟩ := frame_lower_exprs ih scope live args st avs st1 hargs hsc
          rw [bindE_eq_ok] at h
          obtain ⟨⟨callee, st2⟩, hc, h⟩ := h
          obtain ⟨hf2, -⟩ := ih scope live st1 sub_expr callee st2 hc
            (scope_val_ok_mono hsc hf1.1)
          have hpair := Except.ok.inj h
          have hv := congrArg Prod.fst hpair
          have hst := congrArg Prod.snd hpair
          subst hv hst
          exact ⟨frame_step_trans hf1 (frame_step_trans hf2
            (frame_step_call_indirect _ _ _ _ _)), Nat.lt_succ_self _⟩
      | Load name =>
          rw [build_expr_load] at h
          cases hget : Scope.get scope name with
          | none =>
              rw [hget] at h
              exact Except.noConfusion h
          | some entry =>
              rw [hget] at h
              cases entry with
              | Stack t slot =>
                  replace h : Except.ok (ins_stack_load t slot 0 live st) =
                    Except.ok (v, st') := h
                  have hpair := Except.ok.inj h
                  have hv := congrArg Prod.fst hpair
                  have hst := congrArg Prod.snd hpair
                  subst hv hst
                  exact ⟨frame_step_stack_load _ _ _ _ _, Nat.lt_succ_self _⟩
              | Arg t param =>
                  replace h : (Except.ok (param, st) : Except LowerErr (Nat × BState)) =
                    Except.ok (v, st') := h
                  have hpair := Except.ok.inj h
                  have hv := congrArg Prod.fst hpair
                  have hst := congrArg Prod.snd hpair
                  subst hv hst
                  exact ⟨frame_step_refl _, scope_val_ok_get hsc hget⟩
              | Heap t ptr =>
                  replace h : Except.ok (ins_load t ptr 0 live st) =
                    Except.ok (v, st') := h
                  have hpair := Except.ok.inj h
                  have hv := congrArg Prod.fst hpair
                  have hst := congrArg Prod.snd hpair
                  subst hv hst
                  exact ⟨frame_step_load _ _ _ _ _, Nat.lt_succ_self _⟩
              | Func s fid => exact Except.noConfusion h
      | Struct layout fields =>
          rw [build_expr_struct] at h
          replace h : (store_struct_fields (fun sc lv s e => build_expr fuel env sc lv s e)
              scope live
              (create_stack_slot (Layout.stack_size env.ptr_bytes layout) st).1 0
              (create_stack_slot (Layout.stack_size env.ptr_bytes layout) st).2
              (sort_fields fields)).bind
            (fun stA => Except.ok (ins_stack_addr (type_from_layout layout)
              (create_stack_slot (Layout.stack_size env.ptr_bytes layout) st).1 0
              live stA)) = Except.ok (v, st') := h
          rw [bindE_eq_ok] at h
          obtain ⟨st1, hsf, h⟩ := h
          have hf1 := frame_struct_fields ih scope live _ (sort_fields fields) 0 _ st1
            hsf hsc
          have hpair := Except.ok.inj h
          have hv := congrArg Prod.fst hpair
          have hst := congrArg Prod.snd hpair
          subst hv hst
          exact ⟨frame_step_trans (frame_step_create_slot _ _)
            (frame_step_trans hf1 (frame_step_stack_addr _ _ _ _ _)),
            Nat.lt_succ_self _⟩
      | Str str_literal =>
          rw [build_expr_str] at h
          by_cases hemp : str_literal.isEmpty
          · rw [if_pos hemp] at h
            exact Except.noConfusion h
          · rw [if_neg hemp] at h
            replace h : Except.ok
                ((call_malloc env live st (str_literal.length + 1)).1,
                 ins_store
                  (ins_iconst .I8 0 live
                    (store_str_bytes live
                      (call_malloc env live st (str_literal.length + 1)).1 0
                      (call_malloc env live st (str_literal.length + 1)).2
                      str_literal)).1
                  (call_malloc env live st (str_literal.length + 1)).1
                  (i32_wrap (i32_wrap (((str_literal.length + 1 : Nat)) : Int) - 1))
                  live
                  (ins_iconst .I8 0 live
                    (store_str_bytes live
                      (call_malloc env live st (str_literal.length + 1)).1 0
                      (call_malloc env live st (str_literal.length + 1)).2
                      str_literal)).2) = Except.ok (v, st') := h
            have hpair := Except.ok.inj h
            have hv := congrArg Prod.fst hpair
            have hst := congrArg Prod.snd hpair
            subst hv hst
            refine ⟨frame_step_trans (frame_step_malloc env live st _)
              (frame_step_trans (frame_step_str_bytes live _ str_literal 0 _)
                (frame_step_trans (frame_step_iconst _ _ _ _)
                  (frame_step_store _ _ _ _ _))), ?_⟩
            refine lt_of_lt_of_le (Nat.lt_succ_self _) ?_
            refine le_trans (frame_step_str_bytes live
              (call_malloc env live st (str_literal.length + 1)).1 str_literal 0
              (call_malloc env live st (str_literal.length + 1)).2).1 ?_
            exact Nat.le_succ _
      | Array elem_layout elems =>
          rw [build_expr_array] at h
          by_cases hemp : elems.isEmpty
          · rw [if_pos hemp] at h
            exact Except.noConfusion h
          · rw [if_neg hemp] at h
            replace h : (store_array_elems
                (fun sc lv s e => build_expr fuel env sc lv s e) scope live
                (call_malloc env live st
                  (Layout.stack_size env.ptr_bytes elem_layout * elems.length + 1)).1
                (Layout.stack_size env.ptr_bytes elem_layout) 0
                (call_malloc env live st
                  (Layout.stack_size env.ptr_bytes elem_layout * elems.length + 1)).2
                elems).bind
              (fun stA => Except.ok
                ((call_malloc env live st
                    (Layout.stack_size env.ptr_bytes elem_layout * elems.length + 1)).1,
                 ins_store (ins_iconst .I8 0 live stA).1
                  (call_malloc env live st
                    (Layout.stack_size env.ptr_bytes elem_layout * elems.length + 1)).1
                  (i32_wrap (i32_wrap
                    (((Layout.stack_size env.ptr_bytes elem_layout * elems.length + 1 :
                      Nat)) : Int) - 1)) live
                  (ins_iconst .I8 0 live stA).2)) = Except.ok (v, st') := h
            rw [bindE_eq_ok] at h
            obtain ⟨st1, hse, h⟩ := h
            have hs0 : FrameStep st (call_malloc env live st
                (Layout.stack_size env.ptr_bytes elem_layout * elems.length + 1)).2 :=
              frame_step_malloc env live st _
            have hf1 := frame_array_elems ih scope live _ _ elems 0 _ st1 hse
              (scope_val_ok_mono hsc hs0.1)
            have hpair := Except.ok.inj h
            have hv := congrArg Prod.fst hpair
            have hst := congrArg Prod.snd hpair
            subst hv hst
            refine ⟨frame_step_trans hs0 (frame_step_trans hf1
              (frame_step_trans (frame_step_iconst _ _ _ _)
                (frame_step_store _ _ _ _ _))), ?_⟩
            refine lt_of_lt_of_le (Nat.lt_succ_self _) ?_
            exact le_trans hf1.1 (Nat.le_succ _)
      | Unhandled => exact Except.noConfusion h

theorem dead_refl (s : BState) : DeadPre s s := ⟨rfl, rfl, rfl, rfl, rfl⟩

theorem dead_trans {a b c : BState} (h1 : DeadPre a b) (h2 : DeadPre b c) :
    DeadPre a c :=
  ⟨h2.1.trans h1.1, h2.2.1.trans h1.2.1, h2.2.2.1.trans h1.2.2.1,
   h2.2.2.2.1.trans h1.2.2.2.1, h2.2.2.2.2.trans h1.2.2.2.2⟩

theorem dead_str_bytes (ptr : Nat) :
    ∀ (bytes : List Nat) (i : Nat) (st : BState),
    DeadPre st (store_str_bytes false ptr i st bytes) := by
  intro bytes
  induction bytes with
  | nil => intro i st; exact dead_refl _
  | cons b rest ih =>
      intro i st
      exact dead_trans (⟨rfl, rfl, rfl, rfl, rfl⟩ : DeadPre st _) (ih (i + 1) _)

theorem dead_build_stores {build : BuildFn} (hb : DeadOK build) (env : Env) :
    ∀ (l : List (Symbol × Layout × Expr)) (scope : Scope) (st : BState)
      (scope' : Scope) (st' : BState),
    build_stores build env scope false st l = .ok (scope', st') →
    DeadPre st st' := by
  intro l
  induction l with
  | nil =>
      intro scope st scope' st' h
      cases h
      exact dead_refl _
  | cons hd tl ih =>
      intro scope st scope' st' h
      obtain ⟨name, layout, expr⟩ := hd
      simp only [build_stores] at h
      rw [bind_eq_ok] at h
      obtain ⟨⟨val, st1⟩, hb1, h⟩ := h
      have hrec := ih _ _ _ _ h
      exact dead_trans (hb _ _ _ _ _ hb1)
        (dead_trans (⟨rfl, rfl, rfl, rfl, rfl⟩ : DeadPre st1 _) hrec)

theorem dead_lower_call_args {build : BuildFn} (hb : DeadOK build) (scope : Scope) :
    ∀ (args : List (Expr × Layout)) (st : BState) (vs : List Nat) (st' : BState),
    lower_call_args build scope false st args = .ok (vs, st') → DeadPre st st' := by
  intro args
  induction args with
  | nil =>
      intro st vs st' h
      cases h
      exact dead_refl _
  | cons hd tl ih =>
      intro st vs st' h
      obtain ⟨e1, l1⟩ := hd
      simp only [lower_call_args] at h
      rw [bind_eq_ok] at h
      obtain ⟨⟨v1, st1⟩, hb1, h⟩ := h
      rw [bind_eq_ok] at h
      obtain ⟨⟨vs2, st2⟩, hb2, h⟩ := h
      cases h
      exact dead_trans (hb _ _ _ _ _ hb1) (ih _ _ _ hb2)

theorem dead_lower_exprs {build : BuildFn} (hb : DeadOK build) (scope : Scope) :
    ∀ (args : List Expr) (st : BState) (vs : List Nat) (st' : BState),
    lower_exprs build scope false st args = .ok (vs, st') → DeadPre st st' := by
  intro args
  induction args with
  | nil =>
      intro st vs st' h
      cases h
      exact dead_refl _
  | cons hd tl ih =>
      intro st vs st' h
      simp only [lower_exprs] at h
      rw [bind_eq_ok] at h
      obtain ⟨⟨v1, st1⟩, hb1, h⟩ := h
      rw [bind_eq_ok] at h
      obtain ⟨⟨vs2, st2⟩, hb2, h⟩ := h
      cases h
      exact dead_trans (hb _ _ _ _ _ hb1) (ih _ _ _ hb2)

theorem dead_struct_fields {build : BuildFn} (hb : DeadOK build) (scope : Scope)
    (slot : Nat) :
    ∀ (l : List (Nat × Expr)) (i : Nat) (st : BState) (st' : BState),
    store_struct_fields build scope false slot i st l = .ok st' → DeadPre st st' := by
  intro l
  induction l with
  | nil =>
      intro i st st' h
      cases h
      exact dead_refl _
  | cons hd tl ih =>
      intro i st st' h
      obtain ⟨nm, inner⟩ := hd
      simp only [store_struct_fields] at h
      rw [bind_eq_ok] at h
      obtain ⟨⟨val, st1⟩, hb1, h⟩ := h
      cases inner
      case IntLit m =>
        try simp only [except_ok_bind] at h
        split at h
        · have hrec := ih _ _ _ h
          exact dead_trans (hb _ _ _ _ _ hb1)
            (dead_trans (⟨rfl, rfl, rfl, rfl, rfl⟩ : DeadPre st1 _) hrec)
        · exact Except.noConfusion h
      all_goals exact Except.noConfusion h

theorem dead_array_elems {build : BuildFn} (hb : DeadOK build) (scope : Scope)
    (ptr eb : Nat) :
    ∀ (l : List Expr) (i : Nat) (st : BState) (st' : BState),
    store_array_elems build scope false ptr eb i st l = .ok st' → DeadPre st st' := by
  intro l
  induction l with
  | nil =>
      intro i st st' h
      cases h
      exact dead_refl _
  | cons hd tl ih =>
      intro i st st' h
      simp only [store_array_elems] at h
      rw [bind_eq_ok] at h
      obtain ⟨⟨val, st1⟩, hb1, h⟩ := h
      have hrec := ih _ _ _ h
      exact dead_trans (hb _ _ _ _ _ hb1)
        (dead_trans (⟨rfl, rfl, rfl, rfl, rfl⟩ : DeadPre st1 _) hrec)

theorem dead_register_switch (brs : List (Nat × Expr)) (st : BState)
    (sw : List (Nat × Nat)) (bl : List Nat) (sw' : List (Nat × Nat)) (bl' : List Nat)
    (st' : BState) (h : register_switch_blocks st sw bl brs = .ok (sw', bl', st')) :
    DeadPre st st' := by
  obtain ⟨-, e2, -, e4, e5, e6, e7, -, -⟩ :=
    frame_register_switch brs st sw bl sw' bl' st' h
  exact ⟨e2, e4, e5, e6, e7⟩

set_option maxHeartbeats 1000000 in
theorem dead_branch2 {build : BuildFn} (hb : DeadOK build) (scope : Scope)
    (st : BState) (br : Branch2) (v : Nat) (st' : BState)
    (h : build_branch2 build scope false st br = .ok (v, st')) : DeadPre st st' := by
  simp only [build_branch2, create_block_eq] at h
  rw [bind_eq_ok] at h
  obtain ⟨⟨cond, stc⟩, hc, h⟩ := h
  have hdc := hb _ _ _ _ _ hc
  split at h
  rotate_left
  · exact Except.noConfusion h
  try simp only [except_ok_bind] at h
  rw [if_neg (fun hh => Bool.noConfusion hh)] at h
  try simp only [except_ok_bind] at h
  rw [bind_eq_ok] at h
  obtain ⟨⟨v1, stp⟩, hp, h⟩ := h
  have hdp := hb _ _ _ _ _ hp
  rw [bind_eq_ok] at h
  obtain ⟨⟨v2, stq⟩, hq, h⟩ := h
  have hdq := hb _ _ _ _ _ hq
  have hpair := Except.ok.inj h
  have hst := congrArg Prod.snd hpair
  subst hst
  exact dead_trans (⟨rfl, rfl, rfl, rfl, rfl⟩ : DeadPre st _)
    (dead_trans hdc (dead_trans (⟨rfl, rfl, rfl, rfl, rfl⟩ : DeadPre stc _)
      (dead_trans hdp (dead_trans (⟨rfl, rfl, rfl, rfl, rfl⟩ : DeadPre stp _)
        (dead_trans hdq (⟨rfl, rfl, rfl, rfl, rfl⟩ : DeadPre stq _))))))

theorem dead_switch_branches {build : BuildFn} (hb : DeadOK build) (scope : Scope)
    (ret ret_block : Nat) (selected : Option Nat) :
    ∀ (brs : List ((Nat × Expr) × Nat)) (st st' : BState),
    build_switch_branches build scope false ret ret_block selected st brs = .ok st' →
    DeadPre st st' := by
  intro brs
  induction brs with
  | nil =>
      intro st st' h
      cases h
      exact dead_refl _
  | cons hd tl ih =>
      intro st st' h
      obtain ⟨⟨i, expr⟩, block⟩ := hd
      simp only [build_switch_branches] at h
      rw [bind_eq_ok] at h
      obtain ⟨⟨value, stb⟩, hbld, h⟩ := h
      have hdb := hb _ _ _ _ _ hbld
      have htail := ih _ _ h
      exact dead_trans (⟨rfl, rfl, rfl, rfl, rfl⟩ : DeadPre st _)
        (dead_trans hdb
          (dead_trans (⟨rfl, rfl, rfl, rfl, rfl⟩ : DeadPre stb _) htail))

set_option maxHeartbeats 1000000 in
theorem dead_build_switch {build : BuildFn} (hb : DeadOK build) (scope : Scope)
    (st : BState) (sa : SwitchArgs) (v : Nat) (st' : BState)
    (h : build_switch build scope false st sa = .ok (v, st')) : DeadPre st st' := by
  simp only [build_switch, create_block_eq] at h
  rw [bind_eq_ok] at h
  obtain ⟨⟨sw, bl, str⟩, hreg, h⟩ := h
  have hdr := dead_register_switch _ _ _ _ _ _ _ hreg
  rw [bind_eq_ok] at h
  obtain ⟨⟨cond, stc⟩, hc, h⟩ := h
  have hdc := hb _ _ _ _ _ hc
  rw [if_neg (fun hh => Bool.noConfusion hh)] at h
  try simp only [except_ok_bind] at h
  rw [bind_eq_ok] at h
  obtain ⟨st1, h1, h⟩ := h
  have hd1 := dead_switch_branches hb scope 0 _ _ _ _ _ h1
  rw [bind_eq_ok] at h
  obtain ⟨st2, h2, h⟩ := h
  have hd2 := dead_switch_branches hb scope 0 _ _ _ _ _ h2
  have hpair := Except.ok.inj h
  have hst := congrArg Prod.snd hpair
  subst hst
  exact dead_trans (⟨rfl, rfl, rfl, rfl, rfl⟩ : DeadPre st _)
    (dead_trans hdr (dead_trans hdc
      (dead_trans (⟨rfl, rfl, rfl, rfl, rfl⟩ : DeadPre stc _)
        (dead_trans hd1 (dead_trans hd2
          (⟨rfl, rfl, rfl, rfl, rfl⟩ : DeadPre st2 _))))))


theorem dead_binop_arm {build : BuildFn} (hb : DeadOK build)
    {scope : Scope} {st : BState} {args : List (Expr × Layout)}
    {v : Nat} {st' : BState} {n : Nat}
    (f : Nat → Nat → Bool → BState → Nat × BState)
    (hf : ∀ a b s, DeadPre s (f a b false s).2)
    (h : (do
      let _ ← debug_assert (args.length == n)
      let (a, st) ← build_arg build scope false st (← arg_at args 0)
      let (b, st) ← build_arg build scope false st (← arg_at args 1)
      Except.ok (f a b false st) : Except LowerErr (Nat × BState)) = Except.ok (v, st')) :
    DeadPre st st' := by
  rw [bind_eq_ok] at h
  obtain ⟨u, hda, h⟩ := h
  rw [bind_eq_ok] at h
  obtain ⟨p0, h0, h⟩ := h
  rw [bind_eq_ok] at h
  obtain ⟨⟨a, st1⟩, ha, h⟩ := h
  rw [bind_eq_ok] at h
  obtain ⟨p1, h1, h⟩ := h
  rw [bind_eq_ok] at h
  obtain ⟨⟨b, st2⟩, hbv, h⟩ := h
  simp only [build_arg] at ha hbv
  have hd1 := hb _ _ _ _ _ ha
  have hd2 := hb _ _ _ _ _ hbv
  have hpair := Except.ok.inj h
  have hst := congrArg Prod.snd hpair
  subst hst
  exact dead_trans hd1 (dead_trans hd2 (hf a b st2))

set_option maxHeartbeats 2000000 in
theorem dead_call_by_name {build : BuildFn} (hb : DeadOK build) (env : Env)
    (symbol : Symbol) (args : List (Expr × Layout)) (scope : Scope)
    (st : BState) (v : Nat) (st' : BState)
    (h : call_by_name build env symbol args scope false st = .ok (v, st')) :
    DeadPre st st' := by
  rw [call_by_name_def] at h
  by_cases hcase0 : symbol = Symbol.INT_ADD ∨ symbol = Symbol.NUM_ADD
  · rw [if_pos hcase0] at h
    exact dead_binop_arm hb ins_iadd
      (fun a b s => ⟨rfl, rfl, rfl, rfl, rfl⟩) h
  · rw [if_neg hcase0] at h
    by_cases hcase1 : symbol = Symbol.FLOAT_ADD
    · rw [if_pos hcase1] at h
      exact dead_binop_arm hb ins_fadd
        (fun a b s => ⟨rfl, rfl, rfl, rfl, rfl⟩) h
    · rw [if_neg hcase1] at h
      by_cases hcase2 : symbol = Symbol.INT_SUB ∨ symbol = Symbol.NUM_SUB
      · rw [if_pos hcase2] at h
        exact dead_binop_arm hb ins_isub
          (fun a b s => ⟨rfl, rfl, rfl, rfl, rfl⟩) h
      · rw [if_neg hcase2] at h
        by_cases hcase3 : symbol = Symbol.FLOAT_SUB
        · rw [if_pos hcase3] at h
          exact dead_binop_arm hb ins_fsub
            (fun a b s => ⟨rfl, rfl, rfl, rfl, rfl⟩) h
        · rw [if_neg hcase3] at h
          by_cases hcase4 : symbol = Symbol.NUM_MUL
          · rw [if_pos hcase4] at h
            exact dead_binop_arm hb ins_imul
              (fun a b s => ⟨rfl, rfl, rfl, rfl, rfl⟩) h
          · rw [if_neg hcase4] at h
            by_cases hcase5 : symbol = Symbol.NUM_NEG
            · rw [if_pos hcase5] at h
              rw [bind_eq_ok] at h
              obtain ⟨u, hda, h⟩ := h
              rw [bind_eq_ok] at h
              obtain ⟨p0, h0, h⟩ := h
              rw [bind_eq_ok] at h
              obtain ⟨⟨a, st1⟩, ha, h⟩ := h
              simp only [build_arg] at ha
              have hd1 := hb _ _ _ _ _ ha
              have hpair := Except.ok.inj h
              have hst := congrArg Prod.snd hpair
              subst hst
              exact dead_trans hd1 (⟨rfl, rfl, rfl, rfl, rfl⟩ : DeadPre st1 _)
            · rw [if_neg hcase5] at h
              by_cases hcase6 : symbol = Symbol.INT_EQ_I64 ∨ symbol = Symbol.INT_EQ_I8 ∨ symbol = Symbol.INT_EQ_I1
              · rw [if_pos hcase6] at h
                exact dead_binop_arm hb ins_icmp_eq
                  (fun a b s => ⟨rfl, rfl, rfl, rfl, rfl⟩) h
              · rw [if_neg hcase6] at h
                by_cases hcase7 : symbol = Symbol.FLOAT_EQ
                · rw [if_pos hcase7] at h
                  exact dead_binop_arm hb ins_fcmp_eq
                    (fun a b s => ⟨rfl, rfl, rfl, rfl, rfl⟩) h
                · rw [if_neg hcase7] at h
                  by_cases hcase8 : symbol = Symbol.LIST_GET_UNSAFE
                  · rw [if_pos hcase8] at h
                    rw [bind_eq_ok] at h
                    obtain ⟨u, hda, h⟩ := h
                    rw [bind_eq_ok] at h
                    obtain ⟨p0, h0, h⟩ := h
                    rw [bind_eq_ok] at h
                    obtain ⟨⟨lp, st1⟩, ha, h⟩ := h
                    rw [bind_eq_ok] at h
                    obtain ⟨p1, h1, h⟩ := h
                    rw [bind_eq_ok] at h
                    obtain ⟨⟨ei, st2⟩, hbv, h⟩ := h
                    simp only [build_arg] at ha hbv
                    have hd1 := hb _ _ _ _ _ ha
                    have hd2 := hb _ _ _ _ _ hbv
                    replace h : Except.ok (ins_load_complex CTy.I64 lp
                        (ins_imul ei (ins_iconst CTy.I64 (((8 : Nat) : Int)) false st2).1 false
                          (ins_iconst CTy.I64 (((8 : Nat) : Int)) false st2).2).1 0 false
                        (ins_imul ei (ins_iconst CTy.I64 (((8 : Nat) : Int)) false st2).1 false
                          (ins_iconst CTy.I64 (((8 : Nat) : Int)) false st2).2).2) =
                      Except.ok (v, st') := h
                    have hpair := Except.ok.inj h
                    have hst := congrArg Prod.snd hpair
                    subst hst
                    exact dead_trans hd1 (dead_trans hd2 (⟨rfl, rfl, rfl, rfl, rfl⟩ : DeadPre st2 _))
                  · rw [if_neg hcase8] at h
                    by_cases hcase9 : symbol = Symbol.LIST_SET
                    · rw [if_pos hcase9] at h
                      rw [bind_eq_ok] at h
                      obtain ⟨⟨le, ll⟩, h0, h⟩ := h
                      cases ll
                      rotate_left 4
                      next el =>
                        replace h : (do
                            let (idx, st1) ← build_arg build scope false
                              (call_malloc env false st
                                (Layout.stack_size env.ptr_bytes el * 10 + 1)).2 (← arg_at args 1)
                            let (elem, st2) ← build_arg build scope false st1 (← arg_at args 2)
                            match list_set_in_place env
                                (call_malloc env false st
                                  (Layout.stack_size env.ptr_bytes el * 10 + 1)).1
                                idx elem el false st2 with
                            | (_r, st3) => Except.ok ((call_malloc env false st
                                (Layout.stack_size env.ptr_bytes el * 10 + 1)).1, st3)) =
                          Except.ok (v, st') := h
                        rw [bind_eq_ok] at h
                        obtain ⟨p1, h1, h⟩ := h
                        rw [bind_eq_ok] at h
                        obtain ⟨⟨idx, st1⟩, hidx, h⟩ := h
                        rw [bind_eq_ok] at h
                        obtain ⟨p2, h2, h⟩ := h
                        rw [bind_eq_ok] at h
                        obtain ⟨⟨el2, st2⟩, helem, h⟩ := h
                        simp only [build_arg] at hidx helem
                        have hdi := hb _ _ _ _ _ hidx
                        have hde := hb _ _ _ _ _ helem
                        replace h : Except.ok ((call_malloc env false st
                            (Layout.stack_size env.ptr_bytes el * 10 + 1)).1,
                            (list_set_in_place env (call_malloc env false st
                              (Layout.stack_size env.ptr_bytes el * 10 + 1)).1
                              idx el2 el false st2).2) = Except.ok (v, st') := h
                        have hpair := Except.ok.inj h
                        have hst := congrArg Prod.snd hpair
                        subst hst
                        exact dead_trans (⟨rfl, rfl, rfl, rfl, rfl⟩ : DeadPre st _)
                          (dead_trans hdi (dead_trans hde (⟨rfl, rfl, rfl, rfl, rfl⟩ : DeadPre st2 _)))
                      all_goals exact Except.noConfusion h
                    · rw [if_neg hcase9] at h
                      by_cases hcase10 : symbol = Symbol.LIST_SET_IN_PLACE
                      · rw [if_pos hcase10] at h
                        rw [bind_eq_ok] at h
                        obtain ⟨u, hda, h⟩ := h
                        rw [bind_eq_ok] at h
                        obtain ⟨⟨lexp, llay⟩, h0, h⟩ := h
                        rw [bind_eq_ok] at h
                        obtain ⟨⟨lv, st1⟩, hlv, h⟩ := h
                        have hd1 := hb _ _ _ _ _ hlv
                        cases llay
                        rotate_left 4
                        next el =>
                          replace h : (do
                              let (idx, st2) ← build_arg build scope false st1 (← arg_at args 1)
                              let (elem, st3) ← build_arg build scope false st2 (← arg_at args 2)
                              Except.ok (list_set_in_place env lv idx elem el false st3)) =
                            Except.ok (v, st') := h
                          rw [bind_eq_ok] at h
                          obtain ⟨p1, h1, h⟩ := h
                          rw [bind_eq_ok] at h
                          obtain ⟨⟨idx, st2⟩, hidx, h⟩ := h
                          rw [bind_eq_ok] at h
                          obtain ⟨p2, h2, h⟩ := h
                          rw [bind_eq_ok] at h
                          obtain ⟨⟨el2, st3⟩, helem, h⟩ := h
                          simp only [build_arg] at hidx helem
                          have hdi := hb _ _ _ _ _ hidx
                          have hde := hb _ _ _ _ _ helem
                          have hpair := Except.ok.inj h
                          have hst := congrArg Prod.snd hpair
                          subst hst
                          exact dead_trans hd1 (dead_trans hdi
                            (dead_trans hde (⟨rfl, rfl, rfl, rfl, rfl⟩ : DeadPre st3 _)))
                        all_goals exact Except.noConfusion h
                      · rw [if_neg hcase10] at h
                        split at h
                        rotate_left
                        · exact Except.noConfusion h
                        rw [bind_eq_ok] at h
                        obtain ⟨⟨avs, st1⟩, hargs, h⟩ := h
                        have hd1 := dead_lower_call_args hb scope _ _ _ _ hargs
                        have hpair := Except.ok.inj h
                        have hst := congrArg Prod.snd hpair
                        subst hst
                        exact dead_trans hd1 (⟨rfl, rfl, rfl, rfl, rfl⟩ : DeadPre st1 _)

set_option maxHeartbeats 2000000 in
theorem dead_build_expr (env : Env) :
    ∀ fuel, DeadOK (fun sc lv s e => build_expr fuel env sc lv s e) := by
  intro fuel
  induction fuel with
  | zero =>
      intro scope st e v st' h
      exact Except.noConfusion h
  | succ fuel ih =>
      intro scope st e v st' h
      replace h : build_expr (fuel + 1) env scope false st e = Except.ok (v, st') := h
      cases e with
      | IntLit num =>
          rw [build_expr_int] at h
          have hst := congrArg Prod.snd (Except.ok.inj h)
          subst hst
          exact ⟨rfl, rfl, rfl, rfl, rfl⟩
      | FloatLit num =>
          rw [build_expr_float] at h
          have hst := congrArg Prod.snd (Except.ok.inj h)
          subst hst
          exact ⟨rfl, rfl, rfl, rfl, rfl⟩
      | BoolLit val =>
          rw [build_expr_bool] at h
          have hst := congrArg Prod.snd (Except.ok.inj h)
          subst hst
          exact ⟨rfl, rfl, rfl, rfl, rfl⟩
      | ByteLit val =>
          rw [build_expr_byte] at h
          have hst := congrArg Prod.snd (Except.ok.inj h)
          subst hst
          exact ⟨rfl, rfl, rfl, rfl, rfl⟩
      | Cond cond pass fail cond_layout ret_layout =>
          rw [build_expr_cond] at h
          exact dead_branch2 ih scope st _ v st' h
      | Switch cond branches default_branch cond_layout ret_layout =>
          rw [build_expr_switch] at h
          exact dead_build_switch ih scope st _ v st' h
      | Store stores ret =>
          rw [build_expr_store] at h
          rw [bindE_eq_ok] at h
          obtain ⟨⟨scope2, st1⟩, hbs, h⟩ := h
          have hd1 := dead_build_stores ih env stores scope st scope2 st1 hbs
          have hd2 := ih scope2 st1 ret v st' h
          exact dead_trans hd1 hd2
      | CallByName symbol args =>
          rw [build_expr_call_by_name] at h
          exact dead_call_by_name ih env symbol args scope st v st' h
      | FunctionPointer name =>
          rw [build_expr_fnptr] at h
          cases hget : Scope.get scope name with
          | none =>
              rw [hget] at h
              exact Except.noConfusion h
          | some entry =>
              rw [hget] at h
              cases entry with
              | Stack t slot => exact Except.noConfusion h
              | Arg t param => exact Except.noConfusion h
              | Heap t ptr => exact Except.noConfusion h
              | Func s fid =>
                  replace h : Except.ok (ins_func_addr .Ptr fid false st) =
                    Except.ok (v, st') := h
                  have hst := congrArg Prod.snd (Except.ok.inj h)
                  subst hst
                  exact ⟨rfl, rfl, rfl, rfl, rfl⟩
      | CallByPointer sub_expr args layout =>
          rw [build_expr_callptr] at h
          rw [bindE_eq_ok] at h
          obtain ⟨⟨avs, st1⟩, hargs, h⟩ := h
          have hd1 := dead_lower_exprs ih scope args st avs st1 hargs
          rw [bindE_eq_ok] at h
          obtain ⟨⟨callee, st2⟩, hc, h⟩ := h
          have hd2 := ih scope st1 sub_expr callee st2 hc
          have hst := congrArg Prod.snd (Except.ok.inj h)
          subst hst
          exact dead_trans hd1 (dead_trans hd2 (⟨rfl, rfl, rfl, rfl, rfl⟩ : DeadPre st2 _))
      | Load name =>
          rw [build_expr_load] at h
          cases hget : Scope.get scope name with
          | none =>
              rw [hget] at h
              exact Except.noConfusion h
          | some entry =>
              rw [hget] at h
              cases entry with
              | Stack t slot =>
                  replace h : Except.ok (ins_stack_load t slot 0 false st) =
                    Except.ok (v, st') := h
                  have hst := congrArg Prod.snd (Except.ok.inj h)
                  subst hst
                  exact ⟨rfl, rfl, rfl, rfl, rfl⟩
              | Arg t param =>
                  replace h : (Except.ok (param, st) : Except LowerErr (Nat × BState)) =
                    Except.ok (v, st') := h
                  have hst := congrArg Prod.snd (Except.ok.inj h)
                  subst hst
                  exact dead_refl _
              | Heap t ptr =>
                  replace h : Except.ok (ins_load t ptr 0 false st) =
                    Except.ok (v, st') := h
                  have hst := congrArg Prod.snd (Except.ok.inj h)
                  subst hst
                  exact ⟨rfl, rfl, rfl, rfl, rfl⟩
              | Func s fid => exact Except.noConfusion h
      | Struct layout fields =>
          rw [build_expr_struct] at h
          replace h : (store_struct_fields (fun sc lv s e => build_expr fuel env sc lv s e)
              scope false
              (create_stack_slot (Layout.stack_size env.ptr_bytes layout) st).1 0
              (create_stack_slot (Layout.stack_size env.ptr_bytes layout) st).2
              (sort_fields fields)).bind
            (fun stA => Except.ok (ins_stack_addr (type_from_layout layout)
              (create_stack_slot (Layout.stack_size env.ptr_bytes layout) st).1 0
              false stA)) = Except.ok (v, st') := h
          rw [bindE_eq_ok] at h
          obtain ⟨st1, hsf, h⟩ := h
          have hd1 := dead_struct_fields ih scope _ (sort_fields fields) 0 _ st1 hsf
          have hst := congrArg Prod.snd (Except.ok.inj h)
          subst hst
          exact dead_trans (⟨rfl, rfl, rfl, rfl, rfl⟩ : DeadPre st _)
            (dead_trans hd1 (⟨rfl, rfl, rfl, rfl, rfl⟩ : DeadPre st1 _))
      | Str str_literal =>
          rw [build_expr_str] at h
          by_cases hemp : str_literal.isEmpty
          · rw [if_pos hemp] at h
            exact Except.noConfusion h
          · rw [if_neg hemp] at h
            replace h : Except.ok
                ((call_malloc env false st (str_literal.length + 1)).1,
                 ins_store
                  (ins_iconst .I8 0 false
                    (store_str_bytes false
                      (call_malloc env false st (str_literal.length + 1)).1 0
                      (call_malloc env false st (str_literal.length + 1)).2
                      str_literal)).1
                  (call_malloc env false st (str_literal.length + 1)).1
                  (i32_wrap (i32_wrap (((str_literal.length + 1 : Nat)) : Int) - 1))
                  false
                  (ins_iconst .I8 0 false
                    (store_str_bytes false
                      (call_malloc env false st (str_literal.length + 1)).1 0
                      (call_malloc env false st (str_literal.length + 1)).2
                      str_literal)).2) = Except.ok (v, st') := h
            have hst := congrArg Prod.snd (Except.ok.inj h)
            subst hst
            exact dead_trans
              (⟨rfl, rfl, rfl, rfl, rfl⟩ :
                DeadPre st (call_malloc env false st (str_literal.length + 1)).2)
              (dead_trans
                (dead_str_bytes (call_malloc env false st (str_literal.length + 1)).1
                  str_literal 0 (call_malloc env false st (str_literal.length + 1)).2)
                (⟨rfl, rfl, rfl, rfl, rfl⟩ :
                  DeadPre (store_str_bytes false
                    (call_malloc env false st (str_literal.length + 1)).1 0
                    (call_malloc env false st (str_literal.length + 1)).2
                    str_literal) _))
      | Array elem_layout elems =>
          rw [build_expr_array] at h
          by_cases hemp : elems.isEmpty
          · rw [if_pos hemp] at h
            exact Except.noConfusion h
          · rw [if_neg hemp] at h
            replace h : (store_array_elems
                (fun sc lv s e => build_expr fuel env sc lv s e) scope false
                (call_malloc env false st
                  (Layout.stack_size env.ptr_bytes elem_layout * elems.length + 1)).1
                (Layout.stack_size env.ptr_bytes elem_layout) 0
                (call_malloc env false st
                  (Layout.stack_size env.ptr_bytes elem_layout * elems.length + 1)).2
                elems).bind
              (fun stA => Except.ok
                ((call_malloc env false st
                    (Layout.stack_size env.ptr_bytes elem_layout * elems.length + 1)).1,
                 ins_store (ins_iconst .I8 0 false stA).1
                  (call_malloc env false st
                    (Layout.stack_size env.ptr_bytes elem_layout * elems.length + 1)).1
                  (i32_wrap (i32_wrap
                    (((Layout.stack_size env.ptr_bytes elem_layout * elems.length + 1 :
                      Nat)) : Int) - 1)) false
                  (ins_iconst .I8 0 false stA).2)) = Except.ok (v, st') := h
            rw [bindE_eq_ok] at h
            obtain ⟨st1, hse, h⟩ := h
            have hd1 := dead_array_elems ih scope _ _ elems 0 _ st1 hse
            have hst := congrArg Prod.snd (Except.ok.inj h)
            subst hst
            exact dead_trans (⟨rfl, rfl, rfl, rfl, rfl⟩ : DeadPre st _)
              (dead_trans hd1 (⟨rfl, rfl, rfl, rfl, rfl⟩ : DeadPre st1 _))
      | Unhandled => exact Except.noConfusion h

theorem env_bound_write {live : Bool} {c k : Nat} {rv : RVal}
    {env : List (Nat × RVal)}
    (hb : ∀ j, c ≤ j → alist_get env j = none) (hk : c + 1 ≤ k) :
    alist_get (write_if live c rv env) k = none := by
  rw [alist_get_write_if_ne _ _ _ _ _ (by omega)]
  exact hb k (by omega)

theorem getval_fresh (n σ : Nat) {s1 s2 : BState}
    (hn : n ≤ s1.val_ctr) (hv : s2.val_ctr = s1.val_ctr + σ)
    (hgv : ∀ k, k < s1.val_ctr → s2.getVal (vmap n σ k) = s1.getVal k)
    (he1 : ∀ k, s1.val_ctr ≤ k → alist_get s1.env k = none)
    (he2 : ∀ k, s2.val_ctr ≤ k → alist_get s2.env k = none)
    (live : Bool) (rv : RVal) :
    ∀ k, k < s1.val_ctr + 1 →
      (alist_get (write_if live s2.val_ctr rv s2.env) (vmap n σ k)).getD (.Unknown 0) =
      (alist_get (write_if live s1.val_ctr rv s1.env) k).getD (.Unknown 0) := by
  intro k hk
  by_cases hkc : k = s1.val_ctr
  · rw [hkc]
    have hvm : vmap n σ s1.val_ctr = s2.val_ctr := by
      unfold vmap
      rw [if_neg (by omega)]
      omega
    rw [hvm]
    cases live with
    | false =>
        show (alist_get s2.env s2.val_ctr).getD _ = (alist_get s1.env s1.val_ctr).getD _
        rw [he2 _ (le_refl _), he1 _ (le_refl _)]
    | true =>
        show (alist_get ((s2.val_ctr, rv) :: s2.env) s2.val_ctr).getD _ =
          (alist_get ((s1.val_ctr, rv) :: s1.env) s1.val_ctr).getD _
        simp [alist_get]
  · have hklt : k < s1.val_ctr := by omega
    have h2ne : vmap n σ k ≠ s2.val_ctr := by
      unfold vmap
      split <;> omega
    rw [alist_get_write_if_ne _ _ _ _ _ h2ne,
        alist_get_write_if_ne _ _ _ _ _ (by omega : k ≠ s1.val_ctr)]
    exact hgv k hklt

theorem simrel_pure_step (n σ β : Nat) {s1 s2 t1 t2 : BState}
    (hs : SimRel n σ β s1 s2) (d e : Nat)
    (h1v : t1.val_ctr = s1.val_ctr) (h2v : t2.val_ctr = s2.val_ctr)
    (h1e : t1.env = s1.env) (h2e : t2.env = s2.env)
    (h1b : t1.next_block = s1.next_block + d) (h2b : t2.next_block = s2.next_block + d)
    (h1slc : t1.slot_ctr = s1.slot_ctr + e) (h2slc : t2.slot_ctr = s2.slot_ctr + e)
    (h1sl : t1.slots = s1.slots) (h2sl : t2.slots = s2.slots)
    (h1vv : t1.var_vals = s1.var_vals) (h2vv : t2.var_vals = s2.var_vals)
    (h1ac : t1.alloc_ctr = s1.alloc_ctr) (h2ac : t2.alloc_ctr = s2.alloc_ctr)
    (h1m : t1.mem = s1.mem) (h2m : t2.mem = s2.mem) :
    SimRel n σ β t1 t2 := by
  refine ⟨?_, ?_, ?_, ?_, ?_, ?_, ?_, ?_, ?_, ?_, ?_⟩
  · rw [h1v]; exact hs.hn
  · rw [h1v, h2v]; exact hs.hv
  · rw [h1b, h2b, hs.hnb]; omega
  · rw [h1slc, h2slc, hs.hslc]
  · rw [h1sl, h2sl]; exact hs.hsl
  · rw [h1vv, h2vv]; exact hs.hvv
  · rw [h1ac, h2ac]; exact hs.hac
  · rw [h1m, h2m]; exact hs.hm
  · intro k hk
    rw [h1e]
    exact hs.he1 k (by rw [h1v] at hk; exact hk)
  · intro k hk
    rw [h2e]
    exact hs.he2 k (by rw [h2v] at hk; exact hk)
  · intro k hk
    show (alist_get t2.env _).getD _ = (alist_get t1.env _).getD _
    rw [h1e, h2e]
    exact hs.hgv k (by rw [h1v] at hk; exact hk)

theorem sim_iconst (n σ β : Nat) {s1 s2 : BState} (hs : SimRel n σ β s1 s2)
    (t : CTy) (c : Int) (live : Bool) :
    SimRel n σ β (ins_iconst t c live s1).2 (ins_iconst t c live s2).2 ∧
    (ins_iconst t c live s2).1 = vmap n σ (ins_iconst t c live s1).1 := by
  have hrv : (.IntV c : RVal) = .IntV c := rfl
  constructor
  · refine ⟨?_, ?_, ?_, ?_, ?_, ?_, ?_, ?_, ?_, ?_, ?_⟩
    · exact le_trans hs.hn (Nat.le_succ _)
    · show s2.val_ctr + 1 = s1.val_ctr + 1 + σ
      have hv := hs.hv
      omega
    · exact hs.hnb
    · exact hs.hslc
    · exact hs.hsl
    · exact hs.hvv
    · exact hs.hac
    · exact hs.hm
    · intro k hk
      show alist_get (write_if live s1.val_ctr (.IntV c) s1.env) k = none
      exact env_bound_write hs.he1 hk
    · intro k hk
      show alist_get (write_if live s2.val_ctr (.IntV c) s2.env) k = none
      exact env_bound_write hs.he2 hk
    · intro k hk
      show (alist_get (write_if live s2.val_ctr (.IntV c) s2.env)
          (vmap n σ k)).getD (.Unknown 0) =
        (alist_get (write_if live s1.val_ctr (.IntV c) s1.env) k).getD (.Unknown 0)
      rw [hrv]
      exact getval_fresh n σ hs.hn hs.hv hs.hgv hs.he1 hs.he2 live (.IntV c) k hk
  · show s2.val_ctr = vmap n σ s1.val_ctr
    have hn := hs.hn
    have hv := hs.hv
    unfold vmap
    rw [if_neg (by omega)]
    omega

theorem sim_f64const (n σ β : Nat) {s1 s2 : BState} (hs : SimRel n σ β s1 s2)
    (bits : Nat) (live : Bool) :
    SimRel n σ β (ins_f64const bits live s1).2 (ins_f64const bits live s2).2 ∧
    (ins_f64const bits live s2).1 = vmap n σ (ins_f64const bits live s1).1 := by
  have hrv : (.FloatV bits : RVal) = .FloatV bits := rfl
  constructor
  · refine ⟨?_, ?_, ?_, ?_, ?_, ?_, ?_, ?_, ?_, ?_, ?_⟩
    · exact le_trans hs.hn (Nat.le_succ _)
    · show s2.val_ctr + 1 = s1.val_ctr + 1 + σ
      have hv := hs.hv
      omega
    · exact hs.hnb
    · exact hs.hslc
    · exact hs.hsl
    · exact hs.hvv
    · exact hs.hac
    · exact hs.hm
    · intro k hk
      show alist_get (write_if live s1.val_ctr (.FloatV bits) s1.env) k = none
      exact env_bound_write hs.he1 hk
    · intro k hk
      show alist_get (write_if live s2.val_ctr (.FloatV bits) s2.env) k = none
      exact env_bound_write hs.he2 hk
    · intro k hk
      show (alist_get (write_if live s2.val_ctr (.FloatV bits) s2.env)
          (vmap n σ k)).getD (.Unknown 0) =
        (alist_get (write_if live s1.val_ctr (.FloatV bits) s1.env) k).getD (.Unknown 0)
      rw [hrv]
      exact getval_fresh n σ hs.hn hs.hv hs.hgv hs.he1 hs.he2 live (.FloatV bits) k hk
  · show s2.val_ctr = vmap n σ s1.val_ctr
    have hn := hs.hn
    have hv := hs.hv
    unfold vmap
    rw [if_neg (by omega)]
    omega

theorem sim_bconst (n σ β : Nat) {s1 s2 : BState} (hs : SimRel n σ β s1 s2)
    (b : Bool) (live : Bool) :
    SimRel n σ β (ins_bconst b live s1).2 (ins_bconst b live s2).2 ∧
    (ins_bconst b live s2).1 = vmap n σ (ins_bconst b live s1).1 := by
  have hrv : (.BoolV b : RVal) = .BoolV b := rfl
  constructor
  · refine ⟨?_, ?_, ?_, ?_, ?_, ?_, ?_, ?_, ?_, ?_, ?_⟩
    · exact le_trans hs.hn (Nat.le_succ _)
    · show s2.val_ctr + 1 = s1.val_ctr + 1 + σ
      have hv := hs.hv
      omega
    · exact hs.hnb
    · exact hs.hslc
    · exact hs.hsl
    · exact hs.hvv
    · exact hs.hac
    · exact hs.hm
    · intro k hk
      show alist_get (write_if live s1.val_ctr (.BoolV b) s1.env) k = none
      exact env_bound_write hs.he1 hk
    · intro k hk
      show alist_get (write_if live s2.val_ctr (.BoolV b) s2.env) k = none
      exact env_bound_write hs.he2 hk
    · intro k hk
      show (alist_get (write_if live s2.val_ctr (.BoolV b) s2.env)
          (vmap n σ k)).getD (.Unknown 0) =
        (alist_get (write_if live s1.val_ctr (.BoolV b) s1.env) k).getD (.Unknown 0)
      rw [hrv]
      exact getval_fresh n σ hs.hn hs.hv hs.hgv hs.he1 hs.he2 live (.BoolV b) k hk
  · show s2.val_ctr = vmap n σ s1.val_ctr
    have hn := hs.hn
    have hv := hs.hv
    unfold vmap
    rw [if_neg (by omega)]
    omega

theorem sim_iadd (n σ β : Nat) {s1 s2 : BState} (hs : SimRel n σ β s1 s2)
    {a b : Nat} (live : Bool)
    (ha : a < s1.val_ctr) (hb2 : b < s1.val_ctr) :
    SimRel n σ β (ins_iadd a b live s1).2 (ins_iadd (vmap n σ a) (vmap n σ b) live s2).2 ∧
    (ins_iadd (vmap n σ a) (vmap n σ b) live s2).1 = vmap n σ (ins_iadd a b live s1).1 := by
  have hrv : (int_bin (· + ·) (s2.getVal (vmap n σ a)) (s2.getVal (vmap n σ b)) : RVal) = int_bin (· + ·) (s1.getVal a) (s1.getVal b) := by rw [hs.hgv a ha, hs.hgv b hb2]
  constructor
  · refine ⟨?_, ?_, ?_, ?_, ?_, ?_, ?_, ?_, ?_, ?_, ?_⟩
    · exact le_trans hs.hn (Nat.le_succ _)
    · show s2.val_ctr + 1 = s1.val_ctr + 1 + σ
      have hv := hs.hv
      omega
    · exact hs.hnb
    · exact hs.hslc
    · exact hs.hsl
    · exact hs.hvv
    · exact hs.hac
    · exact hs.hm
    · intro k hk
      show alist_get (write_if live s1.val_ctr (int_bin (· + ·) (s1.getVal a) (s1.getVal b)) s1.env) k = none
      exact env_bound_write hs.he1 hk
    · intro k hk
      show alist_get (write_if live s2.val_ctr (int_bin (· + ·) (s2.getVal (vmap n σ a)) (s2.getVal (vmap n σ b))) s2.env) k = none
      exact env_bound_write hs.he2 hk
    · intro k hk
      show (alist_get (write_if live s2.val_ctr (int_bin (· + ·) (s2.getVal (vmap n σ a)) (s2.getVal (vmap n σ b))) s2.env)
          (vmap n σ k)).getD (.Unknown 0) =
        (alist_get (write_if live s1.val_ctr (int_bin (· + ·) (s1.getVal a) (s1.getVal b)) s1.env) k).getD (.Unknown 0)
      rw [hrv]
      exact getval_fresh n σ hs.hn hs.hv hs.hgv hs.he1 hs.he2 live (int_bin (· + ·) (s1.getVal a) (s1.getVal b)) k hk
  · show s2.val_ctr = vmap n σ s1.val_ctr
    have hn := hs.hn
    have hv := hs.hv
    unfold vmap
    rw [if_neg (by omega)]
    omega

theorem sim_isub (n σ β : Nat) {s1 s2 : BState} (hs : SimRel n σ β s1 s2)
    {a b : Nat} (live : Bool)
    (ha : a < s1.val_ctr) (hb2 : b < s1.val_ctr) :
    SimRel n σ β (ins_isub a b live s1).2 (ins_isub (vmap n σ a) (vmap n σ b) live s2).2 ∧
    (ins_isub (vmap n σ a) (vmap n σ b) live s2).1 = vmap n σ (ins_isub a b live s1).1 := by
  have hrv : (int_bin (· - ·) (s2.getVal (vmap n σ a)) (s2.getVal (vmap n σ b)) : RVal) = int_bin (· - ·) (s1.getVal a) (s1.getVal b) := by rw [hs.hgv a ha, hs.hgv b hb2]
  constructor
  · refine ⟨?_, ?_, ?_, ?_, ?_, ?_, ?_, ?_, ?_, ?_, ?_⟩
    · exact le_trans hs.hn (Nat.le_succ _)
    · show s2.val_ctr + 1 = s1.val_ctr + 1 + σ
      have hv := hs.hv
      omega
    · exact hs.hnb
    · exact hs.hslc
    · exact hs.hsl
    · exact hs.hvv
    · exact hs.hac
    · exact hs.hm
    · intro k hk
      show alist_get (write_if live s1.val_ctr (int_bin (· - ·) (s1.getVal a) (s1.getVal b)) s1.env) k = none
      exact env_bound_write hs.he1 hk
    · intro k hk
      show alist_get (write_if live s2.val_ctr (int_bin (· - ·) (s2.getVal (vmap n σ a)) (s2.getVal (vmap n σ b))) s2.env) k = none
      exact env_bound_write hs.he2 hk
    · intro k hk
      show (alist_get (write_if live s2.val_ctr (int_bin (· - ·) (s2.getVal (vmap n σ a)) (s2.getVal (vmap n σ b))) s2.env)
          (vmap n σ k)).getD (.Unknown 0) =
        (alist_get (write_if live s1.val_ctr (int_bin (· - ·) (s1.getVal a) (s1.getVal b)) s1.env) k).getD (.Unknown 0)
      rw [hrv]
      exact getval_fresh n σ hs.hn hs.hv hs.hgv hs.he1 hs.he2 live (int_bin (· - ·) (s1.getVal a) (s1.getVal b)) k hk
  · show s2.val_ctr = vmap n σ s1.val_ctr
    have hn := hs.hn
    have hv := hs.hv
    unfold vmap
    rw [if_neg (by omega)]
    omega

theorem sim_imul (n σ β : Nat) {s1 s2 : BState} (hs : SimRel n σ β s1 s2)
    {a b : Nat} (live : Bool)
    (ha : a < s1.val_ctr) (hb2 : b < s1.val_ctr) :
    SimRel n σ β (ins_imul a b live s1).2 (ins_imul (vmap n σ a) (vmap n σ b) live s2).2 ∧
    (ins_imul (vmap n σ a) (vmap n σ b) live s2).1 = vmap n σ (ins_imul a b live s1).1 := by
  have hrv : (int_bin (· * ·) (s2.getVal (vmap n σ a)) (s2.getVal (vmap n σ b)) : RVal) = int_bin (· * ·) (s1.getVal a) (s1.getVal b) := by rw [hs.hgv a ha, hs.hgv b hb2]
  constructor
  · refine ⟨?_, ?_, ?_, ?_, ?_, ?_, ?_, ?_, ?_, ?_, ?_⟩
    · exact le_trans hs.hn (Nat.le_succ _)
    · show s2.val_ctr + 1 = s1.val_ctr + 1 + σ
      have hv := hs.hv
      omega
    · exact hs.hnb
    · exact hs.hslc
    · exact hs.hsl
    · exact hs.hvv
    · exact hs.hac
    · exact hs.hm
    · intro k hk
      show alist_get (write_if live s1.val_ctr (int_bin (· * ·) (s1.getVal a) (s1.getVal b)) s1.env) k = none
      exact env_bound_write hs.he1 hk
    · intro k hk
      show alist_get (write_if live s2.val_ctr (int_bin (· * ·) (s2.getVal (vmap n σ a)) (s2.getVal (vmap n σ b))) s2.env) k = none
      exact env_bound_write hs.he2 hk
    · intro k hk
      show (alist_get (write_if live s2.val_ctr (int_bin (· * ·) (s2.getVal (vmap n σ a)) (s2.getVal (vmap n σ b))) s2.env)
          (vmap n σ k)).getD (.Unknown 0) =
        (alist_get (write_if live s1.val_ctr (int_bin (· * ·) (s1.getVal a) (s1.getVal b)) s1.env) k).getD (.Unknown 0)
      rw [hrv]
      exact getval_fresh n σ hs.hn hs.hv hs.hgv hs.he1 hs.he2 live (int_bin (· * ·) (s1.getVal a) (s1.getVal b)) k hk
  · show s2.val_ctr = vmap n σ s1.val_ctr
    have hn := hs.hn
    have hv := hs.hv
    unfold vmap
    rw [if_neg (by omega)]
    omega

theorem sim_ineg (n σ β : Nat) {s1 s2 : BState} (hs : SimRel n σ β s1 s2)
    {a : Nat} (live : Bool)
    (ha : a < s1.val_ctr) :
    SimRel n σ β (ins_ineg a live s1).2 (ins_ineg (vmap n σ a) live s2).2 ∧
    (ins_ineg (vmap n σ a) live s2).1 = vmap n σ (ins_ineg a live s1).1 := by
  have hrv : ((match s2.getVal (vmap n σ a) with | .IntV x => .IntV (-x) | _ => .Unknown 2) : RVal) = (match s1.getVal a with | .IntV x => .IntV (-x) | _ => .Unknown 2) := by rw [hs.hgv a ha]
  constructor
  · refine ⟨?_, ?_, ?_, ?_, ?_, ?_, ?_, ?_, ?_, ?_, ?_⟩
    · exact le_trans hs.hn (Nat.le_succ _)
    · show s2.val_ctr + 1 = s1.val_ctr + 1 + σ
      have hv := hs.hv
      omega
    · exact hs.hnb
    · exact hs.hslc
    · exact hs.hsl
    · exact hs.hvv
    · exact hs.hac
    · exact hs.hm
    · intro k hk
      show alist_get (write_if live s1.val_ctr ((match s1.getVal a with | .IntV x => .IntV (-x) | _ => .Unknown 2)) s1.env) k = none
      exact env_bound_write hs.he1 hk
    · intro k hk
      show alist_get (write_if live s2.val_ctr ((match s2.getVal (vmap n σ a) with | .IntV x => .IntV (-x) | _ => .Unknown 2)) s2.env) k = none
      exact env_bound_write hs.he2 hk
    · intro k hk
      show (alist_get (write_if live s2.val_ctr ((match s2.getVal (vmap n σ a) with | .IntV x => .IntV (-x) | _ => .Unknown 2)) s2.env)
          (vmap n σ k)).getD (.Unknown 0) =
        (alist_get (write_if live s1.val_ctr ((match s1.getVal a with | .IntV x => .IntV (-x) | _ => .Unknown 2)) s1.env) k).getD (.Unknown 0)
      rw [hrv]
      exact getval_fresh n σ hs.hn hs.hv hs.hgv hs.he1 hs.he2 live ((match s1.getVal a with | .IntV x => .IntV (-x) | _ => .Unknown 2)) k hk
  · show s2.val_ctr = vmap n σ s1.val_ctr
    have hn := hs.hn
    have hv := hs.hv
    unfold vmap
    rw [if_neg (by omega)]
    omega

theorem sim_icmp (n σ β : Nat) {s1 s2 : BState} (hs : SimRel n σ β s1 s2)
    {a b : Nat} (live : Bool)
    (ha : a < s1.val_ctr) (hb2 : b < s1.val_ctr) :
    SimRel n σ β (ins_icmp_eq a b live s1).2 (ins_icmp_eq (vmap n σ a) (vmap n σ b) live s2).2 ∧
    (ins_icmp_eq (vmap n σ a) (vmap n σ b) live s2).1 = vmap n σ (ins_icmp_eq a b live s1).1 := by
  have hrv : ((match s2.getVal (vmap n σ a), s2.getVal (vmap n σ b) with | .IntV x, .IntV y => .BoolV (decide (x = y)) | _, _ => .Unknown 3) : RVal) = (match s1.getVal a, s1.getVal b with | .IntV x, .IntV y => .BoolV (decide (x = y)) | _, _ => .Unknown 3) := by rw [hs.hgv a ha, hs.hgv b hb2]
  constructor
  · refine ⟨?_, ?_, ?_, ?_, ?_, ?_, ?_, ?_, ?_, ?_, ?_⟩
    · exact le_trans hs.hn (Nat.le_succ _)
    · show s2.val_ctr + 1 = s1.val_ctr + 1 + σ
      have hv := hs.hv
      omega
    · exact hs.hnb
    · exact hs.hslc
    · exact hs.hsl
    · exact hs.hvv
    · exact hs.hac
    · exact hs.hm
    · intro k hk
      show alist_get (write_if live s1.val_ctr ((match s1.getVal a, s1.getVal b with | .IntV x, .IntV y => .BoolV (decide (x = y)) | _, _ => .Unknown 3)) s1.env) k = none
      exact env_bound_write hs.he1 hk
    · intro k hk
      show alist_get (write_if live s2.val_ctr ((match s2.getVal (vmap n σ a), s2.getVal (vmap n σ b) with | .IntV x, .IntV y => .BoolV (decide (x = y)) | _, _ => .Unknown 3)) s2.env) k = none
      exact env_bound_write hs.he2 hk
    · intro k hk
      show (alist_get (write_if live s2.val_ctr ((match s2.getVal (vmap n σ a), s2.getVal (vmap n σ b) with | .IntV x, .IntV y => .BoolV (decide (x = y)) | _, _ => .Unknown 3)) s2.env)
          (vmap n σ k)).getD (.Unknown 0) =
        (alist_get (write_if live s1.val_ctr ((match s1.getVal a, s1.getVal b with | .IntV x, .IntV y => .BoolV (decide (x = y)) | _, _ => .Unknown 3)) s1.env) k).getD (.Unknown 0)
      rw [hrv]
      exact getval_fresh n σ hs.hn hs.hv hs.hgv hs.he1 hs.he2 live ((match s1.getVal a, s1.getVal b with | .IntV x, .IntV y => .BoolV (decide (x = y)) | _, _ => .Unknown 3)) k hk
  · show s2.val_ctr = vmap n σ s1.val_ctr
    have hn := hs.hn
    have hv := hs.hv
    unfold vmap
    rw [if_neg (by omega)]
    omega

theorem sim_fadd (n σ β : Nat) {s1 s2 : BState} (hs : SimRel n σ β s1 s2)
    {a b : Nat} (live : Bool)
    (ha : a < s1.val_ctr) (hb2 : b < s1.val_ctr) :
    SimRel n σ β (ins_fadd a b live s1).2 (ins_fadd (vmap n σ a) (vmap n σ b) live s2).2 ∧
    (ins_fadd (vmap n σ a) (vmap n σ b) live s2).1 = vmap n σ (ins_fadd a b live s1).1 := by
  have hrv : (.FloatOp 0 (s2.getVal (vmap n σ a)) (s2.getVal (vmap n σ b)) : RVal) = .FloatOp 0 (s1.getVal a) (s1.getVal b) := by rw [hs.hgv a ha, hs.hgv b hb2]
  constructor
  · refine ⟨?_, ?_, ?_, ?_, ?_, ?_, ?_, ?_, ?_, ?_, ?_⟩
    · exact le_trans hs.hn (Nat.le_succ _)
    · show s2.val_ctr + 1 = s1.val_ctr + 1 + σ
      have hv := hs.hv
      omega
    · exact hs.hnb
    · exact hs.hslc
    · exact hs.hsl
    · exact hs.hvv
    · exact hs.hac
    · exact hs.hm
    · intro k hk
      show alist_get (write_if live s1.val_ctr (.FloatOp 0 (s1.getVal a) (s1.getVal b)) s1.env) k = none
      exact env_bound_write hs.he1 hk
    · intro k hk
      show alist_get (write_if live s2.val_ctr (.FloatOp 0 (s2.getVal (vmap n σ a)) (s2.getVal (vmap n σ b))) s2.env) k = none
      exact env_bound_write hs.he2 hk
    · intro k hk
      show (alist_get (write_if live s2.val_ctr (.FloatOp 0 (s2.getVal (vmap n σ a)) (s2.getVal (vmap n σ b))) s2.env)
          (vmap n σ k)).getD (.Unknown 0) =
        (alist_get (write_if live s1.val_ctr (.FloatOp 0 (s1.getVal a) (s1.getVal b)) s1.env) k).getD (.Unknown 0)
      rw [hrv]
      exact getval_fresh n σ hs.hn hs.hv hs.hgv hs.he1 hs.he2 live (.FloatOp 0 (s1.getVal a) (s1.getVal b)) k hk
  · show s2.val_ctr = vmap n σ s1.val_ctr
    have hn := hs.hn
    have hv := hs.hv
    unfold vmap
    rw [if_neg (by omega)]
    omega

theorem sim_fsub (n σ β : Nat) {s1 s2 : BState} (hs : SimRel n σ β s1 s2)
    {a b : Nat} (live : Bool)
    (ha : a < s1.val_ctr) (hb2 : b < s1.val_ctr) :
    SimRel n σ β (ins_fsub a b live s1).2 (ins_fsub (vmap n σ a) (vmap n σ b) live s2).2 ∧
    (ins_fsub (vmap n σ a) (vmap n σ b) live s2).1 = vmap n σ (ins_fsub a b live s1).1 := by
  have hrv : (.FloatOp 1 (s2.getVal (vmap n σ a)) (s2.getVal (vmap n σ b)) : RVal) = .FloatOp 1 (s1.getVal a) (s1.getVal b) := by rw [hs.hgv a ha, hs.hgv b hb2]
  constructor
  · refine ⟨?_, ?_, ?_, ?_, ?_, ?_, ?_, ?_, ?_, ?_, ?_⟩
    · exact le_trans hs.hn (Nat.le_succ _)
    · show s2.val_ctr + 1 = s1.val_ctr + 1 + σ
      have hv := hs.hv
      omega
    · exact hs.hnb
    · exact hs.hslc
    · exact hs.hsl
    · exact hs.hvv
    · exact hs.hac
    · exact hs.hm
    · intro k hk
      show alist_get (write_if live s1.val_ctr (.FloatOp 1 (s1.getVal a) (s1.getVal b)) s1.env) k = none
      exact env_bound_write hs.he1 hk
    · intro k hk
      show alist_get (write_if live s2.val_ctr (.FloatOp 1 (s2.getVal (vmap n σ a)) (s2.getVal (vmap n σ b))) s2.env) k = none
      exact env_bound_write hs.he2 hk
    · intro k hk
      show (alist_get (write_if live s2.val_ctr (.FloatOp 1 (s2.getVal (vmap n σ a)) (s2.getVal (vmap n σ b))) s2.env)
          (vmap n σ k)).getD (.Unknown 0) =
        (alist_get (write_if live s1.val_ctr (.FloatOp 1 (s1.getVal a) (s1.getVal b)) s1.env) k).getD (.Unknown 0)
      rw [hrv]
      exact getval_fresh n σ hs.hn hs.hv hs.hgv hs.he1 hs.he2 live (.FloatOp 1 (s1.getVal a) (s1.getVal b)) k hk
  · show s2.val_ctr = vmap n σ s1.val_ctr
    have hn := hs.hn
    have hv := hs.hv
    unfold vmap
    rw [if_neg (by omega)]
    omega

theorem sim_fcmp (n σ β : Nat) {s1 s2 : BState} (hs : SimRel n σ β s1 s2)
    {a b : Nat} (live : Bool)
    (ha : a < s1.val_ctr) (hb2 : b < s1.val_ctr) :
    SimRel n σ β (ins_fcmp_eq a b live s1).2 (ins_fcmp_eq (vmap n σ a) (vmap n σ b) live s2).2 ∧
    (ins_fcmp_eq (vmap n σ a) (vmap n σ b) live s2).1 = vmap n σ (ins_fcmp_eq a b live s1).1 := by
  have hrv : (.FloatOp 2 (s2.getVal (vmap n σ a)) (s2.getVal (vmap n σ b)) : RVal) = .FloatOp 2 (s1.getVal a) (s1.getVal b) := by rw [hs.hgv a ha, hs.hgv b hb2]
  constructor
  · refine ⟨?_, ?_, ?_, ?_, ?_, ?_, ?_, ?_, ?_, ?_, ?_⟩
    · exact le_trans hs.hn (Nat.le_succ _)
    · show s2.val_ctr + 1 = s1.val_ctr + 1 + σ
      have hv := hs.hv
      omega
    · exact hs.hnb
    · exact hs.hslc
    · exact hs.hsl
    · exact hs.hvv
    · exact hs.hac
    · exact hs.hm
    · intro k hk
      show alist_get (write_if live s1.val_ctr (.FloatOp 2 (s1.getVal a) (s1.getVal b)) s1.env) k = none
      exact env_bound_write hs.he1 hk
    · intro k hk
      show alist_get (write_if live s2.val_ctr (.FloatOp 2 (s2.getVal (vmap n σ a)) (s2.getVal (vmap n σ b))) s2.env) k = none
      exact env_bound_write hs.he2 hk
    · intro k hk
      show (alist_get (write_if live s2.val_ctr (.FloatOp 2 (s2.getVal (vmap n σ a)) (s2.getVal (vmap n σ b))) s2.env)
          (vmap n σ k)).getD (.Unknown 0) =
        (alist_get (write_if live s1.val_ctr (.FloatOp 2 (s1.getVal a) (s1.getVal b)) s1.env) k).getD (.Unknown 0)
      rw [hrv]
      exact getval_fresh n σ hs.hn hs.hv hs.hgv hs.he1 hs.he2 live (.FloatOp 2 (s1.getVal a) (s1.getVal b)) k hk
  · show s2.val_ctr = vmap n σ s1.val_ctr
    have hn := hs.hn
    have hv := hs.hv
    unfold vmap
    rw [if_neg (by omega)]
    omega

theorem sim_stack_load (n σ β : Nat) {s1 s2 : BState} (hs : SimRel n σ β s1 s2)
    (t : CTy) (slot : Nat) (off : Int) (live : Bool) :
    SimRel n σ β (ins_stack_load t slot off live s1).2 (ins_stack_load t slot off live s2).2 ∧
    (ins_stack_load t slot off live s2).1 = vmap n σ (ins_stack_load t slot off live s1).1 := by
  have hrv : ((alist_get s2.slots (slot, off)).getD (.Unknown 4) : RVal) = (alist_get s1.slots (slot, off)).getD (.Unknown 4) := by rw [hs.hsl]
  constructor
  · refine ⟨?_, ?_, ?_, ?_, ?_, ?_, ?_, ?_, ?_, ?_, ?_⟩
    · exact le_trans hs.hn (Nat.le_succ _)
    · show s2.val_ctr + 1 = s1.val_ctr + 1 + σ
      have hv := hs.hv
      omega
    · exact hs.hnb
    · exact hs.hslc
    · exact hs.hsl
    · exact hs.hvv
    · exact hs.hac
    · exact hs.hm
    · intro k hk
      show alist_get (write_if live s1.val_ctr ((alist_get s1.slots (slot, off)).getD (.Unknown 4)) s1.env) k = none
      exact env_bound_write hs.he1 hk
    · intro k hk
      show alist_get (write_if live s2.val_ctr ((alist_get s2.slots (slot, off)).getD (.Unknown 4)) s2.env) k = none
      exact env_bound_write hs.he2 hk
    · intro k hk
      show (alist_get (write_if live s2.val_ctr ((alist_get s2.slots (slot, off)).getD (.Unknown 4)) s2.env)
          (vmap n σ k)).getD (.Unknown 0) =
        (alist_get (write_if live s1.val_ctr ((alist_get s1.slots (slot, off)).getD (.Unknown 4)) s1.env) k).getD (.Unknown 0)
      rw [hrv]
      exact getval_fresh n σ hs.hn hs.hv hs.hgv hs.he1 hs.he2 live ((alist_get s1.slots (slot, off)).getD (.Unknown 4)) k hk
  · show s2.val_ctr = vmap n σ s1.val_ctr
    have hn := hs.hn
    have hv := hs.hv
    unfold vmap
    rw [if_neg (by omega)]
    omega

theorem sim_stack_addr (n σ β : Nat) {s1 s2 : BState} (hs : SimRel n σ β s1 s2)
    (t : CTy) (slot : Nat) (off : Int) (live : Bool) :
    SimRel n σ β (ins_stack_addr t slot off live s1).2 (ins_stack_addr t slot off live s2).2 ∧
    (ins_stack_addr t slot off live s2).1 = vmap n σ (ins_stack_addr t slot off live s1).1 := by
  have hrv : (.PtrV (slot_addr slot + off) : RVal) = .PtrV (slot_addr slot + off) := rfl
  constructor
  · refine ⟨?_, ?_, ?_, ?_, ?_, ?_, ?_, ?_, ?_, ?_, ?_⟩
    · exact le_trans hs.hn (Nat.le_succ _)
    · show s2.val_ctr + 1 = s1.val_ctr + 1 + σ
      have hv := hs.hv
      omega
    · exact hs.hnb
    · exact hs.hslc
    · exact hs.hsl
    · exact hs.hvv
    · exact hs.hac
    · exact hs.hm
    · intro k hk
      show alist_get (write_if live s1.val_ctr (.PtrV (slot_addr slot + off)) s1.env) k = none
      exact env_bound_write hs.he1 hk
    · intro k hk
      show alist_get (write_if live s2.val_ctr (.PtrV (slot_addr slot + off)) s2.env) k = none
      exact env_bound_write hs.he2 hk
    · intro k hk
      show (alist_get (write_if live s2.val_ctr (.PtrV (slot_addr slot + off)) s2.env)
          (vmap n σ k)).getD (.Unknown 0) =
        (alist_get (write_if live s1.val_ctr (.PtrV (slot_addr slot + off)) s1.env) k).getD (.Unknown 0)
      rw [hrv]
      exact getval_fresh n σ hs.hn hs.hv hs.hgv hs.he1 hs.he2 live (.PtrV (slot_addr slot + off)) k hk
  · show s2.val_ctr = vmap n σ s1.val_ctr
    have hn := hs.hn
    have hv := hs.hv
    unfold vmap
    rw [if_neg (by omega)]
    omega

theorem sim_load (n σ β : Nat) {s1 s2 : BState} (hs : SimRel n σ β s1 s2)
    (t : CTy) {p : Nat} (off : Int) (live : Bool)
    (hp : p < s1.val_ctr) :
    SimRel n σ β (ins_load t p off live s1).2 (ins_load t (vmap n σ p) off live s2).2 ∧
    (ins_load t (vmap n σ p) off live s2).1 = vmap n σ (ins_load t p off live s1).1 := by
  have hrv : ((match s2.getVal (vmap n σ p) with | .PtrV a => (alist_get s2.mem (a + off)).getD (.Unknown 5) | _ => .Unknown 5) : RVal) = (match s1.getVal p with | .PtrV a => (alist_get s1.mem (a + off)).getD (.Unknown 5) | _ => .Unknown 5) := by rw [hs.hgv p hp, hs.hm]
  constructor
  · refine ⟨?_, ?_, ?_, ?_, ?_, ?_, ?_, ?_, ?_, ?_, ?_⟩
    · exact le_trans hs.hn (Nat.le_succ _)
    · show s2.val_ctr + 1 = s1.val_ctr + 1 + σ
      have hv := hs.hv
      omega
    · exact hs.hnb
    · exact hs.hslc
    · exact hs.hsl
    · exact hs.hvv
    · exact hs.hac
    · exact hs.hm
    · intro k hk
      show alist_get (write_if live s1.val_ctr ((match s1.getVal p with | .PtrV a => (alist_get s1.mem (a + off)).getD (.Unknown 5) | _ => .Unknown 5)) s1.env) k = none
      exact env_bound_write hs.he1 hk
    · intro k hk
      show alist_get (write_if live s2.val_ctr ((match s2.getVal (vmap n σ p) with | .PtrV a => (alist_get s2.mem (a + off)).getD (.Unknown 5) | _ => .Unknown 5)) s2.env) k = none
      exact env_bound_write hs.he2 hk
    · intro k hk
      show (alist_get (write_if live s2.val_ctr ((match s2.getVal (vmap n σ p) with | .PtrV a => (alist_get s2.mem (a + off)).getD (.Unknown 5) | _ => .Unknown 5)) s2.env)
          (vmap n σ k)).getD (.Unknown 0) =
        (alist_get (write_if live s1.val_ctr ((match s1.getVal p with | .PtrV a => (alist_get s1.mem (a + off)).getD (.Unknown 5) | _ => .Unknown 5)) s1.env) k).getD (.Unknown 0)
      rw [hrv]
      exact getval_fresh n σ hs.hn hs.hv hs.hgv hs.he1 hs.he2 live ((match s1.getVal p with | .PtrV a => (alist_get s1.mem (a + off)).getD (.Unknown 5) | _ => .Unknown 5)) k hk
  · show s2.val_ctr = vmap n σ s1.val_ctr
    have hn := hs.hn
    have hv := hs.hv
    unfold vmap
    rw [if_neg (by omega)]
    omega

theorem sim_load_complex (n σ β : Nat) {s1 s2 : BState} (hs : SimRel n σ β s1 s2)
    (t : CTy) {p o : Nat} (off : Int) (live : Bool)
    (hp : p < s1.val_ctr) (ho : o < s1.val_ctr) :
    SimRel n σ β (ins_load_complex t p o off live s1).2 (ins_load_complex t (vmap n σ p) (vmap n σ o) off live s2).2 ∧
    (ins_load_complex t (vmap n σ p) (vmap n σ o) off live s2).1 = vmap n σ (ins_load_complex t p o off live s1).1 := by
  have hrv : ((match s2.getVal (vmap n σ p), s2.getVal (vmap n σ o) with | .PtrV a, .IntV k => (alist_get s2.mem (a + k + off)).getD (.Unknown 6) | _, _ => .Unknown 6) : RVal) = (match s1.getVal p, s1.getVal o with | .PtrV a, .IntV k => (alist_get s1.mem (a + k + off)).getD (.Unknown 6) | _, _ => .Unknown 6) := by rw [hs.hgv p hp, hs.hgv o ho, hs.hm]
  constructor
  · refine ⟨?_, ?_, ?_, ?_, ?_, ?_, ?_, ?_, ?_, ?_, ?_⟩
    · exact le_trans hs.hn (Nat.le_succ _)
    · show s2.val_ctr + 1 = s1.val_ctr + 1 + σ
      have hv := hs.hv
      omega
    · exact hs.hnb
    · exact hs.hslc
    · exact hs.hsl
    · exact hs.hvv
    · exact hs.hac
    · exact hs.hm
    · intro k hk
      show alist_get (write_if live s1.val_ctr ((match s1.getVal p, s1.getVal o with | .PtrV a, .IntV k => (alist_get s1.mem (a + k + off)).getD (.Unknown 6) | _, _ => .Unknown 6)) s1.env) k = none
      exact env_bound_write hs.he1 hk
    · intro k hk
      show alist_get (write_if live s2.val_ctr ((match s2.getVal (vmap n σ p), s2.getVal (vmap n σ o) with | .PtrV a, .IntV k => (alist_get s2.mem (a + k + off)).getD (.Unknown 6) | _, _ => .Unknown 6)) s2.env) k = none
      exact env_bound_write hs.he2 hk
    · intro k hk
      show (alist_get (write_if live s2.val_ctr ((match s2.getVal (vmap n σ p), s2.getVal (vmap n σ o) with | .PtrV a, .IntV k => (alist_get s2.mem (a + k + off)).getD (.Unknown 6) | _, _ => .Unknown 6)) s2.env)
          (vmap n σ k)).getD (.Unknown 0) =
        (alist_get (write_if live s1.val_ctr ((match s1.getVal p, s1.getVal o with | .PtrV a, .IntV k => (alist_get s1.mem (a + k + off)).getD (.Unknown 6) | _, _ => .Unknown 6)) s1.env) k).getD (.Unknown 0)
      rw [hrv]
      exact getval_fresh n σ hs.hn hs.hv hs.hgv hs.he1 hs.he2 live ((match s1.getVal p, s1.getVal o with | .PtrV a, .IntV k => (alist_get s1.mem (a + k + off)).getD (.Unknown 6) | _, _ => .Unknown 6)) k hk
  · show s2.val_ctr = vmap n σ s1.val_ctr
    have hn := hs.hn
    have hv := hs.hv
    unfold vmap
    rw [if_neg (by omega)]
    omega

theorem sim_func_addr (n σ β : Nat) {s1 s2 : BState} (hs : SimRel n σ β s1 s2)
    (t : CTy) (f : Nat) (live : Bool) :
    SimRel n σ β (ins_func_addr t f live s1).2 (ins_func_addr t f live s2).2 ∧
    (ins_func_addr t f live s2).1 = vmap n σ (ins_func_addr t f live s1).1 := by
  have hrv : (.FnAddr f : RVal) = .FnAddr f := rfl
  constructor
  · refine ⟨?_, ?_, ?_, ?_, ?_, ?_, ?_, ?_, ?_, ?_, ?_⟩
    · exact le_trans hs.hn (Nat.le_succ _)
    · show s2.val_ctr + 1 = s1.val_ctr + 1 + σ
      have hv := hs.hv
      omega
    · exact hs.hnb
    · exact hs.hslc
    · exact hs.hsl
    · exact hs.hvv
    · exact hs.hac
    · exact hs.hm
    · intro k hk
      show alist_get (write_if live s1.val_ctr (.FnAddr f) s1.env) k = none
      exact env_bound_write hs.he1 hk
    · intro k hk
      show alist_get (write_if live s2.val_ctr (.FnAddr f) s2.env) k = none
      exact env_bound_write hs.he2 hk
    · intro k hk
      show (alist_get (write_if live s2.val_ctr (.FnAddr f) s2.env)
          (vmap n σ k)).getD (.Unknown 0) =
        (alist_get (write_if live s1.val_ctr (.FnAddr f) s1.env) k).getD (.Unknown 0)
      rw [hrv]
      exact getval_fresh n σ hs.hn hs.hv hs.hgv hs.he1 hs.he2 live (.FnAddr f) k hk
  · show s2.val_ctr = vmap n σ s1.val_ctr
    have hn := hs.hn
    have hv := hs.hv
    unfold vmap
    rw [if_neg (by omega)]
    omega

theorem sim_call (n σ β : Nat) {s1 s2 : BState} (hs : SimRel n σ β s1 s2)
    (f : Nat) {args : List Nat} (live : Bool)
    (hbnd : ∀ a ∈ args, a < s1.val_ctr) :
    SimRel n σ β (ins_call f args live s1).2 (ins_call f (args.map (vmap n σ)) live s2).2 ∧
    (ins_call f (args.map (vmap n σ)) live s2).1 = vmap n σ (ins_call f args live s1).1 := by
  have hrv : (.CallRes f ((args.map (vmap n σ)).map s2.getVal) : RVal) = .CallRes f (args.map s1.getVal) := by
    have hmm : (args.map (vmap n σ)).map s2.getVal = args.map s1.getVal := by
      rw [List.map_map]
      exact List.map_congr_left (fun a hmem => hs.hgv a (hbnd a hmem))
    rw [hmm]
  constructor
  · refine ⟨?_, ?_, ?_, ?_, ?_, ?_, ?_, ?_, ?_, ?_, ?_⟩
    · exact le_trans hs.hn (Nat.le_succ _)
    · show s2.val_ctr + 1 = s1.val_ctr + 1 + σ
      have hv := hs.hv
      omega
    · exact hs.hnb
    · exact hs.hslc
    · exact hs.hsl
    · exact hs.hvv
    · exact hs.hac
    · exact hs.hm
    · intro k hk
      show alist_get (write_if live s1.val_ctr (.CallRes f (args.map s1.getVal)) s1.env) k = none
      exact env_bound_write hs.he1 hk
    · intro k hk
      show alist_get (write_if live s2.val_ctr (.CallRes f ((args.map (vmap n σ)).map s2.getVal)) s2.env) k = none
      exact env_bound_write hs.he2 hk
    · intro k hk
      show (alist_get (write_if live s2.val_ctr (.CallRes f ((args.map (vmap n σ)).map s2.getVal)) s2.env)
          (vmap n σ k)).getD (.Unknown 0) =
        (alist_get (write_if live s1.val_ctr (.CallRes f (args.map s1.getVal)) s1.env) k).getD (.Unknown 0)
      rw [hrv]
      exact getval_fresh n σ hs.hn hs.hv hs.hgv hs.he1 hs.he2 live (.CallRes f (args.map s1.getVal)) k hk
  · show s2.val_ctr = vmap n σ s1.val_ctr
    have hn := hs.hn
    have hv := hs.hv
    unfold vmap
    rw [if_neg (by omega)]
    omega

theorem sim_call_indirect (n σ β : Nat) {s1 s2 : BState} (hs : SimRel n σ β s1 s2)
    (sig : Sig) {callee : Nat} {args : List Nat} (live : Bool)
    (hc : callee < s1.val_ctr) (hbnd : ∀ a ∈ args, a < s1.val_ctr) :
    SimRel n σ β (ins_call_indirect sig callee args live s1).2 (ins_call_indirect sig (vmap n σ callee) (args.map (vmap n σ)) live s2).2 ∧
    (ins_call_indirect sig (vmap n σ callee) (args.map (vmap n σ)) live s2).1 = vmap n σ (ins_call_indirect sig callee args live s1).1 := by
  have hrv : (.IndirectRes (s2.getVal (vmap n σ callee)) ((args.map (vmap n σ)).map s2.getVal) : RVal) = .IndirectRes (s1.getVal callee) (args.map s1.getVal) := by
    have hmm : (args.map (vmap n σ)).map s2.getVal = args.map s1.getVal := by
      rw [List.map_map]
      exact List.map_congr_left (fun a hmem => hs.hgv a (hbnd a hmem))
    rw [hmm, hs.hgv callee hc]
  constructor
  · refine ⟨?_, ?_, ?_, ?_, ?_, ?_, ?_, ?_, ?_, ?_, ?_⟩
    · exact le_trans hs.hn (Nat.le_succ _)
    · show s2.val_ctr + 1 = s1.val_ctr + 1 + σ
      have hv := hs.hv
      omega
    · exact hs.hnb
    · exact hs.hslc
    · exact hs.hsl
    · exact hs.hvv
    · exact hs.hac
    · exact hs.hm
    · intro k hk
      show alist_get (write_if live s1.val_ctr (.IndirectRes (s1.getVal callee) (args.map s1.getVal)) s1.env) k = none
      exact env_bound_write hs.he1 hk
    · intro k hk
      show alist_get (write_if live s2.val_ctr (.IndirectRes (s2.getVal (vmap n σ callee)) ((args.map (vmap n σ)).map s2.getVal)) s2.env) k = none
      exact env_bound_write hs.he2 hk
    · intro k hk
      show (alist_get (write_if live s2.val_ctr (.IndirectRes (s2.getVal (vmap n σ callee)) ((args.map (vmap n σ)).map s2.getVal)) s2.env)
          (vmap n σ k)).getD (.Unknown 0) =
        (alist_get (write_if live s1.val_ctr (.IndirectRes (s1.getVal callee) (args.map s1.getVal)) s1.env) k).getD (.Unknown 0)
      rw [hrv]
      exact getval_fresh n σ hs.hn hs.hv hs.hgv hs.he1 hs.he2 live (.IndirectRes (s1.getVal callee) (args.map s1.getVal)) k hk
  · show s2.val_ctr = vmap n σ s1.val_ctr
    have hn := hs.hn
    have hv := hs.hv
    unfold vmap
    rw [if_neg (by omega)]
    omega

theorem sim_use_var (n σ β : Nat) {s1 s2 : BState} (hs : SimRel n σ β s1 s2)
    (i : Nat) (live : Bool) :
    SimRel n σ β (use_var live i s1).2 (use_var live i s2).2 ∧
    (use_var live i s2).1 = vmap n σ (use_var live i s1).1 := by
  have hrv : ((alist_get s2.var_vals i).getD (.Unknown 1) : RVal) = (alist_get s1.var_vals i).getD (.Unknown 1) := by rw [hs.hvv]
  constructor
  · refine ⟨?_, ?_, ?_, ?_, ?_, ?_, ?_, ?_, ?_, ?_, ?_⟩
    · exact le_trans hs.hn (Nat.le_succ _)
    · show s2.val_ctr + 1 = s1.val_ctr + 1 + σ
      have hv := hs.hv
      omega
    · exact hs.hnb
    · exact hs.hslc
    · exact hs.hsl
    · exact hs.hvv
    · exact hs.hac
    · exact hs.hm
    · intro k hk
      show alist_get (write_if live s1.val_ctr ((alist_get s1.var_vals i).getD (.Unknown 1)) s1.env) k = none
      exact env_bound_write hs.he1 hk
    · intro k hk
      show alist_get (write_if live s2.val_ctr ((alist_get s2.var_vals i).getD (.Unknown 1)) s2.env) k = none
      exact env_bound_write hs.he2 hk
    · intro k hk
      show (alist_get (write_if live s2.val_ctr ((alist_get s2.var_vals i).getD (.Unknown 1)) s2.env)
          (vmap n σ k)).getD (.Unknown 0) =
        (alist_get (write_if live s1.val_ctr ((alist_get s1.var_vals i).getD (.Unknown 1)) s1.env) k).getD (.Unknown 0)
      rw [hrv]
      exact getval_fresh n σ hs.hn hs.hv hs.hgv hs.he1 hs.he2 live ((alist_get s1.var_vals i).getD (.Unknown 1)) k hk
  · show s2.val_ctr = vmap n σ s1.val_ctr
    have hn := hs.hn
    have hv := hs.hv
    unfold vmap
    rw [if_neg (by omega)]
    omega

theorem sim_stack_store (n σ β : Nat) {s1 s2 : BState} (hs : SimRel n σ β s1 s2)
    {v : Nat} (slot : Nat) (off : Int) (live : Bool) (hv : v < s1.val_ctr) :
    SimRel n σ β (ins_stack_store v slot off live s1)
      (ins_stack_store (vmap n σ v) slot off live s2) := by
  refine ⟨hs.hn, hs.hv, hs.hnb, hs.hslc, ?_, hs.hvv, hs.hac, hs.hm, hs.he1, hs.he2,
    hs.hgv⟩
  show write_if live (slot, off) (s2.getVal (vmap n σ v)) s2.slots =
    write_if live (slot, off) (s1.getVal v) s1.slots
  rw [hs.hgv v hv, hs.hsl]

theorem sim_store (n σ β : Nat) {s1 s2 : BState} (hs : SimRel n σ β s1 s2)
    {v p : Nat} (off : Int) (live : Bool)
    (hv : v < s1.val_ctr) (hp : p < s1.val_ctr) :
    SimRel n σ β (ins_store v p off live s1)
      (ins_store (vmap n σ v) (vmap n σ p) off live s2) := by
  refine ⟨hs.hn, hs.hv, hs.hnb, hs.hslc, hs.hsl, hs.hvv, hs.hac, ?_, hs.he1, hs.he2,
    hs.hgv⟩
  show mem_write live (s2.getVal (vmap n σ p)) (s2.getVal (vmap n σ v)) off s2.mem =
    mem_write live (s1.getVal p) (s1.getVal v) off s1.mem
  rw [hs.hgv v hv, hs.hgv p hp, hs.hm]

theorem sim_store_complex (n σ β : Nat) {s1 s2 : BState} (hs : SimRel n σ β s1 s2)
    {v p o : Nat} (off : Int) (live : Bool)
    (hv : v < s1.val_ctr) (hp : p < s1.val_ctr) (ho : o < s1.val_ctr) :
    SimRel n σ β (ins_store_complex v p o off live s1)
      (ins_store_complex (vmap n σ v) (vmap n σ p) (vmap n σ o) off live s2) := by
  refine ⟨hs.hn, hs.hv, hs.hnb, hs.hslc, hs.hsl, hs.hvv, hs.hac, ?_, hs.he1, hs.he2,
    hs.hgv⟩
  show mem_write2 live (s2.getVal (vmap n σ p)) (s2.getVal (vmap n σ o))
      (s2.getVal (vmap n σ v)) off s2.mem =
    mem_write2 live (s1.getVal p) (s1.getVal o) (s1.getVal v) off s1.mem
  rw [hs.hgv v hv, hs.hgv p hp, hs.hgv o ho, hs.hm]

theorem sim_def_var (n σ β : Nat) {s1 s2 : BState} (hs : SimRel n σ β s1 s2)
    (live : Bool) (i : Nat) {v : Nat} (hv : v < s1.val_ctr) :
    SimRel n σ β (def_var live i v s1) (def_var live i (vmap n σ v) s2) := by
  refine ⟨hs.hn, hs.hv, hs.hnb, hs.hslc, hs.hsl, ?_, hs.hac, hs.hm, hs.he1, hs.he2,
    hs.hgv⟩
  show write_if live i (s2.getVal (vmap n σ v)) s2.var_vals =
    write_if live i (s1.getVal v) s1.var_vals
  rw [hs.hgv v hv, hs.hvv]

theorem sim_malloc (n σ β : Nat) {s1 s2 : BState} (hs : SimRel n σ β s1 s2)
    (env : Env) (live : Bool) (size : Nat) :
    SimRel n σ β (call_malloc env live s1 size).2 (call_malloc env live s2 size).2 ∧
    (call_malloc env live s2 size).1 = vmap n σ (call_malloc env live s1 size).1 := by
  obtain ⟨hs1, -⟩ := sim_iconst n σ β hs .Ptr (size : Int) live
  have hrv : (.PtrV (heap_addr s2.alloc_ctr) : RVal) = .PtrV (heap_addr s1.alloc_ctr) := by
    rw [hs.hac]
  constructor
  · refine ⟨?_, ?_, ?_, ?_, ?_, ?_, ?_, ?_, ?_, ?_, ?_⟩
    · exact le_trans hs1.hn (Nat.le_succ _)
    · show (ins_iconst .Ptr (size : Int) live s2).2.val_ctr + 1 =
        (ins_iconst .Ptr (size : Int) live s1).2.val_ctr + 1 + σ
      have hv := hs1.hv
      omega
    · exact hs1.hnb
    · exact hs1.hslc
    · exact hs1.hsl
    · exact hs1.hvv
    · show (ins_iconst .Ptr (size : Int) live s2).2.alloc_ctr +
          (if live then 1 else 0) =
        (ins_iconst .Ptr (size : Int) live s1).2.alloc_ctr + (if live then 1 else 0)
      rw [show (ins_iconst .Ptr (size : Int) live s2).2.alloc_ctr = s2.alloc_ctr from rfl,
          show (ins_iconst .Ptr (size : Int) live s1).2.alloc_ctr = s1.alloc_ctr from rfl,
          hs.hac]
    · exact hs1.hm
    · intro k hk
      show alist_get (write_if live (ins_iconst .Ptr (size : Int) live s1).2.val_ctr
        (.PtrV (heap_addr s1.alloc_ctr)) (ins_iconst .Ptr (size : Int) live s1).2.env)
        k = none
      exact env_bound_write hs1.he1 hk
    · intro k hk
      show alist_get (write_if live (ins_iconst .Ptr (size : Int) live s2).2.val_ctr
        (.PtrV (heap_addr s2.alloc_ctr)) (ins_iconst .Ptr (size : Int) live s2).2.env)
        k = none
      exact env_bound_write hs1.he2 hk
    · intro k hk
      show (alist_get (write_if live (ins_iconst .Ptr (size : Int) live s2).2.val_ctr
          (.PtrV (heap_addr s2.alloc_ctr)) (ins_iconst .Ptr (size : Int) live s2).2.env)
          (vmap n σ k)).getD (.Unknown 0) =
        (alist_get (write_if live (ins_iconst .Ptr (size : Int) live s1).2.val_ctr
          (.PtrV (heap_addr s1.alloc_ctr)) (ins_iconst .Ptr (size : Int) live s1).2.env)
          k).getD (.Unknown 0)
      rw [hrv]
      exact getval_fresh n σ hs1.hn hs1.hv hs1.hgv hs1.he1 hs1.he2 live
        (.PtrV (heap_addr s1.alloc_ctr)) k hk
  · show (ins_iconst .Ptr (size : Int) live s2).2.val_ctr =
      vmap n σ (ins_iconst .Ptr (size : Int) live s1).2.val_ctr
    show s2.val_ctr + 1 = vmap n σ (s1.val_ctr + 1)
    have hn := hs.hn
    have hv := hs.hv
    unfold vmap
    rw [if_neg (by omega)]
    omega

theorem sim_build_stores {n σ β : Nat} {build : BuildFn} (hb : SimOK n σ β build)
    (env : Env) (live : Bool) :
    ∀ (l : List (Symbol × Layout × Expr)) (scope : Scope) (s1 s2 : BState)
      (scope2 : Scope) (t2 : BState),
    build_stores build env scope live s2 l = .ok (scope2, t2) →
    SimRel n σ β s1 s2 → scope_val_ok n scope →
    ∃ t1, build_stores build env scope live s1 l = .ok (scope2, t1) ∧
      SimRel n σ β t1 t2 ∧ scope_val_ok n scope2 := by
  intro l
  induction l with
  | nil =>
      intro scope s1 s2 scope2 t2 h hs hsc
      cases h
      exact ⟨s1, rfl, hs, hsc⟩
  | cons hd tl ih =>
      intro scope s1 s2 scope2 t2 h hs hsc
      obtain ⟨name, layout, expr⟩ := hd
      simp only [build_stores] at h
      rw [bind_eq_ok] at h
      obtain ⟨⟨v2, s2b⟩, hb2, h⟩ := h
      obtain ⟨v1, s1b, hb1, hrel, hvm, hbnd⟩ := hb _ _ _ _ _ _ _ hb2 hs hsc
      replace h : build_stores build env
          (scope.insert name (.Stack (type_from_layout layout) s2b.slot_ctr)) live
          (ins_stack_store v2 s2b.slot_ctr 0 live
            (create_stack_slot (Layout.stack_size env.ptr_bytes layout) s2b).2) tl =
        Except.ok (scope2, t2) := h
      have hslq : s2b.slot_ctr = s1b.slot_ctr := hrel.hslc
      have hrel1 : SimRel n σ β
          (create_stack_slot (layout.stack_size env.ptr_bytes) s1b).2
          (create_stack_slot (layout.stack_size env.ptr_bytes) s2b).2 :=
        simrel_pure_step n σ β hrel 0 1 rfl rfl rfl rfl rfl rfl rfl rfl rfl rfl
          rfl rfl rfl rfl rfl rfl
      have hrel2 : SimRel n σ β
          (ins_stack_store v1 s1b.slot_ctr 0 live
            (create_stack_slot (layout.stack_size env.ptr_bytes) s1b).2)
          (ins_stack_store (vmap n σ v1) s1b.slot_ctr 0 live
            (create_stack_slot (layout.stack_size env.ptr_bytes) s2b).2) :=
        sim_stack_store n σ β hrel1 s1b.slot_ctr 0 live hbnd
      rw [hslq, hvm] at h
      obtain ⟨t1, hrun, hrelf, hscf⟩ := ih _ _ _ _ _ h hrel2
        (scope_val_ok_insert hsc name trivial)
      refine ⟨t1, ?_, hrelf, hscf⟩
      simp only [build_stores]
      rw [bind_eq_ok]
      exact ⟨(v1, s1b), hb1, hrun⟩

theorem sim_lower_call_args {n σ β : Nat} {build : BuildFn} (hb : SimOK n σ β build)
    (hfr : FrameOK build) (scope : Scope) (live : Bool) :
    ∀ (args : List (Expr × Layout)) (s1 s2 : BState) (vs2 : List Nat) (t2 : BState),
    lower_call_args build scope live s2 args = .ok (vs2, t2) →
    SimRel n σ β s1 s2 → scope_val_ok n scope →
    ∃ vs1 t1, lower_call_args build scope live s1 args = .ok (vs1, t1) ∧
      SimRel n σ β t1 t2 ∧ vs2 = vs1.map (vmap n σ) ∧ ∀ v ∈ vs1, v < t1.val_ctr := by
  intro args
  induction args with
  | nil =>
      intro s1 s2 vs2 t2 h hs hsc
      cases h
      exact ⟨[], s1, rfl, hs, rfl, by simp⟩
  | cons hd tl ih =>
      intro s1 s2 vs2 t2 h hs hsc
      obtain ⟨e1, l1⟩ := hd
      simp only [lower_call_args] at h
      rw [bind_eq_ok] at h
      obtain ⟨⟨v2, s2b⟩, hb2, h⟩ := h
      rw [bind_eq_ok] at h
      obtain ⟨⟨vs2b, t2b⟩, hrest, h⟩ := h
      have hpair := Except.ok.inj h
      have hv := congrArg Prod.fst hpair
      have hst := congrArg Prod.snd hpair
      subst hv hst
      obtain ⟨v1, s1b, hb1, hrel, hvm, hbnd⟩ := hb _ _ _ _ _ _ _ hb2 hs hsc
      obtain ⟨vs1, t1, hrun, hrelf, hvsm, hbnds⟩ := ih _ _ _ _ hrest hrel hsc
      refine ⟨v1 :: vs1, t1, ?_, hrelf, ?_, ?_⟩
      · simp only [lower_call_args]
        rw [bind_eq_ok]
        refine ⟨(v1, s1b), hb1, ?_⟩
        rw [bind_eq_ok]
        exact ⟨(vs1, t1), hrun, rfl⟩
      · simp [hvm, hvsm]
      · intro v hv
        rcases List.mem_cons.mp hv with rfl | hv
        · obtain ⟨hfstep, -⟩ := frame_lower_call_args hfr scope live tl s1b vs1 t1
            hrun (scope_val_ok_mono hsc hrel.hn)
          exact lt_of_lt_of_le hbnd hfstep.1
        · exact hbnds v hv

theorem sim_lower_exprs {n σ β : Nat} {build : BuildFn} (hb : SimOK n σ β build)
    (hfr : FrameOK build) (scope : Scope) (live : Bool) :
    ∀ (args : List Expr) (s1 s2 : BState) (vs2 : List Nat) (t2 : BState),
    lower_exprs build scope live s2 args = .ok (vs2, t2) →
    SimRel n σ β s1 s2 → scope_val_ok n scope →
    ∃ vs1 t1, lower_exprs build scope live s1 args = .ok (vs1, t1) ∧
      SimRel n σ β t1 t2 ∧ vs2 = vs1.map (vmap n σ) ∧ ∀ v ∈ vs1, v < t1.val_ctr := by
  intro args
  induction args with
  | nil =>
      intro s1 s2 vs2 t2 h hs hsc
      cases h
      exact ⟨[], s1, rfl, hs, rfl, by simp⟩
  | cons hd tl ih =>
      intro s1 s2 vs2 t2 h hs hsc
      simp only [lower_exprs] at h
      rw [bind_eq_ok] at h
      obtain ⟨⟨v2, s2b⟩, hb2, h⟩ := h
      rw [bind_eq_ok] at h
      obtain ⟨⟨vs2b, t2b⟩, hrest, h⟩ := h
      have hpair := Except.ok.inj h
      have hv := congrArg Prod.fst hpair
      have hst := congrArg Prod.snd hpair
      subst hv hst
      obtain ⟨v1, s1b, hb1, hrel, hvm, hbnd⟩ := hb _ _ _ _ _ _ _ hb2 hs hsc
      obtain ⟨vs1, t1, hrun, hrelf, hvsm, hbnds⟩ := ih _ _ _ _ hrest hrel hsc
      refine ⟨v1 :: vs1, t1, ?_, hrelf, ?_, ?_⟩
      · simp only [lower_exprs]
        rw [bind_eq_ok]
        refine ⟨(v1, s1b), hb1, ?_⟩
        rw [bind_eq_ok]
        exact ⟨(vs1, t1), hrun, rfl⟩
      · simp [hvm, hvsm]
      · intro v hv
        rcases List.mem_cons.mp hv with rfl | hv
        · obtain ⟨hfstep, -⟩ := frame_lower_exprs hfr scope live tl s1b vs1 t1
            hrun (scope_val_ok_mono hsc hrel.hn)
          exact lt_of_lt_of_le hbnd hfstep.1
        · exact hbnds v hv

theorem sim_struct_fields {n σ β : Nat} {build : BuildFn} (hb : SimOK n σ β build)
    (scope : Scope) (live : Bool) (slot : Nat) :
    ∀ (l : List (Nat × Expr)) (i : Nat) (s1 s2 : BState) (t2 : BState),
    store_struct_fields build scope live slot i s2 l = .ok t2 →
    SimRel n σ β s1 s2 → scope_val_ok n scope →
    ∃ t1, store_struct_fields build scope live slot i s1 l = .ok t1 ∧
      SimRel n σ β t1 t2 := by
  intro l
  induction l with
  | nil =>
      intro i s1 s2 t2 h hs hsc
      cases h
      exact ⟨s1, rfl, hs⟩
  | cons hd tl ih =>
      intro i s1 s2 t2 h hs hsc
      obtain ⟨nm, inner⟩ := hd
      simp only [store_struct_fields] at h
      rw [bind_eq_ok] at h
      obtain ⟨⟨v2, s2b⟩, hb2, h⟩ := h
      obtain ⟨v1, s1b, hb1, hrel, hvm, hbnd⟩ := hb _ _ _ _ _ _ _ hb2 hs hsc
      cases inner
      case IntLit m =>
        try simp only [except_ok_bind] at h
        split at h
        · next hoff =>
          have hrel2 : SimRel n σ β
              (ins_stack_store v1 slot ((i * 8 : Nat) : Int) live s1b)
              (ins_stack_store (vmap n σ v1) slot ((i * 8 : Nat) : Int) live s2b) :=
            sim_stack_store n σ β hrel slot _ live hbnd
          rw [hvm] at h
          obtain ⟨t1, hrun, hrelf⟩ := ih _ _ _ _ h hrel2 hsc
          refine ⟨t1, ?_, hrelf⟩
          simp only [store_struct_fields]
          rw [bind_eq_ok]
          refine ⟨(v1, s1b), hb1, ?_⟩
          try simp only [except_ok_bind]
          rw [if_pos hoff]
          exact hrun
        · exact Except.noConfusion h
      all_goals
        simp only [except_error_bind] at h
        exact Except.noConfusion h

theorem sim_str_bytes {n σ β : Nat} (live : Bool) {ptr : Nat} :
    ∀ (bytes : List Nat) (i : Nat) {s1 s2 : BState},
    SimRel n σ β s1 s2 → ptr < s1.val_ctr →
    SimRel n σ β (store_str_bytes live ptr i s1 bytes)
      (store_str_bytes live (vmap n σ ptr) i s2 bytes) := by
  intro bytes
  induction bytes with
  | nil => intro i s1 s2 hs hp; exact hs
  | cons b rest ih =>
      intro i s1 s2 hs hp
      show SimRel n σ β
        (store_str_bytes live ptr (i + 1)
          (ins_store (ins_iconst .I8 (b : Int) live s1).1 ptr (i32_wrap (i : Int)) live
            (ins_iconst .I8 (b : Int) live s1).2) rest)
        (store_str_bytes live (vmap n σ ptr) (i + 1)
          (ins_store (ins_iconst .I8 (b : Int) live s2).1 (vmap n σ ptr)
            (i32_wrap (i : Int)) live (ins_iconst .I8 (b : Int) live s2).2) rest)
      obtain ⟨hs1, hv1⟩ := sim_iconst n σ β hs .I8 (b : Int) live
      have hst : SimRel n σ β
          (ins_store (ins_iconst .I8 (b : Int) live s1).1 ptr (i32_wrap (i : Int)) live
            (ins_iconst .I8 (b : Int) live s1).2)
          (ins_store (vmap n σ (ins_iconst .I8 (b : Int) live s1).1) (vmap n σ ptr)
            (i32_wrap (i : Int)) live (ins_iconst .I8 (b : Int) live s2).2) :=
        sim_store n σ β hs1 (i32_wrap (i : Int)) live (Nat.lt_succ_self _)
          (lt_of_lt_of_le hp (Nat.le_succ _))
      rw [hv1]
      exact ih (i + 1) hst (lt_of_lt_of_le hp (Nat.le_succ _))

theorem sim_array_elems {n σ β : Nat} {build : BuildFn} (hb : SimOK n σ β build)
    (hfr : FrameOK build) (scope : Scope) (live : Bool) {ptr : Nat} (eb : Nat) :
    ∀ (l : List Expr) (i : Nat) (s1 s2 : BState) (t2 : BState),
    store_array_elems build scope live (vmap n σ ptr) eb i s2 l = .ok t2 →
    SimRel n σ β s1 s2 → scope_val_ok n scope → ptr < s1.val_ctr →
    ∃ t1, store_array_elems build scope live ptr eb i s1 l = .ok t1 ∧
      SimRel n σ β t1 t2 := by
  intro l
  induction l with
  | nil =>
      intro i s1 s2 t2 h hs hsc hp
      cases h
      exact ⟨s1, rfl, hs⟩
  | cons hd tl ih =>
      intro i s1 s2 t2 h hs hsc hp
      simp only [store_array_elems] at h
      rw [bind_eq_ok] at h
      obtain ⟨⟨v2, s2b⟩, hb2, h⟩ := h
      obtain ⟨v1, s1b, hb1, hrel, hvm, hbnd⟩ := hb _ _ _ _ _ _ _ hb2 hs hsc
      obtain ⟨hfs, -⟩ := hfr _ _ _ _ _ _ hb1 (scope_val_ok_mono hsc (le_trans hs.hn
        (le_refl _)))
      have hpb : ptr < s1b.val_ctr := lt_of_lt_of_le hp hfs.1
      have hrel2 : SimRel n σ β
          (ins_store v1 ptr (i32_wrap (i32_wrap (eb : Int) * i32_wrap (i : Int)))
            live s1b)
          (ins_store (vmap n σ v1) (vmap n σ ptr)
            (i32_wrap (i32_wrap (eb : Int) * i32_wrap (i : Int))) live s2b) :=
        sim_store n σ β hrel _ live hbnd hpb
      rw [hvm] at h
      obtain ⟨t1, hrun, hrelf⟩ := ih _ _ _ _ h hrel2 hsc
        (lt_of_lt_of_le hpb (le_refl _))
      refine ⟨t1, ?_, hrelf⟩
      simp only [store_array_elems]
      rw [bind_eq_ok]
      exact ⟨(v1, s1b), hb1, hrun⟩

theorem alist_get_bshift (β : Nat) (sw : List (Nat × Nat)) (k : Nat) :
    alist_get (bshift β sw) k = (alist_get sw k).map (· + β) := by
  induction sw with
  | nil => rfl
  | cons hd tl ih =>
      simp only [bshift, List.map_cons, alist_get]
      by_cases hk : hd.1 = k
      · rw [if_pos hk, if_pos hk]
        rfl
      · rw [if_neg hk, if_neg hk]
        exact ih

theorem opt_isSome_map {α γ : Type} (f : α → γ) (x : Option α) :
    (x.map f).isSome = x.isSome := by
  cases x <;> rfl

theorem find_bshift (β : Nat) (u : Int) (sw : List (Nat × Nat)) :
    (bshift β sw).find? (fun e => ((e.1 : Int) = u)) =
      ((sw.find? (fun e => ((e.1 : Int) = u))).map (fun e => (e.1, e.2 + β))) := by
  induction sw with
  | nil => rfl
  | cons hd tl ih =>
      simp only [bshift, List.map_cons, List.find?]
      cases hdec : decide ((hd.1 : Int) = u) with
      | true => rfl
      | false => exact ih

theorem sim_register_switch {n σ β : Nat} :
    ∀ (brs : List (Nat × Expr)) (s1 s2 : BState) (sw : List (Nat × Nat))
      (bl : List Nat) (sw2 : List (Nat × Nat)) (bl2 : List Nat) (t2 : BState),
    register_switch_blocks s2 (bshift β sw) (bl.map (· + β)) brs = .ok (sw2, bl2, t2) →
    SimRel n σ β s1 s2 →
    ∃ sw1 bl1 t1, register_switch_blocks s1 sw bl brs = .ok (sw1, bl1, t1) ∧
      sw2 = bshift β sw1 ∧ bl2 = bl1.map (· + β) ∧ SimRel n σ β t1 t2 := by
  intro brs
  induction brs with
  | nil =>
      intro s1 s2 sw bl sw2 bl2 t2 h hs
      cases h
      exact ⟨sw, bl, s1, rfl, rfl, rfl, hs⟩
  | cons hd tl ih =>
      intro s1 s2 sw bl sw2 bl2 t2 h hs
      obtain ⟨int, expr⟩ := hd
      simp only [register_switch_blocks] at h ⊢
      by_cases hdup : (alist_get sw int).isSome
      · rw [if_pos ?_] at h
        · exact Except.noConfusion h
        · rw [alist_get_bshift]
          rw [opt_isSome_map]
          exact hdup
      · rw [if_neg ?_] at h
        rotate_left
        · rw [alist_get_bshift]
          rw [opt_isSome_map]
          exact hdup
        rw [if_neg hdup]
        have hnb := hs.hnb
        rw [show (create_block s2).1 = s2.next_block from rfl] at h
        rw [hnb] at h
        have heq1 : bshift β sw ++ [(int, s1.next_block + β)] =
            bshift β (sw ++ [(int, s1.next_block)]) := by
          simp [bshift]
        have heq2 : bl.map (· + β) ++ [s1.next_block + β] =
            (bl ++ [s1.next_block]).map (· + β) := by
          simp
        rw [heq1, heq2] at h
        have hrel2 : SimRel n σ β (create_block s1).2 (create_block s2).2 :=
          simrel_pure_step n σ β hs 1 0 rfl rfl rfl rfl rfl rfl rfl rfl rfl rfl
            rfl rfl rfl rfl rfl rfl
        obtain ⟨sw1, bl1, t1, hrun, hsw, hbl, hrelf⟩ := ih _ _ _ _ _ _ _ h hrel2
        exact ⟨sw1, bl1, t1, hrun, hsw, hbl, hrelf⟩

theorem sel_beq (sel : Option Nat) (b β : Nat) :
    (sel.map (· + β) == some (b + β)) = (sel == some b) := by
  cases sel with
  | none => rfl
  | some x =>
      by_cases hxb : x = b
      · subst hxb
        simp
      · have h2 : ¬ (x + β = b + β) := fun hc => hxb (Nat.add_right_cancel hc)
        simp [hxb, h2]

theorem sim_switch_branches {n σ β : Nat} {build : BuildFn} (hb : SimOK n σ β build)
    (scope : Scope) (live : Bool) (ret rb : Nat) (sel : Option Nat) :
    ∀ (l : List ((Nat × Expr) × Nat)) (s1 s2 : BState) (t2 : BState),
    build_switch_branches build scope live ret (rb + β) (sel.map (· + β)) s2
      (l.map (fun p => (p.1, p.2 + β))) = .ok t2 →
    SimRel n σ β s1 s2 → scope_val_ok n scope →
    ∃ t1, build_switch_branches build scope live ret rb sel s1 l = .ok t1 ∧
      SimRel n σ β t1 t2 := by
  intro l
  induction l with
  | nil =>
      intro s1 s2 t2 h hs hsc
      cases h
      exact ⟨s1, rfl, hs⟩
  | cons hd tl ih =>
      intro s1 s2 t2 h hs hsc
      obtain ⟨⟨kk, expr⟩, b⟩ := hd
      simp only [List.map_cons, build_switch_branches] at h
      rw [sel_beq] at h
      rw [bind_eq_ok] at h
      obtain ⟨⟨v2, s2b⟩, hb2, h⟩ := h
      have hrel0 : SimRel n σ β (switch_to_block b s1) (switch_to_block (b + β) s2) :=
        simrel_pure_step n σ β hs 0 0 rfl rfl rfl rfl rfl rfl rfl rfl rfl rfl
          rfl rfl rfl rfl rfl rfl
      obtain ⟨v1, s1b, hb1, hrel, hvm, hbnd⟩ := hb _ _ _ _ _ _ _ hb2 hrel0 hsc
      have hrel2 : SimRel n σ β
          (emit_jump rb (def_var (live && (sel == some b)) ret v1 s1b))
          (emit_jump (rb + β)
            (def_var (live && (sel == some b)) ret (vmap n σ v1) s2b)) := by
        have hdv := sim_def_var n σ β hrel (live && (sel == some b)) ret hbnd
        exact simrel_pure_step n σ β hdv 0 0 rfl rfl rfl rfl rfl rfl rfl rfl rfl rfl
          rfl rfl rfl rfl rfl rfl
      rw [hvm] at h
      obtain ⟨t1, hrun, hrelf⟩ := ih _ _ _ h hrel2 hsc
      refine ⟨t1, ?_, hrelf⟩
      simp only [build_switch_branches]
      rw [bind_eq_ok]
      exact ⟨(v1, s1b), hb1, hrun⟩

theorem getVal_emit_jump (b : Nat) (st : BState) (v : Nat) :
    (emit_jump b st).getVal v = st.getVal v := rfl

theorem getVal_emit_brnz (a b : Nat) (st : BState) (v : Nat) :
    (emit_brnz a b st).getVal v = st.getVal v := rfl

theorem getVal_st_emit (i : Instr) (st : BState) (v : Nat) :
    (st.emit i).getVal v = st.getVal v := rfl

theorem getVal_next_block (st : BState) (nb v : Nat) :
    ({ st with next_block := nb } : BState).getVal v = st.getVal v := rfl

set_option maxHeartbeats 2000000 in
theorem sim_branch2 {n σ β : Nat} {build : BuildFn} (hb : SimOK n σ β build)
    (scope : Scope) (live : Bool) (s1 s2 : BState) (br : Branch2) (v2 : Nat)
    (t2 : BState) (h : build_branch2 build scope live s2 br = .ok (v2, t2))
    (hs : SimRel n σ β s1 s2) (hsc : scope_val_ok n scope) :
    ∃ v1 t1, build_branch2 build scope live s1 br = .ok (v1, t1) ∧
      SimRel n σ β t1 t2 ∧ v2 = vmap n σ v1 ∧ v1 < t1.val_ctr := by
  simp only [build_branch2, create_block_eq] at h
  rw [bind_eq_ok] at h
  obtain ⟨⟨c2, sc2⟩, hc2, h⟩ := h
  have hrel0 : SimRel n σ β
      (declare_var 0 (type_from_layout br.ret_layout)
        { s1 with next_block := s1.next_block + 1 })
      (declare_var 0 (type_from_layout br.ret_layout)
        { s2 with next_block := s2.next_block + 1 }) :=
    simrel_pure_step n σ β hs 1 0 rfl rfl rfl rfl rfl rfl rfl rfl rfl rfl
      rfl rfl rfl rfl rfl rfl
  obtain ⟨c1, sc1, hc1, hrelc, hvmc, hbndc⟩ := hb _ _ _ _ _ _ _ hc2 hrel0 hsc
  rw [getVal_emit_jump, getVal_emit_brnz, getVal_next_block] at h
  split at h
  rotate_left
  · exact Except.noConfusion h
  try simp only [except_ok_bind] at h
  next t f hcl =>
  split at h
  case isTrue hlive =>
    split at h
    case h_2 => exact Except.noConfusion h
    case h_1 b habb2 =>
    try simp only [except_ok_bind] at h
    rw [bind_eq_ok] at h
    obtain ⟨⟨p2, sp2⟩, hp2, h⟩ := h
    have hrelsp : SimRel n σ β
        (switch_to_block sc1.next_block
          (emit_jump (sc1.next_block + 1)
            (emit_brnz c1 sc1.next_block
              { sc1 with next_block := sc1.next_block + 1 + 1 })))
        (switch_to_block sc2.next_block
          (emit_jump (sc2.next_block + 1)
            (emit_brnz c2 sc2.next_block
              { sc2 with next_block := sc2.next_block + 1 + 1 }))) :=
      simrel_pure_step n σ β hrelc 2 0 rfl rfl rfl rfl rfl rfl rfl rfl rfl rfl
        rfl rfl rfl rfl rfl rfl
    obtain ⟨p1, sp1, hp1, hrelp, hvmp, hbndp⟩ := hb _ _ _ _ _ _ _ hp2 hrelsp hsc
    rw [hvmp] at h
    rw [bind_eq_ok] at h
    obtain ⟨⟨q2, sq2⟩, hq2, h⟩ := h
    have hrelsq : SimRel n σ β
        (switch_to_block (sc1.next_block + 1)
          (emit_jump s1.next_block (def_var (live && b) 0 p1 sp1)))
        (switch_to_block (sc2.next_block + 1)
          (emit_jump s2.next_block (def_var (live && b) 0 (vmap n σ p1) sp2))) := by
      have hdv := sim_def_var n σ β hrelp (live && b) 0 hbndp
      exact simrel_pure_step n σ β hdv 0 0 rfl rfl rfl rfl rfl rfl rfl rfl rfl rfl
        rfl rfl rfl rfl rfl rfl
    obtain ⟨q1, sq1, hq1, hrelq, hvmq, hbndq⟩ := hb _ _ _ _ _ _ _ hq2 hrelsq hsc
    have hrelret : SimRel n σ β
        (switch_to_block s1.next_block
          (emit_jump s1.next_block (def_var (live && !b) 0 q1 sq1)))
        (switch_to_block s2.next_block
          (emit_jump s2.next_block (def_var (live && !b) 0 (vmap n σ q1) sq2))) := by
      have hdv := sim_def_var n σ β hrelq (live && !b) 0 hbndq
      exact simrel_pure_step n σ β hdv 0 0 rfl rfl rfl rfl rfl rfl rfl rfl rfl rfl
        rfl rfl rfl rfl rfl rfl
    obtain ⟨hrelF, hvmF⟩ := sim_use_var n σ β hrelret 0 live
    rw [hvmq] at h
    have hpair := Except.ok.inj h
    have hv := congrArg Prod.fst hpair
    have hst := congrArg Prod.snd hpair
    subst hv hst
    refine ⟨(use_var live 0 (switch_to_block s1.next_block
        (emit_jump s1.next_block (def_var (live && !b) 0 q1 sq1)))).1,
      (use_var live 0 (switch_to_block s1.next_block
        (emit_jump s1.next_block (def_var (live && !b) 0 q1 sq1)))).2, ?_, ?_, ?_, ?_⟩
    · simp only [build_branch2, create_block_eq]
      rw [bind_eq_ok]
      refine ⟨(c1, sc1), hc1, ?_⟩
      rw [hcl]
      try simp only [except_ok_bind]
      rw [getVal_emit_jump, getVal_emit_brnz, getVal_next_block]
      rw [if_pos hlive]
      have habb1 : as_branch_bool (sc1.getVal c1) = some b := by
        rw [← hrelc.hgv c1 hbndc, ← hvmc]
        exact habb2
      rw [habb1]
      try simp only [except_ok_bind]
      rw [bind_eq_ok]
      refine ⟨(p1, sp1), hp1, ?_⟩
      rw [bind_eq_ok]
      refine ⟨(q1, sq1), hq1, ?_⟩
      rfl
    · exact hrelF
    · exact hvmF
    · exact Nat.lt_succ_self _
  case isFalse hlive =>
    try simp only [except_ok_bind] at h
    rw [bind_eq_ok] at h
    obtain ⟨⟨p2, sp2⟩, hp2, h⟩ := h
    have hrelsp : SimRel n σ β
        (switch_to_block sc1.next_block
          (emit_jump (sc1.next_block + 1)
            (emit_brnz c1 sc1.next_block
              { sc1 with next_block := sc1.next_block + 1 + 1 })))
        (switch_to_block sc2.next_block
          (emit_jump (sc2.next_block + 1)
            (emit_brnz c2 sc2.next_block
              { sc2 with next_block := sc2.next_block + 1 + 1 }))) :=
      simrel_pure_step n σ β hrelc 2 0 rfl rfl rfl rfl rfl rfl rfl rfl rfl rfl
        rfl rfl rfl rfl rfl rfl
    obtain ⟨p1, sp1, hp1, hrelp, hvmp, hbndp⟩ := hb _ _ _ _ _ _ _ hp2 hrelsp hsc
    rw [hvmp] at h
    rw [bind_eq_ok] at h
    obtain ⟨⟨q2, sq2⟩, hq2, h⟩ := h
    have hrelsq : SimRel n σ β
        (switch_to_block (sc1.next_block + 1)
          (emit_jump s1.next_block (def_var (live && false) 0 p1 sp1)))
        (switch_to_block (sc2.next_block + 1)
          (emit_jump s2.next_block (def_var (live && false) 0 (vmap n σ p1) sp2))) := by
      have hdv := sim_def_var n σ β hrelp (live && false) 0 hbndp
      exact simrel_pure_step n σ β hdv 0 0 rfl rfl rfl rfl rfl rfl rfl rfl rfl rfl
        rfl rfl rfl rfl rfl rfl
    obtain ⟨q1, sq1, hq1, hrelq, hvmq, hbndq⟩ := hb _ _ _ _ _ _ _ hq2 hrelsq hsc
    have hrelret : SimRel n σ β
        (switch_to_block s1.next_block
          (emit_jump s1.next_block (def_var (live && !false) 0 q1 sq1)))
        (switch_to_block s2.next_block
          (emit_jump s2.next_block (def_var (live && !false) 0 (vmap n σ q1) sq2))) := by
      have hdv := sim_def_var n σ β hrelq (live && !false) 0 hbndq
      exact simrel_pure_step n σ β hdv 0 0 rfl rfl rfl rfl rfl rfl rfl rfl rfl rfl
        rfl rfl rfl rfl rfl rfl
    obtain ⟨hrelF, hvmF⟩ := sim_use_var n σ β hrelret 0 live
    rw [hvmq] at h
    have hpair := Except.ok.inj h
    have hv := congrArg Prod.fst hpair
    have hst := congrArg Prod.snd hpair
    subst hv hst
    refine ⟨(use_var live 0 (switch_to_block s1.next_block
        (emit_jump s1.next_block (def_var (live && !false) 0 q1 sq1)))).1,
      (use_var live 0 (switch_to_block s1.next_block
        (emit_jump s1.next_block (def_var (live && !false) 0 q1 sq1)))).2, ?_, ?_, ?_, ?_⟩
    · simp only [build_branch2, create_block_eq]
      rw [bind_eq_ok]
      refine ⟨(c1, sc1), hc1, ?_⟩
      rw [hcl]
      try simp only [except_ok_bind]
      rw [getVal_emit_jump, getVal_emit_brnz, getVal_next_block]
      rw [if_neg hlive]
      try simp only [except_ok_bind]
      rw [bind_eq_ok]
      refine ⟨(p1, sp1), hp1, ?_⟩
      rw [bind_eq_ok]
      refine ⟨(q1, sq1), hq1, ?_⟩
      rfl
    · exact hrelF
    · exact hvmF
    · exact Nat.lt_succ_self _

theorem zip_shift {α : Type} (β : Nat) :
    ∀ (l : List α) (bl : List Nat),
    l.zip (bl.map (· + β)) = (l.zip bl).map (fun p => (p.1, p.2 + β)) := by
  intro l
  induction l with
  | nil => intro bl; rfl
  | cons hd tl ih =>
      intro bl
      cases bl with
      | nil => rfl
      | cons b bt =>
          simp only [List.map_cons, List.zip_cons_cons]
          rw [ih]

set_option maxHeartbeats 4000000 in
theorem sim_build_switch {n σ β : Nat} {build : BuildFn} (hb : SimOK n σ β build)
    (scope : Scope) (live : Bool) (s1 s2 : BState) (sa : SwitchArgs) (v2 : Nat)
    (t2 : BState) (h : build_switch build scope live s2 sa = .ok (v2, t2))
    (hs : SimRel n σ β s1 s2) (hsc : scope_val_ok n scope) :
    ∃ v1 t1, build_switch build scope live s1 sa = .ok (v1, t1) ∧
      SimRel n σ β t1 t2 ∧ v2 = vmap n σ v1 ∧ v1 < t1.val_ctr := by
  simp only [build_switch, create_block_eq] at h
  rw [bind_eq_ok] at h
  obtain ⟨⟨sw2, bl2, sr2⟩, hreg2, h⟩ := h
  have hrelR : SimRel n σ β
      (declare_var 0 sa.ret_type { s1 with next_block := s1.next_block + 1 + 1 })
      (declare_var 0 sa.ret_type { s2 with next_block := s2.next_block + 1 + 1 }) :=
    simrel_pure_step n σ β hs 2 0 rfl rfl rfl rfl rfl rfl rfl rfl rfl rfl
      rfl rfl rfl rfl rfl rfl
  obtain ⟨sw1, bl1, sr1, hreg1, hswsh, hblsh, hrelr⟩ :=
    sim_register_switch sa.branches _ _ [] [] sw2 bl2 sr2 hreg2 hrelR
  rw [bind_eq_ok] at h
  obtain ⟨⟨c2, sc2⟩, hc2, h⟩ := h
  rw [show (declare_var 0 sa.ret_type s2).next_block = s2.next_block from rfl] at h
  obtain ⟨c1, sc1, hc1, hrelc, hvmc, hbndc⟩ := hb _ _ _ _ _ _ _ hc2 hrelr hsc
  rw [getVal_st_emit] at h
  have hrelE : SimRel n σ β
      (sc1.emit (.SwitchEmit sw1 s1.next_block c1))
      (sc2.emit (.SwitchEmit sw2 s2.next_block c2)) :=
    simrel_pure_step n σ β hrelc 0 0 rfl rfl rfl rfl rfl rfl rfl rfl rfl rfl
      rfl rfl rfl rfl rfl rfl
  split at h
  case isTrue hlive =>
    split at h
    case h_2 => exact Except.noConfusion h
    case h_1 u hgv2 =>
    try simp only [except_ok_bind] at h
    have hgv1 : sc1.getVal c1 = .IntV u := by
      rw [← hrelc.hgv c1 hbndc, ← hvmc]
      exact hgv2
    have hselected :
        (((sw2.find? (fun e => ((e.1 : Int) = u))).map (fun e => e.2)).getD
          s2.next_block) =
        (((sw1.find? (fun e => ((e.1 : Int) = u))).map (fun e => e.2)).getD
          s1.next_block) + β := by
      rw [hswsh, find_bshift]
      cases (sw1.find? (fun e => ((e.1 : Int) = u))) with
      | none => exact hs.hnb
      | some e => rfl
    rw [hselected] at h
    have hsome : some ((((sw1.find? (fun e => ((e.1 : Int) = u))).map
        (fun e => e.2)).getD s1.next_block) + β) =
        (some (((sw1.find? (fun e => ((e.1 : Int) = u))).map
          (fun e => e.2)).getD s1.next_block)).map (· + β) := rfl
    rw [hsome] at h
    rw [hblsh, zip_shift] at h
    rw [bind_eq_ok] at h
    obtain ⟨sb2, hbr2, h⟩ := h
    have hnb1 : (s2.next_block + 1) = (s1.next_block + 1) + β := by
      have := hs.hnb
      omega
    rw [hnb1] at h hbr2
    obtain ⟨sb1, hbr1, hrelb⟩ := sim_switch_branches hb scope live 0
      (s1.next_block + 1) _ _ _ _ _ hbr2 hrelE hsc
    rw [bind_eq_ok] at h
    obtain ⟨sd2, hd2, h⟩ := h
    have hdefl : [((0, sa.default_branch), s2.next_block)] =
        ([((0, sa.default_branch), s1.next_block)]).map
          (fun p => (p.1, p.2 + β)) := by
      simp [hs.hnb]
    rw [hdefl] at hd2
    obtain ⟨sd1, hd1, hreld⟩ := sim_switch_branches hb scope live 0
      (s1.next_block + 1) _ _ _ _ _ hd2 hrelb hsc
    have hrelRT : SimRel n σ β
        (switch_to_block (s1.next_block + 1) sd1)
        (switch_to_block ((s1.next_block + 1) + β) sd2) :=
      simrel_pure_step n σ β hreld 0 0 rfl rfl rfl rfl rfl rfl rfl rfl rfl rfl
        rfl rfl rfl rfl rfl rfl
    obtain ⟨hrelF, hvmF⟩ := sim_use_var n σ β hrelRT 0 live
    have hpair := Except.ok.inj h
    have hv := congrArg Prod.fst hpair
    have hst := congrArg Prod.snd hpair
    subst hv hst
    refine ⟨(use_var live 0 (switch_to_block (s1.next_block + 1) sd1)).1,
      (use_var live 0 (switch_to_block (s1.next_block + 1) sd1)).2,
      ?_, ?_, ?_, ?_⟩
    · simp only [build_switch, create_block_eq]
      rw [bind_eq_ok]
      refine ⟨(sw1, bl1, sr1), hreg1, ?_⟩
      rw [bind_eq_ok]
      refine ⟨(c1, sc1), hc1, ?_⟩
      rw [show (declare_var 0 sa.ret_type s1).next_block = s1.next_block from rfl]
      rw [getVal_st_emit]
      rw [if_pos hlive]
      rw [hgv1]
      try simp only [except_ok_bind]
      rw [bind_eq_ok]
      refine ⟨sb1, hbr1, ?_⟩
      rw [bind_eq_ok]
      refine ⟨sd1, hd1, ?_⟩
      rfl
    · exact hrelF
    · exact hvmF
    · exact Nat.lt_succ_self _
  case isFalse hlive =>
    try simp only [except_ok_bind] at h
    have hnone : (none : Option Nat) = (none : Option Nat).map (· + β) := rfl
    rw [hnone] at h
    rw [hblsh, zip_shift] at h
    rw [bind_eq_ok] at h
    obtain ⟨sb2, hbr2, h⟩ := h
    have hnb1 : (s2.next_block + 1) = (s1.next_block + 1) + β := by
      have := hs.hnb
      omega
    rw [hnb1] at h hbr2
    obtain ⟨sb1, hbr1, hrelb⟩ := sim_switch_branches hb scope live 0
      (s1.next_block + 1) _ _ _ _ _ hbr2 hrelE hsc
    rw [bind_eq_ok] at h
    obtain ⟨sd2, hd2, h⟩ := h
    have hdefl : [((0, sa.default_branch), s2.next_block)] =
        ([((0, sa.default_branch), s1.next_block)]).map
          (fun p => (p.1, p.2 + β)) := by
      simp [hs.hnb]
    rw [hdefl] at hd2
    obtain ⟨sd1, hd1, hreld⟩ := sim_switch_branches hb scope live 0
      (s1.next_block + 1) _ _ _ _ _ hd2 hrelb hsc
    have hrelRT : SimRel n σ β
        (switch_to_block (s1.next_block + 1) sd1)
        (switch_to_block ((s1.next_block + 1) + β) sd2) :=
      simrel_pure_step n σ β hreld 0 0 rfl rfl rfl rfl rfl rfl rfl rfl rfl rfl
        rfl rfl rfl rfl rfl rfl
    obtain ⟨hrelF, hvmF⟩ := sim_use_var n σ β hrelRT 0 live
    have hpair := Except.ok.inj h
    have hv := congrArg Prod.fst hpair
    have hst := congrArg Prod.snd hpair
    subst hv hst
    refine ⟨(use_var live 0 (switch_to_block (s1.next_block + 1) sd1)).1,
      (use_var live 0 (switch_to_block (s1.next_block + 1) sd1)).2,
      ?_, ?_, ?_, ?_⟩
    · simp only [build_switch, create_block_eq]
      rw [bind_eq_ok]
      refine ⟨(sw1, bl1, sr1), hreg1, ?_⟩
      rw [bind_eq_ok]
      refine ⟨(c1, sc1), hc1, ?_⟩
      rw [show (declare_var 0 sa.ret_type s1).next_block = s1.next_block from rfl]
      rw [getVal_st_emit]
      rw [if_neg hlive]
      try simp only [except_ok_bind]
      rw [bind_eq_ok]
      refine ⟨sb1, hbr1, ?_⟩
      rw [bind_eq_ok]
      refine ⟨sd1, hd1, ?_⟩
      rfl
    · exact hrelF
    · exact hvmF
    · exact Nat.lt_succ_self _

theorem sim_binop_arm {n σ β : Nat} {build : BuildFn} (hb : SimOK n σ β build)
    (hfr : FrameOK build) {scope : Scope} {live : Bool} {s1 s2 : BState}
    {args : List (Expr × Layout)} {v2 : Nat} {t2 : BState} {m : Nat}
    (f : Nat → Nat → Bool → BState → Nat × BState)
    (hf : ∀ {r1 r2 : BState} (hs : SimRel n σ β r1 r2) (u w : Nat),
      u < r1.val_ctr → w < r1.val_ctr →
      SimRel n σ β (f u w live r1).2 (f (vmap n σ u) (vmap n σ w) live r2).2 ∧
      (f (vmap n σ u) (vmap n σ w) live r2).1 = vmap n σ (f u w live r1).1 ∧
      (f u w live r1).1 < (f u w live r1).2.val_ctr)
    (h : (do
      let _ ← debug_assert (args.length == m)
      let (a, st) ← build_arg build scope live s2 (← arg_at args 0)
      let (b, st) ← build_arg build scope live st (← arg_at args 1)
      Except.ok (f a b live st) : Except LowerErr (Nat × BState)) = Except.ok (v2, t2))
    (hs : SimRel n σ β s1 s2) (hsc : scope_val_ok n scope) :
    ∃ v1 t1, (do
      let _ ← debug_assert (args.length == m)
      let (a, st) ← build_arg build scope live s1 (← arg_at args 0)
      let (b, st) ← build_arg build scope live st (← arg_at args 1)
      Except.ok (f a b live st) : Except LowerErr (Nat × BState)) = Except.ok (v1, t1) ∧
      SimRel n σ β t1 t2 ∧ v2 = vmap n σ v1 ∧ v1 < t1.val_ctr := by
  rw [bind_eq_ok] at h
  obtain ⟨u, hda, h⟩ := h
  rw [bind_eq_ok] at h
  obtain ⟨p0, h0, h⟩ := h
  rw [bind_eq_ok] at h
  obtain ⟨⟨a2, sa2⟩, ha2, h⟩ := h
  simp only [build_arg] at ha2
  obtain ⟨a1, sa1, ha1, hrela, hvma, hbnda⟩ := hb _ _ _ _ _ _ _ ha2 hs hsc
  rw [hvma] at h
  rw [bind_eq_ok] at h
  obtain ⟨p1, h1, h⟩ := h
  rw [bind_eq_ok] at h
  obtain ⟨⟨b2, sb2⟩, hb2, h⟩ := h
  simp only [build_arg] at hb2
  obtain ⟨b1, sb1, hb1, hrelb, hvmb, hbndb⟩ := hb _ _ _ _ _ _ _ hb2 hrela hsc
  obtain ⟨hfs, -⟩ := hfr _ _ _ _ _ _ hb1 (scope_val_ok_mono hsc hrela.hn)
  rw [hvmb] at h
  obtain ⟨hrelf, hvmf, hbndf⟩ := hf hrelb a1 b1 (lt_of_lt_of_le hbnda hfs.1) hbndb
  have hpair := Except.ok.inj h
  have hv := congrArg Prod.fst hpair
  have hst := congrArg Prod.snd hpair
  subst hv hst
  refine ⟨(f a1 b1 live sb1).1, (f a1 b1 live sb1).2, ?_, hrelf, hvmf, hbndf⟩
  rw [bind_eq_ok]
  refine ⟨u, hda, ?_⟩
  rw [bind_eq_ok]
  refine ⟨p0, h0, ?_⟩
  rw [bind_eq_ok]
  refine ⟨(a1, sa1), ha1, ?_⟩
  rw [bind_eq_ok]
  refine ⟨p1, h1, ?_⟩
  rw [bind_eq_ok]
  refine ⟨(b1, sb1), hb1, ?_⟩
  rfl

theorem sim_lsip (n σ β : Nat) {s1 s2 : BState} (hs : SimRel n σ β s1 s2)
    (env : Env) {lp idx el : Nat} (L : Layout) (live : Bool)
    (hlp : lp < s1.val_ctr) (hidx : idx < s1.val_ctr) (hel : el < s1.val_ctr) :
    SimRel n σ β (list_set_in_place env lp idx el L live s1).2
      (list_set_in_place env (vmap n σ lp) (vmap n σ idx) (vmap n σ el) L live s2).2 ∧
    (list_set_in_place env (vmap n σ lp) (vmap n σ idx) (vmap n σ el) L live s2).1 =
      vmap n σ (list_set_in_place env lp idx el L live s1).1 := by
  obtain ⟨hs1, hv1⟩ := sim_iconst n σ β hs .I64
    ((L.stack_size env.ptr_bytes : Nat) : Int) live
  obtain ⟨hs2a, hv2⟩ := @sim_imul n σ β
    (ins_iconst .I64 ((L.stack_size env.ptr_bytes : Nat) : Int) live s1).2
    (ins_iconst .I64 ((L.stack_size env.ptr_bytes : Nat) : Int) live s2).2
    hs1 idx ((ins_iconst .I64 ((L.stack_size env.ptr_bytes : Nat) : Int) live s1).1)
    live (lt_of_lt_of_le hidx (Nat.le_succ _)) (Nat.lt_succ_self _)
  constructor
  · show SimRel n σ β
      (ins_store_complex el lp
        (ins_imul idx (ins_iconst .I64 ((L.stack_size env.ptr_bytes : Nat) : Int)
          live s1).1 live
          (ins_iconst .I64 ((L.stack_size env.ptr_bytes : Nat) : Int) live s1).2).1
        0 live
        (ins_imul idx (ins_iconst .I64 ((L.stack_size env.ptr_bytes : Nat) : Int)
          live s1).1 live
          (ins_iconst .I64 ((L.stack_size env.ptr_bytes : Nat) : Int) live s1).2).2)
      (ins_store_complex (vmap n σ el) (vmap n σ lp)
        (ins_imul (vmap n σ idx)
          (ins_iconst .I64 ((L.stack_size env.ptr_bytes : Nat) : Int) live s2).1 live
          (ins_iconst .I64 ((L.stack_size env.ptr_bytes : Nat) : Int) live s2).2).1
        0 live
        (ins_imul (vmap n σ idx)
          (ins_iconst .I64 ((L.stack_size env.ptr_bytes : Nat) : Int) live s2).1 live
          (ins_iconst .I64 ((L.stack_size env.ptr_bytes : Nat) : Int) live s2).2).2)
    rw [hv1, hv2]
    exact sim_store_complex n σ β hs2a 0 live
      (by
        show el < s1.val_ctr + 1 + 1
        omega)
      (by
        show lp < s1.val_ctr + 1 + 1
        omega)
      (Nat.lt_succ_self _)
  · rfl


set_option maxHeartbeats 4000000 in
theorem sim_call_by_name {n σ β : Nat} {build : BuildFn} (hb : SimOK n σ β build)
    (hfr : FrameOK build) (env : Env) (symbol : Symbol)
    (args : List (Expr × Layout)) (scope : Scope) (live : Bool)
    (s1 s2 : BState) (v2 : Nat) (t2 : BState)
    (h : call_by_name build env symbol args scope live s2 = .ok (v2, t2))
    (hs : SimRel n σ β s1 s2) (hsc : scope_val_ok n scope) :
    ∃ v1 t1, call_by_name build env symbol args scope live s1 = .ok (v1, t1) ∧
      SimRel n σ β t1 t2 ∧ v2 = vmap n σ v1 ∧ v1 < t1.val_ctr := by
  rw [call_by_name_def] at h
  rw [call_by_name_def]
  by_cases hcase0 : symbol = Symbol.INT_ADD ∨ symbol = Symbol.NUM_ADD
  · rw [if_pos hcase0] at h
    rw [if_pos hcase0]
    exact sim_binop_arm hb hfr ins_iadd
      (fun hsr u w hu hw => ⟨(sim_iadd n σ β hsr live hu hw).1,
        (sim_iadd n σ β hsr live hu hw).2, Nat.lt_succ_self _⟩) h hs hsc
  · rw [if_neg hcase0] at h
    rw [if_neg hcase0]
    by_cases hcase1 : symbol = Symbol.FLOAT_ADD
    · rw [if_pos hcase1] at h
      rw [if_pos hcase1]
      exact sim_binop_arm hb hfr ins_fadd
        (fun hsr u w hu hw => ⟨(sim_fadd n σ β hsr live hu hw).1,
          (sim_fadd n σ β hsr live hu hw).2, Nat.lt_succ_self _⟩) h hs hsc
    · rw [if_neg hcase1] at h
      rw [if_neg hcase1]
      by_cases hcase2 : symbol = Symbol.INT_SUB ∨ symbol = Symbol.NUM_SUB
      · rw [if_pos hcase2] at h
        rw [if_pos hcase2]
        exact sim_binop_arm hb hfr ins_isub
          (fun hsr u w hu hw => ⟨(sim_isub n σ β hsr live hu hw).1,
            (sim_isub n σ β hsr live hu hw).2, Nat.lt_succ_self _⟩) h hs hsc
      · rw [if_neg hcase2] at h
        rw [if_neg hcase2]
        by_cases hcase3 : symbol = Symbol.FLOAT_SUB
        · rw [if_pos hcase3] at h
          rw [if_pos hcase3]
          exact sim_binop_arm hb hfr ins_fsub
            (fun hsr u w hu hw => ⟨(sim_fsub n σ β hsr live hu hw).1,
              (sim_fsub n σ β hsr live hu hw).2, Nat.lt_succ_self _⟩) h hs hsc
        · rw [if_neg hcase3] at h
          rw [if_neg hcase3]
          by_cases hcase4 : symbol = Symbol.NUM_MUL
          · rw [if_pos hcase4] at h
            rw [if_pos hcase4]
            exact sim_binop_arm hb hfr ins_imul
              (fun hsr u w hu hw => ⟨(sim_imul n σ β hsr live hu hw).1,
                (sim_imul n σ β hsr live hu hw).2, Nat.lt_succ_self _⟩) h hs hsc
          · rw [if_neg hcase4] at h
            rw [if_neg hcase4]
            by_cases hcase5 : symbol = Symbol.NUM_NEG
            · rw [if_pos hcase5] at h
              rw [if_pos hcase5]
              rw [bind_eq_ok] at h
              obtain ⟨u, hda, h⟩ := h
              rw [bind_eq_ok] at h
              obtain ⟨p0, h0, h⟩ := h
              rw [bind_eq_ok] at h
              obtain ⟨⟨a2, sa2⟩, ha2, h⟩ := h
              simp only [build_arg] at ha2
              obtain ⟨a1, sa1, ha1, hrela, hvma, hbnda⟩ := hb _ _ _ _ _ _ _ ha2 hs hsc
              rw [hvma] at h
              obtain ⟨hrelN, hvmN⟩ := sim_ineg n σ β hrela live hbnda
              have hpair := Except.ok.inj h
              have hv := congrArg Prod.fst hpair
              have hst := congrArg Prod.snd hpair
              subst hv hst
              refine ⟨(ins_ineg a1 live sa1).1, (ins_ineg a1 live sa1).2, ?_, hrelN, hvmN,
                Nat.lt_succ_self _⟩
              rw [bind_eq_ok]
              refine ⟨u, hda, ?_⟩
              rw [bind_eq_ok]
              refine ⟨p0, h0, ?_⟩
              rw [bind_eq_ok]
              refine ⟨(a1, sa1), ha1, ?_⟩
              rfl
            · rw [if_neg hcase5] at h
              rw [if_neg hcase5]
              by_cases hcase6 : symbol = Symbol.INT_EQ_I64 ∨ symbol = Symbol.INT_EQ_I8 ∨ symbol = Symbol.INT_EQ_I1
              · rw [if_pos hcase6] at h
                rw [if_pos hcase6]
                exact sim_binop_arm hb hfr ins_icmp_eq
                  (fun hsr u w hu hw => ⟨(sim_icmp n σ β hsr live hu hw).1,
                    (sim_icmp n σ β hsr live hu hw).2, Nat.lt_succ_self _⟩) h hs hsc
              · rw [if_neg hcase6] at h
                rw [if_neg hcase6]
                by_cases hcase7 : symbol = Symbol.FLOAT_EQ
                · rw [if_pos hcase7] at h
                  rw [if_pos hcase7]
                  exact sim_binop_arm hb hfr ins_fcmp_eq
                    (fun hsr u w hu hw => ⟨(sim_fcmp n σ β hsr live hu hw).1,
                      (sim_fcmp n σ β hsr live hu hw).2, Nat.lt_succ_self _⟩) h hs hsc
                · rw [if_neg hcase7] at h
                  rw [if_neg hcase7]
                  by_cases hcase8 : symbol = Symbol.LIST_GET_UNSAFE
                  · rw [if_pos hcase8] at h
                    rw [if_pos hcase8]
                    rw [bind_eq_ok] at h
                    obtain ⟨u, hda, h⟩ := h
                    rw [bind_eq_ok] at h
                    obtain ⟨p0, h0, h⟩ := h
                    rw [bind_eq_ok] at h
                    obtain ⟨⟨lp2, slp2⟩, hlp2, h⟩ := h
                    simp only [build_arg] at hlp2
                    obtain ⟨lp1, slp1, hlp1, hrelL, hvmL, hbndL⟩ := hb _ _ _ _ _ _ _ hlp2 hs hsc
                    rw [hvmL] at h
                    rw [bind_eq_ok] at h
                    obtain ⟨p1, h1, h⟩ := h
                    rw [bind_eq_ok] at h
                    obtain ⟨⟨ei2, sei2⟩, hei2, h⟩ := h
                    simp only [build_arg] at hei2
                    obtain ⟨ei1, sei1, hei1, hrelE, hvmE, hbndE⟩ := hb _ _ _ _ _ _ _ hei2 hrelL hsc
                    rw [hvmE] at h
                    obtain ⟨hfsE, -⟩ := hfr _ _ _ _ _ _ hei1 (scope_val_ok_mono hsc hrelL.hn)
                    replace h : Except.ok (ins_load_complex CTy.I64 (vmap n σ lp1)
                        (ins_imul (vmap n σ ei1)
                          (ins_iconst CTy.I64 (((8 : Nat) : Int)) live sei2).1 live
                          (ins_iconst CTy.I64 (((8 : Nat) : Int)) live sei2).2).1 0 live
                        (ins_imul (vmap n σ ei1)
                          (ins_iconst CTy.I64 (((8 : Nat) : Int)) live sei2).1 live
                          (ins_iconst CTy.I64 (((8 : Nat) : Int)) live sei2).2).2) =
                      Except.ok (v2, t2) := h
                    obtain ⟨hsI, hvI⟩ := sim_iconst n σ β hrelE CTy.I64 (((8 : Nat) : Int)) live
                    obtain ⟨hsM, hvM⟩ := @sim_imul n σ β
                      (ins_iconst CTy.I64 (((8 : Nat) : Int)) live sei1).2
                      (ins_iconst CTy.I64 (((8 : Nat) : Int)) live sei2).2
                      hsI ei1 ((ins_iconst CTy.I64 (((8 : Nat) : Int)) live sei1).1)
                      live (lt_of_lt_of_le hbndE (Nat.le_succ _)) (Nat.lt_succ_self _)
                    rw [hvI] at h
                    obtain ⟨hsLC, hvLC⟩ := @sim_load_complex n σ β
                      (ins_imul ei1 (ins_iconst CTy.I64 (((8 : Nat) : Int)) live sei1).1 live
                        (ins_iconst CTy.I64 (((8 : Nat) : Int)) live sei1).2).2
                      (ins_imul (vmap n σ ei1)
                        (vmap n σ (ins_iconst CTy.I64 (((8 : Nat) : Int)) live sei1).1) live
                        (ins_iconst CTy.I64 (((8 : Nat) : Int)) live sei2).2).2
                      hsM CTy.I64 lp1
                      ((ins_imul ei1 (ins_iconst CTy.I64 (((8 : Nat) : Int)) live sei1).1 live
                        (ins_iconst CTy.I64 (((8 : Nat) : Int)) live sei1).2).1) 0 live
                      (by
                        show lp1 < sei1.val_ctr + 1 + 1
                        have h3 := lt_of_lt_of_le hbndL hfsE.1
                        omega)
                      (Nat.lt_succ_self _)
                    rw [hvM] at h
                    have hpair := Except.ok.inj h
                    have hv := congrArg Prod.fst hpair
                    have hst := congrArg Prod.snd hpair
                    subst hv hst
                    refine ⟨(ins_load_complex CTy.I64 lp1
                        (ins_imul ei1 (ins_iconst CTy.I64 (((8 : Nat) : Int)) live sei1).1 live
                          (ins_iconst CTy.I64 (((8 : Nat) : Int)) live sei1).2).1 0 live
                        (ins_imul ei1 (ins_iconst CTy.I64 (((8 : Nat) : Int)) live sei1).1 live
                          (ins_iconst CTy.I64 (((8 : Nat) : Int)) live sei1).2).2).1,
                      (ins_load_complex CTy.I64 lp1
                        (ins_imul ei1 (ins_iconst CTy.I64 (((8 : Nat) : Int)) live sei1).1 live
                          (ins_iconst CTy.I64 (((8 : Nat) : Int)) live sei1).2).1 0 live
                        (ins_imul ei1 (ins_iconst CTy.I64 (((8 : Nat) : Int)) live sei1).1 live
                          (ins_iconst CTy.I64 (((8 : Nat) : Int)) live sei1).2).2).2,
                      ?_, hsLC, hvLC, Nat.lt_succ_self _⟩
                    rw [bind_eq_ok]
                    refine ⟨u, hda, ?_⟩
                    rw [bind_eq_ok]
                    refine ⟨p0, h0, ?_⟩
                    rw [bind_eq_ok]
                    refine ⟨(lp1, slp1), hlp1, ?_⟩
                    rw [bind_eq_ok]
                    refine ⟨p1, h1, ?_⟩
                    rw [bind_eq_ok]
                    refine ⟨(ei1, sei1), hei1, ?_⟩
                    rfl
                  · rw [if_neg hcase8] at h
                    rw [if_neg hcase8]
                    by_cases hcase9 : symbol = Symbol.LIST_SET
                    · rw [if_pos hcase9] at h
                      rw [if_pos hcase9]
                      rw [bind_eq_ok] at h
                      obtain ⟨⟨le, ll⟩, h0, h⟩ := h
                      cases ll
                      rotate_left 4
                      next ell =>
                        replace h : (do
                            let (idx, st1) ← build_arg build scope live
                              (call_malloc env live s2
                                (Layout.stack_size env.ptr_bytes ell * 10 + 1)).2 (← arg_at args 1)
                            let (elem, st2) ← build_arg build scope live st1 (← arg_at args 2)
                            match list_set_in_place env
                                (call_malloc env live s2
                                  (Layout.stack_size env.ptr_bytes ell * 10 + 1)).1
                                idx elem ell live st2 with
                            | (_r, st3) => Except.ok ((call_malloc env live s2
                                (Layout.stack_size env.ptr_bytes ell * 10 + 1)).1, st3)) =
                          Except.ok (v2, t2) := h
                        obtain ⟨hrelM, hvmM⟩ := sim_malloc n σ β hs env live
                          (Layout.stack_size env.ptr_bytes ell * 10 + 1)
                        rw [hvmM] at h
                        rw [bind_eq_ok] at h
                        obtain ⟨p1, h1, h⟩ := h
                        rw [bind_eq_ok] at h
                        obtain ⟨⟨i2, si2⟩, hi2, h⟩ := h
                        simp only [build_arg] at hi2
                        obtain ⟨i1, si1, hi1, hreli, hvmi, hbndi⟩ := hb _ _ _ _ _ _ _ hi2 hrelM hsc
                        rw [hvmi] at h
                        rw [bind_eq_ok] at h
                        obtain ⟨p2, h2, h⟩ := h
                        rw [bind_eq_ok] at h
                        obtain ⟨⟨e2, se2⟩, he2, h⟩ := h
                        simp only [build_arg] at he2
                        obtain ⟨e1, se1, he1, hrele, hvme, hbnde⟩ := hb _ _ _ _ _ _ _ he2 hreli hsc
                        rw [hvme] at h
                        obtain ⟨hfsi, -⟩ := hfr _ _ _ _ _ _ hi1 (scope_val_ok_mono hsc hrelM.hn)
                        obtain ⟨hfse, -⟩ := hfr _ _ _ _ _ _ he1 (scope_val_ok_mono hsc hreli.hn)
                        have hbndP : (call_malloc env live s1
                            (Layout.stack_size env.ptr_bytes ell * 10 + 1)).1 < se1.val_ctr := by
                          have hstep : (call_malloc env live s1
                              (Layout.stack_size env.ptr_bytes ell * 10 + 1)).1 <
                              (call_malloc env live s1
                                (Layout.stack_size env.ptr_bytes ell * 10 + 1)).2.val_ctr :=
                            Nat.lt_succ_self _
                          exact lt_of_lt_of_le hstep (le_trans hfsi.1 hfse.1)
                        obtain ⟨hrelF, hvmF⟩ := sim_lsip n σ β hrele env ell live hbndP
                          (lt_of_lt_of_le hbndi hfse.1) hbnde
                        replace h : Except.ok
                            ((vmap n σ (call_malloc env live s1
                                (Layout.stack_size env.ptr_bytes ell * 10 + 1)).1 : Nat),
                             (list_set_in_place env
                               (vmap n σ (call_malloc env live s1
                                 (Layout.stack_size env.ptr_bytes ell * 10 + 1)).1)
                               (vmap n σ i1) (vmap n σ e1) ell live se2).2) = Except.ok (v2, t2) := h
                        have hpair := Except.ok.inj h
                        have hv := congrArg Prod.fst hpair
                        have hst := congrArg Prod.snd hpair
                        subst hv hst
                        refine ⟨(call_malloc env live s1
                            (Layout.stack_size env.ptr_bytes ell * 10 + 1)).1,
                          (list_set_in_place env (call_malloc env live s1
                              (Layout.stack_size env.ptr_bytes ell * 10 + 1)).1
                            i1 e1 ell live se1).2, ?_, hrelF, rfl, ?_⟩
                        · rw [bind_eq_ok]
                          refine ⟨(le, Layout.List ell), h0, ?_⟩
                          show (do
                            let (idx, st1) ← build_arg build scope live
                              (call_malloc env live s1
                                (Layout.stack_size env.ptr_bytes ell * 10 + 1)).2 (← arg_at args 1)
                            let (elem, st2) ← build_arg build scope live st1 (← arg_at args 2)
                            match list_set_in_place env
                                (call_malloc env live s1
                                  (Layout.stack_size env.ptr_bytes ell * 10 + 1)).1
                                idx elem ell live st2 with
                            | (_r, st3) => Except.ok ((call_malloc env live s1
                                (Layout.stack_size env.ptr_bytes ell * 10 + 1)).1, st3)) =
                            Except.ok ((call_malloc env live s1
                                (Layout.stack_size env.ptr_bytes ell * 10 + 1)).1,
                              (list_set_in_place env (call_malloc env live s1
                                  (Layout.stack_size env.ptr_bytes ell * 10 + 1)).1
                                i1 e1 ell live se1).2)
                          rw [bind_eq_ok]
                          refine ⟨p1, h1, ?_⟩
                          rw [bind_eq_ok]
                          refine ⟨(i1, si1), hi1, ?_⟩
                          rw [bind_eq_ok]
                          refine ⟨p2, h2, ?_⟩
                          rw [bind_eq_ok]
                          refine ⟨(e1, se1), he1, ?_⟩
                          rfl
                        · show (call_malloc env live s1
                              (Layout.stack_size env.ptr_bytes ell * 10 + 1)).1 < se1.val_ctr + 1 + 1
                          omega
                      all_goals exact Except.noConfusion h
                    · rw [if_neg hcase9] at h
                      rw [if_neg hcase9]
                      by_cases hcase10 : symbol = Symbol.LIST_SET_IN_PLACE
                      · rw [if_pos hcase10] at h
                        rw [if_pos hcase10]
                        rw [bind_eq_ok] at h
                        obtain ⟨u, hda, h⟩ := h
                        rw [bind_eq_ok] at h
                        obtain ⟨⟨lexp, llay⟩, h0, h⟩ := h
                        rw [bind_eq_ok] at h
                        obtain ⟨⟨lv2, slv2⟩, hlv2, h⟩ := h
                        obtain ⟨lv1, slv1, hlv1, hrelV, hvmV, hbndV⟩ := hb _ _ _ _ _ _ _ hlv2 hs hsc
                        rw [hvmV] at h
                        cases llay
                        rotate_left 4
                        next ell =>
                          replace h : (do
                              let (idx, st2) ← build_arg build scope live slv2 (← arg_at args 1)
                              let (elem, st3) ← build_arg build scope live st2 (← arg_at args 2)
                              Except.ok (list_set_in_place env (vmap n σ lv1) idx elem ell live st3)) =
                            Except.ok (v2, t2) := h
                          rw [bind_eq_ok] at h
                          obtain ⟨p1, h1, h⟩ := h
                          rw [bind_eq_ok] at h
                          obtain ⟨⟨i2, si2⟩, hi2, h⟩ := h
                          simp only [build_arg] at hi2
                          obtain ⟨i1, si1, hi1, hreli, hvmi, hbndi⟩ := hb _ _ _ _ _ _ _ hi2 hrelV hsc
                          rw [hvmi] at h
                          rw [bind_eq_ok] at h
                          obtain ⟨p2, h2, h⟩ := h
                          rw [bind_eq_ok] at h
                          obtain ⟨⟨e2, se2⟩, he2, h⟩ := h
                          simp only [build_arg] at he2
                          obtain ⟨e1, se1, he1, hrele, hvme, hbnde⟩ := hb _ _ _ _ _ _ _ he2 hreli hsc
                          rw [hvme] at h
                          obtain ⟨hfsi, -⟩ := hfr _ _ _ _ _ _ hi1 (scope_val_ok_mono hsc hrelV.hn)
                          obtain ⟨hfse, -⟩ := hfr _ _ _ _ _ _ he1 (scope_val_ok_mono hsc hreli.hn)
                          obtain ⟨hrelF, hvmF⟩ := sim_lsip n σ β hrele env ell live
                            (lt_of_lt_of_le hbndV (le_trans hfsi.1 hfse.1))
                            (lt_of_lt_of_le hbndi hfse.1) hbnde
                          have hpair := Except.ok.inj h
                          have hv := congrArg Prod.fst hpair
                          have hst := congrArg Prod.snd hpair
                          subst hv hst
                          refine ⟨(list_set_in_place env lv1 i1 e1 ell live se1).1,
                            (list_set_in_place env lv1 i1 e1 ell live se1).2, ?_, hrelF, hvmF, ?_⟩
                          · rw [bind_eq_ok]
                            refine ⟨u, hda, ?_⟩
                            rw [bind_eq_ok]
                            refine ⟨(lexp, Layout.List ell), h0, ?_⟩
                            rw [bind_eq_ok]
                            refine ⟨(lv1, slv1), hlv1, ?_⟩
                            show (do
                              let (idx, st2) ← build_arg build scope live slv1 (← arg_at args 1)
                              let (elem, st3) ← build_arg build scope live st2 (← arg_at args 2)
                              Except.ok (list_set_in_place env lv1 idx elem ell live st3)) =
                              Except.ok ((list_set_in_place env lv1 i1 e1 ell live se1).1,
                                (list_set_in_place env lv1 i1 e1 ell live se1).2)
                            rw [bind_eq_ok]
                            refine ⟨p1, h1, ?_⟩
                            rw [bind_eq_ok]
                            refine ⟨(i1, si1), hi1, ?_⟩
                            rw [bind_eq_ok]
                            refine ⟨p2, h2, ?_⟩
                            rw [bind_eq_ok]
                            refine ⟨(e1, se1), he1, ?_⟩
                            rfl
                          · show lv1 < se1.val_ctr + 1 + 1
                            have h3 := lt_of_lt_of_le hbndV (le_trans hfsi.1 hfse.1)
                            omega
                        all_goals exact Except.noConfusion h
                      · rw [if_neg hcase10] at h
                        rw [if_neg hcase10]
                        cases hget : Scope.get scope symbol with
                        | none =>
                            rw [hget] at h
                            exact Except.noConfusion h
                        | some entry =>
                            rw [hget] at h
                            cases entry with
                            | Stack ty slot => exact Except.noConfusion h
                            | Arg ty param => exact Except.noConfusion h
                            | Heap ty ptr => exact Except.noConfusion h
                            | Func sg fid =>
                                rw [bind_eq_ok] at h
                                obtain ⟨⟨avs2, sa2⟩, hargs2, h⟩ := h
                                obtain ⟨avs1, sa1b, hargs1, hrelA, havsm, hbnds⟩ :=
                                  sim_lower_call_args hb hfr scope live args _ _ _ _ hargs2 hs hsc
                                rw [havsm] at h
                                obtain ⟨hrelC, hvmC⟩ := sim_call n σ β hrelA fid live hbnds
                                have hpair := Except.ok.inj h
                                have hv := congrArg Prod.fst hpair
                                have hst := congrArg Prod.snd hpair
                                subst hv hst
                                refine ⟨(ins_call fid avs1 live sa1b).1, (ins_call fid avs1 live sa1b).2,
                                  ?_, hrelC, hvmC, Nat.lt_succ_self _⟩
                                show (do
                                    let (arg_vals, st) ← lower_call_args build scope live s1 args
                                    Except.ok (ins_call fid arg_vals live st) :
                                  Except LowerErr (Nat × BState)) =
                                  Except.ok ((ins_call fid avs1 live sa1b).1, (ins_call fid avs1 live sa1b).2)
                                rw [bind_eq_ok]
                                refine ⟨(avs1, sa1b), hargs1, ?_⟩
                                rfl

set_option maxHeartbeats 4000000 in
theorem sim_build_expr (env : Env) (n σ β : Nat) :
    ∀ fuel, SimOK n σ β (fun sc lv s e => build_expr fuel env sc lv s e) := by
  intro fuel
  induction fuel with
  | zero =>
      intro scope live s1 s2 e v2 t2 h hs hsc
      exact Except.noConfusion h
  | succ fuel ih =>
      intro scope live s1 s2 e v2 t2 h hs hsc
      replace h : build_expr (fuel + 1) env scope live s2 e = Except.ok (v2, t2) := h
      have hfr : FrameOK (fun sc lv s e => build_expr fuel env sc lv s e) :=
        frame_build_expr env fuel
      suffices hsuff : ∃ v1 t1,
          build_expr (fuel + 1) env scope live s1 e = Except.ok (v1, t1) ∧
          SimRel n σ β t1 t2 ∧ v2 = vmap n σ v1 ∧ v1 < t1.val_ctr by
        exact hsuff
      cases e with
      | IntLit num =>
          rw [build_expr_int] at h
          have hpair := Except.ok.inj h
          have hv := congrArg Prod.fst hpair
          have hst := congrArg Prod.snd hpair
          subst hv hst
          obtain ⟨hrel, hvm⟩ := sim_iconst n σ β hs .I64 num live
          refine ⟨(ins_iconst .I64 num live s1).1, (ins_iconst .I64 num live s1).2,
            ?_, hrel, hvm, Nat.lt_succ_self _⟩
          rw [build_expr_int]
      | FloatLit num =>
          rw [build_expr_float] at h
          have hpair := Except.ok.inj h
          have hv := congrArg Prod.fst hpair
          have hst := congrArg Prod.snd hpair
          subst hv hst
          obtain ⟨hrel, hvm⟩ := sim_f64const n σ β hs num live
          refine ⟨(ins_f64const num live s1).1, (ins_f64const num live s1).2,
            ?_, hrel, hvm, Nat.lt_succ_self _⟩
          rw [build_expr_float]
      | BoolLit val =>
          rw [build_expr_bool] at h
          have hpair := Except.ok.inj h
          have hv := congrArg Prod.fst hpair
          have hst := congrArg Prod.snd hpair
          subst hv hst
          obtain ⟨hrel, hvm⟩ := sim_bconst n σ β hs val live
          refine ⟨(ins_bconst val live s1).1, (ins_bconst val live s1).2,
            ?_, hrel, hvm, Nat.lt_succ_self _⟩
          rw [build_expr_bool]
      | ByteLit val =>
          rw [build_expr_byte] at h
          have hpair := Except.ok.inj h
          have hv := congrArg Prod.fst hpair
          have hst := congrArg Prod.snd hpair
          subst hv hst
          obtain ⟨hrel, hvm⟩ := sim_iconst n σ β hs .I8 (val : Int) live
          refine ⟨(ins_iconst .I8 (val : Int) live s1).1,
            (ins_iconst .I8 (val : Int) live s1).2,
            ?_, hrel, hvm, Nat.lt_succ_self _⟩
          rw [build_expr_byte]
      | Cond cond pass fail cond_layout ret_layout =>
          rw [build_expr_cond] at h
          obtain ⟨v1, t1, hrun, hrel, hvm, hbnd⟩ :=
            sim_branch2 ih scope live s1 s2 _ v2 t2 h hs hsc
          refine ⟨v1, t1, ?_, hrel, hvm, hbnd⟩
          rw [build_expr_cond]
          exact hrun
      | Switch cond branches default_branch cond_layout ret_layout =>
          rw [build_expr_switch] at h
          obtain ⟨v1, t1, hrun, hrel, hvm, hbnd⟩ :=
            sim_build_switch ih scope live s1 s2 _ v2 t2 h hs hsc
          refine ⟨v1, t1, ?_, hrel, hvm, hbnd⟩
          rw [build_expr_switch]
          exact hrun
      | Store stores ret =>
          rw [build_expr_store] at h
          rw [bindE_eq_ok] at h
          obtain ⟨⟨scope2, sb2⟩, hbs2, h⟩ := h
          obtain ⟨sb1, hbs1, hrelB, hscB⟩ := sim_build_stores ih env live stores
            scope s1 s2 scope2 sb2 hbs2 hs hsc
          obtain ⟨v1, t1, hrun, hrel, hvm, hbnd⟩ :=
            ih scope2 live sb1 sb2 ret v2 t2 h hrelB hscB
          refine ⟨v1, t1, ?_, hrel, hvm, hbnd⟩
          rw [build_expr_store]
          rw [bindE_eq_ok]
          exact ⟨(scope2, sb1), hbs1, hrun⟩
      | CallByName symbol args =>
          rw [build_expr_call_by_name] at h
          obtain ⟨v1, t1, hrun, hrel, hvm, hbnd⟩ :=
            sim_call_by_name ih hfr env symbol args scope live s1 s2 v2 t2 h hs hsc
          refine ⟨v1, t1, ?_, hrel, hvm, hbnd⟩
          rw [build_expr_call_by_name]
          exact hrun
      | FunctionPointer name =>
          rw [build_expr_fnptr] at h
          cases hget : Scope.get scope name with
          | none =>
              rw [hget] at h
              exact Except.noConfusion h
          | some entry =>
              rw [hget] at h
              cases entry with
              | Stack t slot => exact Except.noConfusion h
              | Arg t param => exact Except.noConfusion h
              | Heap t ptr => exact Except.noConfusion h
              | Func s fid =>
                  replace h : Except.ok (ins_func_addr .Ptr fid live s2) =
                    Except.ok (v2, t2) := h
                  have hpair := Except.ok.inj h
                  have hv := congrArg Prod.fst hpair
                  have hst := congrArg Prod.snd hpair
                  subst hv hst
                  obtain ⟨hrel, hvm⟩ := sim_func_addr n σ β hs .Ptr fid live
                  refine ⟨(ins_func_addr .Ptr fid live s1).1,
                    (ins_func_addr .Ptr fid live s1).2,
                    ?_, hrel, hvm, Nat.lt_succ_self _⟩
                  rw [build_expr_fnptr, hget]
      | CallByPointer sub_expr args layout =>
          rw [build_expr_callptr] at h
          rw [bindE_eq_ok] at h
          obtain ⟨⟨avs2, sa2⟩, hargs2, h⟩ := h
          obtain ⟨avs1, sa1b, hargs1, hrelA, havsm, hbnds⟩ :=
            sim_lower_exprs ih hfr scope live args s1 s2 avs2 sa2 hargs2 hs hsc
          rw [bindE_eq_ok] at h
          obtain ⟨⟨c2, sc2⟩, hc2, h⟩ := h
          obtain ⟨c1, sc1, hc1, hrelc, hvmc, hbndc⟩ :=
            ih scope live sa1b sa2 sub_expr c2 sc2 hc2 hrelA hsc
          obtain ⟨hfsc, -⟩ := hfr _ _ _ _ _ _ hc1 (scope_val_ok_mono hsc hrelA.hn)
          rw [havsm, hvmc] at h
          obtain ⟨hrelC, hvmC⟩ := sim_call_indirect n σ β hrelc
            (sig_from_layout layout) live hbndc
            (fun a ha => lt_of_lt_of_le (hbnds a ha) hfsc.1)
          have hpair := Except.ok.inj h
          have hv := congrArg Prod.fst hpair
          have hst := congrArg Prod.snd hpair
          subst hv hst
          refine ⟨(ins_call_indirect (sig_from_layout layout) c1 avs1 live sc1).1,
            (ins_call_indirect (sig_from_layout layout) c1 avs1 live sc1).2,
            ?_, hrelC, hvmC, Nat.lt_succ_self _⟩
          rw [build_expr_callptr]
          rw [bindE_eq_ok]
          refine ⟨(avs1, sa1b), hargs1, ?_⟩
          rw [bindE_eq_ok]
          exact ⟨(c1, sc1), hc1, rfl⟩
      | Load name =>
          rw [build_expr_load] at h
          cases hget : Scope.get scope name with
          | none =>
              rw [hget] at h
              exact Except.noConfusion h
          | some entry =>
              rw [hget] at h
              cases entry with
              | Stack t slot =>
                  replace h : Except.ok (ins_stack_load t slot 0 live s2) =
                    Except.ok (v2, t2) := h
                  have hpair := Except.ok.inj h
                  have hv := congrArg Prod.fst hpair
                  have hst := congrArg Prod.snd hpair
                  subst hv hst
                  obtain ⟨hrel, hvm⟩ := sim_stack_load n σ β hs t slot 0 live
                  refine ⟨(ins_stack_load t slot 0 live s1).1,
                    (ins_stack_load t slot 0 live s1).2,
                    ?_, hrel, hvm, Nat.lt_succ_self _⟩
                  rw [build_expr_load, hget]
              | Arg t param =>
                  replace h : (Except.ok (param, s2) : Except LowerErr (Nat × BState)) =
                    Except.ok (v2, t2) := h
                  have hpair := Except.ok.inj h
                  have hv := congrArg Prod.fst hpair
                  have hst := congrArg Prod.snd hpair
                  subst hv hst
                  have hval : param < n := scope_val_ok_get hsc hget
                  refine ⟨param, s1, ?_, hs, ?_, lt_of_lt_of_le hval hs.hn⟩
                  · rw [build_expr_load, hget]
                  · have hvm : vmap n σ param = param := by
                      unfold vmap
                      rw [if_pos hval]
                    exact hvm.symm
              | Heap t ptr =>
                  replace h : Except.ok (ins_load t ptr 0 live s2) =
                    Except.ok (v2, t2) := h
                  have hpair := Except.ok.inj h
                  have hv := congrArg Prod.fst hpair
                  have hst := congrArg Prod.snd hpair
                  subst hv hst
                  have hval : ptr < n := scope_val_ok_get hsc hget
                  have hbp : ptr < s1.val_ctr := lt_of_lt_of_le hval hs.hn
                  obtain ⟨hrel, hvm⟩ := sim_load n σ β hs t 0 live hbp
                  have hvp : vmap n σ ptr = ptr := by
                    unfold vmap
                    rw [if_pos hval]
                  rw [hvp] at hrel hvm
                  refine ⟨(ins_load t ptr 0 live s1).1, (ins_load t ptr 0 live s1).2,
                    ?_, hrel, hvm, Nat.lt_succ_self _⟩
                  rw [build_expr_load, hget]
              | Func s fid => exact Except.noConfusion h
      | Struct layout fields =>
          rw [build_expr_struct] at h
          replace h : (store_struct_fields (fun sc lv s e => build_expr fuel env sc lv s e)
              scope live s2.slot_ctr 0
              (create_stack_slot (Layout.stack_size env.ptr_bytes layout) s2).2
              (sort_fields fields)).bind
            (fun stA => Except.ok (ins_stack_addr (type_from_layout layout)
              s2.slot_ctr 0 live stA)) = Except.ok (v2, t2) := h
          rw [hs.hslc] at h
          rw [bindE_eq_ok] at h
          obtain ⟨sf2, hsf2, h⟩ := h
          have hrelP : SimRel n σ β
              (create_stack_slot (Layout.stack_size env.ptr_bytes layout) s1).2
              (create_stack_slot (Layout.stack_size env.ptr_bytes layout) s2).2 :=
            simrel_pure_step n σ β hs 0 1 rfl rfl rfl rfl rfl rfl rfl rfl rfl rfl
              rfl rfl rfl rfl rfl rfl
          obtain ⟨sf1, hsf1, hrelf⟩ := sim_struct_fields ih scope live s1.slot_ctr
            (sort_fields fields) 0 _ _ sf2 hsf2 hrelP hsc
          obtain ⟨hrel, hvm⟩ := sim_stack_addr n σ β hrelf (type_from_layout layout)
            s1.slot_ctr 0 live
          have hpair := Except.ok.inj h
          have hv := congrArg Prod.fst hpair
          have hst := congrArg Prod.snd hpair
          subst hv hst
          refine ⟨(ins_stack_addr (type_from_layout layout) s1.slot_ctr 0 live sf1).1,
            (ins_stack_addr (type_from_layout layout) s1.slot_ctr 0 live sf1).2,
            ?_, hrel, hvm, Nat.lt_succ_self _⟩
          rw [build_expr_struct]
          show (store_struct_fields (fun sc lv s e => build_expr fuel env sc lv s e)
              scope live s1.slot_ctr 0
              (create_stack_slot (Layout.stack_size env.ptr_bytes layout) s1).2
              (sort_fields fields)).bind
            (fun stA => Except.ok (ins_stack_addr (type_from_layout layout)
              s1.slot_ctr 0 live stA)) = _
          rw [bindE_eq_ok]
          exact ⟨sf1, hsf1, rfl⟩
      | Str str_literal =>
          rw [build_expr_str] at h
          by_cases hemp : str_literal.isEmpty
          · rw [if_pos hemp] at h
            exact Except.noConfusion h
          · rw [if_neg hemp] at h
            replace h : Except.ok
                ((call_malloc env live s2 (str_literal.length + 1)).1,
                 ins_store
                  (ins_iconst .I8 0 live
                    (store_str_bytes live
                      (call_malloc env live s2 (str_literal.length + 1)).1 0
                      (call_malloc env live s2 (str_literal.length + 1)).2
                      str_literal)).1
                  (call_malloc env live s2 (str_literal.length + 1)).1
                  (i32_wrap (i32_wrap (((str_literal.length + 1 : Nat)) : Int) - 1))
                  live
                  (ins_iconst .I8 0 live
                    (store_str_bytes live
                      (call_malloc env live s2 (str_literal.length + 1)).1 0
                      (call_malloc env live s2 (str_literal.length + 1)).2
                      str_literal)).2) = Except.ok (v2, t2) := h
            obtain ⟨hrelM, hvmM⟩ := sim_malloc n σ β hs env live (str_literal.length + 1)
            rw [hvmM] at h
            have hptr1 : (call_malloc env live s1 (str_literal.length + 1)).1 <
                (call_malloc env live s1 (str_literal.length + 1)).2.val_ctr :=
              Nat.lt_succ_self _
            have hrelS := sim_str_bytes live str_literal 0 hrelM hptr1
            obtain ⟨hrelI, hvmI⟩ := sim_iconst n σ β hrelS .I8 0 live
            have hbndP2 : (call_malloc env live s1 (str_literal.length + 1)).1 <
                (ins_iconst .I8 0 live (store_str_bytes live
                  (call_malloc env live s1 (str_literal.length + 1)).1 0
                  (call_malloc env live s1 (str_literal.length + 1)).2
                  str_literal)).2.val_ctr := by
              show (call_malloc env live s1 (str_literal.length + 1)).1 <
                (store_str_bytes live
                  (call_malloc env live s1 (str_literal.length + 1)).1 0
                  (call_malloc env live s1 (str_literal.length + 1)).2
                  str_literal).val_ctr + 1
              rw [sss_val_ctr]
              have h3 := hptr1
              show (call_malloc env live s1 (str_literal.length + 1)).1 <
                (call_malloc env live s1 (str_literal.length + 1)).2.val_ctr +
                  str_literal.length + 1
              omega
            have hrelSt := sim_store n σ β hrelI
              (i32_wrap (i32_wrap (((str_literal.length + 1 : Nat)) : Int) - 1)) live
              (show (ins_iconst .I8 0 live
                  (store_str_bytes live
                    (call_malloc env live s1 (str_literal.length + 1)).1 0
                    (call_malloc env live s1 (str_literal.length + 1)).2
                    str_literal)).1 <
                (ins_iconst .I8 0 live
                  (store_str_bytes live
                    (call_malloc env live s1 (str_literal.length + 1)).1 0
                    (call_malloc env live s1 (str_literal.length + 1)).2
                    str_literal)).2.val_ctr from Nat.lt_succ_self _) hbndP2
            rw [← hvmI] at hrelSt
            have hpair := Except.ok.inj h
            have hv := congrArg Prod.fst hpair
            have hst := congrArg Prod.snd hpair
            subst hv hst
            refine ⟨(call_malloc env live s1 (str_literal.length + 1)).1,
              ins_store
                (ins_iconst .I8 0 live
                  (store_str_bytes live
                    (call_malloc env live s1 (str_literal.length + 1)).1 0
                    (call_malloc env live s1 (str_literal.length + 1)).2
                    str_literal)).1
                (call_malloc env live s1 (str_literal.length + 1)).1
                (i32_wrap (i32_wrap (((str_literal.length + 1 : Nat)) : Int) - 1))
                live
                (ins_iconst .I8 0 live
                  (store_str_bytes live
                    (call_malloc env live s1 (str_literal.length + 1)).1 0
                    (call_malloc env live s1 (str_literal.length + 1)).2
                    str_literal)).2, ?_, hrelSt, rfl, ?_⟩
            · rw [build_expr_str, if_neg hemp]
            · show (call_malloc env live s1 (str_literal.length + 1)).1 <
                (ins_iconst .I8 0 live (store_str_bytes live
                  (call_malloc env live s1 (str_literal.length + 1)).1 0
                  (call_malloc env live s1 (str_literal.length + 1)).2
                  str_literal)).2.val_ctr
              exact hbndP2
      | Array elem_layout elems =>
          rw [build_expr_array] at h
          by_cases hemp : elems.isEmpty
          · rw [if_pos hemp] at h
            exact Except.noConfusion h
          · rw [if_neg hemp] at h
            replace h : (store_array_elems
                (fun sc lv s e => build_expr fuel env sc lv s e) scope live
                (call_malloc env live s2
                  (Layout.stack_size env.ptr_bytes elem_layout * elems.length + 1)).1
                (Layout.stack_size env.ptr_bytes elem_layout) 0
                (call_malloc env live s2
                  (Layout.stack_size env.ptr_bytes elem_layout * elems.length + 1)).2
                elems).bind
              (fun stA => Except.ok
                ((call_malloc env live s2
                    (Layout.stack_size env.ptr_bytes elem_layout * elems.length + 1)).1,
                 ins_store (ins_iconst .I8 0 live stA).1
                  (call_malloc env live s2
                    (Layout.stack_size env.ptr_bytes elem_layout * elems.length + 1)).1
                  (i32_wrap (i32_wrap
                    (((Layout.stack_size env.ptr_bytes elem_layout * elems.length + 1 :
                      Nat)) : Int) - 1)) live
                  (ins_iconst .I8 0 live stA).2)) = Except.ok (v2, t2) := h
            obtain ⟨hrelM, hvmM⟩ := sim_malloc n σ β hs env live
              (Layout.stack_size env.ptr_bytes elem_layout * elems.length + 1)
            rw [hvmM] at h
            rw [bindE_eq_ok] at h
            obtain ⟨se2, hse2, h⟩ := h
            have hptr1 : (call_malloc env live s1
                (Layout.stack_size env.ptr_bytes elem_layout * elems.length + 1)).1 <
                (call_malloc env live s1
                  (Layout.stack_size env.ptr_bytes elem_layout * elems.length + 1)).2.val_ctr :=
              Nat.lt_succ_self _
            obtain ⟨se1, hse1, hrelS⟩ := sim_array_elems ih hfr scope live
              (Layout.stack_size env.ptr_bytes elem_layout) elems 0 _ _ se2 hse2
              hrelM hsc hptr1
            obtain ⟨hrelI, hvmI⟩ := sim_iconst n σ β hrelS .I8 0 live
            obtain ⟨hfse, -⟩ := frame_array_elems hfr scope live _ _ elems 0 _ se1
              hse1 (scope_val_ok_mono hsc hrelM.hn)
            have hbndP2 : (call_malloc env live s1
                (Layout.stack_size env.ptr_bytes elem_layout * elems.length + 1)).1 <
                (ins_iconst .I8 0 live se1).2.val_ctr := by
              show (call_malloc env live s1
                (Layout.stack_size env.ptr_bytes elem_layout * elems.length + 1)).1 <
                se1.val_ctr + 1
              have h3 := lt_of_lt_of_le hptr1 hfse
              omega
            have hrelSt := sim_store n σ β hrelI
              (i32_wrap (i32_wrap
                (((Layout.stack_size env.ptr_bytes elem_layout * elems.length + 1 :
                  Nat)) : Int) - 1)) live
              (show (ins_iconst .I8 0 live se1).1 <
                (ins_iconst .I8 0 live se1).2.val_ctr from Nat.lt_succ_self _) hbndP2
            rw [← hvmI] at hrelSt
            have hpair := Except.ok.inj h
            have hv := congrArg Prod.fst hpair
            have hst := congrArg Prod.snd hpair
            subst hv hst
            refine ⟨(call_malloc env live s1
                (Layout.stack_size env.ptr_bytes elem_layout * elems.length + 1)).1,
              ins_store (ins_iconst .I8 0 live se1).1
                (call_malloc env live s1
                  (Layout.stack_size env.ptr_bytes elem_layout * elems.length + 1)).1
                (i32_wrap (i32_wrap
                  (((Layout.stack_size env.ptr_bytes elem_layout * elems.length + 1 :
                    Nat)) : Int) - 1)) live
                (ins_iconst .I8 0 live se1).2, ?_, hrelSt, rfl, ?_⟩
            · rw [build_expr_array, if_neg hemp]
              show (store_array_elems
                  (fun sc lv s e => build_expr fuel env sc lv s e) scope live
                  (call_malloc env live s1
                    (Layout.stack_size env.ptr_bytes elem_layout * elems.length + 1)).1
                  (Layout.stack_size env.ptr_bytes elem_layout) 0
                  (call_malloc env live s1
                    (Layout.stack_size env.ptr_bytes elem_layout * elems.length + 1)).2
                  elems).bind
                (fun stA => Except.ok
                  ((call_malloc env live s1
                      (Layout.stack_size env.ptr_bytes elem_layout * elems.length + 1)).1,
                   ins_store (ins_iconst .I8 0 live stA).1
                    (call_malloc env live s1
                      (Layout.stack_size env.ptr_bytes elem_layout * elems.length + 1)).1
                    (i32_wrap (i32_wrap
                      (((Layout.stack_size env.ptr_bytes elem_layout * elems.length + 1 :
                        Nat)) : Int) - 1)) live
                    (ins_iconst .I8 0 live stA).2)) = _
              rw [bindE_eq_ok]
              exact ⟨se1, hse1, rfl⟩
            · show (call_malloc env live s1
                (Layout.stack_size env.ptr_bytes elem_layout * elems.length + 1)).1 <
                (ins_iconst .I8 0 live se1).2.val_ctr
              exact hbndP2
      | Unhandled => exact Except.noConfusion h

theorem nb_str_bytes (live : Bool) (ptr : Nat) :
    ∀ (bytes : List Nat) (i : Nat) (st : BState),
    (store_str_bytes live ptr i st bytes).next_block = st.next_block := by
  intro bytes
  induction bytes with
  | nil => intro i st; rfl
  | cons b rest ih =>
      intro i st
      rw [show store_str_bytes live ptr i st (b :: rest) =
        store_str_bytes live ptr (i + 1)
          (ins_store (ins_iconst .I8 (b : Int) live st).1 ptr (i32_wrap (i : Int)) live
            (ins_iconst .I8 (b : Int) live st).2) rest from rfl]
      rw [ih]
      rfl

theorem nb_build_stores {build : BuildFn} (hb : NbMono build) (env : Env)
    (live : Bool) :
    ∀ (l : List (Symbol × Layout × Expr)) (scope : Scope) (st : BState)
      (scope' : Scope) (st' : BState),
    build_stores build env scope live st l = .ok (scope', st') →
    st.next_block ≤ st'.next_block := by
  intro l
  induction l with
  | nil =>
      intro scope st scope' st' h
      cases h
      exact le_refl _
  | cons hd tl ih =>
      intro scope st scope' st' h
      obtain ⟨name, layout, expr⟩ := hd
      simp only [build_stores] at h
      rw [bind_eq_ok] at h
      obtain ⟨⟨val, st1⟩, hb1, h⟩ := h
      have hrec := ih _ _ _ _ h
      exact le_trans (hb _ _ _ _ _ _ hb1) hrec

theorem nb_lower_call_args {build : BuildFn} (hb : NbMono build) (scope : Scope)
    (live : Bool) :
    ∀ (args : List (Expr × Layout)) (st : BState) (vs : List Nat) (st' : BState),
    lower_call_args build scope live st args = .ok (vs, st') →
    st.next_block ≤ st'.next_block := by
  intro args
  induction args with
  | nil =>
      intro st vs st' h
      cases h
      exact le_refl _
  | cons hd tl ih =>
      intro st vs st' h
      obtain ⟨e1, l1⟩ := hd
      simp only [lower_call_args] at h
      rw [bind_eq_ok] at h
      obtain ⟨⟨v1, st1⟩, hb1, h⟩ := h
      rw [bind_eq_ok] at h
      obtain ⟨⟨vs2, st2⟩, hb2, h⟩ := h
      cases h
      exact le_trans (hb _ _ _ _ _ _ hb1) (ih _ _ _ hb2)

theorem nb_lower_exprs {build : BuildFn} (hb : NbMono build) (scope : Scope)
    (live : Bool) :
    ∀ (args : List Expr) (st : BState) (vs : List Nat) (st' : BState),
    lower_exprs build scope live st args = .ok (vs, st') →
    st.next_block ≤ st'.next_block := by
  intro args
  induction args with
  | nil =>
      intro st vs st' h
      cases h
      exact le_refl _
  | cons hd tl ih =>
      intro st vs st' h
      simp only [lower_exprs] at h
      rw [bind_eq_ok] at h
      obtain ⟨⟨v1, st1⟩, hb1, h⟩ := h
      rw [bind_eq_ok] at h
      obtain ⟨⟨vs2, st2⟩, hb2, h⟩ := h
      cases h
      exact le_trans (hb _ _ _ _ _ _ hb1) (ih _ _ _ hb2)

theorem nb_struct_fields {build : BuildFn} (hb : NbMono build) (scope : Scope)
    (live : Bool) (slot : Nat) :
    ∀ (l : List (Nat × Expr)) (i : Nat) (st : BState) (st' : BState),
    store_struct_fields build scope live slot i st l = .ok st' →
    st.next_block ≤ st'.next_block := by
  intro l
  induction l with
  | nil =>
      intro i st st' h
      cases h
      exact le_refl _
  | cons hd tl ih =>
      intro i st st' h
      obtain ⟨nm, inner⟩ := hd
      simp only [store_struct_fields] at h
      rw [bind_eq_ok] at h
      obtain ⟨⟨val, st1⟩, hb1, h⟩ := h
      cases inner
      case IntLit m =>
        try simp only [except_ok_bind] at h
        split at h
        · have hrec := ih _ _ _ h
          exact le_trans (hb _ _ _ _ _ _ hb1) hrec
        · exact Except.noConfusion h
      all_goals exact Except.noConfusion h

theorem nb_array_elems {build : BuildFn} (hb : NbMono build) (scope : Scope)
    (live : Bool) (ptr eb : Nat) :
    ∀ (l : List Expr) (i : Nat) (st : BState) (st' : BState),
    store_array_elems build scope live ptr eb i st l = .ok st' →
    st.next_block ≤ st'.next_block := by
  intro l
  induction l with
  | nil =>
      intro i st st' h
      cases h
      exact le_refl _
  | cons hd tl ih =>
      intro i st st' h
      simp only [store_array_elems] at h
      rw [bind_eq_ok] at h
      obtain ⟨⟨val, st1⟩, hb1, h⟩ := h
      have hrec := ih _ _ _ h
      exact le_trans (hb _ _ _ _ _ _ hb1) hrec

theorem nb_register_switch :
    ∀ (brs : List (Nat × Expr)) (st : BState) (sw : List (Nat × Nat))
      (bl : List Nat) (sw' : List (Nat × Nat)) (bl' : List Nat) (st' : BState),
    register_switch_blocks st sw bl brs = .ok (sw', bl', st') →
    st.next_block ≤ st'.next_block := by
  intro brs
  induction brs with
  | nil =>
      intro st sw bl sw' bl' st' h
      cases h
      exact le_refl _
  | cons hd tl ih =>
      intro st sw bl sw' bl' st' h
      obtain ⟨int, expr⟩ := hd
      simp only [register_switch_blocks] at h
      split at h
      · simp at h
      · exact le_trans (Nat.le_succ _) (ih (create_block st).2 _ _ _ _ _ h)

theorem nb_switch_branches {build : BuildFn} (hb : NbMono build) (scope : Scope)
    (live : Bool) (ret ret_block : Nat) (selected : Option Nat) :
    ∀ (brs : List ((Nat × Expr) × Nat)) (st st' : BState),
    build_switch_branches build scope live ret ret_block selected st brs = .ok st' →
    st.next_block ≤ st'.next_block := by
  intro brs
  induction brs with
  | nil =>
      intro st st' h
      cases h
      exact le_refl _
  | cons hd tl ih =>
      intro st st' h
      obtain ⟨⟨i, expr⟩, block⟩ := hd
      simp only [build_switch_branches] at h
      rw [bind_eq_ok] at h
      obtain ⟨⟨value, stb⟩, hbld, h⟩ := h
      have hrec := ih _ _ h
      have hstep := hb _ _ _ _ _ _ hbld
      exact le_trans hstep hrec

set_option maxHeartbeats 1000000 in
theorem nb_branch2 {build : BuildFn} (hb : NbMono build) (scope : Scope)
    (live : Bool) (st : BState) (br : Branch2) (v : Nat) (st' : BState)
    (h : build_branch2 build scope live st br = .ok (v, st')) :
    st.next_block ≤ st'.next_block := by
  simp only [build_branch2, create_block_eq] at h
  rw [bind_eq_ok] at h
  obtain ⟨⟨cond, stc⟩, hc, h⟩ := h
  have h1 := hb _ _ _ _ _ _ hc
  split at h
  rotate_left
  · exact Except.noConfusion h
  try simp only [except_ok_bind] at h
  split at h
  rotate_left
  · try simp only [except_ok_bind] at h
    rw [bind_eq_ok] at h
    obtain ⟨⟨v1, stp⟩, hp, h⟩ := h
    have h2 := hb _ _ _ _ _ _ hp
    rw [bind_eq_ok] at h
    obtain ⟨⟨v2, stq⟩, hq, h⟩ := h
    have h3 := hb _ _ _ _ _ _ hq
    have hst := congrArg Prod.snd (Except.ok.inj h)
    subst hst
    show st.next_block ≤ stq.next_block
    have e1 : st.next_block + 1 ≤ stc.next_block := h1
    have e2 : stc.next_block + 1 + 1 ≤ stp.next_block := h2
    have e3 : stp.next_block ≤ stq.next_block := h3
    omega
  · split at h
    · try simp only [except_ok_bind] at h
      rw [bind_eq_ok] at h
      obtain ⟨⟨v1, stp⟩, hp, h⟩ := h
      have h2 := hb _ _ _ _ _ _ hp
      rw [bind_eq_ok] at h
      obtain ⟨⟨v2, stq⟩, hq, h⟩ := h
      have h3 := hb _ _ _ _ _ _ hq
      have hst := congrArg Prod.snd (Except.ok.inj h)
      subst hst
      show st.next_block ≤ stq.next_block
      have e1 : st.next_block + 1 ≤ stc.next_block := h1
      have e2 : stc.next_block + 1 + 1 ≤ stp.next_block := h2
      have e3 : stp.next_block ≤ stq.next_block := h3
      omega
    · exact Except.noConfusion h

set_option maxHeartbeats 1000000 in
theorem nb_build_switch {build : BuildFn} (hb : NbMono build) (scope : Scope)
    (live : Bool) (st : BState) (sa : SwitchArgs) (v : Nat) (st' : BState)
    (h : build_switch build scope live st sa = .ok (v, st')) :
    st.next_block ≤ st'.next_block := by
  simp only [build_switch, create_block_eq] at h
  rw [bind_eq_ok] at h
  obtain ⟨⟨sw, bl, str⟩, hreg, h⟩ := h
  have h1 := nb_register_switch _ _ _ _ _ _ _ hreg
  rw [bind_eq_ok] at h
  obtain ⟨⟨cond, stc⟩, hc, h⟩ := h
  have h2 := hb _ _ _ _ _ _ hc
  split at h
  rotate_left
  · try simp only [except_ok_bind] at h
    rw [bind_eq_ok] at h
    obtain ⟨st1, hb1, h⟩ := h
    have h3 := nb_switch_branches hb scope live 0 _ _ _ _ _ hb1
    rw [bind_eq_ok] at h
    obtain ⟨st2, hb2, h⟩ := h
    have h4 := nb_switch_branches hb scope live 0 _ _ _ _ _ hb2
    have hst := congrArg Prod.snd (Except.ok.inj h)
    subst hst
    show st.next_block ≤ st2.next_block
    have e1 : st.next_block + 1 + 1 ≤ str.next_block := h1
    have e2 : str.next_block ≤ stc.next_block := h2
    have e3 : stc.next_block ≤ st1.next_block := h3
    have e4 : st1.next_block ≤ st2.next_block := h4
    omega
  · split at h
    · try simp only [except_ok_bind] at h
      rw [bind_eq_ok] at h
      obtain ⟨st1, hb1, h⟩ := h
      have h3 := nb_switch_branches hb scope live 0 _ _ _ _ _ hb1
      rw [bind_eq_ok] at h
      obtain ⟨st2, hb2, h⟩ := h
      have h4 := nb_switch_branches hb scope live 0 _ _ _ _ _ hb2
      have hst := congrArg Prod.snd (Except.ok.inj h)
      subst hst
      show st.next_block ≤ st2.next_block
      have e1 : st.next_block + 1 + 1 ≤ str.next_block := h1
      have e2 : str.next_block ≤ stc.next_block := h2
      have e3 : stc.next_block ≤ st1.next_block := h3
      have e4 : st1.next_block ≤ st2.next_block := h4
      omega
    · exact Except.noConfusion h

theorem nb_binop_arm {build : BuildFn} (hb : NbMono build)
    {scope : Scope} {live : Bool} {st : BState} {args : List (Expr × Layout)}
    {v : Nat} {st' : BState} {n : Nat}
    (f : Nat → Nat → Bool → BState → Nat × BState)
    (hf : ∀ a b lv s, (f a b lv s).2.next_block = s.next_block)
    (h : (do
      let _ ← debug_assert (args.length == n)
      let (a, st) ← build_arg build scope live st (← arg_at args 0)
      let (b, st) ← build_arg build scope live st (← arg_at args 1)
      Except.ok (f a b live st) : Except LowerErr (Nat × BState)) = Except.ok (v, st')) :
    st.next_block ≤ st'.next_block := by
  rw [bind_eq_ok] at h
  obtain ⟨u, hda, h⟩ := h
  rw [bind_eq_ok] at h
  obtain ⟨p0, h0, h⟩ := h
  rw [bind_eq_ok] at h
  obtain ⟨⟨a, st1⟩, ha, h⟩ := h
  rw [bind_eq_ok] at h
  obtain ⟨p1, h1, h⟩ := h
  rw [bind_eq_ok] at h
  obtain ⟨⟨b, st2⟩, hbv, h⟩ := h
  simp only [build_arg] at ha hbv
  have hd1 := hb _ _ _ _ _ _ ha
  have hd2 := hb _ _ _ _ _ _ hbv
  have hpair := Except.ok.inj h
  have hst := congrArg Prod.snd hpair
  subst hst
  exact le_trans hd1 (le_trans hd2 (le_of_eq (hf a b live st2).symm))

set_option maxHeartbeats 2000000 in
theorem nb_call_by_name {build : BuildFn} (hb : NbMono build) (env : Env)
    (symbol : Symbol) (args : List (Expr × Layout)) (scope : Scope) (live : Bool)
    (st : BState) (v : Nat) (st' : BState)
    (h : call_by_name build env symbol args scope live st = .ok (v, st')) :
    st.next_block ≤ st'.next_block := by
  rw [call_by_name_def] at h
  by_cases hcase0 : symbol = Symbol.INT_ADD ∨ symbol = Symbol.NUM_ADD
  · rw [if_pos hcase0] at h
    exact nb_binop_arm hb ins_iadd
      (fun a b lv s => rfl) h
  · rw [if_neg hcase0] at h
    by_cases hcase1 : symbol = Symbol.FLOAT_ADD
    · rw [if_pos hcase1] at h
      exact nb_binop_arm hb ins_fadd
        (fun a b lv s => rfl) h
    · rw [if_neg hcase1] at h
      by_cases hcase2 : symbol = Symbol.INT_SUB ∨ symbol = Symbol.NUM_SUB
      · rw [if_pos hcase2] at h
        exact nb_binop_arm hb ins_isub
          (fun a b lv s => rfl) h
      · rw [if_neg hcase2] at h
        by_cases hcase3 : symbol = Symbol.FLOAT_SUB
        · rw [if_pos hcase3] at h
          exact nb_binop_arm hb ins_fsub
            (fun a b lv s => rfl) h
        · rw [if_neg hcase3] at h
          by_cases hcase4 : symbol = Symbol.NUM_MUL
          · rw [if_pos hcase4] at h
            exact nb_binop_arm hb ins_imul
              (fun a b lv s => rfl) h
          · rw [if_neg hcase4] at h
            by_cases hcase5 : symbol = Symbol.NUM_NEG
            · rw [if_pos hcase5] at h
              rw [bind_eq_ok] at h
              obtain ⟨u, hda, h⟩ := h
              rw [bind_eq_ok] at h
              obtain ⟨p0, h0, h⟩ := h
              rw [bind_eq_ok] at h
              obtain ⟨⟨a, st1⟩, ha, h⟩ := h
              simp only [build_arg] at ha
              have hd1 := hb _ _ _ _ _ _ ha
              have hpair := Except.ok.inj h
              have hst := congrArg Prod.snd hpair
              subst hst
              exact le_trans hd1 (le_of_eq rfl)
            · rw [if_neg hcase5] at h
              by_cases hcase6 : symbol = Symbol.INT_EQ_I64 ∨ symbol = Symbol.INT_EQ_I8 ∨ symbol = Symbol.INT_EQ_I1
              · rw [if_pos hcase6] at h
                exact nb_binop_arm hb ins_icmp_eq
                  (fun a b lv s => rfl) h
              · rw [if_neg hcase6] at h
                by_cases hcase7 : symbol = Symbol.FLOAT_EQ
                · rw [if_pos hcase7] at h
                  exact nb_binop_arm hb ins_fcmp_eq
                    (fun a b lv s => rfl) h
                · rw [if_neg hcase7] at h
                  by_cases hcase8 : symbol = Symbol.LIST_GET_UNSAFE
                  · rw [if_pos hcase8] at h
                    rw [bind_eq_ok] at h
                    obtain ⟨u, hda, h⟩ := h
                    rw [bind_eq_ok] at h
                    obtain ⟨p0, h0, h⟩ := h
                    rw [bind_eq_ok] at h
                    obtain ⟨⟨lp, st1⟩, ha, h⟩ := h
                    rw [bind_eq_ok] at h
                    obtain ⟨p1, h1, h⟩ := h
                    rw [bind_eq_ok] at h
                    obtain ⟨⟨ei, st2⟩, hbv, h⟩ := h
                    simp only [build_arg] at ha hbv
                    have hd1 := hb _ _ _ _ _ _ ha
                    have hd2 := hb _ _ _ _ _ _ hbv
                    replace h : Except.ok (ins_load_complex CTy.I64 lp
                        (ins_imul ei (ins_iconst CTy.I64 (((8 : Nat) : Int)) live st2).1 live
                          (ins_iconst CTy.I64 (((8 : Nat) : Int)) live st2).2).1 0 live
                        (ins_imul ei (ins_iconst CTy.I64 (((8 : Nat) : Int)) live st2).1 live
                          (ins_iconst CTy.I64 (((8 : Nat) : Int)) live st2).2).2) =
                      Except.ok (v, st') := h
                    have hpair := Except.ok.inj h
                    have hst := congrArg Prod.snd hpair
                    subst hst
                    exact le_trans hd1 (le_trans hd2 (le_of_eq rfl))
                  · rw [if_neg hcase8] at h
                    by_cases hcase9 : symbol = Symbol.LIST_SET
                    · rw [if_pos hcase9] at h
                      rw [bind_eq_ok] at h
                      obtain ⟨⟨le, ll⟩, h0, h⟩ := h
                      cases ll
                      rotate_left 4
                      next el =>
                        replace h : (do
                            let (idx, st1) ← build_arg build scope live
                              (call_malloc env live st
                                (Layout.stack_size env.ptr_bytes el * 10 + 1)).2 (← arg_at args 1)
                            let (elem, st2) ← build_arg build scope live st1 (← arg_at args 2)
                            match list_set_in_place env
                                (call_malloc env live st
                                  (Layout.stack_size env.ptr_bytes el * 10 + 1)).1
                                idx elem el live st2 with
                            | (_r, st3) => Except.ok ((call_malloc env live st
                                (Layout.stack_size env.ptr_bytes el * 10 + 1)).1, st3)) =
                          Except.ok (v, st') := h
                        rw [bind_eq_ok] at h
                        obtain ⟨p1, h1, h⟩ := h
                        rw [bind_eq_ok] at h
                        obtain ⟨⟨idx, st1⟩, hidx, h⟩ := h
                        rw [bind_eq_ok] at h
                        obtain ⟨p2, h2, h⟩ := h
                        rw [bind_eq_ok] at h
                        obtain ⟨⟨el2, st2⟩, helem, h⟩ := h
                        simp only [build_arg] at hidx helem
                        have hdi := hb _ _ _ _ _ _ hidx
                        have hde := hb _ _ _ _ _ _ helem
                        replace h : Except.ok ((call_malloc env live st
                            (Layout.stack_size env.ptr_bytes el * 10 + 1)).1,
                            (list_set_in_place env (call_malloc env live st
                              (Layout.stack_size env.ptr_bytes el * 10 + 1)).1
                              idx el2 el live st2).2) = Except.ok (v, st') := h
                        have hpair := Except.ok.inj h
                        have hst := congrArg Prod.snd hpair
                        subst hst
                        exact le_trans (le_of_eq rfl)
                          (le_trans hdi (le_trans hde (le_of_eq rfl)))
                      all_goals exact Except.noConfusion h
                    · rw [if_neg hcase9] at h
                      by_cases hcase10 : symbol = Symbol.LIST_SET_IN_PLACE
                      · rw [if_pos hcase10] at h
                        rw [bind_eq_ok] at h
                        obtain ⟨u, hda, h⟩ := h
                        rw [bind_eq_ok] at h
                        obtain ⟨⟨lexp, llay⟩, h0, h⟩ := h
                        rw [bind_eq_ok] at h
                        obtain ⟨⟨lv, st1⟩, hlv, h⟩ := h
                        have hd1 := hb _ _ _ _ _ _ hlv
                        cases llay
                        rotate_left 4
                        next el =>
                          replace h : (do
                              let (idx, st2) ← build_arg build scope live st1 (← arg_at args 1)
                              let (elem, st3) ← build_arg build scope live st2 (← arg_at args 2)
                              Except.ok (list_set_in_place env lv idx elem el live st3)) =
                            Except.ok (v, st') := h
                          rw [bind_eq_ok] at h
                          obtain ⟨p1, h1, h⟩ := h
                          rw [bind_eq_ok] at h
                          obtain ⟨⟨idx, st2⟩, hidx, h⟩ := h
                          rw [bind_eq_ok] at h
                          obtain ⟨p2, h2, h⟩ := h
                          rw [bind_eq_ok] at h
                          obtain ⟨⟨el2, st3⟩, helem, h⟩ := h
                          simp only [build_arg] at hidx helem
                          have hdi := hb _ _ _ _ _ _ hidx
                          have hde := hb _ _ _ _ _ _ helem
                          have hpair := Except.ok.inj h
                          have hst := congrArg Prod.snd hpair
                          subst hst
                          exact le_trans hd1 (le_trans hdi
                            (le_trans hde (le_of_eq rfl)))
                        all_goals exact Except.noConfusion h
                      · rw [if_neg hcase10] at h
                        split at h
                        rotate_left
                        · exact Except.noConfusion h
                        rw [bind_eq_ok] at h
                        obtain ⟨⟨avs, st1⟩, hargs, h⟩ := h
                        have hd1 := nb_lower_call_args hb scope live _ _ _ _ hargs
                        have hpair := Except.ok.inj h
                        have hst := congrArg Prod.snd hpair
                        subst hst
                        exact le_trans hd1 (le_of_eq rfl)


set_option maxHeartbeats 2000000 in
theorem nb_build_expr (env : Env) :
    ∀ fuel, NbMono (fun sc lv s e => build_expr fuel env sc lv s e) := by
  intro fuel
  induction fuel with
  | zero =>
      intro scope live st e v st' h
      exact Except.noConfusion h
  | succ fuel ih =>
      intro scope live st e v st' h
      replace h : build_expr (fuel + 1) env scope live st e = Except.ok (v, st') := h
      cases e with
      | IntLit num =>
          rw [build_expr_int] at h
          have hst := congrArg Prod.snd (Except.ok.inj h)
          subst hst
          exact (le_of_eq rfl)
      | FloatLit num =>
          rw [build_expr_float] at h
          have hst := congrArg Prod.snd (Except.ok.inj h)
          subst hst
          exact (le_of_eq rfl)
      | BoolLit val =>
          rw [build_expr_bool] at h
          have hst := congrArg Prod.snd (Except.ok.inj h)
          subst hst
          exact (le_of_eq rfl)
      | ByteLit val =>
          rw [build_expr_byte] at h
          have hst := congrArg Prod.snd (Except.ok.inj h)
          subst hst
          exact (le_of_eq rfl)
      | Cond cond pass fail cond_layout ret_layout =>
          rw [build_expr_cond] at h
          exact nb_branch2 ih scope live st _ v st' h
      | Switch cond branches default_branch cond_layout ret_layout =>
          rw [build_expr_switch] at h
          exact nb_build_switch ih scope live st _ v st' h
      | Store stores ret =>
          rw [build_expr_store] at h
          rw [bindE_eq_ok] at h
          obtain ⟨⟨scope2, st1⟩, hbs, h⟩ := h
          have hd1 := nb_build_stores ih env live stores scope st scope2 st1 hbs
          have hd2 := ih scope2 live st1 ret v st' h
          exact le_trans hd1 hd2
      | CallByName symbol args =>
          rw [build_expr_call_by_name] at h
          exact nb_call_by_name ih env symbol args scope live st v st' h
      | FunctionPointer name =>
          rw [build_expr_fnptr] at h
          cases hget : Scope.get scope name with
          | none =>
              rw [hget] at h
              exact Except.noConfusion h
          | some entry =>
              rw [hget] at h
              cases entry with
              | Stack t slot => exact Except.noConfusion h
              | Arg t param => exact Except.noConfusion h
              | Heap t ptr => exact Except.noConfusion h
              | Func s fid =>
                  replace h : Except.ok (ins_func_addr .Ptr fid live st) =
                    Except.ok (v, st') := h
                  have hst := congrArg Prod.snd (Except.ok.inj h)
                  subst hst
                  exact (le_of_eq rfl)
      | CallByPointer sub_expr args layout =>
          rw [build_expr_callptr] at h
          rw [bindE_eq_ok] at h
          obtain ⟨⟨avs, st1⟩, hargs, h⟩ := h
          have hd1 := nb_lower_exprs ih scope live args st avs st1 hargs
          rw [bindE_eq_ok] at h
          obtain ⟨⟨callee, st2⟩, hc, h⟩ := h
          have hd2 := ih scope live st1 sub_expr callee st2 hc
          have hst := congrArg Prod.snd (Except.ok.inj h)
          subst hst
          exact le_trans hd1 (le_trans hd2 (le_of_eq rfl))
      | Load name =>
          rw [build_expr_load] at h
          cases hget : Scope.get scope name with
          | none =>
              rw [hget] at h
              exact Except.noConfusion h
          | some entry =>
              rw [hget] at h
              cases entry with
              | Stack t slot =>
                  replace h : Except.ok (ins_stack_load t slot 0 live st) =
                    Except.ok (v, st') := h
                  have hst := congrArg Prod.snd (Except.ok.inj h)
                  subst hst
                  exact (le_of_eq rfl)
              | Arg t param =>
                  replace h : (Except.ok (param, st) : Except LowerErr (Nat × BState)) =
                    Except.ok (v, st') := h
                  have hst := congrArg Prod.snd (Except.ok.inj h)
                  subst hst
                  exact Nat.le_refl _
              | Heap t ptr =>
                  replace h : Except.ok (ins_load t ptr 0 live st) =
                    Except.ok (v, st') := h
                  have hst := congrArg Prod.snd (Except.ok.inj h)
                  subst hst
                  exact (le_of_eq rfl)
              | Func s fid => exact Except.noConfusion h
      | Struct layout fields =>
          rw [build_expr_struct] at h
          replace h : (store_struct_fields (fun sc lv s e => build_expr fuel env sc lv s e)
              scope live
              (create_stack_slot (Layout.stack_size env.ptr_bytes layout) st).1 0
              (create_stack_slot (Layout.stack_size env.ptr_bytes layout) st).2
              (sort_fields fields)).bind
            (fun stA => Except.ok (ins_stack_addr (type_from_layout layout)
              (create_stack_slot (Layout.stack_size env.ptr_bytes layout) st).1 0
              live stA)) = Except.ok (v, st') := h
          rw [bindE_eq_ok] at h
          obtain ⟨st1, hsf, h⟩ := h
          have hd1 := nb_struct_fields ih scope live _ (sort_fields fields) 0 _ st1 hsf
          have hst := congrArg Prod.snd (Except.ok.inj h)
          subst hst
          exact le_trans (le_of_eq rfl)
            (le_trans hd1 (le_of_eq rfl))
      | Str str_literal =>
          rw [build_expr_str] at h
          by_cases hemp : str_literal.isEmpty
          · rw [if_pos hemp] at h
            exact Except.noConfusion h
          · rw [if_neg hemp] at h
            replace h : Except.ok
                ((call_malloc env live st (str_literal.length + 1)).1,
                 ins_store
                  (ins_iconst .I8 0 live
                    (store_str_bytes live
                      (call_malloc env live st (str_literal.length + 1)).1 0
                      (call_malloc env live st (str_literal.length + 1)).2
                      str_literal)).1
                  (call_malloc env live st (str_literal.length + 1)).1
                  (i32_wrap (i32_wrap (((str_literal.length + 1 : Nat)) : Int) - 1))
                  live
                  (ins_iconst .I8 0 live
                    (store_str_bytes live
                      (call_malloc env live st (str_literal.length + 1)).1 0
                      (call_malloc env live st (str_literal.length + 1)).2
                      str_literal)).2) = Except.ok (v, st') := h
            have hst := congrArg Prod.snd (Except.ok.inj h)
            subst hst
            exact le_trans (le_of_eq rfl)
              (le_trans
                (le_of_eq (nb_str_bytes live
                  (call_malloc env live st (str_literal.length + 1)).1
                  str_literal 0
                  (call_malloc env live st (str_literal.length + 1)).2).symm)
                (le_of_eq rfl))
      | Array elem_layout elems =>
          rw [build_expr_array] at h
          by_cases hemp : elems.isEmpty
          · rw [if_pos hemp] at h
            exact Except.noConfusion h
          · rw [if_neg hemp] at h
            replace h : (store_array_elems
                (fun sc lv s e => build_expr fuel env sc lv s e) scope live
                (call_malloc env live st
                  (Layout.stack_size env.ptr_bytes elem_layout * elems.length + 1)).1
                (Layout.stack_size env.ptr_bytes elem_layout) 0
                (call_malloc env live st
                  (Layout.stack_size env.ptr_bytes elem_layout * elems.length + 1)).2
                elems).bind
              (fun stA => Except.ok
                ((call_malloc env live st
                    (Layout.stack_size env.ptr_bytes elem_layout * elems.length + 1)).1,
                 ins_store (ins_iconst .I8 0 live stA).1
                  (call_malloc env live st
                    (Layout.stack_size env.ptr_bytes elem_layout * elems.length + 1)).1
                  (i32_wrap (i32_wrap
                    (((Layout.stack_size env.ptr_bytes elem_layout * elems.length + 1 :
                      Nat)) : Int) - 1)) live
                  (ins_iconst .I8 0 live stA).2)) = Except.ok (v, st') := h
            rw [bindE_eq_ok] at h
            obtain ⟨st1, hse, h⟩ := h
            have hd1 := nb_array_elems ih scope live _ _ elems 0 _ st1 hse
            have hst := congrArg Prod.snd (Except.ok.inj h)
            subst hst
            exact le_trans (le_of_eq rfl)
              (le_trans hd1 (le_of_eq rfl))
      | Unhandled => exact Except.noConfusion h
theorem getVal_bconst (b : Bool) (st : BState) :
    (ins_bconst b true st).2.getVal (ins_bconst b true st).1 = RVal.BoolV b := by
  show (if st.val_ctr = st.val_ctr then some (RVal.BoolV b)
      else alist_get st.env st.val_ctr).getD (.Unknown 0) = RVal.BoolV b
  rw [if_pos rfl]
  rfl

theorem getVal_use_var_self (i : Nat) (st : BState) :
    (use_var true i st).2.getVal (use_var true i st).1 =
      (alist_get st.var_vals i).getD (.Unknown 1) := by
  show (if st.val_ctr = st.val_ctr then
      some ((alist_get st.var_vals i).getD (.Unknown 1))
      else alist_get st.env st.val_ctr).getD (.Unknown 0) =
      (alist_get st.var_vals i).getD (.Unknown 1)
  rw [if_pos rfl]
  rfl

theorem sim_from_shifted (env : Env) (fuel : Nat) (scope : Scope)
    (st s2 : BState) (e : Expr) (v2 : Nat) (t2 : BState) (σ β : Nat)
    (hp2 : build_expr fuel env scope true s2 e = .ok (v2, t2))
    (hsc : scope_val_ok st.val_ctr scope)
    (hbound : ∀ k, st.val_ctr ≤ k → alist_get st.env k = none)
    (hv : s2.val_ctr = st.val_ctr + σ)
    (hnb : s2.next_block = st.next_block + β)
    (hslc : s2.slot_ctr = st.slot_ctr) (hsl : s2.slots = st.slots)
    (hvv : s2.var_vals = st.var_vals) (hac : s2.alloc_ctr = st.alloc_ctr)
    (hm : s2.mem = st.mem)
    (henvtail : ∀ k, k < st.val_ctr → alist_get s2.env k = alist_get st.env k)
    (henvhigh : ∀ k, s2.val_ctr ≤ k → alist_get s2.env k = none) :
    ∃ v1 t1, build_expr fuel env scope true st e = .ok (v1, t1) ∧
      SimRel st.val_ctr σ β t1 t2 ∧ v2 = vmap st.val_ctr σ v1 ∧
      v1 < t1.val_ctr := by
  refine sim_build_expr env st.val_ctr σ β fuel _ _ _ _ _ _ _ hp2 ?_ hsc
  refine ⟨le_refl _, hv, hnb, hslc, hsl, hvv, hac, hm, hbound, henvhigh, ?_⟩
  intro k hk
  have hvk : vmap st.val_ctr σ k = k := by unfold vmap; rw [if_pos hk]
  rw [hvk]
  show (alist_get s2.env k).getD (.Unknown 0) = (alist_get st.env k).getD (.Unknown 0)
  rw [henvtail k hk]

set_option maxHeartbeats 2000000 in
/-- C7: for a two-way conditional whose condition Layout is the boolean
builtin, a literal-true condition makes the whole expression evaluate to
the run-time value of lowering the pass branch alone from the same
state, and a literal-false condition to the value of lowering the fail
branch alone (same state up to the builder's stack-slot counter, which
the dead pass arm still advances); a condition Layout that is not the
boolean builtin never lowers successfully. -/
theorem cond_literal_branch_refinement (env : Env) (scope : Scope)
    (st : BState) (fuel : Nat) (pass fail : Expr) (tn fn : Nat) (rl : Layout)
    (hsc : scope_val_ok st.val_ctr scope)
    (hbound : ∀ k, st.val_ctr ≤ k → alist_get st.env k = none) :
    (∀ v st', build_expr (fuel + 1) env scope true st
        (.Cond (.BoolLit true) pass fail (.Bool tn fn) rl) = .ok (v, st') →
      ∃ vp stp, build_expr fuel env scope true st pass = .ok (vp, stp) ∧
        st'.getVal v = stp.getVal vp) ∧
    (∀ v st', build_expr (fuel + 1) env scope true st
        (.Cond (.BoolLit false) pass fail (.Bool tn fn) rl) = .ok (v, st') →
      ∃ slot0 vf stf, build_expr fuel env scope true
          { st with slot_ctr := slot0 } fail = .ok (vf, stf) ∧
        st'.getVal v = stf.getVal vf) ∧
    (∀ cond cl, (∀ t f, cl ≠ .Bool t f) → ∀ v st',
      build_expr (fuel + 1) env scope true st
        (.Cond cond pass fail cl rl) ≠ .ok (v, st')) := by
  refine ⟨?_, ?_, ?_⟩
  · -- literal-true condition: the pass branch is the live one
    intro v st' h
    rw [build_expr_cond] at h
    cases fuel with
    | zero =>
        simp only [build_branch2, create_block_eq] at h
        rw [bind_eq_ok] at h
        obtain ⟨⟨c, sc⟩, hc, h⟩ := h
        rw [build_expr_zero] at hc
        exact Except.noConfusion hc
    | succ fuel =>
        simp only [build_branch2, create_block_eq] at h
        rw [bind_eq_ok] at h
        obtain ⟨⟨c, sc⟩, hc, h⟩ := h
        rw [build_expr_bool] at hc
        have hcp := Except.ok.inj hc
        have hcv := congrArg Prod.fst hcp
        have hcs := congrArg Prod.snd hcp
        subst hcv hcs
        rw [getVal_emit_jump, getVal_emit_brnz, getVal_next_block] at h
        simp only [Prod.mk.eta] at h
        rw [getVal_bconst] at h
        rw [if_pos trivial] at h
        simp only [as_branch_bool, except_ok_bind] at h
        rw [bind_eq_ok] at h
        obtain ⟨⟨vp2, sp2⟩, hp2, h⟩ := h
        obtain ⟨vp, sp, hp1, hrelp, hvm, hbnd⟩ :=
          sim_from_shifted env (fuel + 1) scope st _ pass vp2 sp2 1 3 hp2 hsc
            hbound rfl rfl rfl rfl rfl rfl rfl
            (fun k hk => by
              have hk' : k < st.val_ctr := hk
              show alist_get (write_if true st.val_ctr (RVal.BoolV true) st.env) k =
                alist_get st.env k
              exact alist_get_write_if_ne _ _ _ _ _ (by omega))
            (fun k hk => by
              have hk' : st.val_ctr + 1 ≤ k := hk
              show alist_get (write_if true st.val_ctr (RVal.BoolV true) st.env) k = none
              exact env_bound_write hbound hk')
        rw [bind_eq_ok] at h
        obtain ⟨⟨vf2, sf2⟩, hf2, h⟩ := h
        have hdead := dead_build_expr env _ _ _ _ _ _ hf2
        obtain ⟨hdenv, hdsl, hdvv, hdac, hdm⟩ := hdead
        have hpair := Except.ok.inj h
        have hv1 := congrArg Prod.fst hpair
        have hst1 := congrArg Prod.snd hpair
        subst hv1 hst1
        refine ⟨vp, sp, hp1, ?_⟩
        rw [getVal_use_var_self]
        show (alist_get sf2.var_vals 0).getD (.Unknown 1) = sp.getVal vp
        rw [hdvv]
        show sp2.getVal vp2 = sp.getVal vp
        rw [hvm]
        exact hrelp.hgv vp hbnd
  · -- literal-false condition: the fail branch is the live one
    intro v st' h
    rw [build_expr_cond] at h
    cases fuel with
    | zero =>
        simp only [build_branch2, create_block_eq] at h
        rw [bind_eq_ok] at h
        obtain ⟨⟨c, sc⟩, hc, h⟩ := h
        rw [build_expr_zero] at hc
        exact Except.noConfusion hc
    | succ fuel =>
        simp only [build_branch2, create_block_eq] at h
        rw [bind_eq_ok] at h
        obtain ⟨⟨c, sc⟩, hc, h⟩ := h
        rw [build_expr_bool] at hc
        have hcp := Except.ok.inj hc
        have hcv := congrArg Prod.fst hcp
        have hcs := congrArg Prod.snd hcp
        subst hcv hcs
        rw [getVal_emit_jump, getVal_emit_brnz, getVal_next_block] at h
        simp only [Prod.mk.eta] at h
        rw [getVal_bconst] at h
        rw [if_pos trivial] at h
        simp only [as_branch_bool, except_ok_bind] at h
        rw [bind_eq_ok] at h
        obtain ⟨⟨vp2, sp2⟩, hp2, h⟩ := h
        have hsc7 : scope_val_ok (st.val_ctr + 1) scope :=
          scope_val_ok_mono hsc (Nat.le_succ st.val_ctr)
        obtain ⟨⟨hfle, hfenv⟩, -⟩ :=
          frame_build_expr env _ _ _ _ _ _ _ hp2 hsc7
        have hvle : st.val_ctr + 1 ≤ sp2.val_ctr := hfle
        have hnble : st.next_block + 3 ≤ sp2.next_block :=
          nb_build_expr env _ _ _ _ _ _ _ hp2
        have hdp := dead_build_expr env _ _ _ _ _ _ hp2
        obtain ⟨hdenv, hdsl, hdvv, hdac, hdm⟩ := hdp
        rw [bind_eq_ok] at h
        obtain ⟨⟨vf2, sf2⟩, hf2, h⟩ := h
        obtain ⟨vf, stf, hf1, hrelf, hvmf, hbndf⟩ :=
          sim_from_shifted env (fuel + 1) scope { st with slot_ctr := sp2.slot_ctr }
            _ fail vf2 sf2 (sp2.val_ctr - st.val_ctr)
            (sp2.next_block - st.next_block) hf2 hsc hbound
            (by show sp2.val_ctr = st.val_ctr + (sp2.val_ctr - st.val_ctr); omega)
            (by show sp2.next_block = st.next_block + (sp2.next_block - st.next_block)
                omega)
            rfl
            (by show sp2.slots = st.slots; exact hdsl)
            (by show sp2.var_vals = st.var_vals; exact hdvv)
            (by show sp2.alloc_ctr = st.alloc_ctr; exact hdac)
            (by show sp2.mem = st.mem; exact hdm)
            (fun k hk => by
              have hk' : k < st.val_ctr := hk
              show alist_get sp2.env k = alist_get st.env k
              rw [hdenv]
              show alist_get (write_if true st.val_ctr (RVal.BoolV false) st.env) k =
                alist_get st.env k
              exact alist_get_write_if_ne _ _ _ _ _ (by omega))
            (fun k hk => by
              have hk' : sp2.val_ctr ≤ k := hk
              show alist_get sp2.env k = none
              rw [hdenv]
              show alist_get (write_if true st.val_ctr (RVal.BoolV false) st.env) k = none
              exact env_bound_write hbound (by omega))
        have hpair := Except.ok.inj h
        have hv1 := congrArg Prod.fst hpair
        have hst1 := congrArg Prod.snd hpair
        subst hv1 hst1
        refine ⟨sp2.slot_ctr, vf, stf, hf1, ?_⟩
        rw [getVal_use_var_self]
        show sf2.getVal vf2 = stf.getVal vf
        rw [hvmf]
        exact hrelf.hgv vf hbndf
  · -- non-boolean condition Layout: the lowering always fails
    intro cond cl hcl v st' h
    rw [build_expr_cond] at h
    simp only [build_branch2, create_block_eq] at h
    rw [bind_eq_ok] at h
    obtain ⟨⟨c, sc⟩, hc, h⟩ := h
    rw [bind_eq_ok] at h
    obtain ⟨u, hu, h⟩ := h
    cases cl with
    | Bool t f => exact hcl t f rfl
    | Int64 => exact Except.noConfusion hu
    | Float64 => exact Except.noConfusion hu
    | Byte => exact Except.noConfusion hu
    | List el => exact Except.noConfusion hu
    | Struct fs => exact Except.noConfusion hu

theorem cond_literal_branch_refinement_witness :
    ∃ v st' vp stp,
      build_expr 2 ⟨8, 100⟩ [] true BState.init
        (.Cond (.BoolLit true) (.IntLit 5) (.IntLit 7) (.Bool 0 1) .Int64) =
        .ok (v, st') ∧
      build_expr 1 ⟨8, 100⟩ [] true BState.init (.IntLit 5) = .ok (vp, stp) ∧
      st'.getVal v = stp.getVal vp := by
  obtain ⟨⟨v, st'⟩, hrun⟩ :
      ∃ p, build_expr 2 ⟨8, 100⟩ [] true BState.init
        (.Cond (.BoolLit true) (.IntLit 5) (.IntLit 7) (.Bool 0 1) .Int64) = .ok p :=
    ⟨_, rfl⟩
  obtain ⟨vp, stp, h1, h2⟩ :=
    (cond_literal_branch_refinement ⟨8, 100⟩ [] BState.init 1 (.IntLit 5)
      (.IntLit 7) 0 1 .Int64 (fun p hp => absurd hp (List.not_mem_nil p))
      (fun k hk => rfl)).1 v st' hrun
  exact ⟨v, st', vp, stp, hrun, h1, h2⟩


theorem getVal_iconst (t : CTy) (n : Int) (st : BState) :
    (ins_iconst t n true st).2.getVal (ins_iconst t n true st).1 = RVal.IntV n := by
  show (if st.val_ctr = st.val_ctr then some (RVal.IntV n)
      else alist_get st.env st.val_ctr).getD (.Unknown 0) = RVal.IntV n
  rw [if_pos rfl]
  rfl

theorem some_beq_self (x : Nat) : ((some x : Option Nat) == some x) = true :=
  beq_self_eq_true _

theorem some_beq_ne {x y : Nat} (h : x ≠ y) :
    ((some x : Option Nat) == some y) = false :=
  beq_eq_false_iff_ne.mpr (fun hc => h (Option.some.inj hc))

theorem find?_decomp {α : Type} (p : α → Bool) :
    ∀ (l : List α) (a : α), l.find? p = some a →
      p a = true ∧ ∃ pre suf, l = pre ++ a :: suf ∧ ∀ b ∈ pre, p b = false := by
  intro l
  induction l with
  | nil => intro a h; exact Option.noConfusion h
  | cons hd tl ih =>
      intro a h
      cases hp : p hd with
      | true =>
          simp only [List.find?, hp] at h
          have ha := Option.some.inj h
          subst ha
          exact ⟨hp, [], tl, rfl, fun b hb => absurd hb (List.not_mem_nil b)⟩
      | false =>
          simp only [List.find?, hp] at h
          obtain ⟨hpa, pre, suf, heq, hpre⟩ := ih a h
          refine ⟨hpa, hd :: pre, suf, by rw [heq]; rfl, ?_⟩
          intro b hb
          rcases List.mem_cons.mp hb with h1 | h2
          · rw [h1]; exact hp
          · exact hpre b h2

theorem find?_none_all {α : Type} (p : α → Bool) :
    ∀ (l : List α), l.find? p = none → ∀ b ∈ l, p b = false := by
  intro l
  induction l with
  | nil => intro h b hb; exact absurd hb (List.not_mem_nil b)
  | cons hd tl ih =>
      intro h b hb
      cases hp : p hd with
      | true =>
          simp only [List.find?, hp] at h
          exact Option.noConfusion h
      | false =>
          simp only [List.find?, hp] at h
          rcases List.mem_cons.mp hb with h1 | h2
          · rw [h1]; exact hp
          · exact ih h b h2

theorem find?_none_of_all {α : Type} (p : α → Bool) :
    ∀ (l : List α), (∀ b ∈ l, p b = false) → l.find? p = none := by
  intro l
  induction l with
  | nil => intro h; rfl
  | cons hd tl ih =>
      intro h
      have hp := h hd (List.mem_cons_self hd tl)
      simp only [List.find?, hp]
      exact ih (fun b hb => h b (List.mem_cons_of_mem _ hb))

theorem find?_append_some {α : Type} (p : α → Bool) (x : α) (l2 : List α) :
    ∀ (l1 : List α), (∀ b ∈ l1, p b = false) → p x = true →
      List.find? p (l1 ++ x :: l2) = some x := by
  intro l1
  induction l1 with
  | nil =>
      intro h hx
      show List.find? p (x :: l2) = some x
      simp only [List.find?, hx]
  | cons hd tl ih =>
      intro h hx
      have hp := h hd (List.mem_cons_self hd tl)
      show List.find? p (hd :: (tl ++ x :: l2)) = some x
      simp only [List.find?, hp]
      exact ih (fun b hb => h b (List.mem_cons_of_mem _ hb)) hx

theorem zip_range_decomp {α : Type} (x : α) :
    ∀ (pre : List α) (suf : List α) (s : Nat),
      (pre ++ x :: suf).zip (List.range' s (pre ++ x :: suf).length) =
        pre.zip (List.range' s pre.length) ++
          (x, s + pre.length) ::
            suf.zip (List.range' (s + pre.length + 1) suf.length) := by
  intro pre
  induction pre with
  | nil =>
      intro suf s
      simp only [List.nil_append, List.length_nil, Nat.add_zero, List.zip_nil_left,
        List.length_cons, List.range'_succ, List.zip_cons_cons]
  | cons hd tl ih =>
      intro suf s
      simp only [List.cons_append, List.length_cons, List.range'_succ,
        List.zip_cons_cons]
      rw [ih suf (s + 1)]
      rw [show s + (tl.length + 1) = s + 1 + tl.length from by omega]

theorem mem_range'_bounds :
    ∀ (n s m : Nat), m ∈ List.range' s n → s ≤ m ∧ m < s + n := by
  intro n
  induction n with
  | zero => intro s m h; exact absurd h (List.not_mem_nil m)
  | succ n ih =>
      intro s m h
      rw [List.range'_succ] at h
      rcases List.mem_cons.mp h with h1 | h2
      · subst h1; omega
      · have := ih (s + 1) m h2
        omega

theorem register_spec :
    ∀ (l : List (Nat × Expr)) (st : BState) (sw0 : List (Nat × Nat))
      (bl0 : List Nat) (sw : List (Nat × Nat)) (bl : List Nat) (str : BState),
    register_switch_blocks st sw0 bl0 l = .ok (sw, bl, str) →
    sw = sw0 ++ (l.map Prod.fst).zip (List.range' st.next_block l.length) ∧
    bl = bl0 ++ List.range' st.next_block l.length ∧
    str.val_ctr = st.val_ctr ∧ str.next_block = st.next_block + l.length ∧
    str.env = st.env ∧ str.cur_block = st.cur_block ∧ str.log = st.log ∧
    str.slot_ctr = st.slot_ctr ∧ str.slot_sizes = st.slot_sizes ∧
    str.slots = st.slots ∧ str.var_types = st.var_types ∧
    str.var_vals = st.var_vals ∧ str.alloc_ctr = st.alloc_ctr ∧
    str.mem = st.mem := by
  intro l
  induction l with
  | nil =>
      intro st sw0 bl0 sw bl str h
      have hp := Except.ok.inj h
      have h1 := congrArg Prod.fst hp
      have h2 := congrArg (fun q => q.2.1) hp
      have h3 := congrArg (fun q => q.2.2) hp
      simp only at h1 h2 h3
      subst h1 h2 h3
      refine ⟨?_, ?_, rfl, ?_, rfl, rfl, rfl, rfl, rfl, rfl, rfl, rfl, rfl, rfl⟩
      · simp
      · simp
      · simp
  | cons hd tl ih =>
      intro st sw0 bl0 sw bl str h
      obtain ⟨int, e⟩ := hd
      simp only [register_switch_blocks, create_block_eq] at h
      split at h
      · exact Except.noConfusion h
      have hrec := ih _ _ _ _ _ _ h
      obtain ⟨hsw, hbl, hval, hnb, henv, hcur, hlog, hslc, hss, hsl, hvt, hvv,
        hac, hm⟩ := hrec
      have hnb2 : str.next_block = st.next_block + 1 + tl.length := hnb
      refine ⟨?_, ?_, hval, by simp only [List.length_cons]; omega, henv, hcur,
        hlog, hslc, hss, hsl, hvt, hvv, hac, hm⟩
      · rw [hsw]
        simp only [List.map_cons, List.length_cons, List.length_map,
          List.range'_succ, List.zip_cons_cons]
        simp
      · rw [hbl]
        simp only [List.length_cons, List.range'_succ]
        simp

theorem bsb_unselected {build : BuildFn} (hb : DeadOK build) (scope : Scope)
    (ret ret_block : Nat) (sel : Option Nat) :
    ∀ (brs : List ((Nat × Expr) × Nat)) (st st' : BState),
    (∀ p ∈ brs, (sel == some p.2) = false) →
    build_switch_branches build scope true ret ret_block sel st brs = .ok st' →
    DeadPre st st' := by
  intro brs
  induction brs with
  | nil =>
      intro st st' hsel h
      cases h
      exact dead_refl _
  | cons hd tl ih =>
      intro st st' hsel h
      obtain ⟨⟨i, expr⟩, block⟩ := hd
      simp only [build_switch_branches] at h
      have hbf : (sel == some block) = false :=
        hsel _ (List.mem_cons_self _ _)
      rw [hbf] at h
      rw [bind_eq_ok] at h
      obtain ⟨⟨value, stb⟩, hbld, h⟩ := h
      have hdb := hb _ _ _ _ _ hbld
      have htail := ih _ _ (fun p hp => hsel p (List.mem_cons_of_mem _ hp)) h
      exact dead_trans (⟨rfl, rfl, rfl, rfl, rfl⟩ : DeadPre st _)
        (dead_trans hdb
          (dead_trans (⟨rfl, rfl, rfl, rfl, rfl⟩ : DeadPre stb _) htail))

theorem bsb_split {build : BuildFn} (hbD : DeadOK build) (hbF : FrameOK build)
    (hbN : NbMono build) (scope : Scope) (ret ret_block : Nat) (BLK k0 : Nat)
    (body : Expr) (suf : List ((Nat × Expr) × Nat)) :
    ∀ (pre : List ((Nat × Expr) × Nat)) (st t : BState),
    (∀ p ∈ pre, ((some BLK : Option Nat) == some p.2) = false) →
    build_switch_branches build scope true ret ret_block (some BLK) st
      (pre ++ ((k0, body), BLK) :: suf) = .ok t →
    scope_val_ok st.val_ctr scope →
    ∃ spre vb sb, DeadPre st spre ∧ st.val_ctr ≤ spre.val_ctr ∧
      st.next_block ≤ spre.next_block ∧
      build scope true (switch_to_block BLK spre) body = .ok (vb, sb) ∧
      build_switch_branches build scope true ret ret_block (some BLK)
        (emit_jump ret_block (def_var true ret vb sb)) suf = .ok t := by
  intro pre
  induction pre with
  | nil =>
      intro st t hsel h hsc
      simp only [List.nil_append, build_switch_branches] at h
      rw [some_beq_self] at h
      simp only [Bool.and_self] at h
      rw [bind_eq_ok] at h
      obtain ⟨⟨vb, sb⟩, hbody, h⟩ := h
      exact ⟨st, vb, sb, dead_refl _, le_refl _, le_refl _, hbody, h⟩
  | cons hd tl ih =>
      intro st t hsel h hsc
      obtain ⟨⟨i, expr⟩, block⟩ := hd
      simp only [List.cons_append, build_switch_branches] at h
      have hbf : ((some BLK : Option Nat) == some block) = false :=
        hsel _ (List.mem_cons_self _ _)
      rw [hbf] at h
      rw [bind_eq_ok] at h
      obtain ⟨⟨value, stb⟩, hbld, h⟩ := h
      have hdb := hbD _ _ _ _ _ hbld
      obtain ⟨⟨hfle, -⟩, -⟩ := hbF _ _ _ _ _ _ hbld hsc
      have hnble := hbN _ _ _ _ _ _ hbld
      have hfle2 : st.val_ctr ≤ stb.val_ctr := hfle
      have hnble2 : st.next_block ≤ stb.next_block := hnble
      have hsc2 : scope_val_ok stb.val_ctr scope := scope_val_ok_mono hsc hfle2
      have hrec := ih _ _ (fun p hp => hsel p (List.mem_cons_of_mem _ hp)) h hsc2
      obtain ⟨spre, vb, sb, hdp, hvle, hnble3, hbody, hrest⟩ := hrec
      refine ⟨spre, vb, sb, ?_, ?_, ?_, hbody, hrest⟩
      · exact dead_trans (⟨rfl, rfl, rfl, rfl, rfl⟩ : DeadPre st _)
          (dead_trans hdb
            (dead_trans (⟨rfl, rfl, rfl, rfl, rfl⟩ : DeadPre stb _) hdp))
      · have hvle2 : stb.val_ctr ≤ spre.val_ctr := hvle
        omega
      · have hnble4 : stb.next_block ≤ spre.next_block := hnble3
        omega


set_option maxHeartbeats 4000000 in
/-- C8: for a multi-way switch on an integer-literal discriminant, the
dispatch table is registered keyed by the branch constants (one fresh
block per branch, consecutively numbered) before the dispatch is
emitted; the branch whose constant equals the discriminant — or the
default branch when none matches — is the one whose lowering alone
(same state up to the builder's stack-slot counter) produces the
run-time value, memory, and allocation count of the whole switch, so no
other branch body contributes any observable effect. -/
theorem switch_dispatch_exclusive (env : Env) (scope : Scope) (st : BState)
    (fuel : Nat) (u : Int) (branches : List (Nat × Expr))
    (default_branch : Expr) (cl rl : Layout)
    (hsc : scope_val_ok st.val_ctr scope)
    (hbound : ∀ k, st.val_ctr ≤ k → alist_get st.env k = none) :
    (∀ st0 sw bl str, register_switch_blocks st0 [] [] branches =
        .ok (sw, bl, str) →
      sw = (branches.map Prod.fst).zip bl ∧
      bl = List.range' st0.next_block branches.length) ∧
    (∀ v st', build_expr (fuel + 1) env scope true st
        (.Switch (.IntLit u) branches default_branch cl rl) = .ok (v, st') →
      (∀ k0 body,
        branches.find? (fun e => ((e.1 : Int) = u)) = some (k0, body) →
        ∃ slot0 vb stb, build_expr fuel env scope true
            { st with slot_ctr := slot0 } body = .ok (vb, stb) ∧
          st'.getVal v = stb.getVal vb ∧ st'.mem = stb.mem ∧
          st'.alloc_ctr = stb.alloc_ctr) ∧
      (branches.find? (fun e => ((e.1 : Int) = u)) = none →
        ∃ slot0 vb stb, build_expr fuel env scope true
            { st with slot_ctr := slot0 } default_branch = .ok (vb, stb) ∧
          st'.getVal v = stb.getVal vb ∧ st'.mem = stb.mem ∧
          st'.alloc_ctr = stb.alloc_ctr)) := by
  constructor
  · intro st0 sw bl str hreg
    obtain ⟨hsw, hbl, -⟩ := register_spec _ _ _ _ _ _ _ hreg
    have hbl2 : bl = List.range' st0.next_block branches.length := by
      rw [hbl]; rfl
    refine ⟨?_, hbl2⟩
    rw [hsw, hbl2]
    rfl
  · intro v st' h
    rw [build_expr_switch] at h
    cases fuel with
    | zero =>
        simp only [build_switch, create_block_eq] at h
        rw [bind_eq_ok] at h
        obtain ⟨⟨sw, bl, str⟩, hreg, h⟩ := h
        rw [bind_eq_ok] at h
        obtain ⟨⟨c, sc⟩, hc, h⟩ := h
        rw [build_expr_zero] at hc
        exact Except.noConfusion hc
    | succ fuel =>
        simp only [build_switch, create_block_eq] at h
        rw [bind_eq_ok] at h
        obtain ⟨⟨sw, bl, str⟩, hreg, h⟩ := h
        obtain ⟨hsw, hbl, hval, hnb, henv, hcur, hlog, hslc, hss, hsl0, hvt,
          hvv0, hac0, hm0⟩ := register_spec _ _ _ _ _ _ _ hreg
        have hval2 : str.val_ctr = st.val_ctr := hval
        have hnbr2 : str.next_block = st.next_block + 1 + 1 + branches.length :=
          hnb
        have henv2 : str.env = st.env := henv
        have hslc2 : str.slot_ctr = st.slot_ctr := hslc
        have hsl2 : str.slots = st.slots := hsl0
        have hvv2 : str.var_vals = st.var_vals := hvv0
        have hac2 : str.alloc_ctr = st.alloc_ctr := hac0
        have hm2 : str.mem = st.mem := hm0
        have hbl2 : bl = List.range' (st.next_block + 2) branches.length := by
          rw [hbl]; rfl
        have hsw2 : sw = (branches.map Prod.fst).zip bl := by
          rw [hsw, hbl2]; rfl
        rw [bind_eq_ok] at h
        obtain ⟨⟨c, sc⟩, hc, h⟩ := h
        rw [build_expr_int] at hc
        have hcp := Except.ok.inj hc
        have hcv := congrArg Prod.fst hcp
        have hcs := congrArg Prod.snd hcp
        subst hcv hcs
        rw [getVal_st_emit] at h
        simp only [Prod.mk.eta] at h
        rw [getVal_iconst] at h
        rw [if_pos trivial] at h
        simp only [except_ok_bind] at h
        rw [bind_eq_ok] at h
        obtain ⟨t1, hbr, h⟩ := h
        rw [bind_eq_ok] at h
        obtain ⟨t2, hdef, h⟩ := h
        have hpair := Except.ok.inj h
        have hv1 := congrArg Prod.fst hpair
        have hst1 := congrArg Prod.snd hpair
        subst hv1 hst1
        constructor
        · -- a branch constant matches the discriminant
          intro k0 body hfind
          obtain ⟨hpk, pre, suf, hbranches, hprefail⟩ :=
            find?_decomp _ _ _ hfind
          have hswfind : sw.find? (fun e => ((e.1 : Int) = u)) =
              some (k0, st.next_block + 2 + pre.length) := by
            have hswshape : sw =
                (pre.map Prod.fst).zip
                  (List.range' (st.next_block + 2) pre.length) ++
                ((k0, st.next_block + 2 + pre.length) ::
                  (suf.map Prod.fst).zip
                    (List.range' (st.next_block + 2 + pre.length + 1)
                      suf.length)) := by
              rw [hsw2, hbl2, hbranches]
              rw [show ((pre ++ (k0, body) :: suf : List (Nat × Expr))).map
                  Prod.fst = pre.map Prod.fst ++ k0 :: suf.map Prod.fst from
                  by simp]
              rw [show ((pre ++ (k0, body) :: suf :
                  List (Nat × Expr))).length =
                  (pre.map Prod.fst ++ k0 :: suf.map Prod.fst).length from
                  by simp]
              rw [zip_range_decomp]
              simp [List.length_map]
            rw [hswshape]
            apply find?_append_some
            · intro b hb
              obtain ⟨hb1, -⟩ := List.of_mem_zip hb
              obtain ⟨q, hq, hq1⟩ := List.mem_map.mp hb1
              show decide ((b.1 : Int) = u) = false
              rw [← hq1]
              exact hprefail q hq
            · show decide (((k0 : Nat) : Int) = u) = true
              exact hpk
          rw [hswfind] at hbr hdef
          simp only [Option.map_some', Option.getD_some] at hbr hdef
          have hzipshape : branches.zip bl =
              pre.zip (List.range' (st.next_block + 2) pre.length) ++
              (((k0, body), st.next_block + 2 + pre.length) ::
                suf.zip (List.range' (st.next_block + 2 + pre.length + 1)
                  suf.length)) := by
            rw [hbl2, hbranches]
            exact zip_range_decomp (k0, body) pre suf (st.next_block + 2)
          rw [hzipshape] at hbr
          have hselpre : ∀ p ∈ pre.zip
              (List.range' (st.next_block + 2) pre.length),
              ((some (st.next_block + 2 + pre.length) : Option Nat) ==
                some p.2) = false := by
            intro p hp
            obtain ⟨-, hp2⟩ := List.of_mem_zip hp
            have hb := mem_range'_bounds _ _ _ hp2
            exact some_beq_ne (by omega)
          obtain ⟨spre, vb2, sb2, hdp, hvle, hnble, hbody2, hrest⟩ :=
            bsb_split (dead_build_expr env _) (frame_build_expr env _)
              (nb_build_expr env _) scope 0 _ _ k0 body _ _ _ _ hselpre hbr
              (scope_val_ok_mono hsc
                (show st.val_ctr ≤ str.val_ctr + 1 from by omega))
          have hvle2 : str.val_ctr + 1 ≤ spre.val_ctr := hvle
          have hnble2 : str.next_block ≤ spre.next_block := hnble
          have hdSuf : DeadPre (emit_jump
              ((declare_var 0 (type_from_layout rl) st).next_block + 1)
              (def_var true 0 vb2 sb2)) t1 := by
            refine bsb_unselected (dead_build_expr env _) scope 0 _ _ _ _ _
              ?_ hrest
            intro p hp
            obtain ⟨-, hp2⟩ := List.of_mem_zip hp
            have hb := mem_range'_bounds _ _ _ hp2
            exact some_beq_ne (by omega)
          have hdDef : DeadPre t1 t2 := by
            refine bsb_unselected (dead_build_expr env _) scope 0 _ _ _ _ _
              ?_ hdef
            intro p hp
            have hps := List.mem_singleton.mp hp
            subst hps
            refine some_beq_ne ?_
            show st.next_block + 2 + pre.length ≠ st.next_block
            omega
          obtain ⟨vb, stb, hbody1, hrelb, hvmb, hbndb⟩ :=
            sim_from_shifted env (fuel + 1) scope
              { st with slot_ctr := spre.slot_ctr } _ body vb2 sb2
              (spre.val_ctr - st.val_ctr) (spre.next_block - st.next_block)
              hbody2 hsc hbound
              (by show spre.val_ctr = st.val_ctr + (spre.val_ctr - st.val_ctr)
                  omega)
              (by show spre.next_block =
                    st.next_block + (spre.next_block - st.next_block)
                  omega)
              rfl
              (by show spre.slots = st.slots
                  have h1 : spre.slots = str.slots := hdp.2.1
                  rw [h1, hsl2])
              (by show spre.var_vals = st.var_vals
                  have h1 : spre.var_vals = str.var_vals := hdp.2.2.1
                  rw [h1, hvv2])
              (by show spre.alloc_ctr = st.alloc_ctr
                  have h1 : spre.alloc_ctr = str.alloc_ctr := hdp.2.2.2.1
                  rw [h1, hac2])
              (by show spre.mem = st.mem
                  have h1 : spre.mem = str.mem := hdp.2.2.2.2
                  rw [h1, hm2])
              (fun k hk => by
                have hk' : k < st.val_ctr := hk
                have h1 : spre.env =
                    write_if true str.val_ctr (RVal.IntV u) str.env := hdp.1
                show alist_get spre.env k = alist_get st.env k
                rw [h1, alist_get_write_if_ne _ _ _ _ _
                  (by omega : k ≠ str.val_ctr), henv2])
              (fun k hk => by
                have hk' : spre.val_ctr ≤ k := hk
                have h1 : spre.env =
                    write_if true str.val_ctr (RVal.IntV u) str.env := hdp.1
                show alist_get spre.env k = none
                rw [h1, alist_get_write_if_ne _ _ _ _ _
                  (by omega : k ≠ str.val_ctr), henv2]
                exact hbound k (by omega))
          refine ⟨spre.slot_ctr, vb, stb, hbody1, ?_, ?_, ?_⟩
          · rw [getVal_use_var_self]
            show (alist_get t2.var_vals 0).getD (.Unknown 1) = stb.getVal vb
            rw [hdDef.2.2.1, hdSuf.2.2.1]
            show sb2.getVal vb2 = stb.getVal vb
            rw [hvmb]
            exact hrelb.hgv vb hbndb
          · show t2.mem = stb.mem
            rw [hdDef.2.2.2.2, hdSuf.2.2.2.2]
            show sb2.mem = stb.mem
            exact hrelb.hm
          · show t2.alloc_ctr = stb.alloc_ctr
            rw [hdDef.2.2.2.1, hdSuf.2.2.2.1]
            show sb2.alloc_ctr = stb.alloc_ctr
            exact hrelb.hac
        · -- no branch constant matches: the default branch is selected
          intro hfind
          have hallfail := find?_none_all _ _ hfind
          have hswnone : sw.find? (fun e => ((e.1 : Int) = u)) = none := by
            apply find?_none_of_all
            intro b hb
            rw [hsw2] at hb
            obtain ⟨hb1, -⟩ := List.of_mem_zip hb
            obtain ⟨q, hq, hq1⟩ := List.mem_map.mp hb1
            show decide ((b.1 : Int) = u) = false
            rw [← hq1]
            exact hallfail q hq
          rw [hswnone] at hbr hdef
          simp only [Option.map_none', Option.getD_none] at hbr hdef
          have hdBr : DeadPre ((ins_iconst .I64 u true str).2.emit
              (.SwitchEmit sw
                ((declare_var 0 (type_from_layout rl) st).next_block)
                (ins_iconst .I64 u true str).1)) t1 := by
            refine bsb_unselected (dead_build_expr env _) scope 0 _ _ _ _ _
              ?_ hbr
            intro p hp
            obtain ⟨-, hp2⟩ := List.of_mem_zip hp
            rw [hbl2] at hp2
            have hb := mem_range'_bounds _ _ _ hp2
            refine some_beq_ne ?_
            show st.next_block ≠ p.2
            omega
          have hfrBr := frame_switch_branches (frame_build_expr env _)
            scope _ _ _ _ _ _ _ hbr
            (scope_val_ok_mono hsc
              (show st.val_ctr ≤ str.val_ctr + 1 from by omega))
          have hnbBr := nb_switch_branches (nb_build_expr env _)
            scope _ _ _ _ _ _ _ hbr
          have hfrBr2 : str.val_ctr + 1 ≤ t1.val_ctr := hfrBr.1
          have hnbBr2 : str.next_block ≤ t1.next_block := hnbBr
          obtain ⟨spre, vb2, sb2, hdp, hvle, hnble, hbody2, hrest⟩ :=
            bsb_split (dead_build_expr env _) (frame_build_expr env _)
              (nb_build_expr env _) scope 0 _ _ 0 default_branch [] [] _ _
              (fun p hp => absurd hp (List.not_mem_nil p)) hdef
              (scope_val_ok_mono hsc
                (show st.val_ctr ≤ t1.val_ctr from by omega))
          have hvle2 : t1.val_ctr ≤ spre.val_ctr := hvle
          have hnble2 : t1.next_block ≤ spre.next_block := hnble
          have ht2 := Except.ok.inj hrest
          subst ht2
          obtain ⟨vb, stb, hbody1, hrelb, hvmb, hbndb⟩ :=
            sim_from_shifted env (fuel + 1) scope
              { st with slot_ctr := spre.slot_ctr } _ default_branch vb2 sb2
              (spre.val_ctr - st.val_ctr) (spre.next_block - st.next_block)
              hbody2 hsc hbound
              (by show spre.val_ctr = st.val_ctr + (spre.val_ctr - st.val_ctr)
                  omega)
              (by show spre.next_block =
                    st.next_block + (spre.next_block - st.next_block)
                  omega)
              rfl
              (by show spre.slots = st.slots
                  have h1 : spre.slots = t1.slots := hdp.2.1
                  have h2 : t1.slots = str.slots := hdBr.2.1
                  rw [h1, h2, hsl2])
              (by show spre.var_vals = st.var_vals
                  have h1 : spre.var_vals = t1.var_vals := hdp.2.2.1
                  have h2 : t1.var_vals = str.var_vals := hdBr.2.2.1
                  rw [h1, h2, hvv2])
              (by show spre.alloc_ctr = st.alloc_ctr
                  have h1 : spre.alloc_ctr = t1.alloc_ctr := hdp.2.2.2.1
                  have h2 : t1.alloc_ctr = str.alloc_ctr := hdBr.2.2.2.1
                  rw [h1, h2, hac2])
              (by show spre.mem = st.mem
                  have h1 : spre.mem = t1.mem := hdp.2.2.2.2
                  have h2 : t1.mem = str.mem := hdBr.2.2.2.2
                  rw [h1, h2, hm2])
              (fun k hk => by
                have hk' : k < st.val_ctr := hk
                have h1 : spre.env = t1.env := hdp.1
                have h2 : t1.env =
                    write_if true str.val_ctr (RVal.IntV u) str.env := hdBr.1
                show alist_get spre.env k = alist_get st.env k
                rw [h1, h2, alist_get_write_if_ne _ _ _ _ _
                  (by omega : k ≠ str.val_ctr), henv2])
              (fun k hk => by
                have hk' : spre.val_ctr ≤ k := hk
                have h1 : spre.env = t1.env := hdp.1
                have h2 : t1.env =
                    write_if true str.val_ctr (RVal.IntV u) str.env := hdBr.1
                show alist_get spre.env k = none
                rw [h1, h2, alist_get_write_if_ne _ _ _ _ _
                  (by omega : k ≠ str.val_ctr), henv2]
                exact hbound k (by omega))
          refine ⟨spre.slot_ctr, vb, stb, hbody1, ?_, ?_, ?_⟩
          · rw [getVal_use_var_self]
            show sb2.getVal vb2 = stb.getVal vb
            rw [hvmb]
            exact hrelb.hgv vb hbndb
          · show sb2.mem = stb.mem
            exact hrelb.hm
          · show sb2.alloc_ctr = stb.alloc_ctr
            exact hrelb.hac

theorem switch_dispatch_exclusive_witness :
    ∃ v st' slot0 vb stb,
      build_expr 2 ⟨8, 100⟩ [] true BState.init
        (.Switch (.IntLit 2) [(1, .IntLit 10), (2, .IntLit 20)] (.IntLit 30)
          .Int64 .Int64) = .ok (v, st') ∧
      build_expr 1 ⟨8, 100⟩ [] true { BState.init with slot_ctr := slot0 }
        (.IntLit 20) = .ok (vb, stb) ∧
      st'.getVal v = stb.getVal vb ∧ st'.mem = stb.mem ∧
      st'.alloc_ctr = stb.alloc_ctr := by
  obtain ⟨⟨v, st'⟩, hrun⟩ :
      ∃ p, build_expr 2 ⟨8, 100⟩ [] true BState.init
        (.Switch (.IntLit 2) [(1, .IntLit 10), (2, .IntLit 20)] (.IntLit 30)
          .Int64 .Int64) = .ok p := ⟨_, rfl⟩
  obtain ⟨slot0, vb, stb, h1, h2, h3, h4⟩ :=
    ((switch_dispatch_exclusive ⟨8, 100⟩ [] BState.init 1 2
      [(1, .IntLit 10), (2, .IntLit 20)] (.IntLit 30) .Int64 .Int64
      (fun p hp => absurd hp (List.not_mem_nil p))
      (fun k hk => rfl)).2 v st' hrun).1 2 (.IntLit 20) rfl
  exact ⟨v, st', slot0, vb, stb, hrun, h1, h2, h3, h4⟩

end RocCrane
